import Mathlib

/-!
Disease-detection pipeline: provider adapters, provider selector, detection stage.

Shallow embedding of `src/modules/disease-detection/ai-providers.js` and of the
detection stage of `src/modules/disease-detection/langraph.pipeline.js`.

JavaScript values are the type `JVal`; numbers are `JNum`: a finite IEEE double is
carried as its exact rational value (the code below only compares numbers and takes
`Math.min` / `Math.max`, which are exact on doubles), next to the two infinities and NaN.
Negative zero is identified with zero: truthiness, `<`, `>=`, `Math.min` and `Math.max`
against a non-zero bound do not tell them apart.

What the program gets from outside (configuration, HTTP backends, `JSON.parse`, the
document store) is an explicit argument: `Env` and `Store`.
-/

namespace AgriAi

/-! ## JavaScript numbers -/

/-- A JavaScript number: a finite double (its exact value), an infinity, or NaN. -/
inductive JNum where
  | fin (q : ℚ)
  | posInf
  | negInf
  | nan
  deriving DecidableEq, Repr

namespace JNum

/-- Truthiness of a number: `0` and `NaN` are falsy. -/
def truthy : JNum → Bool
  | fin q => decide (q ≠ 0)
  | nan => false
  | _ => true

/-- The binary case of `Math.min`: NaN if either argument is NaN. -/
def min : JNum → JNum → JNum
  | nan, _ => nan
  | _, nan => nan
  | negInf, _ => negInf
  | _, negInf => negInf
  | posInf, y => y
  | x, posInf => x
  | fin x, fin y => fin (if x ≤ y then x else y)

/-- The binary case of `Math.max`: NaN if either argument is NaN. -/
def max : JNum → JNum → JNum
  | nan, _ => nan
  | _, nan => nan
  | posInf, _ => posInf
  | _, posInf => posInf
  | negInf, y => y
  | x, negInf => x
  | fin x, fin y => fin (if x ≤ y then y else x)

/-- The relational operator `a < b` on numbers: false as soon as one side is NaN. -/
def lt : JNum → JNum → Bool
  | nan, _ => false
  | _, nan => false
  | fin x, fin y => decide (x < y)
  | negInf, negInf => false
  | negInf, _ => true
  | _, negInf => false
  | posInf, _ => false
  | _, posInf => true

/-- The relational operator `a >= b` on numbers: false as soon as one side is NaN
(so it is not the negation of `lt`). -/
def ge : JNum → JNum → Bool
  | nan, _ => false
  | _, nan => false
  | fin x, fin y => decide (y ≤ x)
  | negInf, negInf => true
  | negInf, _ => false
  | _, negInf => true
  | posInf, _ => true
  | _, posInf => false

/-- The relational operator `a > b` on numbers. -/
def gt (a b : JNum) : Bool := lt b a

/-- A number that is finite and lies in the closed interval from 0 to 1. -/
def InUnit : JNum → Prop
  | fin q => 0 ≤ q ∧ q ≤ 1
  | _ => False

instance (n : JNum) : Decidable (InUnit n) := by
  cases n <;> unfold InUnit <;> infer_instance

end JNum

/-- The double denoted by the source literal `0.3` (the nearest double lies just below
three tenths). -/
def lit0_3 : ℚ := 5404319552844595 / 18014398509481984

/-- The double denoted by the source literal `0.8` (the nearest double lies just above
four fifths). -/
def lit0_8 : ℚ := 3602879701896397 / 4503599627370496

/-- The double denoted by the source literal `0.5` (exact). -/
def lit0_5 : ℚ := 1 / 2

/-! ## Strings as character lists -/

/-- White space in the sense of `String.prototype.trim`, of the regular-expression class
`\s` and of `StrWhiteSpaceChar`: white space and line terminators. -/
def isWhiteSpace (c : Char) : Bool :=
  c.val == 0x09 || c.val == 0x0a || c.val == 0x0b || c.val == 0x0c || c.val == 0x0d ||
  c.val == 0x20 || c.val == 0xa0 || c.val == 0x1680 ||
  (0x2000 ≤ c.val && c.val ≤ 0x200a) ||
  c.val == 0x2028 || c.val == 0x2029 || c.val == 0x202f || c.val == 0x205f ||
  c.val == 0x3000 || c.val == 0xfeff

/-- The method `trim` on a character list. -/
def trimChars (cs : List Char) : List Char :=
  ((cs.dropWhile isWhiteSpace).reverse.dropWhile isWhiteSpace).reverse

/-- The method `includes`: does `p` occur in `cs` as a contiguous run. -/
def includesChars (p : List Char) : List Char → Bool
  | [] => p.isEmpty
  | c :: cs => p.isPrefixOf (c :: cs) || includesChars p cs

/-- The text that follows the leftmost occurrence of `p`, paired with the text before it. -/
def splitAtFirst (p : List Char) : List Char → Option (List Char × List Char)
  | [] => if p.isEmpty then some ([], []) else none
  | c :: cs =>
    if p.isPrefixOf (c :: cs) then some ([], (c :: cs).drop p.length)
    else (splitAtFirst p cs).map (fun r => (c :: r.1, r.2))

/-- Value of a run of digits in the given base (digits are not checked here). -/
def digitsValue (base : Nat) (cs : List Char) : Nat :=
  cs.foldl (fun acc c =>
    acc * base +
      (if c.isDigit then c.toNat - 48
       else if 'a'.toNat ≤ c.toNat ∧ c.toNat ≤ 'f'.toNat then c.toNat - 87
       else c.toNat - 55)) 0

/-- Hexadecimal digit. -/
def isHexDigit (c : Char) : Bool :=
  c.isDigit || ('a'.toNat ≤ c.toNat && c.toNat ≤ 'f'.toNat) ||
    ('A'.toNat ≤ c.toNat && c.toNat ≤ 'F'.toNat)

/-- Number of binary digits of `n`, computed in at most `fuel` halvings. -/
def bitLength : Nat → Nat → Nat
  | 0, _ => 0
  | fuel + 1, n => if n = 0 then 0 else bitLength fuel (n / 2) + 1

/-- The double nearest to the positive rational `a / b` (both positive), a tie going to
the even significand, with gradual underflow; the infinity when the rounded value is
beyond the largest double. The binary exponent `e` of `a / b` gives the exponent `u` of
the unit in the last place, and the significand is `a / (b * 2 ^ u)` rounded to an
integer. -/
def nearestDouble (a b : Nat) : JNum :=
  let e0 : Int := (bitLength a a : Int) - (bitLength b b : Int)
  let e : Int := if b * 2 ^ e0.toNat ≤ a * 2 ^ (-e0).toNat then e0 else e0 - 1
  let u : Int := max e (-1022) - 52
  let n := a * 2 ^ (-u).toNat
  let d := b * 2 ^ u.toNat
  let m := if 2 * (n % d) < d then n / d
    else if d < 2 * (n % d) then n / d + 1
    else if (n / d) % 2 = 0 then n / d else n / d + 1
  if 971 < u ∨ (u = 971 ∧ 2 ^ 53 ≤ m) then .posInf
  else .fin ((m * 2 ^ u.toNat : Nat) / (2 ^ (-u).toNat : Nat))

/-- The Number value of the non-negative rational `a / b` with the given sign. -/
def roundedValue (neg : Bool) (a b : Nat) : JNum :=
  if a = 0 then .fin 0
  else
    match nearestDouble a b with
    | .fin q => .fin (if neg then -q else q)
    | .posInf => if neg then .negInf else .posInf
    | other => other

/-- The production `StrUnsignedDecimalLiteral` without `Infinity`: digits, an optional
fraction, an optional exponent; the exact decimal value, as a numerator and a positive
denominator. -/
def decimalValue (cs : List Char) : Option (Nat × Nat) :=
  let intPart := cs.takeWhile Char.isDigit
  let rest := cs.dropWhile Char.isDigit
  let fracPart := match rest with
    | '.' :: r => r.takeWhile Char.isDigit
    | _ => []
  let rest := match rest with
    | '.' :: r => r.dropWhile Char.isDigit
    | _ => rest
  if intPart.isEmpty && fracPart.isEmpty then none
  else
    let mant := digitsValue 10 (intPart ++ fracPart)
    match rest with
    | [] => some (mant, 10 ^ fracPart.length)
    | e :: r =>
      if e == 'e' || e == 'E' then
        let neg := match r with
          | '-' :: _ => true
          | _ => false
        let ds := match r with
          | '-' :: d => d
          | '+' :: d => d
          | d => d
        if ds.isEmpty || !ds.all Char.isDigit then none
        else some (if neg then (mant, 10 ^ (fracPart.length + digitsValue 10 ds))
          else (mant * 10 ^ digitsValue 10 ds, 10 ^ fracPart.length))
      else none

/-- Integer literal with a radix marker (`0x`, `0o`, `0b`), which `StringToNumber` accepts
without a sign. -/
def radixValue (cs : List Char) : Option Nat :=
  match cs with
  | '0' :: m :: ds =>
    if (m == 'x' || m == 'X') && !ds.isEmpty && ds.all isHexDigit then
      some (digitsValue 16 ds)
    else if (m == 'o' || m == 'O') && !ds.isEmpty &&
        ds.all (fun c => '0'.toNat ≤ c.toNat && c.toNat ≤ '7'.toNat) then
      some (digitsValue 8 ds)
    else if (m == 'b' || m == 'B') && !ds.isEmpty && ds.all (fun c => c == '0' || c == '1') then
      some (digitsValue 2 ds)
    else none
  | _ => none

/-- The abstract operation `StringToNumber`: the numeric value of a string, NaN when the
string is not a numeric literal. The mathematical value of a literal is rounded to the
nearest double, the tie going to the even significand. -/
def stringToNumber (s : String) : JNum :=
  let cs := trimChars s.data
  if cs.isEmpty then .fin 0
  else match radixValue cs with
    | some n => roundedValue false n 1
    | none =>
      let neg := match cs with
        | '-' :: _ => true
        | _ => false
      let body := match cs with
        | '-' :: b => b
        | '+' :: b => b
        | b => b
      if body == "Infinity".data then (if neg then .negInf else .posInf)
      else match decimalValue body with
        | some (a, b) => roundedValue neg a b
        | none => .nan

/-! ## JavaScript values -/

/-- A JavaScript value as the program meets it: `undefined`, or what `JSON.parse` can
produce. An object is the list of its own properties in insertion order. -/
inductive JVal where
  | undefined
  | null
  | bool (b : Bool)
  | num (n : JNum)
  | str (s : String)
  | arr (xs : List JVal)
  | obj (fields : List (String × JVal))

namespace JVal

/-- Truthiness: `undefined`, `null`, `false`, `0`, `NaN` and the empty string are falsy. -/
def truthy : JVal → Bool
  | undefined => false
  | null => false
  | bool b => b
  | num n => n.truthy
  | str s => s != ""
  | arr _ => true
  | obj _ => true

/-- The operator `a || b`. -/
def or (a b : JVal) : JVal := if a.truthy then a else b

/-- The value is `null` or `undefined`. -/
def nullish : JVal → Bool
  | undefined => true
  | null => true
  | _ => false

/-- Strict equality with a string literal: `v === s`. -/
def isStr (v : JVal) (s : String) : Bool :=
  match v with
  | str t => t == s
  | _ => false

/-- The abstract operation `ToNumber`. A plain object converts through the string
`[object Object]`, an array through the comma-joined strings of its elements, so an
array of one element converts like the string of that element. -/
def toNumber : JVal → JNum
  | undefined => .nan
  | null => .fin 0
  | bool b => .fin (if b then 1 else 0)
  | num n => n
  | str s => stringToNumber s
  | obj _ => .nan
  | arr [] => .fin 0
  | arr [x] =>
    match x with
    | undefined => .fin 0
    | null => .fin 0
    | num n => n
    | str s => stringToNumber s
    | arr ys => toNumber (arr ys)
    | _ => .nan
  | arr _ => .nan

/-- Own property of a plain object; `undefined` when absent. -/
def lookup (k : String) : List (String × JVal) → JVal
  | [] => undefined
  | (k1, v) :: rest => if k1 == k then v else lookup k rest

/-- Array index denoted by a property name, when the name is a canonical index. -/
def indexOfKey (k : String) : Option Nat :=
  if !k.data.isEmpty && k.data.all Char.isDigit && toString (digitsValue 10 k.data) == k then
    some (digitsValue 10 k.data)
  else none

/-- Property read `v[k]` on a value that is neither `null` nor `undefined`, for the
property names the program uses (field names and the index `0`): an object gives its own
property, an array or a string its element at a canonical index (a string is read by
code point; the program never looks inside such an element), anything else `undefined`. -/
def get (v : JVal) (k : String) : JVal :=
  match v with
  | obj fs => lookup k fs
  | arr xs =>
    match indexOfKey k with
    | some i => xs.getD i undefined
    | none => undefined
  | str s =>
    match indexOfKey k with
    | some i =>
      match s.data.get? i with
      | some c => str (String.mk [c])
      | none => undefined
    | none => undefined
  | _ => undefined

/-- Optional chaining `v?.k` / `v?.[k]`. -/
def optGet (v : JVal) (k : String) : JVal :=
  if v.nullish then undefined else v.get k

/-- Assignment `o.k = x` on the property list of an object: an existing property keeps its
place, a new one goes last. -/
def setField (k : String) (x : JVal) : List (String × JVal) → List (String × JVal)
  | [] => [(k, x)]
  | (k1, v) :: rest => if k1 == k then (k, x) :: rest else (k1, v) :: setField k x rest

/-- The check `Array.isArray(v)`. -/
def isArray : JVal → Bool
  | arr _ => true
  | _ => false

/-- The elements of an array value (empty for any other value). -/
def elems : JVal → List JVal
  | arr xs => xs
  | _ => []

/-- The own enumerable properties of a value as an object spread `{...v}` copies them:
the properties of an object, the index properties of an array, nothing for a primitive
other than a string. -/
def ownProps : JVal → List (String × JVal)
  | obj fs => fs
  | arr xs => (List.range xs.length).zip xs |>.map (fun p => (toString p.1, p.2))
  | str s => (List.range s.data.length).zip s.data |>.map
      (fun p => (toString p.1, str (String.mk [p.2])))
  | _ => []

end JVal

/-- A thrown value: an `Error` (of any class) with its message, or the value `undefined`. -/
inductive Thrown where
  | error (message : String)
  | undef
  deriving DecidableEq, Repr

/-- Outcome of a call: the returned value, or the value it threw. -/
abbrev Outcome (α : Type) := Except Thrown α

/-! ## The outside world -/

/-- An HTTP response as the adapters use it: the status, the body text (`response.text()`)
and the outcome of `response.json()` (the decoded body, or the message of the error the
call rejects with). -/
structure Response where
  status : Nat
  text : String
  json : Except String JVal

/-- The property `response.ok`: the status is in the range 200 to 299. -/
def Response.ok (r : Response) : Bool := decide (200 ≤ r.status) && decide (r.status ≤ 299)

/-- Outcome of one `fetch` call: the promise rejects (network failure) or resolves to a
response. -/
inductive FetchOutcome where
  | networkError (message : String)
  | response (r : Response)

/-- The module `config/env.js`, restricted to the keys the providers read. It defines
`groqApiKey` and `geminiApiKey` from the process environment (a string, or `undefined`
when the variable is unset) and defines no `huggingFaceApiKey` property. -/
structure Config where
  groqApiKey : Option String
  geminiApiKey : Option String

/-- The read `config.huggingFaceApiKey`: the configuration object has no such property,
so the read yields `undefined`. -/
def Config.huggingFaceApiKey (_config : Config) : Option String := none

/-- Truthiness of a value that is a string or `undefined`. -/
def truthyStr : Option String → Bool
  | some s => s != ""
  | none => false

/-- A template-literal hole for a value that is a string or `undefined`. -/
def templ : Option String → String
  | some s => s
  | none => "undefined"

/-- The location argument: an object with optional `district` and `state`. -/
structure Location where
  district : Option String
  state : Option String

/-- Everything outside the program for one call of the selector on a given image:
configuration, `JSON.parse` (the parsed value, or the message of the `SyntaxError`),
`Number.prototype.toString`, and what each backend answers. The Gemini adapter fetches the
image and calls its backend once per attempt, so both are indexed by the attempt number
(from 1). The HuggingFace backend is called once per model name. -/
structure Env where
  config : Config
  jsonParse : String → Except String JVal
  numberToString : JNum → String
  groqApi : FetchOutcome
  geminiImage : Nat → FetchOutcome
  geminiApi : Nat → FetchOutcome
  hfImage : FetchOutcome
  hfApi : String → FetchOutcome

/-- Result of an adapter call together with the number of requests it sent to its AI
backend. -/
structure Call where
  outcome : Outcome JVal
  backendCalls : Nat

/-- Message of the `TypeError` for reading property `k` of `null` or `undefined`. -/
def readOfNullishMsg (v : JVal) (k : String) : String :=
  "Cannot read properties of " ++
    (match v with
     | .null => "null"
     | _ => "undefined") ++ " (reading \x27" ++ k ++ "\x27)"

/-- Property read `v.k` that throws a `TypeError` on `null` and `undefined`. -/
def readProp (v : JVal) (k : String) : Outcome JVal :=
  if v.nullish then .error (.error (readOfNullishMsg v k)) else .ok (v.get k)

/-- How the engine names a primitive in the message of a failed property creation. -/
def describePrimitive (env : Env) : JVal → String
  | .bool b => "boolean \x27" ++ (if b then "true" else "false") ++ "\x27"
  | .num n => "number \x27" ++ env.numberToString n ++ "\x27"
  | .str s => "string \x27" ++ s ++ "\x27"
  | _ => ""

/-! ## Extraction of the JSON text from a reply -/

/-- The code fence of three backticks. -/
def fence : List Char := "```".data

/-- The tail `\s*` followed by the closing fence matches at the head of `cs`. -/
def closesFence (cs : List Char) : Bool := fence.isPrefixOf (cs.dropWhile isWhiteSpace)

/-- The lazy group `([\s\S]*?)` followed by `\s*` and the closing fence: the shortest
run after which the closing tail matches, paired with the text the tail consumes
(the white space and the fence). -/
def captureLazy : List Char → Option (List Char × List Char)
  | [] => none
  | c :: cs =>
    if closesFence (c :: cs) then
      some ([], (c :: cs).takeWhile isWhiteSpace ++ fence)
    else (captureLazy cs).map (fun r => (c :: r.1, r.2))

/-- The match of the Groq pattern: a fence, an optional `json`, white space, the lazy
group, white space, a fence. The result is group 1. The leftmost fence decides: when no
closing fence follows it, none follows a later start either. -/
def matchMarkdown (cs : List Char) : Option (List Char) :=
  match splitAtFirst fence cs with
  | none => none
  | some (_, r) =>
    let r1 := if "json".data.isPrefixOf r then r.drop 4 else r
    (captureLazy (r1.dropWhile isWhiteSpace)).map (fun m => m.1)

/-- The match of the Gemini pattern: a fence followed at once by `json`, white space, the
lazy group, white space, a fence. The result is the whole match and group 1. -/
def matchJsonFence (cs : List Char) : Option (List Char × List Char) :=
  match splitAtFirst (fence ++ "json".data) cs with
  | none => none
  | some (_, r) =>
    (captureLazy (r.dropWhile isWhiteSpace)).map (fun m =>
      (fence ++ "json".data ++ r.takeWhile isWhiteSpace ++ m.1 ++ m.2, m.1))

/-- The match of the brace pattern (an opening brace, anything, greedily, a closing
brace): from the first opening brace to the last closing brace after it. -/
def matchBraces (cs : List Char) : Option (List Char) :=
  match cs.dropWhile (fun c => c != '\x7b') with
  | [] => none
  | _ :: rest =>
    let kept := (rest.reverse.dropWhile (fun c => c != '\x7d')).reverse
    if kept.isEmpty then none else some ('\x7b' :: kept)

/-! ## Groq adapter -/

/-- Instance of the class `GroqProvider`: the field `apiKey`. -/
structure GroqProvider where
  apiKey : Option String

namespace GroqProvider

/-- The constructor reads `config.groqApiKey`. -/
def new (config : Config) : GroqProvider := ⟨config.groqApiKey⟩

/-- The method `getFallbackResponse(errorMessage)`. -/
def getFallbackResponse (errorMessage : String) : JVal :=
  .obj [
    ("disease", .str "Analysis failed - unable to process image"),
    ("confidence", .num (.fin 0)),
    ("severity", .str "unknown"),
    ("symptoms", .arr [.str "Could not analyze symptoms"]),
    ("treatment", .arr [.obj [
      ("method", .str "Manual Inspection Required"),
      ("description", .str "Please consult with local agricultural expert"),
      ("priority", .str "high")]]),
    ("fertilizers", .arr [.str "NPK 10-10-10", .str "Organic compost"]),
    ("homeRemedies", .arr [.str "Neem oil spray"]),
    ("prevention", .arr [.str "Regular plant monitoring"]),
    ("error", .str errorMessage)]

/-- The statement `if (!parsed.k) parsed.k = d`. -/
def defaultIfFalsy (k : String) (d : JVal) (fs : List (String × JVal)) :
    List (String × JVal) :=
  if !(JVal.lookup k fs).truthy then JVal.setField k d fs else fs

/-- The statement `if (!Array.isArray(parsed.k)) parsed.k = d`. -/
def defaultIfNotArray (k : String) (d : JVal) (fs : List (String × JVal)) :
    List (String × JVal) :=
  if !(JVal.lookup k fs).isArray then JVal.setField k d fs else fs

/-- The block "Validate required fields" on the properties of the parsed object. -/
def validateFields (fs : List (String × JVal)) : List (String × JVal) :=
  let fs := defaultIfFalsy "disease" (.str "Analysis incomplete") fs
  let fs := defaultIfFalsy "confidence" (.num (.fin lit0_5)) fs
  let fs := defaultIfFalsy "severity" (.str "medium") fs
  let fs := defaultIfNotArray "symptoms" (.arr [.str "Unable to determine symptoms"]) fs
  let fs := defaultIfNotArray "treatment" (.arr []) fs
  let fs := defaultIfNotArray "fertilizers" (.arr []) fs
  let fs := defaultIfNotArray "homeRemedies" (.arr []) fs
  defaultIfNotArray "prevention" (.arr []) fs

/-- The text handed to `JSON.parse`: the trimmed reply, replaced by the trimmed content of
a code fence when there is one, then by the outermost brace-delimited part when there is
one. -/
def extractJson (content : String) : List Char :=
  let jsonStr := trimChars content.data
  let jsonStr := match matchMarkdown jsonStr with
    | some g => trimChars g
    | none => jsonStr
  match matchBraces jsonStr with
  | some m => m
  | none => jsonStr

/-- Message of the error thrown for a reply of the safety model. -/
def safetyMessage : String :=
  "Groq returned safety response instead of analysis. Please check the model configuration."

/-- The `try` block of `parseResponse`: the validated reply, or the message of the error
thrown inside the block. The module is an ES module, hence strict: assigning a property
to a primitive throws. A reply that parses to a JSON array is carried as the object of
its own enumerable properties (the index keys, then the added ones), which is also what
the object spread of the selector makes of it. -/
def parseResponseTry (env : Env) (content : JVal) : Except String JVal :=
  match content with
  | .str s =>
    let jsonStr := extractJson s
    if jsonStr == "safe".data || includesChars "safe".data jsonStr then
      .error safetyMessage
    else
      match env.jsonParse (String.mk jsonStr) with
      | .error m => .error m
      | .ok parsed =>
        match parsed with
        | .undefined => .error (readOfNullishMsg parsed "disease")
        | .null => .error (readOfNullishMsg parsed "disease")
        | .obj fs => .ok (.obj (validateFields fs))
        | .arr xs => .ok (.obj (validateFields (JVal.arr xs).ownProps))
        | prim =>
          .error ("Cannot create property \x27disease\x27 on " ++ describePrimitive env prim)
  | _ => .error "content.trim is not a function"

/-- The method `parseResponse(content)`: the `catch` turns every error of the block into
the fallback response carrying its message. -/
def parseResponse (env : Env) (content : JVal) : JVal :=
  match parseResponseTry env content with
  | .ok v => v
  | .error m => getFallbackResponse m

/-- The method `analyzeImage(imageUrl, cropType, location)`. The image URL, crop and
location only shape the request, whose answer is `env.groqApi`. -/
def analyzeImage (self : GroqProvider) (env : Env) : Call :=
  if !truthyStr self.apiKey then ⟨.error (.error "GROQ_API_KEY not configured"), 0⟩
  else
    match env.groqApi with
    | .networkError m => ⟨.error (.error m), 1⟩
    | .response r =>
      if !r.ok then
        ⟨.error (.error ("Groq API error: " ++ toString r.status ++ " - " ++ r.text)), 1⟩
      else
        match r.json with
        | .error m => ⟨.error (.error m), 1⟩
        | .ok result =>
          match readProp result "choices" with
          | .error e => ⟨.error e, 1⟩
          | .ok choices =>
            let content := ((choices.optGet "0").optGet "message").optGet "content"
            if !content.truthy then ⟨.error (.error "No content in Groq API response"), 1⟩
            else ⟨.ok (parseResponse env content), 1⟩

end GroqProvider

/-! ## Gemini adapter -/

/-- Instance of the class `GeminiProvider`: the field `apiKey`. -/
structure GeminiProvider where
  apiKey : Option String

namespace GeminiProvider

/-- The constructor reads `config.geminiApiKey`. -/
def new (config : Config) : GeminiProvider := ⟨config.geminiApiKey⟩

/-- The method `getFallbackResponse(errorMessage)`. -/
def getFallbackResponse (errorMessage : String) : JVal :=
  .obj [
    ("disease", .str "Analysis failed"),
    ("confidence", .num (.fin 0)),
    ("severity", .str "unknown"),
    ("symptoms", .arr [.str "Unable to analyze"]),
    ("treatment", .arr [.obj [
      ("method", .str "Expert Consultation"),
      ("description", .str "Consult local agricultural expert"),
      ("priority", .str "high")]]),
    ("fertilizers", .arr [.str "Balanced NPK fertilizer"]),
    ("homeRemedies", .arr [.str "Organic compost application"]),
    ("prevention", .arr [.str "Regular monitoring"]),
    ("error", .str errorMessage)]

/-- The expression `Array.isArray(x) ? x : d`. -/
def arrayOr (x d : JVal) : JVal := if x.isArray then x else d

/-- The method `validateResponse(parsed)`; reading a property of `null` throws. -/
def validateResponse (parsed : JVal) : Except String JVal :=
  if parsed.nullish then .error (readOfNullishMsg parsed "disease")
  else .ok (.obj [
    ("disease", (parsed.get "disease").or (.str "Unable to determine")),
    ("confidence", (parsed.get "confidence").or (.num (.fin lit0_5))),
    ("severity", (parsed.get "severity").or (.str "medium")),
    ("symptoms", arrayOr (parsed.get "symptoms") (.arr [.str "Symptoms unclear"])),
    ("treatment", arrayOr (parsed.get "treatment") (.arr [])),
    ("fertilizers", arrayOr (parsed.get "fertilizers") (.arr [])),
    ("homeRemedies", arrayOr (parsed.get "homeRemedies") (.arr [])),
    ("prevention", arrayOr (parsed.get "prevention") (.arr []))])

/-- The text handed to `JSON.parse`: group 1 of the `json` fence match (the whole match
when the group is empty), else the brace match, else the reply itself. -/
def extractJson (content : String) : List Char :=
  match matchJsonFence content.data with
  | some m => if !m.2.isEmpty then m.2 else m.1
  | none =>
    match matchBraces content.data with
    | some m => m
    | none => content.data

/-- The `try` block of `parseResponse`. -/
def parseResponseTry (env : Env) (content : JVal) : Except String JVal :=
  match content with
  | .str s =>
    match env.jsonParse (String.mk (extractJson s)) with
    | .error m => .error m
    | .ok parsed => validateResponse parsed
  | _ => .error "content.match is not a function"

/-- The method `parseResponse(content)`. -/
def parseResponse (env : Env) (content : JVal) : JVal :=
  match parseResponseTry env content with
  | .ok v => v
  | .error m => getFallbackResponse m

/-- The method `fetchImageAsBase64(imageUrl)`: the image data, or the message of the
error it throws. -/
def fetchImageAsBase64 (o : FetchOutcome) : Except String String :=
  match o with
  | .networkError m => .error ("Image fetch failed: " ++ m)
  | .response r =>
    if !r.ok then .error ("Image fetch failed: Failed to fetch image: " ++ toString r.status)
    else .ok r.text

/-- The constant `maxRetries`. -/
def maxRetries : Nat := 3

/-- How the `try` block of one loop iteration ends. -/
inductive AttemptResult where
  | returned (v : JVal)
  | overloaded
  | threw (e : Thrown)

/-- The `try` block of the iteration numbered `attempt`, with the number of requests it
sent to the Gemini backend. Status 503 leads to `continue`; every other failure is
thrown inside the block. -/
def attemptBody (env : Env) (attempt : Nat) : AttemptResult × Nat :=
  match fetchImageAsBase64 (env.geminiImage attempt) with
  | .error m => (.threw (.error m), 0)
  | .ok _ =>
    match env.geminiApi attempt with
    | .networkError m => (.threw (.error m), 1)
    | .response r =>
      if r.status == 503 then (.overloaded, 1)
      else if !r.ok then (.threw (.error ("Gemini API error: " ++ r.text)), 1)
      else
        match r.json with
        | .error m => (.threw (.error m), 1)
        | .ok result =>
          match readProp result "candidates" with
          | .error e => (.threw e, 1)
          | .ok candidates =>
            let content :=
              ((((candidates.optGet "0").optGet "content").optGet "parts").optGet "0").optGet
                "text"
            if !content.truthy then (.threw (.error "No content in Gemini response"), 1)
            else (.returned (parseResponse env content), 1)

/-- The loop `for (attempt = 1; attempt <= maxRetries; attempt++)` followed by
`throw lastError`. The first argument counts the iterations still allowed
(`maxRetries + 1 - attempt`); `lastError` is `none` while the variable is unassigned, in
which case the final `throw` throws `undefined`. Waiting between attempts is not
modelled. -/
def attemptLoop (env : Env) : Nat → Nat → Option Thrown → Nat → Call
  | 0, _, lastError, calls => ⟨.error (lastError.getD .undef), calls⟩
  | remaining + 1, attempt, lastError, calls =>
    match attemptBody env attempt with
    | (.returned v, n) => ⟨.ok v, calls + n⟩
    | (.overloaded, n) => attemptLoop env remaining (attempt + 1) lastError (calls + n)
    | (.threw e, n) =>
      if attempt == maxRetries then ⟨.error e, calls + n⟩
      else attemptLoop env remaining (attempt + 1) (some e) (calls + n)

/-- The method `analyzeImage(imageUrl, cropType, location)`. -/
def analyzeImage (self : GeminiProvider) (env : Env) : Call :=
  if !truthyStr self.apiKey then ⟨.error (.error "GEMINI_API_KEY not configured"), 0⟩
  else attemptLoop env maxRetries 1 none 0

end GeminiProvider

/-! ## HuggingFace adapter -/

/-- Instance of the class `HuggingFaceProvider`: the field `apiKey`. -/
structure HuggingFaceProvider where
  apiKey : Option String

namespace HuggingFaceProvider

/-- The constructor reads `config.huggingFaceApiKey`. -/
def new (config : Config) : HuggingFaceProvider := ⟨config.huggingFaceApiKey⟩

/-- The method `getFallbackResponse(errorMessage)`. -/
def getFallbackResponse (errorMessage : String) : JVal :=
  .obj [
    ("disease", .str "Unable to analyze with HuggingFace"),
    ("confidence", .num (.fin 0)),
    ("severity", .str "unknown"),
    ("symptoms", .arr [.str "Analysis failed"]),
    ("treatment", .arr [.obj [
      ("method", .str "Manual Inspection"),
      ("description", .str "Visual inspection by agricultural expert recommended"),
      ("priority", .str "high")]]),
    ("fertilizers", .arr [.str "Balanced NPK fertilizer", .str "Organic matter"]),
    ("homeRemedies", .arr [.str "Neem oil application"]),
    ("prevention", .arr [.str "Regular plant monitoring"]),
    ("error", .str errorMessage)]

/-- The list `models` of `classifyPlantDisease`. -/
def models : List String := ["microsoft/resnet-50", "google/vit-base-patch16-224"]

/-- The loop of `classifyPlantDisease` over the remaining models, with the number of
requests sent so far: the first response that is `ok` and decodes is returned; a network
error, a failed decoding or a status that is not `ok` moves on to the next model. -/
def classifyLoop (env : Env) : List String → Nat → Except String JVal × Nat
  | [], calls => (.error "All HuggingFace models failed", calls)
  | m :: rest, calls =>
    match env.hfApi m with
    | .networkError _ => classifyLoop env rest (calls + 1)
    | .response r =>
      if r.ok then
        match r.json with
        | .ok v => (.ok v, calls + 1)
        | .error _ => classifyLoop env rest (calls + 1)
      else classifyLoop env rest (calls + 1)

/-- The method `classifyPlantDisease(imageBuffer)`. -/
def classifyPlantDisease (env : Env) : Except String JVal × Nat := classifyLoop env models 0

/-- The method `fetchImageBuffer(imageUrl)`. -/
def fetchImageBuffer (o : FetchOutcome) : Except String String :=
  match o with
  | .networkError m => .error m
  | .response r =>
    if !r.ok then .error ("Failed to fetch image: " ++ toString r.status) else .ok r.text

/-- The table `diseaseKeywords`, in the order of its entries. -/
def diseaseKeywords : List (String × String) :=
  [("leaf", "Leaf disease"), ("spot", "Leaf spot"), ("rust", "Plant rust"),
   ("blight", "Blight"), ("yellow", "Yellowing disease"), ("brown", "Brown spot disease"),
   ("healthy", "Healthy plant")]

/-- The loop over the entries of `diseaseKeywords`. -/
def firstKeyword (lowerLabel : List Char) : List (String × String) → Option String
  | [] => none
  | (keyword, disease) :: rest =>
    if includesChars keyword.data lowerLabel then some disease else firstKeyword lowerLabel rest

/-- The method `interpretClassification(label, cropType)`. Lower-casing is done on ASCII
letters, which is all that the keyword search can observe: no keyword contains a letter
that another character lower-cases to. A truthy label that is not a string has no
`toLowerCase` method, so the call throws. -/
def interpretClassification (label : JVal) (cropType : Option String) : Except String String :=
  if !label.truthy then .ok (templ cropType ++ " condition unknown")
  else
    match label with
    | .str l =>
      match firstKeyword (l.data.map Char.toLower) diseaseKeywords with
      | some disease => .ok disease
      | none =>
        .ok ("Possible " ++ String.mk (l.data.map (fun c => if c == '_' then ' ' else c)) ++
          " condition")
    | _ => .error "label?.toLowerCase is not a function"

/-- The method `determineSeverity(confidence)`; the comparison converts its left operand
to a number. -/
def determineSeverity (confidence : JVal) : String :=
  if confidence.toNumber.gt (.fin lit0_8) then "high"
  else if confidence.toNumber.gt (.fin lit0_5) then "medium"
  else "low"

/-- The method `generateSymptoms(label)`: the optional call `label?.includes(...)` is
skipped for `null` and `undefined`, is `String.prototype.includes` on a string and
`Array.prototype.includes` on an array, and throws on any other value. -/
def generateSymptoms (label : JVal) : Except String (List JVal) :=
  let baseSymptoms := [JVal.str "Visible leaf changes", JVal.str "Abnormal coloration"]
  match label with
  | .undefined => .ok baseSymptoms
  | .null => .ok baseSymptoms
  | .str l =>
    .ok (baseSymptoms ++
      (if includesChars "spot".data l.data then [JVal.str "Spotted pattern on leaves"] else []) ++
      (if includesChars "yellow".data l.data then [JVal.str "Yellowing of foliage"] else []))
  | .arr xs =>
    .ok (baseSymptoms ++
      (if xs.any (fun x => x.isStr "spot") then [JVal.str "Spotted pattern on leaves"] else []) ++
      (if xs.any (fun x => x.isStr "yellow") then [JVal.str "Yellowing of foliage"] else []))
  | _ => .error "label?.includes is not a function"

/-- The method `generateTreatments(label, cropType)`. -/
def generateTreatments (cropType : Option String) : JVal :=
  .arr [
    .obj [("method", .str "Fungicide Treatment"),
          ("description", .str ("Apply appropriate fungicide for " ++ templ cropType)),
          ("priority", .str "high")],
    .obj [("method", .str "Cultural Practice"),
          ("description", .str "Improve plant spacing and air circulation"),
          ("priority", .str "medium")]]

/-- The method `recommendFertilizers(cropType, location)`. -/
def recommendFertilizers : JVal :=
  .arr [.str "NPK 10-10-10 (Balanced fertilizer)", .str "Organic compost",
        .str "Potassium sulfate for disease resistance"]

/-- The method `suggestHomeRemedies()`. -/
def suggestHomeRemedies : JVal :=
  .arr [.str "Neem oil spray (organic treatment)", .str "Baking soda solution (1 tsp per liter)",
        .str "Garlic extract spray"]

/-- The method `preventiveMeasures(cropType)`. -/
def preventiveMeasures : JVal :=
  .arr [.str "Maintain proper plant spacing", .str "Ensure good drainage",
        .str "Regular inspection and early detection", .str "Crop rotation practices"]

/-- The method `formatResponse(classification, cropType, location)`: the properties of the
object literal are evaluated in order, so the first call that throws decides. -/
def formatResponse (classification : JVal) (cropType : Option String) : Except String JVal :=
  if classification.nullish then .error (readOfNullishMsg classification "0")
  else
    let topResult := (classification.get "0").or (.obj [])
    match interpretClassification (topResult.get "label") cropType with
    | .error m => .error m
    | .ok disease =>
      let confidence := (topResult.get "score").or (.num (.fin lit0_5))
      match generateSymptoms (topResult.get "label") with
      | .error m => .error m
      | .ok symptoms =>
        .ok (.obj [
          ("disease", .str disease),
          ("confidence", confidence),
          ("severity", .str (determineSeverity confidence)),
          ("symptoms", .arr symptoms),
          ("treatment", generateTreatments cropType),
          ("fertilizers", recommendFertilizers),
          ("homeRemedies", suggestHomeRemedies),
          ("prevention", preventiveMeasures)])

/-- The `try` block of `analyzeImage`, with the number of requests sent to the model
backend. -/
def analyzeImageTry (env : Env) (cropType : Option String) : Except String JVal × Nat :=
  match fetchImageBuffer env.hfImage with
  | .error m => (.error m, 0)
  | .ok _ =>
    match classifyPlantDisease env with
    | (.error m, n) => (.error m, n)
    | (.ok classification, n) => (formatResponse classification cropType, n)

/-- The method `analyzeImage(imageUrl, cropType, location)`: without a key it throws; with
one, every error of the block is turned into the fallback response. -/
def analyzeImage (self : HuggingFaceProvider) (env : Env) (cropType : Option String) : Call :=
  if !truthyStr self.apiKey then ⟨.error (.error "HUGGINGFACE_API_KEY not configured"), 0⟩
  else
    match analyzeImageTry env cropType with
    | (.ok v, n) => ⟨.ok v, n⟩
    | (.error m, n) => ⟨.ok (getFallbackResponse m), n⟩

end HuggingFaceProvider

/-! ## Provider selector -/

/-- An instance made by `createProvider`. -/
inductive Provider where
  | groq (p : GroqProvider)
  | gemini (p : GeminiProvider)
  | huggingface (p : HuggingFaceProvider)

/-- The function `createProvider(providerName)`, for the names that are keys of its table
and for names that the lookup does not find. The selector passes the three keys only; a
name that the lookup finds on the prototype of the table (such as `constructor`) is not
covered. -/
def createProvider (config : Config) (providerName : String) : Outcome Provider :=
  if providerName == "groq" then .ok (.groq (GroqProvider.new config))
  else if providerName == "gemini" then .ok (.gemini (GeminiProvider.new config))
  else if providerName == "huggingface" then .ok (.huggingface (HuggingFaceProvider.new config))
  else .error (.error ("Unknown provider: " ++ providerName ++
    ". Available: groq, gemini, huggingface"))

/-- The call `provider.analyzeImage(imageUrl, cropType, location)`. -/
def Provider.analyzeImage (p : Provider) (env : Env) (cropType : Option String) : Call :=
  match p with
  | .groq g => g.analyzeImage env
  | .gemini g => g.analyzeImage env
  | .huggingface h => h.analyzeImage env cropType

/-- The sentinel the selector compares the disease with. -/
def sentinel : String := "Analysis failed"

/-- The list `providers` after the block "Put preferred provider first". The parameter
default `"groq"` replaces `undefined` only. -/
def attemptOrder (preferredProvider : JVal) : List String :=
  let preferredProvider := match preferredProvider with
    | .undefined => JVal.str "groq"
    | v => v
  let providers := ["groq", "gemini", "huggingface"]
  match preferredProvider with
  | .str p =>
    if preferredProvider.truthy && providers.contains p then
      p :: providers.eraseIdx (providers.indexOf p)
    else providers
  | _ => providers

/-- What one call of the selector did: its outcome and the providers whose `analyzeImage`
it called, in call order, each with the number of backend requests of that call. -/
structure Selection where
  outcome : Outcome JVal
  invoked : List (String × Nat)

/-- The test "Validate result has meaningful data" on a result that is not `null` or
`undefined`. -/
def meaningful (result : JVal) : Bool :=
  (result.get "disease").truthy && !(result.get "disease").isStr sentinel

/-- Message of the final error; an unassigned `lastError` prints as `undefined`. -/
def allFailedMessage (lastError : Option String) : String :=
  "All providers failed. Last error: " ++ templ lastError

/-- The loop `for (const providerName of providers)` with the final `throw`. `lastError`
holds the message of the last error caught (`none` while unassigned). Reading
`error.message` in the `catch` throws when the caught value is `undefined`, and that
`TypeError` leaves the function. -/
def selectLoop (env : Env) (cropType : Option String) :
    List String → Option String → List (String × Nat) → Selection
  | [], lastError, invoked => ⟨.error (.error (allFailedMessage lastError)), invoked⟩
  | providerName :: rest, lastError, invoked =>
    match createProvider env.config providerName with
    | .error (.error m) => selectLoop env cropType rest (some m) invoked
    | .error .undef => ⟨.error (.error (readOfNullishMsg .undefined "message")), invoked⟩
    | .ok provider =>
      let call := provider.analyzeImage env cropType
      let invoked := invoked ++ [(providerName, call.backendCalls)]
      match call.outcome with
      | .error (.error m) => selectLoop env cropType rest (some m) invoked
      | .error .undef => ⟨.error (.error (readOfNullishMsg .undefined "message")), invoked⟩
      | .ok result =>
        if result.nullish then
          selectLoop env cropType rest (some (readOfNullishMsg result "disease")) invoked
        else if meaningful result then
          ⟨.ok (.obj (JVal.setField "provider" (.str providerName) result.ownProps)), invoked⟩
        else selectLoop env cropType rest lastError invoked

/-- The function `analyzeWithFallback(imageUrl, cropType, location, preferredProvider)`. -/
def analyzeWithFallback (env : Env) (cropType : Option String) (preferredProvider : JVal) :
    Selection :=
  selectLoop env cropType (attemptOrder preferredProvider) none []

/-! ## Pipeline state, analysis record and store -/

/-- An entry of `state.errors` (the timestamp is not modelled). -/
structure ErrorEntry where
  step : String
  error : String

/-- The object `detection` built by `processDiseaseDetection`. The two flags are `true`
when the property is set (the code only ever sets them to `true`) and `false` when it is
absent. -/
structure Detection where
  disease : JVal
  confidence : JNum
  severity : JVal
  symptoms : List JVal
  analysisProvider : JVal
  needsExpertReview : Bool
  reliable : Bool

/-- The detection as a JavaScript object. -/
def Detection.toJVal (d : Detection) : JVal :=
  .obj ([("disease", d.disease), ("confidence", .num d.confidence), ("severity", d.severity),
    ("symptoms", .arr d.symptoms), ("analysisProvider", d.analysisProvider)] ++
    (if d.needsExpertReview then [("needsExpertReview", JVal.bool true)] else []) ++
    (if d.reliable then [("reliable", JVal.bool true)] else []))

/-- The class `AnalysisState`. -/
structure AnalysisState where
  analysisId : Option String
  imageUrl : Option String
  cropType : Option String
  location : Option Location
  provider : JVal
  imageAnalysis : JVal
  diseaseDetection : Option Detection
  recommendations : JVal
  finalResult : JVal
  errors : List ErrorEntry
  currentStep : String
  stepResults : List (String × JVal)

/-- The method `addError(step, error)`, given the message of the error. -/
def AnalysisState.addError (state : AnalysisState) (step message : String) : AnalysisState :=
  { state with errors := state.errors ++ [⟨step, message⟩] }

/-- The method `updateStep(step, result)`. -/
def AnalysisState.updateStep (state : AnalysisState) (step : String) (result : JVal) :
    AnalysisState :=
  { state with currentStep := step, stepResults := JVal.setField step result state.stepResults }

/-- An entry of `processingSteps` (the timestamp is not modelled). -/
structure StepEntry where
  step : String
  status : String
  result : JVal
  error : JVal

/-- What a schema path of type String holds: `null`, a string, or the string that
`toString` makes of a number (kept as the number, its digits being the engine's). -/
inductive StoredString where
  | null
  | str (s : String)
  | ofNumber (n : JNum)
  deriving DecidableEq

/-- The cast of a value to a schema path of type String, `none` when the library throws a
`CastError`: `null` and `undefined` pass, a string is kept, a number or boolean becomes
its string, an object with a string `_id` becomes that string, and any other object or an
array is refused. -/
def castString : JVal → Option StoredString
  | .undefined => some .null
  | .null => some .null
  | .str s => some (.str s)
  | .bool b => some (.str (if b then "true" else "false"))
  | .num n => some (.ofNumber n)
  | .arr _ => none
  | .obj fs =>
    match JVal.lookup "_id" fs with
    | .str id => if id != "" then some (.str id) else none
    | _ => none

/-- The paths the schema declares under `detection`: `disease`, `confidence` and
`severity`. -/
structure StoredDetection where
  disease : StoredString
  confidence : JNum
  severity : StoredString

/-- The first path under `detection` at which the cast of the update to the schema fails,
with the value found there: `disease` and `severity` are cast to String, `confidence` to
Number, which refuses NaN. The other properties of the object are not paths of the schema
and are dropped. -/
def Detection.castFailure (d : Detection) : Option (String × JVal) :=
  if (castString d.disease).isNone then some ("detection.disease", d.disease)
  else if d.confidence = .nan then some ("detection.confidence", .num d.confidence)
  else if (castString d.severity).isNone then some ("detection.severity", d.severity)
  else none

/-- The part of a detection that the schema keeps, after the cast. -/
def Detection.stored (d : Detection) : StoredDetection :=
  ⟨(castString d.disease).getD .null, d.confidence, (castString d.severity).getD .null⟩

/-- The analysis document, restricted to the paths the pipeline and the detection service
write or read. The identifier is the hexadecimal string of the document id. -/
structure AnalysisRecord where
  status : String
  detection : Option StoredDetection
  recommendations : JVal
  processingSteps : List StepEntry
  error : JVal
  aiProvider : JVal
  rawImageAnalysis : JVal
  id : String
  imageUrl : String
  crop : Option String
  location : Option Location

/-- The document store for the record of one analysis. `writeErrors` scripts the
upcoming writes: `some m` makes the next write reject with message `m`, `none` (or an
exhausted script) lets it succeed. `castMessage` is the message that the library gives
the `CastError` for a schema path and the value it refused there. -/
structure Store where
  record : AnalysisRecord
  writeErrors : List (Option String)
  castMessage : String → JVal → String

/-- The call `Analysis.findByIdAndUpdate(state.analysisId, update)` for an update that
passes the cast to the schema: a rejected write leaves the record as it was. The cast of
the detection is `Detection.castFailure`, applied by the stage that sends a detection;
the validators of the schema do not run on updates; the top-level `confidence` that two
updates carry is not a path of the schema and is left out. -/
def Store.findByIdAndUpdate (store : Store) (update : AnalysisRecord → AnalysisRecord) :
    Except String Unit × Store :=
  match store.writeErrors with
  | some m :: rest => (.error m, { store with writeErrors := rest })
  | none :: rest => (.ok (), { store with record := update store.record, writeErrors := rest })
  | [] => (.ok (), { store with record := update store.record })

/-- The update operator that appends one entry to `processingSteps`. -/
def pushStep (entry : StepEntry) (r : AnalysisRecord) : AnalysisRecord :=
  { r with processingSteps := r.processingSteps ++ [entry] }

/-- How a stage ends: it returns the state (`thrown = none`) or throws, in both cases
after the shown changes to the state object and to the store. -/
structure StageResult where
  thrown : Option Thrown
  state : AnalysisState
  store : Store

/-! ## Stage 3: disease detection -/

/-- The expression `Math.max(0, Math.min(1, analysis.confidence || 0))`. -/
def clampConfidence (analysis : JVal) : JNum :=
  JNum.max (.fin 0) (JNum.min (.fin 1) (((analysis.get "confidence").or (.num (.fin 0))).toNumber))

/-- The block "Apply business logic for confidence thresholds". -/
def applyThresholds (detection : Detection) : Detection :=
  if detection.confidence.lt (.fin lit0_3) then
    { detection with
      disease := .str "Inconclusive - requires expert review",
      severity := .str "unknown",
      needsExpertReview := true }
  else if detection.confidence.ge (.fin lit0_8) then
    { detection with severity := .str "high", reliable := true }
  else detection

/-- The `try` block of `processDiseaseDetection` up to the computed `detection`: the
detection, or the message of the error thrown for a missing analysis or disease. -/
def buildDetection (state : AnalysisState) : Except String Detection :=
  let analysis := state.imageAnalysis
  if !analysis.truthy || !(analysis.get "disease").truthy then
    .error "No disease detection results available from image analysis"
  else
    .ok (applyThresholds {
      disease := analysis.get "disease",
      confidence := clampConfidence analysis,
      severity := (analysis.get "severity").or (.str "medium"),
      symptoms := if (analysis.get "symptoms").isArray then (analysis.get "symptoms").elems else [],
      analysisProvider := (analysis.get "provider").or state.provider,
      needsExpertReview := false,
      reliable := false })

/-- The `catch` block of `processDiseaseDetection`: records the error in the state,
appends a failed step and rethrows; when that write itself rejects, its error is the one
that leaves the stage. -/
def detectionFailure (state : AnalysisState) (store : Store) (message : String) : StageResult :=
  let state := state.addError "diseaseDetection" message
  match store.findByIdAndUpdate
      (pushStep ⟨"diseaseDetection", "failed", .undefined, .str message⟩) with
  | (.error m, store) => ⟨some (.error m), state, store⟩
  | (.ok _, store) => ⟨some (.error message), state, store⟩

/-- The stage `processDiseaseDetection(state)`. The call of `findByIdAndUpdate` first casts
the update to the schema and rejects with a `CastError`, before anything is sent, when
the detection does not pass. -/
def processDiseaseDetection (state : AnalysisState) (store : Store) : StageResult :=
  match buildDetection state with
  | .error m => detectionFailure state store m
  | .ok detection =>
    let state := { state with diseaseDetection := some detection }
    let state := state.updateStep "diseaseDetection" detection.toJVal
    match detection.castFailure with
    | some (path, value) => detectionFailure state store (store.castMessage path value)
    | none =>
      match store.findByIdAndUpdate (fun r =>
          pushStep ⟨"diseaseDetection", "completed",
            .obj [("disease", detection.disease), ("confidence", .num detection.confidence),
                  ("severity", detection.severity)], .undefined⟩
            { r with detection := some detection.stored }) with
      | (.error m, store) => detectionFailure state store m
      | (.ok _, store) => ⟨none, state, store⟩

/-! ## String conversion and `length` -/

mutual
/-- The abstract operation `ToString` on a value, as a template literal applies it; numbers
go through `Number.prototype.toString`, given as an argument. -/
def JVal.toStr (numberToString : JNum → String) : JVal → String
  | .undefined => "undefined"
  | .null => "null"
  | .bool b => if b then "true" else "false"
  | .num n => numberToString n
  | .str s => s
  | .obj _ => "[object Object]"
  | .arr xs => JVal.joinStr numberToString xs
/-- The method `Array.prototype.join` with the comma separator. -/
def JVal.joinStr (numberToString : JNum → String) : List JVal → String
  | [] => ""
  | [x] => JVal.elemStr numberToString x
  | x :: y :: rest =>
    JVal.elemStr numberToString x ++ "," ++ JVal.joinStr numberToString (y :: rest)
/-- The string of one array element in a join: empty for `null` and `undefined`. -/
def JVal.elemStr (numberToString : JNum → String) : JVal → String
  | .undefined => ""
  | .null => ""
  | .bool b => if b then "true" else "false"
  | .num n => numberToString n
  | .str s => s
  | .obj _ => "[object Object]"
  | .arr xs => JVal.joinStr numberToString xs
end

/-- Number of UTF-16 code units of a character list. -/
def utf16Length (cs : List Char) : Nat :=
  (cs.map (fun c => if c.val ≥ 0x10000 then 2 else 1)).sum

/-- The property read `v.length` on a value that is neither `null` nor `undefined`. -/
def JVal.lengthOf : JVal → JVal
  | .arr xs => .num (.fin xs.length)
  | .str s => .num (.fin (utf16Length s.data))
  | .obj fs => JVal.lookup "length" fs
  | _ => .undefined

/-- The test `v.length === 0`. -/
def JVal.lengthIsZero (v : JVal) : Bool :=
  match v.lengthOf with
  | .num (.fin q) => decide (q = 0)
  | _ => false

/-- A value that is a string or `undefined`, as a JavaScript value. -/
def optStr : Option String → JVal
  | some s => .str s
  | none => .undefined

/-- The location as a JavaScript value. -/
def Location.toJVal (l : Location) : JVal :=
  .obj ((match l.district with
         | some d => [("district", JVal.str d)]
         | none => []) ++
        (match l.state with
         | some st => [("state", JVal.str st)]
         | none => []))

/-- A location that may be `undefined`, as a JavaScript value. -/
def optLocation : Option Location → JVal
  | some l => l.toJVal
  | none => .undefined

/-- The expression `location?.district`. -/
def districtOf (location : Option Location) : Option String :=
  match location with
  | some l => l.district
  | none => none

/-- The expression `location?.state`. -/
def stateOf (location : Option Location) : Option String :=
  match location with
  | some l => l.state
  | none => none

/-! ## Stage 1: initialization -/

/-- The stage `initializeAnalysis(state)`. Its `catch` block records the error in the
state and rethrows; it writes nothing to the record. -/
def initializeAnalysis (state : AnalysisState) (store : Store) : StageResult :=
  if !truthyStr state.analysisId then
    ⟨some (.error "Analysis ID is required"),
      state.addError "initialization" "Analysis ID is required", store⟩
  else if !truthyStr state.imageUrl then
    ⟨some (.error "Image URL is required"),
      state.addError "initialization" "Image URL is required", store⟩
  else
    match store.findByIdAndUpdate (fun r =>
        pushStep ⟨"initialization", "completed",
          .obj [("message", .str "Analysis pipeline started")], .undefined⟩
          { r with status := "processing" }) with
    | (.error m, store) => ⟨some (.error m), state.addError "initialization" m, store⟩
    | (.ok _, store) =>
      ⟨none, state.updateStep "initialization" (.obj [("success", .bool true)]), store⟩

/-! ## Stage 2: image analysis -/

/-- The `catch` block of `performImageAnalysis`, given the message of the caught error. -/
def imageAnalysisFailure (state : AnalysisState) (store : Store) (message : String) :
    StageResult :=
  let state := state.addError "imageAnalysis" message
  match store.findByIdAndUpdate
      (pushStep ⟨"imageAnalysis", "failed", .undefined, .str message⟩) with
  | (.error m, store) => ⟨some (.error m), state, store⟩
  | (.ok _, store) => ⟨some (.error message), state, store⟩

/-- The stage `performImageAnalysis(state)`. Reading the message of a caught `undefined`
throws inside the `catch` block, before anything is recorded. -/
def performImageAnalysis (env : Env) (state : AnalysisState) (store : Store) : StageResult :=
  match (analyzeWithFallback env state.cropType state.provider).outcome with
  | .error (.error m) => imageAnalysisFailure state store m
  | .error .undef => ⟨some (.error (readOfNullishMsg .undefined "message")), state, store⟩
  | .ok result =>
    if result.nullish then imageAnalysisFailure state store (readOfNullishMsg result "disease")
    else if !(result.get "disease").truthy then
      imageAnalysisFailure state store
        "AI provider returned incomplete analysis - missing disease information"
    else
      let state := { state with imageAnalysis := result }
      let state := state.updateStep "imageAnalysis" (.obj [
        ("success", .bool true), ("provider", result.get "provider"),
        ("disease", result.get "disease"), ("confidence", result.get "confidence")])
      match store.findByIdAndUpdate (fun r =>
          pushStep ⟨"imageAnalysis", "completed",
            .obj [("provider", result.get "provider"), ("detected", result.get "disease"),
                  ("confidence", result.get "confidence")], .undefined⟩
            { r with aiProvider := result.get "provider", rawImageAnalysis := result }) with
      | (.error m, store) => imageAnalysisFailure state store m
      | (.ok _, store) => ⟨none, state, store⟩

/-! ## Stage 4: recommendations -/

/-- The callback of `enhanceTreatments` on one entry: the enhanced treatment, or the
message of the `TypeError` for an entry that is `null`. -/
def enhanceTreatment (location : Option Location) (cropType : Option String)
    (treatment : JVal) : Except String JVal :=
  let treatment := match treatment with
    | .str s => JVal.obj [("method", .str s), ("description", .str s), ("priority", .str "medium")]
    | t => t
  if treatment.nullish then .error (readOfNullishMsg treatment "method")
  else .ok (.obj [
    ("method", (treatment.get "method").or (.str "General Treatment")),
    ("description", ((treatment.get "description").or (treatment.get "method")).or
      (.str "Apply as recommended")),
    ("priority", (treatment.get "priority").or (.str "medium")),
    ("locationSpecific", .bool true),
    ("cropSpecific", .str (if truthyStr cropType then templ cropType else "general")),
    ("availabilityNote", .str ("Available at agricultural stores in " ++
      (if truthyStr (districtOf location) then templ (districtOf location)
       else if truthyStr (stateOf location) then templ (stateOf location)
       else "your area")))])

/-- The method `map` with a callback that may throw: the first error ends the map. -/
def mapThrowing (f : JVal → Except String JVal) : List JVal → Except String (List JVal)
  | [] => .ok []
  | x :: rest =>
    match f x with
    | .error m => .error m
    | .ok y =>
      match mapThrowing f rest with
      | .error m => .error m
      | .ok ys => .ok (y :: ys)

/-- The helper `enhanceTreatments(treatments, location, cropType)`. -/
def enhanceTreatments (treatments : JVal) (location : Option Location)
    (cropType : Option String) : Except String (List JVal) :=
  if !treatments.isArray then .ok []
  else mapThrowing (enhanceTreatment location cropType) treatments.elems

/-- The callback of `filterFertilizers` on one entry. -/
def filterFertilizer (env : Env) (location : Option Location) (fertilizer : JVal) :
    Except String JVal :=
  let suffix := " (available in " ++
    (if truthyStr (stateOf location) then templ (stateOf location) else "India") ++ ")"
  match fertilizer with
  | .str s => .ok (.str (s ++ suffix))
  | f =>
    if f.nullish then .error (readOfNullishMsg f "name")
    else .ok (.str (((f.get "name").or (.str "Fertilizer")).toStr env.numberToString ++ suffix))

/-- The helper `filterFertilizers(fertilizers, location)`. -/
def filterFertilizers (env : Env) (fertilizers : JVal) (location : Option Location) :
    Except String (List JVal) :=
  if !fertilizers.isArray then .ok []
  else mapThrowing (filterFertilizer env location) fertilizers.elems

/-- The object `recommendations`. The first two lists are fresh arrays made by the
helpers; the last two are the values found in the analysis (or fresh lists). -/
structure Recommendations where
  treatment : List JVal
  fertilizers : List JVal
  homeRemedies : JVal
  preventiveMeasures : JVal

/-- The recommendations as a JavaScript object. -/
def Recommendations.toJVal (r : Recommendations) : JVal :=
  .obj [("treatment", .arr r.treatment), ("fertilizers", .arr r.fertilizers),
        ("homeRemedies", r.homeRemedies), ("preventiveMeasures", r.preventiveMeasures)]

/-- The block "Add fallback recommendations if arrays are empty". -/
def addFallbacks (cropType : Option String) (r : Recommendations) : Recommendations :=
  let r := if r.treatment.isEmpty then
      { r with treatment := r.treatment ++ [JVal.obj [
        ("method", .str "General Treatment"),
        ("description", .str ("Consult local agricultural expert for " ++ templ cropType ++
          " disease management")),
        ("priority", .str "high")]] }
    else r
  let r := if r.fertilizers.isEmpty then
      { r with fertilizers := [JVal.str "Balanced NPK fertilizer (10-10-10)",
          JVal.str "Organic compost for soil health"] }
    else r
  let r := if r.homeRemedies.lengthIsZero then
      { r with homeRemedies := .arr [.str "Neem oil spray (organic treatment)",
          .str "Proper plant hygiene maintenance"] }
    else r
  if r.preventiveMeasures.lengthIsZero then
    { r with preventiveMeasures := .arr [.str "Regular plant inspection",
        .str "Maintain proper plant spacing",
        .str "Ensure good drainage and air circulation"] }
  else r

/-- The `try` block of `generateRecommendations` up to the computed `recommendations`. -/
def buildRecommendations (env : Env) (state : AnalysisState) : Except String Recommendations :=
  let analysis := state.imageAnalysis
  if !analysis.truthy then .error "No image analysis available for recommendations"
  else
    match enhanceTreatments ((analysis.get "treatment").or (.arr [])) state.location
        state.cropType with
    | .error m => .error m
    | .ok treatment =>
      match filterFertilizers env ((analysis.get "fertilizers").or (.arr [])) state.location with
      | .error m => .error m
      | .ok fertilizers =>
        .ok (addFallbacks state.cropType {
          treatment := treatment,
          fertilizers := fertilizers,
          homeRemedies := (analysis.get "homeRemedies").or (.arr []),
          preventiveMeasures := (analysis.get "prevention").or (.arr []) })

/-- The `catch` block of `generateRecommendations`. -/
def recommendationsFailure (state : AnalysisState) (store : Store) (message : String) :
    StageResult :=
  let state := state.addError "recommendations" message
  match store.findByIdAndUpdate
      (pushStep ⟨"recommendations", "failed", .undefined, .str message⟩) with
  | (.error m, store) => ⟨some (.error m), state, store⟩
  | (.ok _, store) => ⟨some (.error message), state, store⟩

/-- The stage `generateRecommendations(state)`. -/
def generateRecommendations (env : Env) (state : AnalysisState) (store : Store) : StageResult :=
  match buildRecommendations env state with
  | .error m => recommendationsFailure state store m
  | .ok recommendations =>
    let state := { state with recommendations := recommendations.toJVal }
    let state := state.updateStep "recommendations" (.obj [
      ("success", .bool true),
      ("treatmentCount", .num (.fin recommendations.treatment.length)),
      ("fertilizerCount", .num (.fin recommendations.fertilizers.length))])
    match store.findByIdAndUpdate (fun r =>
        pushStep ⟨"recommendations", "completed",
          .obj [("treatmentOptions", .num (.fin recommendations.treatment.length)),
                ("fertilizerOptions", .num (.fin recommendations.fertilizers.length)),
                ("homeRemediesCount", recommendations.homeRemedies.lengthOf)], .undefined⟩
          { r with recommendations := recommendations.toJVal }) with
    | (.error m, store) => recommendationsFailure state store m
    | (.ok _, store) => ⟨none, state, store⟩

/-! ## Stage 5: finalization -/

/-- The `catch` block of `finalizeResults`: it marks the record as failed, with the
message, in the write that appends the failed step. -/
def finalizationFailure (state : AnalysisState) (store : Store) (message : String) :
    StageResult :=
  let state := state.addError "finalization" message
  match store.findByIdAndUpdate (fun r =>
      pushStep ⟨"finalization", "failed", .undefined, .str message⟩
        { r with status := "failed", error := .str message }) with
  | (.error m, store) => ⟨some (.error m), state, store⟩
  | (.ok _, store) => ⟨some (.error message), state, store⟩

/-- The object `finalResult` for a state that has a detection. -/
def buildFinalResult (state : AnalysisState) (detection : Detection) : JVal :=
  .obj [
    ("analysisId", optStr state.analysisId),
    ("detection", detection.toJVal),
    ("recommendations", state.recommendations),
    ("metadata", .obj [
      ("provider", detection.analysisProvider.or state.provider),
      ("processingSteps", .arr (state.stepResults.map (fun p => JVal.str p.1))),
      ("confidence", (JVal.num detection.confidence).or (.num (.fin 0))),
      ("cropType", optStr state.cropType),
      ("location", optLocation state.location)])]

/-- The stage `finalizeResults(state)`. -/
def finalizeResults (state : AnalysisState) (store : Store) : StageResult :=
  match state.diseaseDetection with
  | none => finalizationFailure state store
      "Cannot finalize - missing detection or recommendations"
  | some detection =>
    if !state.recommendations.truthy then
      finalizationFailure state store "Cannot finalize - missing detection or recommendations"
    else
      let state := { state with finalResult := buildFinalResult state detection }
      match store.findByIdAndUpdate (fun r =>
          pushStep ⟨"finalization", "completed",
            .obj [("message", .str "Analysis completed successfully")], .undefined⟩
            { r with status := "completed",
                     aiProvider := detection.analysisProvider.or state.provider }) with
      | (.error m, store) => finalizationFailure state store m
      | (.ok _, store) => ⟨none, state, store⟩

/-! ## Error handler -/

/-- The function `handleError(state)`: it has no `try`, so a rejected write leaves the
function as an error. -/
def handleError (state : AnalysisState) (store : Store) : StageResult :=
  let latestError := state.errors.getLast?
  let latestMessage : JVal := match latestError with
    | some e => .str e.error
    | none => .undefined
  let latestStep : JVal := match latestError with
    | some e => .str e.step
    | none => .undefined
  match store.findByIdAndUpdate (fun r =>
      pushStep ⟨"error_handling", "completed", .obj [("errorStep", latestStep)], latestMessage⟩
        { r with status := "failed",
                 error := latestMessage.or (.str "Unknown error occurred") }) with
  | (.error m, store) => ⟨some (.error m), state, store⟩
  | (.ok _, store) => ⟨none, state, store⟩

/-! ## The analysis graph -/

/-- The constructor `new AnalysisState(data)` on a graph state: the defaults for missing
or falsy properties. -/
def AnalysisState.new (data : AnalysisState) : AnalysisState :=
  { data with
    provider := data.provider.or (.str "groq"),
    imageAnalysis := data.imageAnalysis.or .null,
    recommendations := data.recommendations.or .null,
    finalResult := data.finalResult.or .null,
    currentStep := if data.currentStep != "" then data.currentStep else "initialization" }

/-- What a node function does: the partial state it returns merged into the graph state
(or the value it throws), the store afterwards, and, for the record of the run, what the
step function inside it threw. -/
structure NodeResult where
  outcome : Outcome AnalysisState
  store : Store
  caught : Option Thrown

/-- The node function made by `createNode(nodeName, stepFunction, stepKey)`. After a
failure the returned object spreads the incoming graph state and replaces `errors` and
`currentStep` only. Reading the message of a caught `undefined` throws out of the node. -/
def createNode (nodeName stepKey : String)
    (stepFunction : AnalysisState → Store → StageResult) (state : AnalysisState)
    (store : Store) : NodeResult :=
  let analysisState := AnalysisState.new state
  let result := stepFunction analysisState store
  match result.thrown with
  | none =>
    ⟨.ok { state with
        currentStep := stepKey,
        imageAnalysis := result.state.imageAnalysis.or state.imageAnalysis,
        diseaseDetection := match result.state.diseaseDetection with
          | some d => some d
          | none => state.diseaseDetection,
        recommendations := result.state.recommendations.or state.recommendations,
        finalResult := result.state.finalResult.or state.finalResult,
        stepResults := result.state.stepResults,
        errors := result.state.errors,
        provider := (result.state.imageAnalysis.optGet "provider").or state.provider },
      result.store, none⟩
  | some (.error m) =>
    ⟨.ok { state with
        errors := (result.state.addError nodeName m).errors,
        currentStep := "error" },
      result.store, some (.error m)⟩
  | some .undef =>
    ⟨.error (.error (readOfNullishMsg .undefined "message")), result.store, some .undef⟩

/-- The node function of the node `handleError`. -/
def handleErrorNode (state : AnalysisState) (store : Store) : NodeResult :=
  let result := handleError (AnalysisState.new state) store
  match result.thrown with
  | none => ⟨.ok { state with currentStep := "error_handled" }, result.store, none⟩
  | some e => ⟨.error e, result.store, some e⟩

/-- The nodes of the graph. -/
inductive Node where
  | initializeAnalysis
  | performImageAnalysis
  | processDiseaseDetection
  | generateRecommendations
  | finalizeResults
  | handleError
  deriving DecidableEq, Repr

/-- The name under which a node is added. -/
def Node.name : Node → String
  | .initializeAnalysis => "initializeAnalysis"
  | .performImageAnalysis => "performImageAnalysis"
  | .processDiseaseDetection => "processDiseaseDetection"
  | .generateRecommendations => "generateRecommendations"
  | .finalizeResults => "finalizeResults"
  | .handleError => "handleError"

/-- The node functions as `createAnalysisPipeline` adds them. -/
def runNode (env : Env) : Node → AnalysisState → Store → NodeResult
  | .initializeAnalysis => createNode "initializeAnalysis" "initialization" initializeAnalysis
  | .performImageAnalysis =>
    createNode "performImageAnalysis" "imageAnalysis" (performImageAnalysis env)
  | .processDiseaseDetection =>
    createNode "processDiseaseDetection" "diseaseDetection" processDiseaseDetection
  | .generateRecommendations =>
    createNode "generateRecommendations" "recommendations" (generateRecommendations env)
  | .finalizeResults => createNode "finalizeResults" "finalization" finalizeResults
  | .handleError => handleErrorNode

/-- The constant `END` of the graph library. -/
def END : String := "__end__"

/-- The function `routeAnalysis(state)`. -/
def routeAnalysis (state : AnalysisState) : String :=
  if state.errors.length > 0 then "handleError"
  else if state.currentStep == "initialization" then "performImageAnalysis"
  else if state.currentStep == "imageAnalysis" then "processDiseaseDetection"
  else if state.currentStep == "diseaseDetection" then "generateRecommendations"
  else if state.currentStep == "recommendations" then "finalizeResults"
  else if state.currentStep == "finalization" then END
  else "handleError"

/-- The table `edges`: for each stage node, the mapping from the keys `routeAnalysis` may
return to destinations (`none` stands for the end of the graph). -/
def conditionalEdges : Node → List (String × Option Node)
  | .initializeAnalysis =>
    [("performImageAnalysis", some .performImageAnalysis), ("handleError", some .handleError)]
  | .performImageAnalysis =>
    [("processDiseaseDetection", some .processDiseaseDetection),
     ("handleError", some .handleError)]
  | .processDiseaseDetection =>
    [("generateRecommendations", some .generateRecommendations),
     ("handleError", some .handleError)]
  | .generateRecommendations =>
    [("finalizeResults", some .finalizeResults), ("handleError", some .handleError)]
  | .finalizeResults => [(END, none), ("handleError", some .handleError)]
  | .handleError => []

/-- The destination after a node: the direct edge from `handleError` to the end, else the
conditional edge chosen by `routeAnalysis`. The graph library throws when the key is not
in the mapping. -/
def nextNode (node : Node) (state : AnalysisState) : Outcome (Option Node) :=
  match node with
  | .handleError => .ok none
  | n =>
    match (conditionalEdges n).lookup (routeAnalysis state) with
    | some dest => .ok dest
    | none => .error (.error "Branch condition returned unknown or null destination")

/-- A run of the compiled graph: the final state or the thrown value, the store, and the
nodes run in order, each with what its step function threw. -/
structure GraphRun where
  outcome : Outcome AnalysisState
  store : Store
  trace : List (String × Option Thrown)

/-- The run loop of the compiled graph from a node: run the node, merge what it returns,
follow the edge, until the end of the graph; a thrown value ends the run. The first
argument is the number of steps still allowed by the recursion limit of the library. -/
def invokeFrom (env : Env) :
    Nat → Node → AnalysisState → Store → List (String × Option Thrown) → GraphRun
  | 0, _, _, store, trace =>
    ⟨.error (.error "Recursion limit of 25 reached without hitting a stop condition."),
      store, trace⟩
  | fuel + 1, node, state, store, trace =>
    let r := runNode env node state store
    let trace := trace ++ [(node.name, r.caught)]
    match r.outcome with
    | .error e => ⟨.error e, r.store, trace⟩
    | .ok state =>
      match nextNode node state with
      | .error e => ⟨.error e, r.store, trace⟩
      | .ok none => ⟨.ok state, r.store, trace⟩
      | .ok (some next) => invokeFrom env fuel next state r.store trace

/-- The default recursion limit of the graph library. -/
def recursionLimit : Nat := 25

/-- The call `pipeline.invoke(initialState)`: the entry point is `initializeAnalysis`. -/
def invoke (env : Env) (state : AnalysisState) (store : Store) : GraphRun :=
  invokeFrom env recursionLimit .initializeAnalysis state store []

/-- The argument `analysisData` of `executeAnalysisPipeline`. -/
structure AnalysisData where
  analysisId : Option String
  imageUrl : Option String
  cropType : Option String
  crop : Option String
  location : Option Location
  provider : JVal

/-- The object `initialState`. -/
def initialState (analysisData : AnalysisData) : AnalysisState where
  analysisId := analysisData.analysisId
  imageUrl := analysisData.imageUrl
  cropType := if truthyStr analysisData.cropType then analysisData.cropType else analysisData.crop
  location := analysisData.location
  provider := analysisData.provider.or (.str "groq")
  errors := []
  currentStep := "initialization"
  stepResults := []
  imageAnalysis := .null
  diseaseDetection := none
  recommendations := .null
  finalResult := .null

/-- The object returned by `executeAnalysisPipeline`; absent properties are `none` (and
`undefined` for `data`). -/
structure PipelineResult where
  success : Bool
  message : Option String
  error : Option String
  details : Option String
  data : JVal

/-- What one call of `executeAnalysisPipeline` did. -/
structure PipelineRun where
  outcome : Outcome PipelineResult
  store : Store
  trace : List (String × Option Thrown)

/-- The part of `executeAnalysisPipeline` after a fulfilled `invoke`. -/
def resultOfState (result : AnalysisState) : PipelineResult :=
  if result.errors.length > 0 || result.currentStep == "error" ||
      result.currentStep == "error_handled" then
    let errorMessage := match result.errors.getLast? with
      | some e => if e.error != "" then e.error else "Analysis pipeline failed"
      | none => "Analysis pipeline failed"
    ⟨false, some "Analysis failed", some "ANALYSIS_FAILED", some errorMessage, .undefined⟩
  else if !result.finalResult.truthy then
    ⟨false, some "Analysis incomplete", some "NO_FINAL_RESULT",
      some "Pipeline completed but did not generate final results", .undefined⟩
  else ⟨true, none, none, none, result.finalResult⟩

/-- The function `executeAnalysisPipeline(analysisData)`. In the outer `catch`, the write
that marks the record as failed has its own `try`, so its rejection is dropped. A caught
`undefined` has no message: the write is not sent and building the returned object
throws. -/
def executeAnalysisPipeline (env : Env) (analysisData : AnalysisData) (store : Store) :
    PipelineRun :=
  let run := invoke env (initialState analysisData) store
  match run.outcome with
  | .ok result => ⟨.ok (resultOfState result), run.store, run.trace⟩
  | .error (.error m) =>
    let store := (run.store.findByIdAndUpdate (fun r =>
      pushStep ⟨"pipeline_execution", "failed", .undefined, .str m⟩
        { r with status := "failed", error := .str m })).2
    ⟨.ok ⟨false, some "Pipeline execution failed", some "PIPELINE_ERROR", some m, .undefined⟩,
      store, run.trace⟩
  | .error .undef =>
    ⟨.error (.error (readOfNullishMsg .undefined "message")), run.store, run.trace⟩

/-- The argument of a call of `executeAnalysisPipeline`: `null`, `undefined`, or an
object. -/
inductive PipelineArgument where
  | null
  | undefined
  | object (data : AnalysisData)

/-- The call `executeAnalysisPipeline(analysisData)` for any argument. The object
`initialState` is built before the `try`, so reading `analysisId` of `null` or
`undefined` throws out of the function, before anything is run or written. -/
def executeAnalysisPipelineCall (env : Env) (arg : PipelineArgument) (store : Store) :
    PipelineRun :=
  match arg with
  | .null => ⟨.error (.error (readOfNullishMsg .null "analysisId")), store, []⟩
  | .undefined => ⟨.error (.error (readOfNullishMsg .undefined "analysisId")), store, []⟩
  | .object data => executeAnalysisPipeline env data store

/-! ## The detection service -/

/-- Outcome of a read of the analysis document: the document as the store holds it, no
document, or a rejected read (with the message and the class name of the error). -/
inductive ReadOutcome where
  | found
  | missing
  | failed (message errorType : String)

/-- What surrounds one call of `analyzeImage`: the identifier the store gives the new
document, whether `Analysis.create` rejects, the script of the writes to the new
document and the messages of the cast errors of the store, whether Cloudinary is
configured and what the upload gives, and the outcome of the read after the pipeline. -/
structure ServiceEnv where
  newId : String
  createError : Option String
  writeErrors : List (Option String)
  castMessage : String → JVal → String
  cloudinaryConfigured : Bool
  upload : Except String String
  refresh : ReadOutcome

/-- The argument of `analyzeImage`, with the local image address already built from the
front-end address and the file name. -/
structure AnalyzeInput where
  imageUrlFallback : String
  crop : Option String
  location : Location
  provider : JVal

/-- What one call of a service function did: the document it returns (`none` for `null`)
or the thrown value, the store (`none` when no document was created), and the result of
the pipeline when it was run. -/
structure ServiceRun where
  outcome : Outcome (Option AnalysisRecord)
  store : Option Store
  pipeline : Option PipelineRun

/-- The document made by `Analysis.create` in `analyzeImage`, with the paths the call
gives. The defaults of the schema for paths it does not give (a detection that holds a
severity only, empty recommendation lists) are left out: `detection` and
`recommendations` stand for results that a stage has written. -/
def createdRecord (svc : ServiceEnv) (input : AnalyzeInput) : AnalysisRecord where
  status := "pending"
  detection := none
  recommendations := .undefined
  processingSteps := [⟨"creation", "completed",
    .obj [("message", .str "Analysis record created")], .undefined⟩]
  error := .null
  aiProvider := match input.provider with
    | .undefined => .str "groq"
    | v => v
  rawImageAnalysis := .undefined
  id := svc.newId
  imageUrl := input.imageUrlFallback
  crop := input.crop
  location := some input.location

/-- The block "Upload to Cloudinary if configured": the address handed to the pipeline
and the store afterwards. The address is the uploaded one as soon as the upload
succeeded, also when saving it to the document is rejected. -/
def uploadStep (svc : ServiceEnv) (input : AnalyzeInput) (store : Store) : String × Store :=
  if svc.cloudinaryConfigured then
    match svc.upload with
    | .error _ => (input.imageUrlFallback, store)
    | .ok url => (url, (store.findByIdAndUpdate (fun r => { r with imageUrl := url })).2)
  else (input.imageUrlFallback, store)

/-- The outer `catch` block of `analyzeImage` when the document exists: it marks the
document as failed with the message, appends a step, saves, and rethrows; a rejected save
is what leaves the function instead. The save sends the pushed step as an append and the
changed paths as assignments. -/
def analyzeImageFailure (store : Store) (imageUrl message errorType : String) :
    Outcome (Option AnalysisRecord) × Store :=
  match store.findByIdAndUpdate (fun r =>
      pushStep ⟨"error_handling", "completed", .obj [("errorType", .str errorType)],
        .str message⟩
        { r with status := "failed",
                 error := .str (if message != "" then message else errorType),
                 imageUrl := imageUrl }) with
  | (.error m, store) => (.error (.error m), store)
  | (.ok _, store) => (.error (.error message), store)

/-- The function `analyzeImage` of the detection service. Removing the local file is not
modelled. -/
def analyzeImage (env : Env) (svc : ServiceEnv) (input : AnalyzeInput) : ServiceRun :=
  match svc.createError with
  | some m => ⟨.error (.error m), none, none⟩
  | none =>
    let store : Store := ⟨createdRecord svc input, svc.writeErrors, svc.castMessage⟩
    let uploaded := uploadStep svc input store
    let pipelineData : AnalysisData := {
      analysisId := some svc.newId,
      imageUrl := some uploaded.1,
      cropType := input.crop,
      crop := none,
      location := some input.location,
      provider := match input.provider with
        | .undefined => .str "groq"
        | v => v }
    let run := executeAnalysisPipeline env pipelineData uploaded.2
    match run.outcome with
    | .error .undef =>
      ⟨.error (.error (readOfNullishMsg .undefined "message")), some run.store, some run⟩
    | .error (.error m) =>
      let r := analyzeImageFailure run.store uploaded.1 m "Error"
      ⟨r.1, some r.2, some run⟩
    | .ok _ =>
      match svc.refresh with
      | .found => ⟨.ok (some run.store.record), some run.store, some run⟩
      | .missing =>
        let r := analyzeImageFailure run.store uploaded.1
          "Analysis record not found after pipeline execution" "Error"
        ⟨r.1, some r.2, some run⟩
      | .failed m t =>
        let r := analyzeImageFailure run.store uploaded.1 m t
        ⟨r.1, some r.2, some run⟩

/-- The object `pipelineData` that `retryFailedAnalysis` builds from the document. -/
def retryData (record : AnalysisRecord) : AnalysisData where
  analysisId := some record.id
  imageUrl := some record.imageUrl
  cropType := record.crop
  crop := none
  location := record.location
  provider := record.aiProvider

/-- The function `retryFailedAnalysis(analysisId, userId)`, given the outcome `lookup` of
`getAnalysis` and the outcome `refresh` of the read after the pipeline. -/
def retryFailedAnalysis (env : Env) (lookup refresh : ReadOutcome) (store : Store) :
    ServiceRun :=
  match lookup with
  | .failed m _ => ⟨.error (.error m), some store, none⟩
  | .missing => ⟨.error (.error "Analysis not found"), some store, none⟩
  | .found =>
    if store.record.status != "failed" then
      ⟨.error (.error "Only failed analyses can be retried"), some store, none⟩
    else
      match store.findByIdAndUpdate (fun r =>
          pushStep ⟨"retry_initiated", "completed",
            .obj [("message", .str "Analysis retry initiated")], .undefined⟩
            { r with status := "pending", error := .null }) with
      | (.error m, store) => ⟨.error (.error m), some store, none⟩
      | (.ok _, store1) =>
        let run := executeAnalysisPipeline env (retryData store.record) store1
        match run.outcome with
        | .error e => ⟨.error e, some run.store, some run⟩
        | .ok _ =>
          match refresh with
          | .found => ⟨.ok (some run.store.record), some run.store, some run⟩
          | .missing => ⟨.ok none, some run.store, some run⟩
          | .failed m _ => ⟨.error (.error m), some run.store, some run⟩

/-! ## Sample worlds -/

/-- A reply of the chat-completions endpoint carrying `content` as the text of its first
choice. -/
def chatCompletion (content : String) : JVal :=
  .obj [("choices", .arr [.obj [("message", .obj [("content", .str content)])]])]

/-- A reply of the `generateContent` endpoint carrying `text` as the first part of its
first candidate. -/
def generateContentReply (text : String) : JVal :=
  .obj [("candidates", .arr [.obj [("content", .obj [("parts", .arr [.obj [("text",
    .str text)]])])]])]

/-- A response with status 200 whose body decodes to `v`. -/
def okJson (v : JVal) : FetchOutcome := .response ⟨200, "", .ok v⟩

/-- A response with the given status and body text, whose body is not JSON. -/
def plainResponse (status : Nat) (text : String) : FetchOutcome :=
  .response ⟨status, text, .error "Unexpected token in JSON at position 0"⟩

/-- The image is served. -/
def imageServed : FetchOutcome := .response ⟨200, "image-bytes", .error "not json"⟩

/-- A reply in prose, without any JSON. -/
def proseReply : String := "I cannot analyze this image"

/-- A JSON reply whose confidence is a word. -/
def wordConfidenceReply : String :=
  "\x7b\"disease\": \"Leaf Rust\", \"confidence\": \"high\"\x7d"

/-- A well-formed JSON reply. -/
def leafRustReply : String :=
  "\x7b\"disease\": \"Leaf Rust\", \"confidence\": 0.92\x7d"

/-- The function `JSON.parse` on the replies used below: the two JSON replies decode to
their objects; the only other text it is applied to is the prose reply, a syntax error. -/
def sampleJsonParse (s : String) : Except String JVal :=
  if s == wordConfidenceReply then
    .ok (.obj [("disease", .str "Leaf Rust"), ("confidence", .str "high")])
  else if s == leafRustReply then
    .ok (.obj [("disease", .str "Leaf Rust"), ("confidence", .num (.fin (23 / 25)))])
  else .error "Unexpected token I in JSON at position 0"

/-- A world in which both keys are set, images are served, and every backend answers
with status 200 and the given reply text. -/
def worldWith (groqKey geminiKey : Option String) (groqReply geminiReply : String) : Env where
  config := ⟨groqKey, geminiKey⟩
  jsonParse := sampleJsonParse
  numberToString := fun _ => "0"
  groqApi := okJson (chatCompletion groqReply)
  geminiImage := fun _ => imageServed
  geminiApi := fun _ => okJson (generateContentReply geminiReply)
  hfImage := imageServed
  hfApi := fun _ => plainResponse 200 "<html>"

/-- A message for the cast errors of the sample stores, naming the path. -/
def sampleCastMessage (path : String) (_ : JVal) : String :=
  "Cast failed for the value at path \"" ++ path ++ "\""

/-- A store holding a record in the state the earlier stages leave it in. -/
def sampleStore : Store where
  record := ⟨"processing", none, .undefined, [], .null, .str "groq", .undefined,
    "64f0c0ffee", "http://x/img.jpg", some "wheat", some ⟨none, some "Punjab"⟩⟩
  writeErrors := []
  castMessage := sampleCastMessage

/-- A pipeline state as the image-analysis stage leaves it, for a given analysis. -/
def stateWith (imageAnalysis : JVal) : AnalysisState where
  analysisId := some "64f0c0ffee"
  imageUrl := some "http://x/img.jpg"
  cropType := some "wheat"
  location := some ⟨none, some "Punjab"⟩
  provider := .str "groq"
  imageAnalysis := imageAnalysis
  diseaseDetection := none
  recommendations := .null
  finalResult := .null
  errors := []
  currentStep := "imageAnalysis"
  stepResults := []

/-- A fallback response in the sense of the provider contract: the given disease label,
confidence 0, severity `unknown`, and the given message in the `error` field. -/
def FallbackShape (v : JVal) (label message : String) : Prop :=
  v.get "disease" = .str label ∧ v.get "confidence" = .num (.fin 0) ∧
    v.get "severity" = .str "unknown" ∧ v.get "error" = .str message

/-- World of the first selector scenario: Groq answers in prose, Gemini with a well-formed
result. -/
def proseWorld : Env := worldWith (some "gsk-key") (some "gem-key") proseReply leafRustReply

/-- World in which Groq answers with a word for the confidence. -/
def wordWorld : Env := worldWith (some "gsk-key") (some "gem-key") wordConfidenceReply leafRustReply

/-! ## Definitions used by the statements -/

/-- The three provider names. -/
def providerNames : List String := ["groq", "gemini", "huggingface"]

/-- The call the selector makes for a provider name. -/
def providerCall (env : Env) (cropType : Option String) (providerName : String) : Call :=
  match createProvider env.config providerName with
  | .ok provider => provider.analyzeImage env cropType
  | .error e => ⟨.error e, 0⟩

/-- The next write to the store is not scripted to fail. -/
def Store.nextWriteOk (store : Store) : Bool :=
  match store.writeErrors with
  | some _ :: _ => false
  | _ => true

/-- An analysis with confidence one tenth. -/
def lowAnalysis : JVal :=
  .obj [("disease", .str "Leaf Rust"), ("confidence", .num (.fin (1 / 10))),
        ("severity", .str "high"), ("provider", .str "groq")]

/-- An analysis with confidence 0.92. -/
def highAnalysis : JVal :=
  .obj [("disease", .str "Leaf Rust"), ("confidence", .num (.fin (23 / 25))),
        ("severity", .str "low"), ("provider", .str "gemini")]

/-- A JSON reply that names a disease and nothing else. -/
def bareReply : String := "\x7b\"disease\": \"Leaf Rust\"\x7d"

/-- The function `JSON.parse` on the bare reply, which decodes to its object, and on the
prose reply, a syntax error. -/
def bareJsonParse (s : String) : Except String JVal :=
  if s == bareReply then .ok (.obj [("disease", .str "Leaf Rust")])
  else .error "Unexpected token I in JSON at position 0"

/-- World in which the Gemini backend answers every request with status 503, while Groq
(with the given key) answers with a well-formed result. -/
def overloadedWorld (groqKey : Option String) : Env where
  config := ⟨groqKey, some "gem-key"⟩
  jsonParse := bareJsonParse
  numberToString := fun _ => "0"
  groqApi := okJson (chatCompletion bareReply)
  geminiImage := fun _ => imageServed
  geminiApi := fun _ => plainResponse 503 "The model is overloaded"
  hfImage := imageServed
  hfApi := fun _ => plainResponse 200 "<html>"

/-- The message the `catch` block of the selector records for an attempt, if any: the
message of a thrown `Error`, or of the `TypeError` raised by reading the disease of a
`null` result. A returned result that fails the test records nothing. -/
def caughtMessage (o : Outcome JVal) : Option String :=
  match o with
  | .error (.error m) => some m
  | .error .undef => none
  | .ok r => if r.nullish then some (readOfNullishMsg r "disease") else none

/-- An attempt that fails in one of the two ways the selector handles: it throws an
`Error`, or it returns a result that does not pass the test. -/
def FailsCleanly (o : Outcome JVal) : Prop :=
  (∃ m, o = .error (.error m)) ∨ (∃ r, o = .ok r ∧ (r.nullish = true ∨ meaningful r = false))

/-- The value of `lastError` after the attempts `names`, all failing, starting from
`lastError`. -/
def lastCaught (env : Env) (cropType : Option String) (names : List String)
    (lastError : Option String) : Option String :=
  match (names.filterMap
      (fun n => caughtMessage (providerCall env cropType n).outcome)).getLast? with
  | some m => some m
  | none => lastError

/-- World in which neither Groq nor HuggingFace has a key and Gemini answers in prose. -/
def lastErrorWorld : Env := worldWith none (some "gem-key") proseReply proseReply

/-- World in which the Gemini backend rejects the key on every request with status 400,
and the Groq backend rejects the key with status 401. -/
def rejectedKeyWorld : Env where
  config := ⟨some "bad-gsk-key", some "bad-gem-key"⟩
  jsonParse := bareJsonParse
  numberToString := fun _ => "0"
  groqApi := plainResponse 401 "Invalid API Key"
  geminiImage := fun _ => imageServed
  geminiApi := fun _ => plainResponse 400 "API key not valid"
  hfImage := imageServed
  hfApi := fun _ => plainResponse 401 "Invalid credentials"

/-! ## Definitions used by the statements about the pipeline -/

/-- The store after an accepted write of `update`. -/
def Store.accept (store : Store) (update : AnalysisRecord → AnalysisRecord) : Store :=
  { store with record := update store.record, writeErrors := store.writeErrors.tail }

/-- The store after a rejected write. -/
def Store.reject (store : Store) : Store :=
  { store with writeErrors := store.writeErrors.tail }

/-- The message with which the next write is rejected, if it is. -/
def Store.nextRejection (store : Store) : Option String :=
  match store.writeErrors with
  | some m :: _ => some m
  | _ => none

/-- The store accepts every write. -/
def Store.healthy (store : Store) : Prop := ∀ w ∈ store.writeErrors, w = none

/-- The common shape of the four stages whose `catch` block appends a failed step: the
`try` block computes a new state and an update (or throws), sends the update, and the
`catch` block records the error under `step`, sends `failUpdate` and rethrows. -/
def runStage (step : String) (failUpdate : String → AnalysisRecord → AnalysisRecord)
    (attempt : Except String (AnalysisState × (AnalysisRecord → AnalysisRecord)))
    (state : AnalysisState) (store : Store) : StageResult :=
  match attempt with
  | .error m =>
    match store.findByIdAndUpdate (failUpdate m) with
    | (.error m2, store) => ⟨some (.error m2), state.addError step m, store⟩
    | (.ok _, store) => ⟨some (.error m), state.addError step m, store⟩
  | .ok (st, update) =>
    match store.findByIdAndUpdate update with
    | (.error m, store) =>
      match store.findByIdAndUpdate (failUpdate m) with
      | (.error m2, store) => ⟨some (.error m2), st.addError step m, store⟩
      | (.ok _, store) => ⟨some (.error m), st.addError step m, store⟩
    | (.ok _, store) => ⟨none, st, store⟩

/-- The update of a failed step that only appends the step. -/
def failedStep (step : String) (message : String) : AnalysisRecord → AnalysisRecord :=
  pushStep ⟨step, "failed", .undefined, .str message⟩

/-- The update of the `catch` block of `finalizeResults`. -/
def failedFinalization (message : String) : AnalysisRecord → AnalysisRecord :=
  fun r => pushStep ⟨"finalization", "failed", .undefined, .str message⟩
    { r with status := "failed", error := .str message }

/-- The `try` block of `performImageAnalysis` as an attempt: the new state and the update
to send. -/
def imageAttempt (env : Env) (state : AnalysisState) :
    Except String (AnalysisState × (AnalysisRecord → AnalysisRecord)) :=
  match (analyzeWithFallback env state.cropType state.provider).outcome with
  | .error (.error m) => .error m
  | .error .undef => .error (readOfNullishMsg .undefined "message")
  | .ok result =>
    if result.nullish then .error (readOfNullishMsg result "disease")
    else if !(result.get "disease").truthy then
      .error "AI provider returned incomplete analysis - missing disease information"
    else
      .ok (({ state with imageAnalysis := result }).updateStep "imageAnalysis" (.obj [
          ("success", .bool true), ("provider", result.get "provider"),
          ("disease", result.get "disease"), ("confidence", result.get "confidence")]),
        fun r => pushStep ⟨"imageAnalysis", "completed",
            .obj [("provider", result.get "provider"), ("detected", result.get "disease"),
                  ("confidence", result.get "confidence")], .undefined⟩
            { r with aiProvider := result.get "provider", rawImageAnalysis := result })

/-- The `try` block of `processDiseaseDetection` as an attempt. -/
def detectionAttempt (state : AnalysisState) :
    Except String (AnalysisState × (AnalysisRecord → AnalysisRecord)) :=
  match buildDetection state with
  | .error m => .error m
  | .ok detection =>
    .ok (({ state with diseaseDetection := some detection }).updateStep "diseaseDetection"
        detection.toJVal,
      fun r => pushStep ⟨"diseaseDetection", "completed",
          .obj [("disease", detection.disease), ("confidence", .num detection.confidence),
                ("severity", detection.severity)], .undefined⟩
          { r with detection := some detection.stored })

/-- The `try` block of `generateRecommendations` as an attempt. -/
def recommendationsAttempt (env : Env) (state : AnalysisState) :
    Except String (AnalysisState × (AnalysisRecord → AnalysisRecord)) :=
  match buildRecommendations env state with
  | .error m => .error m
  | .ok recommendations =>
    .ok (({ state with recommendations := recommendations.toJVal }).updateStep
        "recommendations" (.obj [
          ("success", .bool true),
          ("treatmentCount", .num (.fin recommendations.treatment.length)),
          ("fertilizerCount", .num (.fin recommendations.fertilizers.length))]),
      fun r => pushStep ⟨"recommendations", "completed",
          .obj [("treatmentOptions", .num (.fin recommendations.treatment.length)),
                ("fertilizerOptions", .num (.fin recommendations.fertilizers.length)),
                ("homeRemediesCount", recommendations.homeRemedies.lengthOf)], .undefined⟩
          { r with recommendations := recommendations.toJVal })

/-- The `try` block of `finalizeResults` as an attempt. -/
def finalizationAttempt (state : AnalysisState) :
    Except String (AnalysisState × (AnalysisRecord → AnalysisRecord)) :=
  match state.diseaseDetection with
  | none => .error "Cannot finalize - missing detection or recommendations"
  | some detection =>
    if !state.recommendations.truthy then
      .error "Cannot finalize - missing detection or recommendations"
    else
      .ok ({ state with finalResult := buildFinalResult state detection },
        fun r => pushStep ⟨"finalization", "completed",
            .obj [("message", .str "Analysis completed successfully")], .undefined⟩
            { r with status := "completed",
                     aiProvider := detection.analysisProvider.or state.provider })

/-- A property of the record that every update sent by the pipeline keeps: the update of
a successful initialization, the update of each successful attempt, the append of a failed
step, and every update that marks the record as failed with a message. -/
structure KeptByWrites (env : Env) (P : AnalysisRecord → Prop) : Prop where
  initialization : ∀ r, P r →
    P (pushStep ⟨"initialization", "completed",
      .obj [("message", .str "Analysis pipeline started")], .undefined⟩
      { r with status := "processing" })
  image : ∀ state st update, imageAttempt env state = .ok (st, update) → ∀ r, P r → P (update r)
  detection : ∀ state st update, detectionAttempt state = .ok (st, update) →
    ∀ r, P r → P (update r)
  recommendations : ∀ state st update, recommendationsAttempt env state = .ok (st, update) →
    ∀ r, P r → P (update r)
  finalization : ∀ state st update, finalizationAttempt state = .ok (st, update) →
    ∀ r, P r → P (update r)
  failed : ∀ step m r, P r → P (failedStep step m r)
  markedFailed : ∀ entry m r, P r → P (pushStep entry { r with status := "failed", error := .str m })

/-- The invariant "a failed record carries an error message". -/
def FailedHasError (r : AnalysisRecord) : Prop := r.status = "failed" → ∃ m, r.error = .str m

/-- The invariant "a completed record has a detection and recommendations". -/
def CompletedHasResults (r : AnalysisRecord) : Prop :=
  r.status = "completed" → r.detection.isSome = true ∧ r.recommendations.truthy = true

/-- The message that `handleError` writes for a state: the message of the latest error
when there is one and it is not empty, else the default text. -/
def handleErrorMessage (state : AnalysisState) : String :=
  match state.errors.getLast? with
  | some e => if e.error != "" then e.error else "Unknown error occurred"
  | none => "Unknown error occurred"

/-- The graph state after a node whose step function returned `result`: the object that
the node function returns, merged into the incoming state. -/
def mergeState (state result : AnalysisState) (stepKey : String) : AnalysisState :=
  { state with
    currentStep := stepKey,
    imageAnalysis := result.imageAnalysis.or state.imageAnalysis,
    diseaseDetection := match result.diseaseDetection with
      | some d => some d
      | none => state.diseaseDetection,
    recommendations := result.recommendations.or state.recommendations,
    finalResult := result.finalResult.or state.finalResult,
    stepResults := result.stepResults,
    errors := result.errors,
    provider := (result.imageAnalysis.optGet "provider").or state.provider }

/-- The graph state after a node whose step function threw an error with message `m`,
having left `errors` in its state. -/
def failState (state : AnalysisState) (errors : List ErrorEntry) (nodeName m : String) :
    AnalysisState :=
  { state with errors := errors ++ [⟨nodeName, m⟩], currentStep := "error" }

/-- The key `stepKey` under which a stage node is created, which is also the name of the
step it appends. -/
def Node.stepKey : Node → String
  | .initializeAnalysis => "initialization"
  | .performImageAnalysis => "imageAnalysis"
  | .processDiseaseDetection => "diseaseDetection"
  | .generateRecommendations => "recommendations"
  | .finalizeResults => "finalization"
  | .handleError => "error_handling"

/-- The five stage nodes in pipeline order. -/
def stageNodes : List Node :=
  [.initializeAnalysis, .performImageAnalysis, .processDiseaseDetection,
   .generateRecommendations, .finalizeResults]

/-- The trace of a run in which the five stages succeed. -/
def successTrace : List (String × Option Thrown) := stageNodes.map (fun n => (n.name, none))

/-- The graph state and the record agree: a completed record has its results, and what the
state holds of detection and recommendations has been written. -/
def Coupled (state : AnalysisState) (r : AnalysisRecord) : Prop :=
  CompletedHasResults r ∧
  (state.diseaseDetection.isSome = true → r.detection.isSome = true) ∧
  (state.recommendations.truthy = true → r.recommendations.truthy = true)

/-- The stage that follows a stage in the pipeline (`none` after the last one). -/
def Node.nextStage : Node → Option Node
  | .initializeAnalysis => some .performImageAnalysis
  | .performImageAnalysis => some .processDiseaseDetection
  | .processDiseaseDetection => some .generateRecommendations
  | .generateRecommendations => some .finalizeResults
  | .finalizeResults => none
  | .handleError => none

/-- The stages from a stage to the end of the pipeline. -/
def Node.chain : Node → List Node
  | .initializeAnalysis => stageNodes
  | .performImageAnalysis => stageNodes.drop 1
  | .processDiseaseDetection => stageNodes.drop 2
  | .generateRecommendations => stageNodes.drop 3
  | .finalizeResults => stageNodes.drop 4
  | .handleError => []

/-- The names and statuses of the steps of a record. -/
def stepNames (r : AnalysisRecord) : List (String × String) :=
  r.processingSteps.map (fun e => (e.step, e.status))

/-- The two ways a run of the graph can go from a stage on, `store` and `pre` being the
store and the trace at that point. Either every stage of `chain` succeeds: the run
returns an error-free state at step `finalization` with a final result, and each stage
has appended its completed step. Or some stage throws after the stages before it
succeeded: `handleError` runs next and ends the run, returning a state whose latest error
carries the message thrown, or throwing the message of its rejected write. -/
def RunShape (store : Store) (pre : List (String × Option Thrown)) (chain : List Node)
    (run : GraphRun) : Prop :=
  (∃ gs, run.outcome = .ok gs ∧ gs.errors = [] ∧ gs.currentStep = "finalization" ∧
      gs.finalResult.truthy = true ∧
      run.trace = pre ++ chain.map (fun n => (n.name, none)) ∧
      stepNames run.store.record =
        stepNames store.record ++ chain.map (fun n => (n.stepKey, "completed"))) ∨
  (∃ done failed rest m h, chain = done ++ failed :: rest ∧
      run.trace = pre ++ done.map (fun n => (n.name, none)) ++
        [(failed.name, some (.error m)), ("handleError", h)] ∧
      ((h = none ∧ ∃ gs, run.outcome = .ok gs ∧ gs.errors ≠ [] ∧
          gs.errors.getLast?.map (fun e => e.error) = some m) ∨
        (∃ m2, h = some (.error m2) ∧ run.outcome = .error (.error m2))))

/-- A property of the record that the writes of the detection service keep: the saved
image address, the write of a `catch` block that marks the document as failed, and the
write that `retryFailedAnalysis` starts with. -/
structure KeptByService (P : AnalysisRecord → Prop) : Prop where
  imageUrl : ∀ url r, P r → P { r with imageUrl := url }
  failed : ∀ entry m url r, P r →
    P (pushStep entry { r with status := "failed", error := .str m, imageUrl := url })
  retry : ∀ r, P r →
    P (pushStep ⟨"retry_initiated", "completed",
      .obj [("message", .str "Analysis retry initiated")], .undefined⟩
      { r with status := "pending", error := .null })

/-- Pipeline data of the sample analysis, with Groq preferred. -/
def sampleData : AnalysisData where
  analysisId := some "64f0c0ffee"
  imageUrl := some "http://x/img.jpg"
  cropType := some "wheat"
  crop := none
  location := some ⟨none, some "Punjab"⟩
  provider := .str "groq"

/-- Pipeline data without an image address. -/
def missingImageData : AnalysisData := { sampleData with imageUrl := none }

/-- World in which both keys are set and both backends answer with the bare reply. -/
def bareWorld : Env where
  config := ⟨some "gsk-key", some "gem-key"⟩
  jsonParse := bareJsonParse
  numberToString := fun _ => "0"
  groqApi := okJson (chatCompletion bareReply)
  geminiImage := fun _ => imageServed
  geminiApi := fun _ => okJson (generateContentReply bareReply)
  hfImage := imageServed
  hfApi := fun _ => plainResponse 200 "<html>"

/-- World in which the Gemini backend answers every request with status 503, while Groq
answers with Leaf Rust at confidence 0.92. -/
def busyGeminiWorld : Env where
  config := ⟨some "gsk-key", some "gem-key"⟩
  jsonParse := sampleJsonParse
  numberToString := fun _ => "0"
  groqApi := okJson (chatCompletion leafRustReply)
  geminiImage := fun _ => imageServed
  geminiApi := fun _ => plainResponse 503 "The model is overloaded"
  hfImage := imageServed
  hfApi := fun _ => plainResponse 200 "<html>"

/-- World in which both keys are set and every backend answers with text that holds no
detection result. -/
def allProseWorld : Env := worldWith (some "gsk-key") (some "gem-key") proseReply proseReply

/-- Surroundings of a call of `analyzeImage` in which the store accepts every operation
and Cloudinary is not configured. -/
def sampleService : ServiceEnv where
  newId := "64f0c0ffee"
  createError := none
  writeErrors := []
  castMessage := sampleCastMessage
  cloudinaryConfigured := false
  upload := .error "not configured"
  refresh := .found

/-- The sample submission, with the given preferred provider. -/
def sampleInput (provider : String) : AnalyzeInput where
  imageUrlFallback := "http://x/img.jpg"
  crop := some "wheat"
  location := ⟨none, some "Punjab"⟩
  provider := .str provider

/-- A store holding the record of a run that failed at the image analysis. -/
def failedStore : Store where
  record := { sampleStore.record with
    status := "failed",
    error := .str "All providers failed. Last error: GROQ_API_KEY not configured",
    processingSteps := [
      ⟨"creation", "completed", .obj [("message", .str "Analysis record created")], .undefined⟩,
      ⟨"initialization", "completed", .obj [("message", .str "Analysis pipeline started")],
        .undefined⟩,
      ⟨"imageAnalysis", "failed", .undefined,
        .str "All providers failed. Last error: GROQ_API_KEY not configured"⟩,
      ⟨"error_handling", "completed", .obj [("errorStep", .str "performImageAnalysis")],
        .str "All providers failed. Last error: GROQ_API_KEY not configured"⟩] }
  writeErrors := []
  castMessage := sampleCastMessage

/-- The write with which `retryFailedAnalysis` resets a failed document. -/
def retryUpdate : AnalysisRecord → AnalysisRecord :=
  fun r => pushStep ⟨"retry_initiated", "completed",
    .obj [("message", .str "Analysis retry initiated")], .undefined⟩
    { r with status := "pending", error := .null }

/-- What `retryFailedAnalysis` returns after the pipeline has run. -/
def retryOutcome (refresh : ReadOutcome) (run : PipelineRun) : Outcome (Option AnalysisRecord) :=
  match run.outcome with
  | .error e => .error e
  | .ok _ =>
    match refresh with
    | .found => .ok (some run.store.record)
    | .missing => .ok none
    | .failed m _ => .error (.error m)

/-- The object `pipelineData` that `analyzeImage` hands to the pipeline, given the image
address after the upload block. -/
def submittedData (svc : ServiceEnv) (input : AnalyzeInput) (imageUrl : String) :
    AnalysisData where
  analysisId := some svc.newId
  imageUrl := some imageUrl
  cropType := input.crop
  crop := none
  location := some input.location
  provider := match input.provider with
    | .undefined => .str "groq"
    | v => v

/-- The store holding the document that `analyzeImage` has just created. -/
def createdStore (svc : ServiceEnv) (input : AnalyzeInput) : Store :=
  ⟨createdRecord svc input, svc.writeErrors, svc.castMessage⟩

/-- The run of the pipeline that `analyzeImage` starts. -/
def submittedRun (env : Env) (svc : ServiceEnv) (input : AnalyzeInput) : PipelineRun :=
  executeAnalysisPipeline env
    (submittedData svc input (uploadStep svc input (createdStore svc input)).1)
    (uploadStep svc input (createdStore svc input)).2

/-- The steps of a new analysis whose run succeeded: the step of the creation, then one
completed step per stage. -/
def stepsOfSuccess : List (String × String) :=
  ("creation", "completed") :: stageNodes.map (fun n => (n.stepKey, "completed"))

/-! ## Definitions used by the statements about the later claims -/

/-- The severities the data model names. -/
def severityNames : List String := ["low", "medium", "high", "unknown"]

/-- An analysis whose severity is a word outside the data model, at confidence one half. -/
def severeAnalysis : JVal :=
  .obj [("disease", .str "Leaf Rust"), ("confidence", .num (.fin (1 / 2))),
        ("severity", .str "severe"), ("provider", .str "groq")]

/-- An analysis whose four recommendation fields are empty arrays. -/
def emptyListsAnalysis : JVal :=
  .obj [("disease", .str "Leaf Rust"), ("treatment", .arr []), ("fertilizers", .arr []),
        ("homeRemedies", .arr []), ("prevention", .arr []), ("provider", .str "groq")]

/-- An analysis whose treatment list holds a `null` entry. -/
def nullTreatmentAnalysis : JVal :=
  .obj [("disease", .str "Leaf Rust"), ("treatment", .arr [.null]), ("provider", .str "groq")]

/-- An analysis whose fertilizer list holds a `null` entry. -/
def nullFertilizerAnalysis : JVal :=
  .obj [("disease", .str "Leaf Rust"), ("fertilizers", .arr [.null]), ("provider", .str "groq")]

/-- The recommendations made of fallbacks only, for a crop. -/
def fallbackRecommendations (cropType : Option String) : Recommendations where
  treatment := [.obj [
    ("method", .str "General Treatment"),
    ("description", .str ("Consult local agricultural expert for " ++ templ cropType ++
      " disease management")),
    ("priority", .str "high")]]
  fertilizers := [.str "Balanced NPK fertilizer (10-10-10)",
    .str "Organic compost for soil health"]
  homeRemedies := .arr [.str "Neem oil spray (organic treatment)",
    .str "Proper plant hygiene maintenance"]
  preventiveMeasures := .arr [.str "Regular plant inspection",
    .str "Maintain proper plant spacing", .str "Ensure good drainage and air circulation"]

/-- The values of `currentStep` that the five stage nodes set. -/
def stageSteps : List String :=
  ["initialization", "imageAnalysis", "diseaseDetection", "recommendations", "finalization"]

/-- The four list fields of a reply whose default is the empty array. -/
def plainListFields : List String := ["treatment", "fertilizers", "homeRemedies", "prevention"]

/-- A parsed reply that has a confidence of 0 and an empty severity. -/
def zeroConfidenceReply : List (String × JVal) :=
  [("disease", .str "Leaf Rust"), ("confidence", .num (.fin 0)), ("severity", .str "")]

/-- A parsed reply that names a disease and nothing else. -/
def diseaseOnlyReply : List (String × JVal) := [("disease", .str "Leaf Rust")]

/-- A parsed reply with its own confidence, severity and lists. -/
def fullReply : List (String × JVal) :=
  [("disease", .str "Leaf Rust"), ("confidence", .num (.fin (23 / 25))),
   ("severity", .str "low"), ("symptoms", .arr [.str "Orange pustules"]),
   ("treatment", .arr [.str "Fungicide"]), ("fertilizers", .arr [.str "Potash"]),
   ("homeRemedies", .arr [.str "Neem oil"]), ("prevention", .arr [.str "Crop rotation"])]

/-- The backtick. -/
def tick : Char := '\x60'

/-- Text without a backtick. -/
def NoTick (cs : List Char) : Prop := ∀ c ∈ cs, c ≠ tick

/-- Prose around an embedded object: text without braces and without backticks. -/
def Prose (cs : List Char) : Prop := ∀ c ∈ cs, c ≠ '\x7b' ∧ c ≠ '\x7d' ∧ c ≠ tick

/-- Text made of white space only. -/
def Blank (cs : List Char) : Prop := ∀ c ∈ cs, isWhiteSpace c = true

/-- The text of one JSON object, as far as the extraction can see it: it starts with an
opening brace, ends with a closing brace and holds no backtick. -/
def ObjectText (json : List Char) : Prop :=
  (∃ body, json = '\x7b' :: (body ++ ['\x7d'])) ∧ NoTick json

/-- The reply embeds the object text in one of the three ways: bare or between prose
(`pre` and `post` may be empty), or inside a code fence, labelled `json` or not, that
stands between prose. -/
def Embeds (content json : List Char) : Prop :=
  ∃ pre post, Prose pre ∧ Prose post ∧
    (content = pre ++ json ++ post ∨
      ∃ label ws1 ws2, (label = [] ∨ label = "json".data) ∧ Blank ws1 ∧ Blank ws2 ∧
        content = pre ++ fence ++ label ++ ws1 ++ json ++ ws2 ++ fence ++ post)

/-- No occurrence of the labelled fence in the text is followed by a backtick. -/
def NoLabelledFence (cs : List Char) : Prop :=
  ∀ a r, splitAtFirst (fence ++ "json".data) cs = some (a, r) → NoTick r

/-- The detection fields of a validated reply `out` are those of the parsed object `fs`,
except that a falsy confidence is replaced by 0.5 and a falsy severity by `medium`. -/
def DetectionOf (fs out : List (String × JVal)) : Prop :=
  JVal.lookup "disease" out = JVal.lookup "disease" fs ∧
    JVal.lookup "confidence" out = (JVal.lookup "confidence" fs).or (.num (.fin lit0_5)) ∧
    JVal.lookup "severity" out = (JVal.lookup "severity" fs).or (.str "medium")

/-- A well-formed JSON reply in which the word `safe` occurs inside a prevention advice. -/
def safeWordReply : String :=
  "\x7b\"disease\": \"Leaf Rust\", \"prevention\": [\"Use a food-safe fungicide\"]\x7d"

/-- The object that the reply with the word `safe` decodes to. -/
def safeWordObject : List (String × JVal) :=
  [("disease", .str "Leaf Rust"), ("prevention", .arr [.str "Use a food-safe fungicide"])]

/-- The function `JSON.parse` on the reply with the word `safe`, which decodes to its
object; other texts are taken to be syntax errors. -/
def safeWordParse (s : String) : Except String JVal :=
  if s == safeWordReply then .ok (.obj safeWordObject)
  else .error "Unexpected token I in JSON at position 0"

/-- World in which both backends answer with the reply that holds the word `safe`. -/
def safeWordWorld : Env where
  config := ⟨some "gsk-key", some "gem-key"⟩
  jsonParse := safeWordParse
  numberToString := fun _ => "0"
  groqApi := okJson (chatCompletion safeWordReply)
  geminiImage := fun _ => imageServed
  geminiApi := fun _ => okJson (generateContentReply safeWordReply)
  hfImage := imageServed
  hfApi := fun _ => plainResponse 200 "<html>"

/-- The bare reply preceded by prose that holds a pair of braces of its own. -/
def bracedProseReply : String := "Result \x7bdraft\x7d: \x7b\"disease\": \"Leaf Rust\"\x7d"

/-- The well-formed reply inside a labelled code fence, with prose before and after. -/
def fencedLeafRustReply : String :=
  "Here is the analysis:\n```json\n\x7b\"disease\": \"Leaf Rust\", \"confidence\": 0.92\x7d\n```\nAsk me for details."

/-- A provider result whose confidence is the string `0.8`. -/
def thresholdStringAnalysis : JVal :=
  .obj [("disease", .str "Leaf Rust"), ("confidence", .str "0.8"), ("severity", .str "low"),
        ("provider", .str "groq")]

/-- A provider result whose confidence is the string `0.29999999999999998`, a decimal
below three tenths whose nearest double is the one of the literal `0.3`. -/
def nearThresholdStringAnalysis : JVal :=
  .obj [("disease", .str "Leaf Rust"), ("confidence", .str "0.29999999999999998"),
        ("severity", .str "low"), ("provider", .str "groq")]

/-- The store as the write of the detection meets it: a detection that fails the cast to
the schema is rejected before anything is sent, which is a rejection put in front of the
script of the store. -/
def detectionStore (state : AnalysisState) (store : Store) : Store :=
  match buildDetection state with
  | .ok d =>
    match d.castFailure with
    | some (path, value) =>
      { store with writeErrors := some (store.castMessage path value) :: store.writeErrors }
    | none => store
  | .error _ => store

/-- The stages run one after the other, as the description of the pipeline has it: each
stage node gets the graph state and the store that the one before left, and the first
stage that throws ends the sequence. The result is the stage that threw with what it
threw (`none` when every stage returned), the graph state and the store at the end. -/
def runStages (env : Env) :
    List Node → AnalysisState → Store → Option (Node × Thrown) × AnalysisState × Store
  | [], gs, store => (none, gs, store)
  | n :: rest, gs, store =>
    match (runNode env n gs store).caught, (runNode env n gs store).outcome with
    | none, .ok gs2 => runStages env rest gs2 (runNode env n gs store).store
    | none, .error e => (some (n, e), gs, (runNode env n gs store).store)
    | some e, .ok gs2 => (some (n, e), gs2, (runNode env n gs store).store)
    | some e, .error _ => (some (n, e), gs, (runNode env n gs store).store)

/-! ## Text extraction on sample replies -/

theorem stringToNumber_word : stringToNumber "high" = .nan := rfl

theorem stringToNumber_empty : stringToNumber "" = .fin 0 := rfl

theorem groq_extractJson_fenced :
    GroqProvider.extractJson "Here: ```json\n\x7b\"a\": 1\x7d\n``` done" =
      "\x7b\"a\": 1\x7d".data := rfl

theorem gemini_extractJson_fenced :
    GeminiProvider.extractJson "Here: ```json\n\x7b\"a\": 1\x7d\n``` done" =
      "\x7b\"a\": 1\x7d".data := rfl

theorem gemini_extractJson_empty_fence :
    GeminiProvider.extractJson "Here: ```json ``` \x7b\"a\": 1\x7d" = "```json ```".data := rfl

theorem groq_extractJson_braces :
    GroqProvider.extractJson "  text \x7b\"a\": \x7b\x7d\x7d tail \x7d x" =
      "\x7b\"a\": \x7b\x7d\x7d tail \x7d".data := rfl

/-! ## Basic facts -/

theorem chatCompletion_content (s : String) :
    (((((chatCompletion s).get "choices").optGet "0").optGet "message").optGet "content") =
      .str s := rfl

theorem generateContentReply_text (s : String) :
    (((((((generateContentReply s).get "candidates").optGet "0").optGet "content").optGet
      "parts").optGet "0").optGet "text") = .str s := rfl

theorem truthy_str_of_ne {s : String} (h : s ≠ "") : (JVal.str s).truthy = true := by
  simp [JVal.truthy, h]

theorem groq_fallback_meaningful (m : String) :
    meaningful (GroqProvider.getFallbackResponse m) = true := rfl

theorem huggingface_fallback_meaningful (m : String) :
    meaningful (HuggingFaceProvider.getFallbackResponse m) = true := rfl

theorem gemini_fallback_not_meaningful (m : String) :
    meaningful (GeminiProvider.getFallbackResponse m) = false := rfl

theorem groq_fallbackShape (m : String) :
    FallbackShape (GroqProvider.getFallbackResponse m)
      "Analysis failed - unable to process image" m := ⟨rfl, rfl, rfl, rfl⟩

theorem gemini_fallbackShape (m : String) :
    FallbackShape (GeminiProvider.getFallbackResponse m) "Analysis failed" m :=
  ⟨rfl, rfl, rfl, rfl⟩

theorem huggingface_fallbackShape (m : String) :
    FallbackShape (HuggingFaceProvider.getFallbackResponse m)
      "Unable to analyze with HuggingFace" m := ⟨rfl, rfl, rfl, rfl⟩

/-- A Groq reply in the standard shape with non-empty text is handed to `parseResponse`. -/
theorem groq_analyzeImage_of_reply (env : Env) (self : GroqProvider) (r : Response)
    (s : String) (hkey : truthyStr self.apiKey = true) (hapi : env.groqApi = .response r)
    (hok : r.ok = true) (hjson : r.json = .ok (chatCompletion s)) (hs : s ≠ "") :
    self.analyzeImage env = ⟨.ok (GroqProvider.parseResponse env (.str s)), 1⟩ := by
  have hc := chatCompletion_content s
  have ht := truthy_str_of_ne hs
  simp only [GroqProvider.analyzeImage, hkey, hapi, hok, hjson, readProp,
    show (chatCompletion s).nullish = false from rfl]
  simp [hc, ht]

/-- The Groq parser turns a syntax error of `JSON.parse`, or a safety reply, into its
fallback response. -/
theorem groq_parseResponse_of_syntaxError (env : Env) (s m : String)
    (h : env.jsonParse (String.mk (GroqProvider.extractJson s)) = .error m) :
    ∃ msg, (msg = m ∨ msg = GroqProvider.safetyMessage) ∧
      GroqProvider.parseResponse env (.str s) = GroqProvider.getFallbackResponse msg := by
  unfold GroqProvider.parseResponse GroqProvider.parseResponseTry
  by_cases hsafe : (GroqProvider.extractJson s == "safe".data ||
      includesChars "safe".data (GroqProvider.extractJson s)) = true
  · exact ⟨GroqProvider.safetyMessage, Or.inr rfl, by simp only [hsafe]; rfl⟩
  · exact ⟨m, Or.inl rfl, by simp only [hsafe, h]; rfl⟩

/-- A Gemini reply in the standard shape with non-empty text ends the attempt with the
parsed response. -/
theorem gemini_attemptBody_of_reply (env : Env) (attempt : Nat) (img r : Response)
    (s : String) (himg : env.geminiImage attempt = .response img) (himgok : img.ok = true)
    (hapi : env.geminiApi attempt = .response r) (hok : r.ok = true)
    (hjson : r.json = .ok (generateContentReply s)) (hs : s ≠ "") :
    GeminiProvider.attemptBody env attempt =
      (.returned (GeminiProvider.parseResponse env (.str s)), 1) := by
  have hc := generateContentReply_text s
  have ht := truthy_str_of_ne hs
  have h503 : (r.status == 503) = false := by
    simp only [Response.ok, Bool.and_eq_true, decide_eq_true_eq] at hok
    simp only [beq_eq_false_iff_ne, ne_eq]
    omega
  simp only [GeminiProvider.attemptBody, GeminiProvider.fetchImageAsBase64,
    himg, himgok, hapi, hok, hjson, h503, readProp,
    show (generateContentReply s).nullish = false from rfl]
  simp [hc, ht]

/-- A Gemini reply in the standard shape with non-empty text, on the first attempt, is
handed to `parseResponse`. -/
theorem gemini_analyzeImage_of_reply (env : Env) (self : GeminiProvider) (img r : Response)
    (s : String) (hkey : truthyStr self.apiKey = true)
    (himg : env.geminiImage 1 = .response img) (himgok : img.ok = true)
    (hapi : env.geminiApi 1 = .response r) (hok : r.ok = true)
    (hjson : r.json = .ok (generateContentReply s)) (hs : s ≠ "") :
    self.analyzeImage env = ⟨.ok (GeminiProvider.parseResponse env (.str s)), 1⟩ := by
  have hbody := gemini_attemptBody_of_reply env 1 img r s himg himgok hapi hok hjson hs
  simp only [GeminiProvider.analyzeImage, hkey, GeminiProvider.maxRetries]
  show GeminiProvider.attemptLoop env (2 + 1) 1 none 0 = _
  rw [GeminiProvider.attemptLoop]
  simp [hbody]

/-- The Gemini parser turns a syntax error of `JSON.parse` into its fallback response. -/
theorem gemini_parseResponse_of_syntaxError (env : Env) (s m : String)
    (h : env.jsonParse (String.mk (GeminiProvider.extractJson s)) = .error m) :
    GeminiProvider.parseResponse env (.str s) = GeminiProvider.getFallbackResponse m := by
  simp only [GeminiProvider.parseResponse, GeminiProvider.parseResponseTry, h]

/-- When every model answers with a body that does not decode, the classification loop
throws after one request per model. -/
theorem classifyLoop_of_undecodable (env : Env) (ms : List String) (calls : Nat)
    (h : ∀ model ∈ ms, ∃ r e, env.hfApi model = .response r ∧ r.ok = true ∧ r.json = .error e) :
    HuggingFaceProvider.classifyLoop env ms calls =
      (.error "All HuggingFace models failed", calls + ms.length) := by
  induction ms generalizing calls with
  | nil => rfl
  | cons model rest ih =>
    obtain ⟨r, e, hr, hok, hj⟩ := h model (List.mem_cons_self _ _)
    have hrest := ih (calls + 1) (fun x hx => h x (List.mem_cons_of_mem _ hx))
    simp only [HuggingFaceProvider.classifyLoop, hr, hok, hj, hrest, List.length_cons]
    simp only [if_true, Prod.mk.injEq, true_and]
    omega


/-! ## Steps of the selector loop -/

theorem createProvider_of_mem (config : Config) {name : String} (h : name ∈ providerNames) :
    ∃ p, createProvider config name = .ok p := by
  simp only [providerNames, List.mem_cons, List.mem_singleton, List.not_mem_nil, or_false] at h
  rcases h with h | h | h <;> subst h
  · exact ⟨_, rfl⟩
  · exact ⟨_, rfl⟩
  · exact ⟨_, rfl⟩

/-- An attempt that throws an `Error`: the loop records its message and goes on. -/
theorem selectLoop_raise (env : Env) (cropType : Option String) {name : String}
    (rest : List String) (lastError : Option String) (invoked : List (String × Nat))
    (hname : name ∈ providerNames) {m : String}
    (h : (providerCall env cropType name).outcome = .error (.error m)) :
    selectLoop env cropType (name :: rest) lastError invoked =
      selectLoop env cropType rest (some m)
        (invoked ++ [(name, (providerCall env cropType name).backendCalls)]) := by
  obtain ⟨p, hp⟩ := createProvider_of_mem env.config hname
  simp only [providerCall, hp] at h ⊢
  simp only [selectLoop, hp, h]

/-- An attempt that throws `undefined`: the `catch` block itself throws and the selector
ends at once. -/
theorem selectLoop_undef (env : Env) (cropType : Option String) {name : String}
    (rest : List String) (lastError : Option String) (invoked : List (String × Nat))
    (hname : name ∈ providerNames)
    (h : (providerCall env cropType name).outcome = .error .undef) :
    selectLoop env cropType (name :: rest) lastError invoked =
      ⟨.error (.error "Cannot read properties of undefined (reading \x27message\x27)"),
        invoked ++ [(name, (providerCall env cropType name).backendCalls)]⟩ := by
  obtain ⟨p, hp⟩ := createProvider_of_mem env.config hname
  simp only [providerCall, hp] at h ⊢
  simp only [selectLoop, hp, h]
  rfl

/-- An attempt that returns a result passing the test: the selector returns it with the
provider name set. -/
theorem selectLoop_success (env : Env) (cropType : Option String) {name : String}
    (rest : List String) (lastError : Option String) (invoked : List (String × Nat))
    (hname : name ∈ providerNames) {result : JVal}
    (h : (providerCall env cropType name).outcome = .ok result)
    (hnn : result.nullish = false) (hm : meaningful result = true) :
    selectLoop env cropType (name :: rest) lastError invoked =
      ⟨.ok (.obj (JVal.setField "provider" (.str name) result.ownProps)),
        invoked ++ [(name, (providerCall env cropType name).backendCalls)]⟩ := by
  obtain ⟨p, hp⟩ := createProvider_of_mem env.config hname
  simp only [providerCall, hp] at h ⊢
  simp only [selectLoop, hp, h, hnn, hm]
  simp

/-- An attempt that returns a result failing the test: the loop goes on and `lastError`
keeps its value. -/
theorem selectLoop_rejected (env : Env) (cropType : Option String) {name : String}
    (rest : List String) (lastError : Option String) (invoked : List (String × Nat))
    (hname : name ∈ providerNames) {result : JVal}
    (h : (providerCall env cropType name).outcome = .ok result)
    (hnn : result.nullish = false) (hm : meaningful result = false) :
    selectLoop env cropType (name :: rest) lastError invoked =
      selectLoop env cropType rest lastError
        (invoked ++ [(name, (providerCall env cropType name).backendCalls)]) := by
  obtain ⟨p, hp⟩ := createProvider_of_mem env.config hname
  simp only [providerCall, hp] at h ⊢
  simp only [selectLoop, hp, h, hnn, hm]
  simp

/-- An attempt that returns `null` or `undefined`: reading `result.disease` throws inside
the `try`, and the loop records that error and goes on. -/
theorem selectLoop_nullish (env : Env) (cropType : Option String) {name : String}
    (rest : List String) (lastError : Option String) (invoked : List (String × Nat))
    (hname : name ∈ providerNames) {result : JVal}
    (h : (providerCall env cropType name).outcome = .ok result)
    (hnn : result.nullish = true) :
    selectLoop env cropType (name :: rest) lastError invoked =
      selectLoop env cropType rest (some (readOfNullishMsg result "disease"))
        (invoked ++ [(name, (providerCall env cropType name).backendCalls)]) := by
  obtain ⟨p, hp⟩ := createProvider_of_mem env.config hname
  simp only [providerCall, hp] at h ⊢
  simp only [selectLoop, hp, h, hnn]
  simp

/-- The providers the loop calls are an initial segment of the remaining names, in
order. -/
theorem selectLoop_invoked (env : Env) (cropType : Option String) (names : List String)
    (hnames : ∀ n ∈ names, n ∈ providerNames) (lastError : Option String)
    (invoked : List (String × Nat)) :
    ∃ pre, pre <+: names ∧
      (selectLoop env cropType names lastError invoked).invoked.map Prod.fst =
        invoked.map Prod.fst ++ pre := by
  induction names generalizing lastError invoked with
  | nil => exact ⟨[], List.prefix_refl _, by simp [selectLoop]⟩
  | cons name rest ih =>
    have hname := hnames name (List.mem_cons_self _ _)
    have hrest : ∀ n ∈ rest, n ∈ providerNames := fun n hn => hnames n (List.mem_cons_of_mem _ hn)
    have step : ∀ le, ∃ pre, pre <+: name :: rest ∧
        (selectLoop env cropType rest le
          (invoked ++ [(name, (providerCall env cropType name).backendCalls)])).invoked.map
            Prod.fst = invoked.map Prod.fst ++ pre := by
      intro le
      obtain ⟨pre, hpre, heq⟩ := ih hrest le
        (invoked ++ [(name, (providerCall env cropType name).backendCalls)])
      refine ⟨name :: pre, ?_, ?_⟩
      · exact (List.prefix_cons_inj name).mpr hpre
      · simp [heq]
    have stop : ∃ pre, pre <+: name :: rest ∧
        (invoked ++ [(name, (providerCall env cropType name).backendCalls)]).map Prod.fst =
          invoked.map Prod.fst ++ pre :=
      ⟨[name], by simp, by simp⟩
    cases hout : (providerCall env cropType name).outcome with
    | error e =>
      cases e with
      | error m => rw [selectLoop_raise env cropType rest lastError invoked hname hout]; exact step _
      | undef => rw [selectLoop_undef env cropType rest lastError invoked hname hout]; exact stop
    | ok result =>
      by_cases hnn : result.nullish = true
      · rw [selectLoop_nullish env cropType rest lastError invoked hname hout hnn]; exact step _
      · have hnn2 : result.nullish = false := by simpa using hnn
        by_cases hm : meaningful result = true
        · rw [selectLoop_success env cropType rest lastError invoked hname hout hnn2 hm]
          exact stop
        · have hm2 : meaningful result = false := by simpa using hm
          rw [selectLoop_rejected env cropType rest lastError invoked hname hout hnn2 hm2]
          exact step _

/-! ## Attempt order -/

theorem attemptOrder_cases (preferredProvider : JVal) :
    attemptOrder preferredProvider = ["groq", "gemini", "huggingface"] ∨
    attemptOrder preferredProvider = ["gemini", "groq", "huggingface"] ∨
    attemptOrder preferredProvider = ["huggingface", "groq", "gemini"] := by
  cases preferredProvider with
  | str p =>
    by_cases h1 : p = "groq"
    · subst h1; exact Or.inl rfl
    · by_cases h2 : p = "gemini"
      · subst h2; exact Or.inr (Or.inl rfl)
      · by_cases h3 : p = "huggingface"
        · subst h3; exact Or.inr (Or.inr rfl)
        · left
          simp [attemptOrder, h1, h2, h3]
  | _ => exact Or.inl rfl

theorem attemptOrder_mem (preferredProvider : JVal) :
    ∀ n ∈ attemptOrder preferredProvider, n ∈ providerNames := by
  rcases attemptOrder_cases preferredProvider with h | h | h <;> rw [h] <;> decide


/-! ## Claims about the fallback payloads (C1, C2) -/

/-- C1, code defect shown at a concrete input: the Groq backend answers in prose, the Groq
adapter returns its own fallback payload without raising, and `analyzeWithFallback`
returns that payload as a success with provider `groq`; Gemini, whose call would have
given a usable result, is never called. -/
theorem groq_fallback_payload_returned :
    ((GroqProvider.new proseWorld.config).analyzeImage proseWorld).outcome =
        .ok (GroqProvider.getFallbackResponse "Unexpected token I in JSON at position 0") ∧
    analyzeWithFallback proseWorld (some "wheat") (.str "groq") =
      ⟨.ok (.obj (JVal.setField "provider" (.str "groq")
          (GroqProvider.getFallbackResponse
            "Unexpected token I in JSON at position 0").ownProps)),
        [("groq", 1)]⟩ ∧
    (∃ r, (providerCall proseWorld (some "wheat") "gemini").outcome = .ok r ∧
      meaningful r = true) :=
  ⟨rfl, rfl, _, rfl, rfl⟩

/-- C2, counterexample: the Groq backend answers with text that `JSON.parse` rejects; the
adapter returns a result whose disease is not the string `Analysis failed`. -/
theorem groq_unparseable_label_differs :
    proseWorld.jsonParse (String.mk (GroqProvider.extractJson proseReply)) =
        .error "Unexpected token I in JSON at position 0" ∧
    ∃ v, ((GroqProvider.new proseWorld.config).analyzeImage proseWorld).outcome = .ok v ∧
      v.get "disease" = .str "Analysis failed - unable to process image" ∧
      ¬ FallbackShape v "Analysis failed" "Unexpected token I in JSON at position 0" := by
  refine ⟨rfl, GroqProvider.getFallbackResponse "Unexpected token I in JSON at position 0",
    rfl, rfl, ?_⟩
  intro h
  have h1 : JVal.str "Analysis failed - unable to process image" = JVal.str "Analysis failed" :=
    h.1
  injection h1 with h1
  exact absurd h1 (by decide)

/-- C2, amended: a reply that cannot be parsed makes each adapter return, without raising,
its own fallback response, with confidence 0, severity `unknown` and a message in `error`.
The disease label is `Analysis failed` for Gemini, `Analysis failed - unable to process
image` for Groq and `Unable to analyze with HuggingFace` for HuggingFace. The message is
the one of the parse error for Gemini, that or the safety message for Groq, and
`All HuggingFace models failed` for HuggingFace. -/
theorem unparseable_reply_gives_fallback :
    (∀ (env : Env) (self : GroqProvider) (r : Response) (s m : String),
      truthyStr self.apiKey = true → env.groqApi = .response r → r.ok = true →
      r.json = .ok (chatCompletion s) → s ≠ "" →
      env.jsonParse (String.mk (GroqProvider.extractJson s)) = .error m →
      ∃ msg, (msg = m ∨ msg = GroqProvider.safetyMessage) ∧
        (self.analyzeImage env).outcome = .ok (GroqProvider.getFallbackResponse msg) ∧
        FallbackShape (GroqProvider.getFallbackResponse msg)
          "Analysis failed - unable to process image" msg) ∧
    (∀ (env : Env) (self : GeminiProvider) (img r : Response) (s m : String),
      truthyStr self.apiKey = true → env.geminiImage 1 = .response img → img.ok = true →
      env.geminiApi 1 = .response r → r.ok = true →
      r.json = .ok (generateContentReply s) → s ≠ "" →
      env.jsonParse (String.mk (GeminiProvider.extractJson s)) = .error m →
      (self.analyzeImage env).outcome = .ok (GeminiProvider.getFallbackResponse m) ∧
        FallbackShape (GeminiProvider.getFallbackResponse m) "Analysis failed" m) ∧
    (∀ (env : Env) (self : HuggingFaceProvider) (cropType : Option String) (img : Response),
      truthyStr self.apiKey = true → env.hfImage = .response img → img.ok = true →
      (∀ model ∈ HuggingFaceProvider.models,
        ∃ r e, env.hfApi model = .response r ∧ r.ok = true ∧ r.json = .error e) →
      (self.analyzeImage env cropType).outcome =
          .ok (HuggingFaceProvider.getFallbackResponse "All HuggingFace models failed") ∧
        FallbackShape (HuggingFaceProvider.getFallbackResponse "All HuggingFace models failed")
          "Unable to analyze with HuggingFace" "All HuggingFace models failed") := by
  refine ⟨?_, ?_, ?_⟩
  · intro env self r s m hkey hapi hok hjson hs hparse
    obtain ⟨msg, hmsg, hresp⟩ := groq_parseResponse_of_syntaxError env s m hparse
    refine ⟨msg, hmsg, ?_, groq_fallbackShape msg⟩
    rw [groq_analyzeImage_of_reply env self r s hkey hapi hok hjson hs, hresp]
  · intro env self img r s m hkey himg himgok hapi hok hjson hs hparse
    refine ⟨?_, gemini_fallbackShape m⟩
    rw [gemini_analyzeImage_of_reply env self img r s hkey himg himgok hapi hok hjson hs,
      gemini_parseResponse_of_syntaxError env s m hparse]
  · intro env self cropType img hkey himg himgok hmodels
    refine ⟨?_, huggingface_fallbackShape _⟩
    have hloop := classifyLoop_of_undecodable env HuggingFaceProvider.models 0 hmodels
    simp only [HuggingFaceProvider.analyzeImage, hkey, HuggingFaceProvider.analyzeImageTry,
      HuggingFaceProvider.fetchImageBuffer, himg, himgok,
      HuggingFaceProvider.classifyPlantDisease, hloop]
    simp

/-- C2, witness: the amended statement applied to the Groq adapter in the world where the
backend answers in prose. -/
theorem unparseable_reply_gives_fallback_witness :
    ∃ msg, (msg = "Unexpected token I in JSON at position 0" ∨
        msg = GroqProvider.safetyMessage) ∧
      ((GroqProvider.new proseWorld.config).analyzeImage proseWorld).outcome =
        .ok (GroqProvider.getFallbackResponse msg) ∧
      FallbackShape (GroqProvider.getFallbackResponse msg)
        "Analysis failed - unable to process image" msg :=
  unparseable_reply_gives_fallback.1 proseWorld (GroqProvider.new proseWorld.config)
    ⟨200, "", .ok (chatCompletion proseReply)⟩ proseReply
    "Unexpected token I in JSON at position 0" rfl rfl rfl rfl (by decide) rfl


/-! ## Claims about the detection stage (C3, C4, C5) -/

/-- Whenever the confidence converts to a number other than NaN, the clamped confidence is
a finite number between 0 and 1. -/
theorem clampConfidence_inUnit (analysis : JVal)
    (h : ((analysis.get "confidence").or (.num (.fin 0))).toNumber ≠ .nan) :
    (clampConfidence analysis).InUnit := by
  unfold clampConfidence
  generalize ((analysis.get "confidence").or (.num (.fin 0))).toNumber = n at h
  cases n with
  | nan => exact absurd rfl h
  | posInf => simp [JNum.min, JNum.max, JNum.InUnit]
  | negInf => simp [JNum.min, JNum.max, JNum.InUnit]
  | fin q =>
    simp only [JNum.min, JNum.max]
    by_cases h1 : (1 : ℚ) ≤ q
    · simp [h1, JNum.InUnit]
    · by_cases h0 : (0 : ℚ) ≤ q
      · simp only [h1, if_false, h0, if_true, JNum.InUnit, true_and]
        exact le_of_lt (not_le.mp h1)
      · simp [h1, h0, JNum.InUnit]

/-- The clamped confidence is NaN or a number between 0 and 1. -/
theorem clampConfidence_cases (analysis : JVal) :
    clampConfidence analysis = .nan ∨ (clampConfidence analysis).InUnit := by
  by_cases h : ((analysis.get "confidence").or (.num (.fin 0))).toNumber = .nan
  · left
    unfold clampConfidence
    rw [h]
    rfl
  · exact Or.inr (clampConfidence_inUnit analysis h)

theorem applyThresholds_confidence (d : Detection) :
    (applyThresholds d).confidence = d.confidence := by
  unfold applyThresholds
  split_ifs <;> rfl

theorem buildDetection_confidence {state : AnalysisState} {d : Detection}
    (h : buildDetection state = .ok d) :
    d.confidence = clampConfidence state.imageAnalysis := by
  simp only [buildDetection] at h
  by_cases hc : (!state.imageAnalysis.truthy || !(state.imageAnalysis.get "disease").truthy)
      = true
  · simp only [hc, if_true] at h
    cases h
  · simp only [hc] at h
    simp only [Bool.false_eq_true, if_false, Except.ok.injEq] at h
    rw [← h]
    exact applyThresholds_confidence _

/-- The `catch` block of the stage: it throws, leaves the detection of the record as it
was, and appends the failed step when that write is accepted. -/
theorem detectionFailure_facts (state : AnalysisState) (store : Store) (m : String) :
    (detectionFailure state store m).state = state.addError "diseaseDetection" m ∧
    (detectionFailure state store m).thrown ≠ none ∧
    (detectionFailure state store m).store.record.detection = store.record.detection ∧
    (store.nextWriteOk = true →
      (detectionFailure state store m).thrown = some (.error m) ∧
      (detectionFailure state store m).store.record =
        pushStep ⟨"diseaseDetection", "failed", .undefined, .str m⟩ store.record) := by
  unfold detectionFailure Store.findByIdAndUpdate Store.nextWriteOk
  cases hw : store.writeErrors with
  | nil => simp [pushStep]
  | cons w rest => cases w <;> simp [pushStep]

/-- When the analysis has a disease, the stage sets `state.diseaseDetection` to the
detection after thresholds. When the detection passes the cast to the schema, the stage
writes its stored part once the write succeeds; when it does not, the stage throws and
the detection of the record stays as it was. -/
theorem processDiseaseDetection_of_disease (state : AnalysisState) (store : Store)
    (hanalysis : state.imageAnalysis.truthy = true)
    (hdisease : (state.imageAnalysis.get "disease").truthy = true) :
    ∃ d, buildDetection state = .ok d ∧
      (processDiseaseDetection state store).state.diseaseDetection = some d ∧
      (d.castFailure = none → store.nextWriteOk = true →
        (processDiseaseDetection state store).thrown = none ∧
        (processDiseaseDetection state store).store.record.detection = some d.stored) ∧
      (∀ path value, d.castFailure = some (path, value) →
        (processDiseaseDetection state store).thrown ≠ none ∧
        (processDiseaseDetection state store).store.record.detection =
          store.record.detection ∧
        (store.nextWriteOk = true →
          (processDiseaseDetection state store).thrown =
            some (.error (store.castMessage path value)) ∧
          stepNames (processDiseaseDetection state store).store.record =
            stepNames store.record ++ [("diseaseDetection", "failed")])) := by
  have hb : ∃ d, buildDetection state = .ok d := by
    simp [buildDetection, hanalysis, hdisease]
  obtain ⟨d, hd⟩ := hb
  refine ⟨d, hd, ?_, ?_, ?_⟩
  · simp only [processDiseaseDetection, hd]
    cases hc : d.castFailure with
    | some p =>
      obtain ⟨path, value⟩ := p
      simp only [(detectionFailure_facts _ store _).1]
      rfl
    | none =>
      simp only []
      cases hw : store.writeErrors with
      | nil => simp [Store.findByIdAndUpdate, hw, AnalysisState.updateStep]
      | cons w rest =>
        cases w with
        | none => simp [Store.findByIdAndUpdate, hw, AnalysisState.updateStep]
        | some m =>
          simp only [Store.findByIdAndUpdate, hw, (detectionFailure_facts _ _ _).1]
          rfl
  · intro hc hok
    simp only [processDiseaseDetection, hd, hc]
    cases hw : store.writeErrors with
    | nil => simp [Store.findByIdAndUpdate, hw, pushStep]
    | cons w rest =>
      cases w with
      | none => simp [Store.findByIdAndUpdate, hw, pushStep]
      | some m => simp [Store.nextWriteOk, hw] at hok
  · intro path value hc
    simp only [processDiseaseDetection, hd, hc]
    obtain ⟨_, h2, h3, h4⟩ := detectionFailure_facts
      (({ state with diseaseDetection := some d }).updateStep "diseaseDetection" d.toJVal)
      store (store.castMessage path value)
    refine ⟨h2, h3, fun hok => ⟨(h4 hok).1, ?_⟩⟩
    rw [(h4 hok).2]
    simp [stepNames, pushStep]

/-- Whenever the stage returns, the record holds a detection whose confidence is a number
between 0 and 1: a confidence that is NaN does not pass the cast to the schema. -/
theorem returned_detection_inUnit (state : AnalysisState) (store : Store)
    (h : (processDiseaseDetection state store).thrown = none) :
    ∃ d, (processDiseaseDetection state store).store.record.detection = some d ∧
      d.confidence.InUnit := by
  unfold processDiseaseDetection at h ⊢
  cases hd : buildDetection state with
  | error m =>
    rw [hd] at h
    exact absurd h (detectionFailure_facts _ _ _).2.1
  | ok d =>
    simp only [hd] at h ⊢
    cases hc : d.castFailure with
    | some p =>
      simp only [hc] at h
      exact absurd h (detectionFailure_facts _ _ _).2.1
    | none =>
      simp only [hc] at h ⊢
      have hconf : d.confidence.InUnit := by
        have hne : d.confidence ≠ .nan := by
          intro hx
          unfold Detection.castFailure at hc
          by_cases h1 : (castString d.disease).isNone = true
          · simp [h1] at hc
          · simp [h1, hx] at hc
        rw [buildDetection_confidence hd] at hne ⊢
        rcases clampConfidence_cases state.imageAnalysis with h1 | h1
        · exact absurd h1 hne
        · exact h1
      cases hw : store.writeErrors with
      | nil => exact ⟨d.stored, by simp [Store.findByIdAndUpdate, hw, pushStep], hconf⟩
      | cons w rest =>
        cases w with
        | none => exact ⟨d.stored, by simp [Store.findByIdAndUpdate, hw, pushStep], hconf⟩
        | some m =>
          simp only [Store.findByIdAndUpdate, hw] at h
          exact absurd h (detectionFailure_facts _ _ _).2.1

/-- C3, code defect shown at a concrete input: the Groq backend answers with a JSON object
whose confidence is the word `high`; the adapter and the selector pass the word on, and
the clamp of `processDiseaseDetection` gives NaN, which is not a number between 0 and 1.
The stage puts the detection with confidence NaN into `state.diseaseDetection`; the write
to the record is refused by the cast to the schema, so the stage records a failed step
and throws the cast error, and no detection is stored. -/
theorem word_confidence_gives_nan :
    ∃ analysis,
      (analyzeWithFallback wordWorld (some "wheat") (.str "groq")).outcome = .ok analysis ∧
      analysis.get "confidence" = .str "high" ∧
      clampConfidence analysis = .nan ∧
      (processDiseaseDetection (stateWith analysis) sampleStore).state.diseaseDetection.map
        (fun d => d.confidence) = some .nan ∧
      (processDiseaseDetection (stateWith analysis) sampleStore).thrown =
        some (.error (sampleStore.castMessage "detection.confidence" (.num .nan))) ∧
      (processDiseaseDetection (stateWith analysis) sampleStore).store.record.detection =
        none ∧
      stepNames (processDiseaseDetection (stateWith analysis) sampleStore).store.record =
        [("diseaseDetection", "failed")] ∧
      ¬ JNum.InUnit .nan :=
  ⟨_, rfl, rfl, rfl, rfl, rfl, rfl, rfl, fun h => h⟩

/-- C4: when the clamped confidence is a number below the threshold `0.3`, the stage
completes its detection with disease `Inconclusive - requires expert review`, severity
`unknown` and `needsExpertReview` set, whatever disease and severity the provider
reported; that detection is what `state.diseaseDetection` holds, and its disease,
confidence and severity are what the record holds once the write succeeds. -/
theorem low_confidence_is_inconclusive (state : AnalysisState) (store : Store) (c : ℚ)
    (hanalysis : state.imageAnalysis.truthy = true)
    (hdisease : (state.imageAnalysis.get "disease").truthy = true)
    (hconf : clampConfidence state.imageAnalysis = .fin c) (hlow : c < lit0_3) :
    ∃ d, (processDiseaseDetection state store).state.diseaseDetection = some d ∧
      d.disease = .str "Inconclusive - requires expert review" ∧
      d.severity = .str "unknown" ∧ d.needsExpertReview = true ∧ d.confidence = .fin c ∧
      (store.nextWriteOk = true →
        (processDiseaseDetection state store).thrown = none ∧
        (processDiseaseDetection state store).store.record.detection =
          some ⟨.str "Inconclusive - requires expert review", .fin c, .str "unknown"⟩) := by
  obtain ⟨d, hd, hstate, hstore, _⟩ :=
    processDiseaseDetection_of_disease state store hanalysis hdisease
  have hd2 : d = { disease := .str "Inconclusive - requires expert review",
                   confidence := .fin c, severity := .str "unknown",
                   symptoms := if (state.imageAnalysis.get "symptoms").isArray then
                     (state.imageAnalysis.get "symptoms").elems else [],
                   analysisProvider := (state.imageAnalysis.get "provider").or state.provider,
                   needsExpertReview := true, reliable := false } := by
    simp only [buildDetection, hanalysis, hdisease, hconf, applyThresholds, JNum.lt,
      decide_eq_true hlow] at hd
    simpa using hd.symm
  subst hd2
  exact ⟨_, hstate, rfl, rfl, rfl, rfl, hstore rfl⟩

theorem clampConfidence_lowAnalysis : clampConfidence lowAnalysis = .fin (1 / 10) := by
  have h : (lowAnalysis.get "confidence") = .num (.fin (1 / 10)) := rfl
  simp only [clampConfidence, h, JVal.or, JVal.truthy, JNum.truthy]
  norm_num [JVal.toNumber, JNum.min, JNum.max]

theorem clampConfidence_highAnalysis : clampConfidence highAnalysis = .fin (23 / 25) := by
  have h : (highAnalysis.get "confidence") = .num (.fin (23 / 25)) := rfl
  simp only [clampConfidence, h, JVal.or, JVal.truthy, JNum.truthy]
  norm_num [JVal.toNumber, JNum.min, JNum.max]

/-- The string `0.8` converts to the double that the literal `0.8` denotes. -/
theorem stringToNumber_threshold : stringToNumber "0.8" = .fin lit0_8 := by
  have h : stringToNumber "0.8" =
      .fin ((7205759403792794 : Nat) / (9007199254740992 : Nat)) := by rfl
  rw [h]
  norm_num [lit0_8]

/-- The string `0.29999999999999998` converts to the double that the literal `0.3`
denotes, the nearest one. -/
theorem stringToNumber_nearThreshold :
    stringToNumber "0.29999999999999998" = .fin lit0_3 := by
  have h : stringToNumber "0.29999999999999998" =
      .fin ((5404319552844595 : Nat) / (18014398509481984 : Nat)) := by rfl
  rw [h]
  norm_num [lit0_3]

theorem clampConfidence_thresholdString :
    clampConfidence thresholdStringAnalysis = .fin lit0_8 := by
  have h : (thresholdStringAnalysis.get "confidence") = .str "0.8" := rfl
  have ht : (JVal.str "0.8").truthy = true := by decide
  simp only [clampConfidence, h, JVal.or, ht, if_true, JVal.toNumber, stringToNumber_threshold]
  norm_num [JNum.min, JNum.max, lit0_8]

theorem clampConfidence_nearThresholdString :
    clampConfidence nearThresholdStringAnalysis = .fin lit0_3 := by
  have h : (nearThresholdStringAnalysis.get "confidence") = .str "0.29999999999999998" := rfl
  have ht : (JVal.str "0.29999999999999998").truthy = true := by decide
  simp only [clampConfidence, h, JVal.or, ht, if_true, JVal.toNumber,
    stringToNumber_nearThreshold]
  norm_num [JNum.min, JNum.max, lit0_3]

/-- C4, witness: a provider result with disease `Leaf Rust`, severity `high` and
confidence one tenth. -/
theorem low_confidence_is_inconclusive_witness :
    ∃ d, (processDiseaseDetection (stateWith lowAnalysis) sampleStore).state.diseaseDetection
        = some d ∧
      d.disease = .str "Inconclusive - requires expert review" ∧
      d.severity = .str "unknown" ∧ d.needsExpertReview = true ∧
      d.confidence = .fin (1 / 10) ∧
      (sampleStore.nextWriteOk = true →
        (processDiseaseDetection (stateWith lowAnalysis) sampleStore).thrown = none ∧
        (processDiseaseDetection (stateWith lowAnalysis) sampleStore).store.record.detection =
          some ⟨.str "Inconclusive - requires expert review", .fin (1 / 10), .str "unknown"⟩) :=
  low_confidence_is_inconclusive (stateWith lowAnalysis) sampleStore (1 / 10) rfl rfl
    clampConfidence_lowAnalysis (by norm_num [lit0_3])

/-- C5: when the clamped confidence is a number at or above the threshold `0.8`, the stage
completes its detection with severity `high` and `reliable` set, whatever severity the
provider reported, and with the disease of the provider; that detection is what
`state.diseaseDetection` holds. Once the write succeeds the record holds its confidence
and severity and its disease as the cast to the schema stores it (a string as it is); a
disease that the cast refuses (an array or an object) makes the stage throw and leaves
the detection of the record as it was. -/
theorem high_confidence_is_reliable (state : AnalysisState) (store : Store) (c : ℚ)
    (hanalysis : state.imageAnalysis.truthy = true)
    (hdisease : (state.imageAnalysis.get "disease").truthy = true)
    (hconf : clampConfidence state.imageAnalysis = .fin c) (hhigh : lit0_8 ≤ c) :
    ∃ d, (processDiseaseDetection state store).state.diseaseDetection = some d ∧
      d.severity = .str "high" ∧ d.reliable = true ∧
      d.disease = state.imageAnalysis.get "disease" ∧ d.needsExpertReview = false ∧
      d.confidence = .fin c ∧
      (store.nextWriteOk = true →
        (∀ s, state.imageAnalysis.get "disease" = .str s →
          (processDiseaseDetection state store).thrown = none ∧
          (processDiseaseDetection state store).store.record.detection =
            some ⟨.str s, .fin c, .str "high"⟩) ∧
        (∀ name, castString (state.imageAnalysis.get "disease") = some name →
          (processDiseaseDetection state store).thrown = none ∧
          (processDiseaseDetection state store).store.record.detection =
            some ⟨name, .fin c, .str "high"⟩)) ∧
      (castString (state.imageAnalysis.get "disease") = none →
        (processDiseaseDetection state store).thrown ≠ none ∧
        (processDiseaseDetection state store).store.record.detection =
          store.record.detection) := by
  obtain ⟨d, hd, hstate, hstore, hcast⟩ :=
    processDiseaseDetection_of_disease state store hanalysis hdisease
  have hnot : ¬ c < lit0_3 := by
    have : lit0_3 < lit0_8 := by norm_num [lit0_3, lit0_8]
    exact not_lt.mpr (le_trans (le_of_lt this) hhigh)
  have hd2 : d = { disease := state.imageAnalysis.get "disease",
                   confidence := .fin c, severity := .str "high",
                   symptoms := if (state.imageAnalysis.get "symptoms").isArray then
                     (state.imageAnalysis.get "symptoms").elems else [],
                   analysisProvider := (state.imageAnalysis.get "provider").or state.provider,
                   needsExpertReview := false, reliable := true } := by
    simp only [buildDetection, hanalysis, hdisease, hconf, applyThresholds, JNum.lt, JNum.ge,
      decide_eq_false hnot, decide_eq_true hhigh] at hd
    simpa using hd.symm
  subst hd2
  have hname : ∀ name, castString (state.imageAnalysis.get "disease") = some name →
      store.nextWriteOk = true →
      (processDiseaseDetection state store).thrown = none ∧
      (processDiseaseDetection state store).store.record.detection =
        some ⟨name, .fin c, .str "high"⟩ := by
    intro name hn hok
    have hs : castString (.str "high") = some (.str "high") := rfl
    have := hstore (by simp only [Detection.castFailure, hn, hs]; simp) hok
    simpa only [Detection.stored, hn, hs, Option.getD_some] using this
  refine ⟨_, hstate, rfl, rfl, rfl, rfl, rfl, fun hok => ⟨fun s hs => ?_, fun name hn =>
    hname name hn hok⟩, fun hn => ?_⟩
  · exact hname (.str s) (by rw [hs]; rfl) hok
  · obtain ⟨h1, h2, _⟩ := hcast "detection.disease" (state.imageAnalysis.get "disease")
      (by simp only [Detection.castFailure, hn]; simp)
    exact ⟨h1, h2⟩

/-- C5, witness: a provider result with disease `Leaf Rust`, severity `low` and the
string `0.8` as confidence, which converts to the threshold itself. -/
theorem high_confidence_is_reliable_witness :
    clampConfidence (stateWith thresholdStringAnalysis).imageAnalysis = .fin lit0_8 ∧
    ∃ d, (processDiseaseDetection (stateWith thresholdStringAnalysis)
        sampleStore).state.diseaseDetection = some d ∧
      d.severity = .str "high" ∧ d.reliable = true ∧ d.disease = .str "Leaf Rust" ∧
      (processDiseaseDetection (stateWith thresholdStringAnalysis) sampleStore).thrown = none ∧
      (processDiseaseDetection (stateWith thresholdStringAnalysis)
        sampleStore).store.record.detection = some ⟨.str "Leaf Rust", .fin lit0_8, .str "high"⟩ :=
  ⟨clampConfidence_thresholdString,
    (high_confidence_is_reliable (stateWith thresholdStringAnalysis) sampleStore lit0_8 rfl rfl
      clampConfidence_thresholdString (le_refl _)).elim
      (fun d h => ⟨d, h.1, h.2.1, h.2.2.1, h.2.2.2.1,
        ((h.2.2.2.2.2.2.1 rfl).1 "Leaf Rust" rfl).1,
        ((h.2.2.2.2.2.2.1 rfl).1 "Leaf Rust" rfl).2⟩)⟩


/-! ## Claims about the selector (C6, C7, C9) -/

/-- C6: a preferred provider among the three comes first, followed by the other two in
their order in the list `groq`, `gemini`, `huggingface`; any other value (absent, empty,
unknown, not a string) leaves that list as it is. The order is always a permutation of
the three names without repetition, and the providers that `analyzeWithFallback` calls
are an initial segment of it, so each is called at most once. -/
theorem attemptOrder_preferred_first (preferredProvider : JVal) :
    (preferredProvider = .str "groq" →
      attemptOrder preferredProvider = ["groq", "gemini", "huggingface"]) ∧
    (preferredProvider = .str "gemini" →
      attemptOrder preferredProvider = ["gemini", "groq", "huggingface"]) ∧
    (preferredProvider = .str "huggingface" →
      attemptOrder preferredProvider = ["huggingface", "groq", "gemini"]) ∧
    (preferredProvider ≠ .str "groq" ∧ preferredProvider ≠ .str "gemini" ∧
        preferredProvider ≠ .str "huggingface" →
      attemptOrder preferredProvider = ["groq", "gemini", "huggingface"]) ∧
    (attemptOrder preferredProvider).Perm ["groq", "gemini", "huggingface"] ∧
    (attemptOrder preferredProvider).Nodup ∧
    ∀ (env : Env) (cropType : Option String),
      (analyzeWithFallback env cropType preferredProvider).invoked.map Prod.fst <+:
          attemptOrder preferredProvider ∧
      ((analyzeWithFallback env cropType preferredProvider).invoked.map Prod.fst).Nodup := by
  have hnodup : (attemptOrder preferredProvider).Nodup := by
    rcases attemptOrder_cases preferredProvider with h | h | h <;> rw [h] <;> decide
  refine ⟨?_, ?_, ?_, ?_, ?_, hnodup, ?_⟩
  · intro h; subst h; rfl
  · intro h; subst h; rfl
  · intro h; subst h; rfl
  · rintro ⟨h1, h2, h3⟩
    cases preferredProvider with
    | str p =>
      have e1 : p ≠ "groq" := fun e => h1 (by rw [e])
      have e2 : p ≠ "gemini" := fun e => h2 (by rw [e])
      have e3 : p ≠ "huggingface" := fun e => h3 (by rw [e])
      simp [attemptOrder, e1, e2, e3]
    | _ => rfl
  · rcases attemptOrder_cases preferredProvider with h | h | h <;> rw [h] <;> decide
  · intro env cropType
    obtain ⟨pre, hpre, heq⟩ := selectLoop_invoked env cropType (attemptOrder preferredProvider)
      (attemptOrder_mem preferredProvider) none []
    have hinv : (analyzeWithFallback env cropType preferredProvider).invoked.map Prod.fst = pre := by
      simpa [analyzeWithFallback] using heq
    rw [hinv]
    exact ⟨hpre, List.Nodup.sublist hpre.sublist hnodup⟩

/-- C6, witness: the preference `gemini`. -/
theorem attemptOrder_preferred_first_witness :
    attemptOrder (.str "gemini") = ["gemini", "groq", "huggingface"] :=
  (attemptOrder_preferred_first (.str "gemini")).2.1 rfl

/-- C7, code defect shown at a concrete input: Gemini is preferred and its backend is
overloaded on all three attempts, so its call throws `undefined`; reading the message of
that value in the `catch` block throws, and `analyzeWithFallback` ends with that
`TypeError` after calling Gemini only. Groq, next in the order, is the first provider
whose call does not raise and whose disease is present and not the sentinel, yet its
result is not returned. -/
theorem overloaded_gemini_hides_next_provider :
    attemptOrder (.str "gemini") = ["gemini", "groq", "huggingface"] ∧
    (providerCall (overloadedWorld (some "gsk-key")) (some "wheat") "gemini").outcome =
      .error .undef ∧
    (∃ r, (providerCall (overloadedWorld (some "gsk-key")) (some "wheat") "groq").outcome =
        .ok r ∧ r.nullish = false ∧ meaningful r = true) ∧
    analyzeWithFallback (overloadedWorld (some "gsk-key")) (some "wheat") (.str "gemini") =
      ⟨.error (.error "Cannot read properties of undefined (reading \x27message\x27)"),
        [("gemini", 3)]⟩ :=
  ⟨rfl, rfl, ⟨_, rfl, rfl, rfl⟩, rfl⟩

/-- When the key is set, the image is served and the Gemini backend answers 503 on each of
the three attempts, `analyzeImage` throws the unassigned `lastError`, that is the value
`undefined`, after three requests. -/
theorem gemini_overloaded_throws_undefined (env : Env) (self : GeminiProvider)
    (hkey : truthyStr self.apiKey = true)
    (himg : ∀ a, 1 ≤ a → a ≤ 3 → ∃ img, env.geminiImage a = .response img ∧ img.ok = true)
    (hapi : ∀ a, 1 ≤ a → a ≤ 3 → ∃ r, env.geminiApi a = .response r ∧ r.status = 503) :
    self.analyzeImage env = ⟨.error .undef, 3⟩ := by
  have body : ∀ a, 1 ≤ a → a ≤ 3 → GeminiProvider.attemptBody env a = (.overloaded, 1) := by
    intro a h1 h3
    obtain ⟨img, hi, hiok⟩ := himg a h1 h3
    obtain ⟨r, hr, h503⟩ := hapi a h1 h3
    simp [GeminiProvider.attemptBody, GeminiProvider.fetchImageAsBase64, hi, hiok, hr, h503]
  simp only [GeminiProvider.analyzeImage, hkey, GeminiProvider.maxRetries]
  show GeminiProvider.attemptLoop env (2 + 1) 1 none 0 = _
  rw [GeminiProvider.attemptLoop, body 1 (by omega) (by omega)]
  show GeminiProvider.attemptLoop env (1 + 1) 2 none 1 = _
  rw [GeminiProvider.attemptLoop, body 2 (by omega) (by omega)]
  show GeminiProvider.attemptLoop env (0 + 1) 3 none 2 = _
  rw [GeminiProvider.attemptLoop, body 3 (by omega) (by omega)]
  rfl

/-- C9, code defect shown at a concrete input: the Gemini backend answers 503 on each of
its three attempts. `GeminiProvider.analyzeImage` then throws `undefined`, not an error
carrying a message, and `analyzeWithFallback` (Groq without key first, then Gemini) does
not record the failure and continue: it ends with a `TypeError` and never calls
HuggingFace. -/
theorem gemini_overload_aborts_selection :
    (GeminiProvider.new (overloadedWorld none).config).analyzeImage (overloadedWorld none) =
      ⟨.error .undef, 3⟩ ∧
    attemptOrder .undefined = ["groq", "gemini", "huggingface"] ∧
    analyzeWithFallback (overloadedWorld none) (some "wheat") .undefined =
      ⟨.error (.error "Cannot read properties of undefined (reading \x27message\x27)"),
        [("groq", 0), ("gemini", 3)]⟩ :=
  ⟨rfl, rfl, rfl⟩


/-! ## Failing attempts and the final error (C7 complement, C8) -/

theorem lastCaught_cons_some (env : Env) (cropType : Option String) (name : String)
    (names : List String) (lastError : Option String) {m : String}
    (h : caughtMessage (providerCall env cropType name).outcome = some m) :
    lastCaught env cropType (name :: names) lastError = lastCaught env cropType names (some m) := by
  simp only [lastCaught, List.filterMap_cons, h]
  cases hl : names.filterMap (fun n => caughtMessage (providerCall env cropType n).outcome) with
  | nil => rfl
  | cons b l =>
    simp only [List.getLast?_cons_cons]
    cases hgl : (b :: l).getLast? with
    | none => exact absurd (List.getLast?_eq_none_iff.mp hgl) (List.cons_ne_nil _ _)
    | some x => rfl

theorem lastCaught_cons_none (env : Env) (cropType : Option String) (name : String)
    (names : List String) (lastError : Option String)
    (h : caughtMessage (providerCall env cropType name).outcome = none) :
    lastCaught env cropType (name :: names) lastError = lastCaught env cropType names lastError := by
  simp only [lastCaught, List.filterMap_cons, h]

/-- A run of attempts that all fail cleanly is passed over: the loop reaches the remaining
names with `lastError` set to the last message caught, having called every provider of
the run. -/
theorem selectLoop_skip_failures (env : Env) (cropType : Option String) (names rest : List String)
    (hnames : ∀ n ∈ names, n ∈ providerNames)
    (hfail : ∀ n ∈ names, FailsCleanly (providerCall env cropType n).outcome)
    (lastError : Option String) (invoked : List (String × Nat)) :
    selectLoop env cropType (names ++ rest) lastError invoked =
      selectLoop env cropType rest (lastCaught env cropType names lastError)
        (invoked ++ names.map (fun n => (n, (providerCall env cropType n).backendCalls))) := by
  induction names generalizing lastError invoked with
  | nil => simp [lastCaught]
  | cons name ns ih =>
    have hname := hnames name (List.mem_cons_self _ _)
    have hns : ∀ n ∈ ns, n ∈ providerNames := fun n hn => hnames n (List.mem_cons_of_mem _ hn)
    have hfs : ∀ n ∈ ns, FailsCleanly (providerCall env cropType n).outcome :=
      fun n hn => hfail n (List.mem_cons_of_mem _ hn)
    rw [List.cons_append]
    rcases hfail name (List.mem_cons_self _ _) with ⟨m, hm⟩ | ⟨r, hr, hnull | hbad⟩
    · rw [selectLoop_raise env cropType (ns ++ rest) lastError invoked hname hm, ih hns hfs,
        lastCaught_cons_some env cropType name ns lastError (m := m) (by rw [hm]; rfl)]
      simp
    · rw [selectLoop_nullish env cropType (ns ++ rest) lastError invoked hname hr hnull,
        ih hns hfs,
        lastCaught_cons_some env cropType name ns lastError
          (m := readOfNullishMsg r "disease") (by rw [hr]; simp [caughtMessage, hnull])]
      simp
    · by_cases hnn : r.nullish = true
      · rw [selectLoop_nullish env cropType (ns ++ rest) lastError invoked hname hr hnn,
          ih hns hfs,
          lastCaught_cons_some env cropType name ns lastError
            (m := readOfNullishMsg r "disease") (by rw [hr]; simp [caughtMessage, hnn])]
        simp
      · have hnn2 : r.nullish = false := by simpa using hnn
        rw [selectLoop_rejected env cropType (ns ++ rest) lastError invoked hname hr hnn2 hbad,
          ih hns hfs,
          lastCaught_cons_none env cropType name ns lastError
            (by rw [hr]; simp [caughtMessage, hnn2])]
        simp

/-- Complement to C7: when every provider before `name` in the order fails cleanly (throws
an `Error` or returns a result that fails the test) and the call of `name` returns a
result with a disease that is present and not the sentinel, the selector returns that
result with every property unchanged and `provider` set to `name`, and calls no provider
after it. -/
theorem selectLoop_first_success (env : Env) (cropType : Option String)
    (pre post : List String) (name : String) (result : JVal)
    (hpre : ∀ n ∈ pre, n ∈ providerNames) (hname : name ∈ providerNames)
    (hfail : ∀ n ∈ pre, FailsCleanly (providerCall env cropType n).outcome)
    (hcall : (providerCall env cropType name).outcome = .ok result)
    (hnn : result.nullish = false) (hm : meaningful result = true)
    (lastError : Option String) :
    selectLoop env cropType (pre ++ name :: post) lastError [] =
      ⟨.ok (.obj (JVal.setField "provider" (.str name) result.ownProps)),
        (pre ++ [name]).map (fun n => (n, (providerCall env cropType n).backendCalls))⟩ := by
  rw [selectLoop_skip_failures env cropType pre (name :: post) hpre hfail lastError [],
    selectLoop_success env cropType post _ _ hname hcall hnn hm]
  simp

/-- C8, counterexample: HuggingFace (preferred) and Groq raise for a missing key, then
Gemini returns its failure sentinel for a reply that cannot be parsed. Every attempted
provider failed and the last failure is that of Gemini, whose message is the parse
error, but the error raised by `analyzeWithFallback` carries the message of Groq. -/
theorem last_error_ignores_sentinel_failure :
    analyzeWithFallback lastErrorWorld (some "wheat") (.str "huggingface") =
      ⟨.error (.error "All providers failed. Last error: GROQ_API_KEY not configured"),
        [("huggingface", 0), ("groq", 0), ("gemini", 1)]⟩ ∧
    (providerCall lastErrorWorld (some "wheat") "gemini").outcome =
      .ok (GeminiProvider.getFallbackResponse "Unexpected token I in JSON at position 0") ∧
    (analyzeWithFallback lastErrorWorld (some "wheat") (.str "huggingface")).outcome ≠
      .error (.error ("All providers failed. Last error: " ++
        "Unexpected token I in JSON at position 0")) := by
  refine ⟨rfl, rfl, ?_⟩
  intro h
  have h2 : (Except.error (Thrown.error
      "All providers failed. Last error: GROQ_API_KEY not configured") : Outcome JVal) =
      .error (.error ("All providers failed. Last error: " ++
        "Unexpected token I in JSON at position 0")) := h
  injection h2 with h2
  injection h2 with h2
  exact absurd h2 (by decide)

/-- C8, amended: if every attempted provider either throws an error with a message or
returns a result that fails the test, `analyzeWithFallback` throws an error whose message
is `All providers failed. Last error: ` followed by the message of the last error that
was thrown during an attempt (a returned sentinel leaves it unchanged), or by `undefined`
when no attempt threw. -/
theorem all_failed_reports_last_thrown (env : Env) (cropType : Option String)
    (preferredProvider : JVal)
    (hfail : ∀ name ∈ attemptOrder preferredProvider,
      FailsCleanly (providerCall env cropType name).outcome) :
    (analyzeWithFallback env cropType preferredProvider).outcome =
      .error (.error ("All providers failed. Last error: " ++
        templ (((attemptOrder preferredProvider).filterMap
          (fun n => caughtMessage (providerCall env cropType n).outcome)).getLast?))) ∧
    (analyzeWithFallback env cropType preferredProvider).invoked.map Prod.fst =
      attemptOrder preferredProvider := by
  have h := selectLoop_skip_failures env cropType (attemptOrder preferredProvider) []
    (attemptOrder_mem preferredProvider) hfail none []
  rw [List.append_nil] at h
  unfold analyzeWithFallback
  rw [h]
  constructor
  · simp only [selectLoop, allFailedMessage, lastCaught]
    cases ((attemptOrder preferredProvider).filterMap
      (fun n => caughtMessage (providerCall env cropType n).outcome)).getLast? <;> rfl
  · simp [selectLoop, Function.comp_def]

/-- C8, witness: the amended statement in the world of the counterexample, where the last
error thrown is the one of Groq. -/
theorem all_failed_reports_last_thrown_witness :
    (analyzeWithFallback lastErrorWorld (some "wheat") (.str "huggingface")).outcome =
      .error (.error ("All providers failed. Last error: " ++
        templ (((attemptOrder (.str "huggingface")).filterMap
          (fun n => caughtMessage (providerCall lastErrorWorld (some "wheat") n).outcome)).getLast?))) ∧
    (analyzeWithFallback lastErrorWorld (some "wheat") (.str "huggingface")).invoked.map Prod.fst =
      attemptOrder (.str "huggingface") :=
  all_failed_reports_last_thrown lastErrorWorld (some "wheat") (.str "huggingface") (by
    intro name hn
    have hn2 : name ∈ ["huggingface", "groq", "gemini"] := hn
    simp only [List.mem_cons, List.mem_singleton, List.not_mem_nil, or_false] at hn2
    rcases hn2 with h | h | h <;> subst h
    · exact Or.inl ⟨_, rfl⟩
    · exact Or.inl ⟨_, rfl⟩
    · exact Or.inr ⟨_, rfl, Or.inr rfl⟩)


/-! ## Credentials failures (C10) -/

/-- Whatever the loop does, the calls already made stay at the head of the list of calls. -/
theorem selectLoop_invoked_extends (env : Env) (cropType : Option String) (names : List String)
    (hnames : ∀ n ∈ names, n ∈ providerNames) (lastError : Option String)
    (invoked : List (String × Nat)) :
    ∃ tail, (selectLoop env cropType names lastError invoked).invoked = invoked ++ tail := by
  induction names generalizing lastError invoked with
  | nil => exact ⟨[], by simp [selectLoop]⟩
  | cons name rest ih =>
    have hname := hnames name (List.mem_cons_self _ _)
    have hrest : ∀ n ∈ rest, n ∈ providerNames := fun n hn => hnames n (List.mem_cons_of_mem _ hn)
    have step : ∀ le, ∃ tail, (selectLoop env cropType rest le
        (invoked ++ [(name, (providerCall env cropType name).backendCalls)])).invoked =
          invoked ++ tail := by
      intro le
      obtain ⟨tail, ht⟩ := ih hrest le
        (invoked ++ [(name, (providerCall env cropType name).backendCalls)])
      exact ⟨(name, (providerCall env cropType name).backendCalls) :: tail, by simp [ht]⟩
    cases hout : (providerCall env cropType name).outcome with
    | error e =>
      cases e with
      | error m => rw [selectLoop_raise env cropType rest lastError invoked hname hout]; exact step _
      | undef =>
        rw [selectLoop_undef env cropType rest lastError invoked hname hout]
        exact ⟨_, rfl⟩
    | ok result =>
      by_cases hnn : result.nullish = true
      · rw [selectLoop_nullish env cropType rest lastError invoked hname hout hnn]; exact step _
      · have hnn2 : result.nullish = false := by simpa using hnn
        by_cases hm : meaningful result = true
        · rw [selectLoop_success env cropType rest lastError invoked hname hout hnn2 hm]
          exact ⟨_, rfl⟩
        · have hm2 : meaningful result = false := by simpa using hm
          rw [selectLoop_rejected env cropType rest lastError invoked hname hout hnn2 hm2]
          exact step _

/-- The loop calls the provider at the head of the remaining names. -/
theorem selectLoop_calls_head (env : Env) (cropType : Option String) (name : String)
    (rest : List String) (hname : name ∈ providerNames) (hrest : ∀ n ∈ rest, n ∈ providerNames)
    (lastError : Option String) (invoked : List (String × Nat)) :
    ∃ tail, (selectLoop env cropType (name :: rest) lastError invoked).invoked =
      invoked ++ (name, (providerCall env cropType name).backendCalls) :: tail := by
  have step : ∀ le, ∃ tail, (selectLoop env cropType rest le
      (invoked ++ [(name, (providerCall env cropType name).backendCalls)])).invoked =
        invoked ++ (name, (providerCall env cropType name).backendCalls) :: tail := by
    intro le
    obtain ⟨tail, ht⟩ := selectLoop_invoked_extends env cropType rest hrest le
      (invoked ++ [(name, (providerCall env cropType name).backendCalls)])
    exact ⟨tail, by simp [ht]⟩
  cases hout : (providerCall env cropType name).outcome with
  | error e =>
    cases e with
    | error m => rw [selectLoop_raise env cropType rest lastError invoked hname hout]; exact step _
    | undef =>
      rw [selectLoop_undef env cropType rest lastError invoked hname hout]
      exact ⟨[], rfl⟩
  | ok result =>
    by_cases hnn : result.nullish = true
    · rw [selectLoop_nullish env cropType rest lastError invoked hname hout hnn]; exact step _
    · have hnn2 : result.nullish = false := by simpa using hnn
      by_cases hm : meaningful result = true
      · rw [selectLoop_success env cropType rest lastError invoked hname hout hnn2 hm]
        exact ⟨[], rfl⟩
      · have hm2 : meaningful result = false := by simpa using hm
        rw [selectLoop_rejected env cropType rest lastError invoked hname hout hnn2 hm2]
        exact step _

/-- When the key is set, the image is served and the Gemini backend rejects each of the
three attempts with a status that is neither `ok` nor 503, `analyzeImage` retries twice
and throws the error of the third attempt. -/
theorem gemini_rejected_retries (env : Env) (self : GeminiProvider)
    (hkey : truthyStr self.apiKey = true)
    (himg : ∀ a, 1 ≤ a → a ≤ 3 → ∃ img, env.geminiImage a = .response img ∧ img.ok = true)
    (hapi : ∀ a, 1 ≤ a → a ≤ 3 →
      ∃ r, env.geminiApi a = .response r ∧ r.ok = false ∧ r.status ≠ 503) :
    ∃ r, env.geminiApi 3 = .response r ∧
      self.analyzeImage env = ⟨.error (.error ("Gemini API error: " ++ r.text)), 3⟩ := by
  have body : ∀ a, 1 ≤ a → a ≤ 3 → ∃ r, env.geminiApi a = .response r ∧
      GeminiProvider.attemptBody env a =
        (.threw (.error ("Gemini API error: " ++ r.text)), 1) := by
    intro a h1 h3
    obtain ⟨img, hi, hiok⟩ := himg a h1 h3
    obtain ⟨r, hr, hnok, h503⟩ := hapi a h1 h3
    exact ⟨r, hr, by
      simp [GeminiProvider.attemptBody, GeminiProvider.fetchImageAsBase64, hi, hiok, hr, hnok,
        h503]⟩
  obtain ⟨r1, _, hb1⟩ := body 1 (by omega) (by omega)
  obtain ⟨r2, _, hb2⟩ := body 2 (by omega) (by omega)
  obtain ⟨r3, hr3, hb3⟩ := body 3 (by omega) (by omega)
  refine ⟨r3, hr3, ?_⟩
  simp only [GeminiProvider.analyzeImage, hkey, GeminiProvider.maxRetries]
  show GeminiProvider.attemptLoop env (2 + 1) 1 none 0 = _
  rw [GeminiProvider.attemptLoop, hb1]
  show GeminiProvider.attemptLoop env (1 + 1) 2 _ 1 = _
  rw [GeminiProvider.attemptLoop, hb2]
  show GeminiProvider.attemptLoop env (0 + 1) 3 _ 2 = _
  rw [GeminiProvider.attemptLoop, hb3]
  rfl

/-- C10, counterexample: the Gemini backend rejects the key with status 400; the adapter
raises only after three backend requests, having retried twice. -/
theorem gemini_rejected_key_is_retried :
    (GeminiProvider.new rejectedKeyWorld.config).analyzeImage rejectedKeyWorld =
      ⟨.error (.error "Gemini API error: API key not valid"), 3⟩ ∧
    ¬ ((GeminiProvider.new rejectedKeyWorld.config).analyzeImage
        rejectedKeyWorld).backendCalls ≤ 1 := by
  refine ⟨rfl, ?_⟩
  show ¬ (3 ≤ 1)
  decide

/-- C10, amended: a missing API key makes every adapter raise before any backend request.
A key that the backend rejects with a status that is not `ok` makes the Groq adapter
raise after exactly one backend request, and the Gemini adapter (status other than 503)
raise after the three requests of its retry loop; the HuggingFace adapter, holding a key,
does not raise: it asks each of its two models once and returns its fallback response,
which passes the test of the selector. After an adapter has raised an error,
`analyzeWithFallback` calls the next provider of the attempt order. -/
theorem credentials_failure_skips_provider :
    (∀ (env : Env) (g : GroqProvider), truthyStr g.apiKey = false →
      g.analyzeImage env = ⟨.error (.error "GROQ_API_KEY not configured"), 0⟩) ∧
    (∀ (env : Env) (g : GeminiProvider), truthyStr g.apiKey = false →
      g.analyzeImage env = ⟨.error (.error "GEMINI_API_KEY not configured"), 0⟩) ∧
    (∀ (env : Env) (h : HuggingFaceProvider) (cropType : Option String),
      truthyStr h.apiKey = false →
      h.analyzeImage env cropType =
        ⟨.error (.error "HUGGINGFACE_API_KEY not configured"), 0⟩) ∧
    (∀ (env : Env) (h : HuggingFaceProvider) (cropType : Option String),
      truthyStr h.apiKey = true →
      (∃ img, env.hfImage = .response img ∧ img.ok = true) →
      (∀ m ∈ HuggingFaceProvider.models, ∃ r, env.hfApi m = .response r ∧ r.ok = false) →
      h.analyzeImage env cropType =
        ⟨.ok (HuggingFaceProvider.getFallbackResponse "All HuggingFace models failed"), 2⟩ ∧
      meaningful (HuggingFaceProvider.getFallbackResponse "All HuggingFace models failed") =
        true) ∧
    (∀ (env : Env) (g : GroqProvider) (r : Response), truthyStr g.apiKey = true →
      env.groqApi = .response r → r.ok = false →
      g.analyzeImage env =
        ⟨.error (.error ("Groq API error: " ++ toString r.status ++ " - " ++ r.text)), 1⟩) ∧
    (∀ (env : Env) (g : GeminiProvider), truthyStr g.apiKey = true →
      (∀ a, 1 ≤ a → a ≤ 3 → ∃ img, env.geminiImage a = .response img ∧ img.ok = true) →
      (∀ a, 1 ≤ a → a ≤ 3 →
        ∃ r, env.geminiApi a = .response r ∧ r.ok = false ∧ r.status ≠ 503) →
      ∃ r, env.geminiApi 3 = .response r ∧
        g.analyzeImage env = ⟨.error (.error ("Gemini API error: " ++ r.text)), 3⟩) ∧
    (∀ (env : Env) (cropType : Option String) (name next : String) (rest : List String)
      (lastError : Option String) (invoked : List (String × Nat)) (m : String),
      name ∈ providerNames → next ∈ providerNames → (∀ n ∈ rest, n ∈ providerNames) →
      (providerCall env cropType name).outcome = .error (.error m) →
      ∃ tail, (selectLoop env cropType (name :: next :: rest) lastError invoked).invoked =
        invoked ++ (name, (providerCall env cropType name).backendCalls) ::
          (next, (providerCall env cropType next).backendCalls) :: tail) := by
  refine ⟨?_, ?_, ?_, ?_, ?_, ?_, ?_⟩
  · intro env g hkey
    simp [GroqProvider.analyzeImage, hkey]
  · intro env g hkey
    simp [GeminiProvider.analyzeImage, hkey]
  · intro env h cropType hkey
    simp [HuggingFaceProvider.analyzeImage, hkey]
  · intro env h cropType hkey himg hapi
    obtain ⟨img, hi, hiok⟩ := himg
    obtain ⟨r1, hr1, hok1⟩ := hapi "microsoft/resnet-50" (by simp [HuggingFaceProvider.models])
    obtain ⟨r2, hr2, hok2⟩ := hapi "google/vit-base-patch16-224"
      (by simp [HuggingFaceProvider.models])
    refine ⟨?_, rfl⟩
    simp [HuggingFaceProvider.analyzeImage, hkey, HuggingFaceProvider.analyzeImageTry,
      HuggingFaceProvider.fetchImageBuffer, hi, hiok, HuggingFaceProvider.classifyPlantDisease,
      HuggingFaceProvider.models, HuggingFaceProvider.classifyLoop, hr1, hok1, hr2, hok2]
  · intro env g r hkey hapi hok
    simp [GroqProvider.analyzeImage, hkey, hapi, hok]
  · intro env g hkey himg hapi
    exact gemini_rejected_retries env g hkey himg hapi
  · intro env cropType name next rest lastError invoked m hname hnext hrest hout
    rw [selectLoop_raise env cropType (next :: rest) lastError invoked hname hout]
    obtain ⟨tail, ht⟩ := selectLoop_calls_head env cropType next rest hnext hrest (some m)
      (invoked ++ [(name, (providerCall env cropType name).backendCalls)])
    exact ⟨tail, by simp [ht]⟩

/-- C10, witness: the Groq backend rejects the key with status 401 and the adapter raises
after one request; the HuggingFace backend rejects the key with status 401 for both
models and an adapter holding that key returns its fallback response after two
requests. -/
theorem credentials_failure_skips_provider_witness :
    (GroqProvider.new rejectedKeyWorld.config).analyzeImage rejectedKeyWorld =
      ⟨.error (.error ("Groq API error: " ++ toString (401 : Nat) ++ " - " ++
        "Invalid API Key")), 1⟩ ∧
    HuggingFaceProvider.analyzeImage ⟨some "bad-hf-key"⟩ rejectedKeyWorld (some "wheat") =
      ⟨.ok (HuggingFaceProvider.getFallbackResponse "All HuggingFace models failed"), 2⟩ :=
  ⟨credentials_failure_skips_provider.2.2.2.2.1 rejectedKeyWorld
      (GroqProvider.new rejectedKeyWorld.config)
      ⟨401, "Invalid API Key", .error "Unexpected token in JSON at position 0"⟩ rfl rfl rfl,
    (credentials_failure_skips_provider.2.2.2.1 rejectedKeyWorld ⟨some "bad-hf-key"⟩
      (some "wheat") rfl ⟨_, rfl, rfl⟩
      (fun _ _ => ⟨⟨401, "Invalid credentials",
        .error "Unexpected token in JSON at position 0"⟩, rfl, rfl⟩)).1⟩


/-! ## The selector never throws `undefined` -/

theorem selectLoop_no_undef (env : Env) (cropType : Option String) (names : List String)
    (lastError : Option String) (invoked : List (String × Nat)) :
    (selectLoop env cropType names lastError invoked).outcome ≠ .error .undef := by
  induction names generalizing lastError invoked with
  | nil => simp [selectLoop]
  | cons name rest ih =>
    simp only [selectLoop]
    split
    · exact ih _ _
    · simp
    · split
      · exact ih _ _
      · simp
      · split
        · exact ih _ _
        · split
          · simp
          · exact ih _ _

theorem analyzeWithFallback_no_undef (env : Env) (cropType : Option String)
    (preferredProvider : JVal) :
    (analyzeWithFallback env cropType preferredProvider).outcome ≠ .error .undef :=
  selectLoop_no_undef env cropType _ none []

/-! ## The stages as attempts followed by writes -/

theorem findByIdAndUpdate_eq (store : Store) (update : AnalysisRecord → AnalysisRecord) :
    store.findByIdAndUpdate update =
      match store.nextRejection with
      | some m => (.error m, store.reject)
      | none => (.ok (), store.accept update) := by
  unfold Store.findByIdAndUpdate Store.nextRejection Store.reject Store.accept
  cases h : store.writeErrors with
  | nil => simp
  | cons w rest => cases w <;> simp

theorem performImageAnalysis_eq (env : Env) (state : AnalysisState) (store : Store) :
    performImageAnalysis env state store =
      runStage "imageAnalysis" (failedStep "imageAnalysis") (imageAttempt env state)
        state store := by
  have hno := analyzeWithFallback_no_undef env state.cropType state.provider
  unfold performImageAnalysis imageAttempt
  cases hsel : (analyzeWithFallback env state.cropType state.provider).outcome with
  | error e =>
    cases e with
    | error m => rfl
    | undef => exact absurd hsel hno
  | ok result =>
    by_cases hn : result.nullish = true
    · simp only [hn, if_true]; rfl
    · by_cases hd : (!(result.get "disease").truthy) = true
      · simp only [hn, hd, if_true]; rfl
      · simp only [hn, hd]; rfl

theorem detectionStore_record (state : AnalysisState) (store : Store) :
    (detectionStore state store).record = store.record := by
  unfold detectionStore
  cases buildDetection state with
  | error m => rfl
  | ok d =>
    dsimp only
    cases hc : d.castFailure with
    | none => rfl
    | some p => rfl

/-- Either the detection passes the cast, and the write meets the store as it is, or the
stage goes to its `catch` block with the cast error. -/
theorem detectionStore_cases (state : AnalysisState) (store : Store) :
    detectionStore state store = store ∨
    ∃ d path value, buildDetection state = .ok d ∧ d.castFailure = some (path, value) ∧
      processDiseaseDetection state store =
        detectionFailure
          (({ state with diseaseDetection := some d }).updateStep "diseaseDetection" d.toJVal)
          store (store.castMessage path value) := by
  unfold detectionStore processDiseaseDetection
  cases hb : buildDetection state with
  | error m => exact Or.inl rfl
  | ok d =>
    dsimp only
    cases hc : d.castFailure with
    | none => exact Or.inl rfl
    | some p =>
      obtain ⟨path, value⟩ := p
      exact Or.inr ⟨d, path, value, rfl, hc, rfl⟩

theorem nextWriteOk_of_nextRejection {store : Store} (h : store.nextRejection = none) :
    store.nextWriteOk = true := by
  unfold Store.nextRejection at h
  unfold Store.nextWriteOk
  cases hw : store.writeErrors with
  | nil => rfl
  | cons w rest =>
    cases w with
    | none => rfl
    | some m => simp [hw] at h

theorem processDiseaseDetection_eq (state : AnalysisState) (store : Store) :
    processDiseaseDetection state store =
      runStage "diseaseDetection" (failedStep "diseaseDetection") (detectionAttempt state)
        state (detectionStore state store) := by
  unfold processDiseaseDetection detectionAttempt detectionStore
  cases buildDetection state with
  | error m => rfl
  | ok d =>
    dsimp only
    cases hc : d.castFailure with
    | none => rfl
    | some p => rfl

theorem generateRecommendations_eq (env : Env) (state : AnalysisState) (store : Store) :
    generateRecommendations env state store =
      runStage "recommendations" (failedStep "recommendations")
        (recommendationsAttempt env state) state store := by
  unfold generateRecommendations recommendationsAttempt
  cases buildRecommendations env state <;> rfl

theorem finalizeResults_eq (state : AnalysisState) (store : Store) :
    finalizeResults state store =
      runStage "finalization" failedFinalization (finalizationAttempt state) state store := by
  unfold finalizeResults finalizationAttempt
  cases state.diseaseDetection with
  | none => rfl
  | some d =>
    by_cases hr : (!state.recommendations.truthy) = true
    · simp only [hr, if_true]; rfl
    · simp only [hr]; rfl


/-! ## Case analysis of the stages -/

theorem reject_record (store : Store) : store.reject.record = store.record := rfl

theorem accept_record (store : Store) (update : AnalysisRecord → AnalysisRecord) :
    (store.accept update).record = update store.record := rfl

/-- How a stage of the common shape ends: it returns after its update was accepted, or it
throws after the failure update was accepted or rejected. -/
theorem runStage_cases (step : String) (failUpdate : String → AnalysisRecord → AnalysisRecord)
    (attempt : Except String (AnalysisState × (AnalysisRecord → AnalysisRecord)))
    (state : AnalysisState) (store : Store) :
    (∃ st update, attempt = .ok (st, update) ∧ store.nextRejection = none ∧
      runStage step failUpdate attempt state store = ⟨none, st, store.accept update⟩) ∨
    (∃ st0 m s,
      ((attempt = .error m ∧ st0 = state ∧ s = store) ∨
        (∃ update, attempt = .ok (st0, update) ∧ store.nextRejection = some m ∧
          s = store.reject)) ∧
      ((s.nextRejection = none ∧
          runStage step failUpdate attempt state store =
            ⟨some (.error m), st0.addError step m, s.accept (failUpdate m)⟩) ∨
        (∃ m2, s.nextRejection = some m2 ∧
          runStage step failUpdate attempt state store =
            ⟨some (.error m2), st0.addError step m, s.reject⟩))) := by
  cases hatt : attempt with
  | error m =>
    right
    refine ⟨state, m, store, Or.inl ⟨rfl, rfl, rfl⟩, ?_⟩
    cases hrej : store.nextRejection with
    | none => left; simp [runStage, findByIdAndUpdate_eq, hrej]
    | some m2 => right; exact ⟨m2, rfl, by simp [runStage, findByIdAndUpdate_eq, hrej]⟩
  | ok p =>
    obtain ⟨st, update⟩ := p
    cases hrej : store.nextRejection with
    | none =>
      left
      exact ⟨st, update, rfl, rfl, by simp [runStage, findByIdAndUpdate_eq, hrej]⟩
    | some m =>
      right
      refine ⟨st, m, store.reject, Or.inr ⟨update, rfl, rfl, rfl⟩, ?_⟩
      cases hrej2 : store.reject.nextRejection with
      | none => left; simp [runStage, findByIdAndUpdate_eq, hrej, hrej2]
      | some m2 =>
        right
        exact ⟨m2, rfl, by simp [runStage, findByIdAndUpdate_eq, hrej, hrej2]⟩

/-- The update of a successful initialization. -/
theorem initializeAnalysis_cases (state : AnalysisState) (store : Store) :
    (truthyStr state.analysisId = true ∧ truthyStr state.imageUrl = true ∧
      store.nextRejection = none ∧
      initializeAnalysis state store =
        ⟨none, state.updateStep "initialization" (.obj [("success", .bool true)]),
          store.accept (fun r => pushStep ⟨"initialization", "completed",
            .obj [("message", .str "Analysis pipeline started")], .undefined⟩
            { r with status := "processing" })⟩) ∨
    (∃ m s, (s = store ∨ s = store.reject) ∧
      initializeAnalysis state store =
        ⟨some (.error m), state.addError "initialization" m, s⟩) := by
  unfold initializeAnalysis
  by_cases hid : truthyStr state.analysisId = true
  · by_cases hurl : truthyStr state.imageUrl = true
    · cases hrej : store.nextRejection with
      | none =>
        left
        exact ⟨hid, hurl, rfl, by simp [hid, hurl, findByIdAndUpdate_eq, hrej]⟩
      | some m =>
        right
        exact ⟨m, store.reject, Or.inr rfl, by simp [hid, hurl, findByIdAndUpdate_eq, hrej]⟩
    · right
      exact ⟨"Image URL is required", store, Or.inl rfl, by simp [hid, hurl]⟩
  · right
    exact ⟨"Analysis ID is required", store, Or.inl rfl, by simp [hid]⟩

/-- The message `handleError` writes into `error`. -/
theorem handleError_cases (state : AnalysisState) (store : Store) :
    (store.nextRejection = none ∧
      handleError state store = ⟨none, state, store.accept (fun r =>
        pushStep ⟨"error_handling", "completed",
          .obj [("errorStep", match state.errors.getLast? with
            | some e => .str e.step
            | none => .undefined)],
          match state.errors.getLast? with
            | some e => .str e.error
            | none => .undefined⟩
          { r with status := "failed",
                   error := (match state.errors.getLast? with
                     | some e => JVal.str e.error
                     | none => JVal.undefined).or (.str "Unknown error occurred") })⟩) ∨
    (∃ m, store.nextRejection = some m ∧
      handleError state store = ⟨some (.error m), state, store.reject⟩) := by
  unfold handleError
  cases hrej : store.nextRejection with
  | none => left; exact ⟨rfl, by simp [findByIdAndUpdate_eq, hrej]⟩
  | some m => right; exact ⟨m, rfl, by simp [findByIdAndUpdate_eq, hrej]⟩


/-! ## What a successful attempt is -/

theorem imageAttempt_ok {env : Env} {state st : AnalysisState}
    {update : AnalysisRecord → AnalysisRecord} (h : imageAttempt env state = .ok (st, update)) :
    ∃ result, (analyzeWithFallback env state.cropType state.provider).outcome = .ok result ∧
      result.nullish = false ∧ (result.get "disease").truthy = true ∧
      st = ({ state with imageAnalysis := result }).updateStep "imageAnalysis" (.obj [
          ("success", .bool true), ("provider", result.get "provider"),
          ("disease", result.get "disease"), ("confidence", result.get "confidence")]) ∧
      update = fun r => pushStep ⟨"imageAnalysis", "completed",
            .obj [("provider", result.get "provider"), ("detected", result.get "disease"),
                  ("confidence", result.get "confidence")], .undefined⟩
            { r with aiProvider := result.get "provider", rawImageAnalysis := result } := by
  unfold imageAttempt at h
  cases hsel : (analyzeWithFallback env state.cropType state.provider).outcome with
  | error e => cases e <;> simp [hsel] at h
  | ok result =>
    by_cases hn : result.nullish = true
    · simp [hsel, hn] at h
    · by_cases hd : (result.get "disease").truthy = true
      · simp only [hsel, hn, hd, Bool.not_true, Bool.false_eq_true, if_false,
          Except.ok.injEq, Prod.mk.injEq] at h
        exact ⟨result, rfl, by simpa using hn, hd, h.1.symm, h.2.symm⟩
      · simp [hsel, hn, hd] at h

theorem detectionAttempt_ok {state st : AnalysisState}
    {update : AnalysisRecord → AnalysisRecord} (h : detectionAttempt state = .ok (st, update)) :
    ∃ d, buildDetection state = .ok d ∧
      st = ({ state with diseaseDetection := some d }).updateStep "diseaseDetection" d.toJVal ∧
      update = fun r => pushStep ⟨"diseaseDetection", "completed",
          .obj [("disease", d.disease), ("confidence", .num d.confidence),
                ("severity", d.severity)], .undefined⟩
          { r with detection := some d.stored } := by
  unfold detectionAttempt at h
  cases hb : buildDetection state with
  | error m => simp [hb] at h
  | ok d =>
    simp only [hb, Except.ok.injEq, Prod.mk.injEq] at h
    exact ⟨d, rfl, h.1.symm, h.2.symm⟩

theorem recommendationsAttempt_ok {env : Env} {state st : AnalysisState}
    {update : AnalysisRecord → AnalysisRecord}
    (h : recommendationsAttempt env state = .ok (st, update)) :
    ∃ rec, buildRecommendations env state = .ok rec ∧
      st = ({ state with recommendations := rec.toJVal }).updateStep "recommendations" (.obj [
          ("success", .bool true),
          ("treatmentCount", .num (.fin rec.treatment.length)),
          ("fertilizerCount", .num (.fin rec.fertilizers.length))]) ∧
      update = fun r => pushStep ⟨"recommendations", "completed",
          .obj [("treatmentOptions", .num (.fin rec.treatment.length)),
                ("fertilizerOptions", .num (.fin rec.fertilizers.length)),
                ("homeRemediesCount", rec.homeRemedies.lengthOf)], .undefined⟩
          { r with recommendations := rec.toJVal } := by
  unfold recommendationsAttempt at h
  cases hb : buildRecommendations env state with
  | error m => simp [hb] at h
  | ok rec =>
    simp only [hb, Except.ok.injEq, Prod.mk.injEq] at h
    exact ⟨rec, rfl, h.1.symm, h.2.symm⟩

theorem finalizationAttempt_ok {state st : AnalysisState}
    {update : AnalysisRecord → AnalysisRecord}
    (h : finalizationAttempt state = .ok (st, update)) :
    ∃ d, state.diseaseDetection = some d ∧ state.recommendations.truthy = true ∧
      st = { state with finalResult := buildFinalResult state d } ∧
      update = fun r => pushStep ⟨"finalization", "completed",
            .obj [("message", .str "Analysis completed successfully")], .undefined⟩
            { r with status := "completed",
                     aiProvider := d.analysisProvider.or state.provider } := by
  unfold finalizationAttempt at h
  cases hd : state.diseaseDetection with
  | none => simp [hd] at h
  | some d =>
    by_cases hr : state.recommendations.truthy = true
    · simp only [hd, hr, Bool.not_true, Bool.false_eq_true, if_false, Except.ok.injEq,
        Prod.mk.injEq] at h
      exact ⟨d, rfl, hr, h.1.symm, h.2.symm⟩
    · simp [hd, hr] at h

theorem finalizationAttempt_error {state : AnalysisState} {m : String}
    (h : finalizationAttempt state = .error m) :
    m = "Cannot finalize - missing detection or recommendations" ∧
      (state.diseaseDetection = none ∨ state.recommendations.truthy = false) := by
  unfold finalizationAttempt at h
  cases hd : state.diseaseDetection with
  | none =>
    simp only [hd, Except.error.injEq] at h
    exact ⟨h.symm, Or.inl rfl⟩
  | some d =>
    by_cases hr : state.recommendations.truthy = true
    · simp [hd, hr] at h
    · simp only [hd, hr, Bool.not_eq_true, Except.error.injEq] at h
      have hr2 : state.recommendations.truthy = false := by simpa using hr
      simp only [hr2, Bool.not_false, if_true, Except.error.injEq] at h
      exact ⟨h.symm, Or.inr hr2⟩


/-! ## Properties kept by every write -/

theorem runStage_keeps (P : AnalysisRecord → Prop) (step : String)
    (failUpdate : String → AnalysisRecord → AnalysisRecord)
    (attempt : Except String (AnalysisState × (AnalysisRecord → AnalysisRecord)))
    (state : AnalysisState) (store : Store)
    (hfail : ∀ m r, P r → P (failUpdate m r))
    (hok : ∀ st update, attempt = .ok (st, update) → ∀ r, P r → P (update r))
    (h : P store.record) :
    P (runStage step failUpdate attempt state store).store.record := by
  rcases runStage_cases step failUpdate attempt state store with
    ⟨st, update, hatt, _, hrun⟩ | ⟨st0, m, s, hs, hrun⟩
  · rw [hrun]; exact hok st update hatt _ h
  · have hsrec : s.record = store.record := by
      rcases hs with ⟨_, _, hs⟩ | ⟨_, _, _, hs⟩ <;> rw [hs]
      rfl
    rcases hrun with ⟨_, hrun⟩ | ⟨m2, _, hrun⟩
    · rw [hrun]
      show P (failUpdate m s.record)
      rw [hsrec]; exact hfail m _ h
    · rw [hrun]
      show P s.record
      rw [hsrec]; exact h

theorem handleError_error_str (state : AnalysisState) :
    (match state.errors.getLast? with
      | some e => JVal.str e.error
      | none => JVal.undefined).or (.str "Unknown error occurred") =
      .str (handleErrorMessage state) := by
  unfold handleErrorMessage
  cases state.errors.getLast? with
  | none => rfl
  | some e =>
    by_cases he : e.error = ""
    · simp [JVal.or, JVal.truthy, he]
    · simp [JVal.or, JVal.truthy, he]

theorem stages_keep {env : Env} {P : AnalysisRecord → Prop} (hP : KeptByWrites env P)
    (state : AnalysisState) (store : Store) (h : P store.record) :
    P (initializeAnalysis state store).store.record ∧
    P (performImageAnalysis env state store).store.record ∧
    P (processDiseaseDetection state store).store.record ∧
    P (generateRecommendations env state store).store.record ∧
    P (finalizeResults state store).store.record ∧
    P (handleError state store).store.record := by
  refine ⟨?_, ?_, ?_, ?_, ?_, ?_⟩
  · rcases initializeAnalysis_cases state store with ⟨_, _, _, hrun⟩ | ⟨m, s, hs, hrun⟩
    · rw [hrun]; exact hP.initialization _ h
    · rw [hrun]
      rcases hs with hs | hs <;> rw [hs] <;> exact h
  · rw [performImageAnalysis_eq]
    exact runStage_keeps P _ _ _ _ _ (fun m r hr => hP.failed _ m r hr)
      (fun st update hatt => hP.image state st update hatt) h
  · rw [processDiseaseDetection_eq]
    exact runStage_keeps P _ _ _ _ _ (fun m r hr => hP.failed _ m r hr)
      (fun st update hatt => hP.detection state st update hatt)
      (by rw [detectionStore_record]; exact h)
  · rw [generateRecommendations_eq]
    exact runStage_keeps P _ _ _ _ _ (fun m r hr => hP.failed _ m r hr)
      (fun st update hatt => hP.recommendations state st update hatt) h
  · rw [finalizeResults_eq]
    exact runStage_keeps P _ _ _ _ _ (fun m r hr => hP.markedFailed _ m r hr)
      (fun st update hatt => hP.finalization state st update hatt) h
  · rcases handleError_cases state store with ⟨_, hrun⟩ | ⟨m, _, hrun⟩
    · rw [hrun]
      show P (pushStep _ { store.record with status := "failed", error := _ })
      rw [handleError_error_str]
      exact hP.markedFailed _ _ _ h
    · rw [hrun]; exact h

theorem createNode_store (nodeName stepKey : String)
    (stepFunction : AnalysisState → Store → StageResult) (state : AnalysisState)
    (store : Store) :
    (createNode nodeName stepKey stepFunction state store).store =
      (stepFunction (AnalysisState.new state) store).store := by
  unfold createNode
  cases h : (stepFunction (AnalysisState.new state) store).thrown with
  | none => simp [h]
  | some e => cases e <;> simp [h]

theorem runNode_store (env : Env) (node : Node) (state : AnalysisState) (store : Store) :
    (runNode env node state store).store =
      match node with
      | .initializeAnalysis => (initializeAnalysis (AnalysisState.new state) store).store
      | .performImageAnalysis =>
        (performImageAnalysis env (AnalysisState.new state) store).store
      | .processDiseaseDetection =>
        (processDiseaseDetection (AnalysisState.new state) store).store
      | .generateRecommendations =>
        (generateRecommendations env (AnalysisState.new state) store).store
      | .finalizeResults => (finalizeResults (AnalysisState.new state) store).store
      | .handleError => (handleError (AnalysisState.new state) store).store := by
  cases node <;> simp only [runNode, createNode_store]
  unfold handleErrorNode
  cases h : (handleError (AnalysisState.new state) store).thrown <;> simp [h]

theorem runNode_keeps {env : Env} {P : AnalysisRecord → Prop} (hP : KeptByWrites env P)
    (node : Node) (state : AnalysisState) (store : Store) (h : P store.record) :
    P (runNode env node state store).store.record := by
  rw [runNode_store]
  obtain ⟨h1, h2, h3, h4, h5, h6⟩ := stages_keep hP (AnalysisState.new state) store h
  cases node <;> assumption

theorem invokeFrom_keeps {env : Env} {P : AnalysisRecord → Prop} (hP : KeptByWrites env P)
    (fuel : Nat) (node : Node) (state : AnalysisState) (store : Store)
    (trace : List (String × Option Thrown)) (h : P store.record) :
    P (invokeFrom env fuel node state store trace).store.record := by
  induction fuel generalizing node state store trace with
  | zero => exact h
  | succ fuel ih =>
    have hnode := runNode_keeps hP node state store h
    simp only [invokeFrom]
    split
    · exact hnode
    · split
      · exact hnode
      · exact hnode
      · exact ih _ _ _ _ hnode

theorem executeAnalysisPipeline_keeps {env : Env} {P : AnalysisRecord → Prop}
    (hP : KeptByWrites env P) (analysisData : AnalysisData) (store : Store)
    (h : P store.record) :
    P (executeAnalysisPipeline env analysisData store).store.record := by
  have hrun : P (invoke env (initialState analysisData) store).store.record :=
    invokeFrom_keeps hP _ _ _ _ _ h
  cases hout : (invoke env (initialState analysisData) store).outcome with
  | ok result => simp only [executeAnalysisPipeline, hout]; exact hrun
  | error e =>
    cases e with
    | undef => simp only [executeAnalysisPipeline, hout]; exact hrun
    | error m =>
      simp only [executeAnalysisPipeline, hout, findByIdAndUpdate_eq]
      cases (invoke env (initialState analysisData) store).store.nextRejection with
      | some m2 => exact hrun
      | none => exact hP.markedFailed _ _ _ hrun


/-! ## Four properties kept by every write -/

theorem pushStep_steps (entry : StepEntry) (r : AnalysisRecord) :
    (pushStep entry r).processingSteps = r.processingSteps ++ [entry] := rfl

theorem prefix_kept (env : Env) (base : List StepEntry) :
    KeptByWrites env (fun r => base <+: r.processingSteps) := by
  have key : ∀ (entry : StepEntry) (r r2 : AnalysisRecord),
      r2.processingSteps = r.processingSteps → base <+: r.processingSteps →
      base <+: (pushStep entry r2).processingSteps := by
    intro entry r r2 h2 h
    rw [pushStep_steps, h2]
    exact h.trans (List.prefix_append _ _)
  refine ⟨?_, ?_, ?_, ?_, ?_, ?_, ?_⟩
  · intro r h; exact key _ r _ rfl h
  · intro state st update hatt r h
    obtain ⟨_, _, _, _, _, hu⟩ := imageAttempt_ok hatt
    subst hu; exact key _ r _ rfl h
  · intro state st update hatt r h
    obtain ⟨_, _, _, hu⟩ := detectionAttempt_ok hatt
    subst hu; exact key _ r _ rfl h
  · intro state st update hatt r h
    obtain ⟨_, _, _, hu⟩ := recommendationsAttempt_ok hatt
    subst hu; exact key _ r _ rfl h
  · intro state st update hatt r h
    obtain ⟨_, _, _, _, hu⟩ := finalizationAttempt_ok hatt
    subst hu; exact key _ r _ rfl h
  · intro step m r h; exact key _ r _ rfl h
  · intro entry m r h; exact key _ r _ rfl h

theorem failedHasError_kept (env : Env) : KeptByWrites env FailedHasError := by
  refine ⟨?_, ?_, ?_, ?_, ?_, ?_, ?_⟩
  · intro r _ hs
    simp [pushStep] at hs
  · intro state st update hatt r h
    obtain ⟨_, _, _, _, _, hu⟩ := imageAttempt_ok hatt
    subst hu; exact h
  · intro state st update hatt r h
    obtain ⟨_, _, _, hu⟩ := detectionAttempt_ok hatt
    subst hu; exact h
  · intro state st update hatt r h
    obtain ⟨_, _, _, hu⟩ := recommendationsAttempt_ok hatt
    subst hu; exact h
  · intro state st update hatt r _ hs
    obtain ⟨_, _, _, _, hu⟩ := finalizationAttempt_ok hatt
    subst hu
    simp [pushStep] at hs
  · intro step m r h; exact h
  · intro entry m r _ _; exact ⟨m, rfl⟩

theorem hasDetection_kept (env : Env) :
    KeptByWrites env (fun r => r.detection.isSome = true) := by
  refine ⟨?_, ?_, ?_, ?_, ?_, ?_, ?_⟩
  · intro r h; exact h
  · intro state st update hatt r h
    obtain ⟨_, _, _, _, _, hu⟩ := imageAttempt_ok hatt
    subst hu; exact h
  · intro state st update hatt r _
    obtain ⟨_, _, _, hu⟩ := detectionAttempt_ok hatt
    subst hu; rfl
  · intro state st update hatt r h
    obtain ⟨_, _, _, hu⟩ := recommendationsAttempt_ok hatt
    subst hu; exact h
  · intro state st update hatt r h
    obtain ⟨_, _, _, _, hu⟩ := finalizationAttempt_ok hatt
    subst hu; exact h
  · intro step m r h; exact h
  · intro entry m r h; exact h

theorem hasRecommendations_kept (env : Env) :
    KeptByWrites env (fun r => r.recommendations.truthy = true) := by
  refine ⟨?_, ?_, ?_, ?_, ?_, ?_, ?_⟩
  · intro r h; exact h
  · intro state st update hatt r h
    obtain ⟨_, _, _, _, _, hu⟩ := imageAttempt_ok hatt
    subst hu; exact h
  · intro state st update hatt r h
    obtain ⟨_, _, _, hu⟩ := detectionAttempt_ok hatt
    subst hu; exact h
  · intro state st update hatt r _
    obtain ⟨_, _, _, hu⟩ := recommendationsAttempt_ok hatt
    subst hu; rfl
  · intro state st update hatt r h
    obtain ⟨_, _, _, _, hu⟩ := finalizationAttempt_ok hatt
    subst hu; exact h
  · intro step m r h; exact h
  · intro entry m r h; exact h


/-! ## Case analysis of the nodes -/

theorem createNode_of_returned (nodeName stepKey : String)
    (stepFunction : AnalysisState → Store → StageResult) (state st : AnalysisState)
    (store s : Store) (h : stepFunction (AnalysisState.new state) store = ⟨none, st, s⟩) :
    createNode nodeName stepKey stepFunction state store =
      ⟨.ok (mergeState state st stepKey), s, none⟩ := by
  simp only [createNode, h, mergeState]

theorem createNode_of_thrown (nodeName stepKey : String)
    (stepFunction : AnalysisState → Store → StageResult) (state st : AnalysisState)
    (store s : Store) (m : String)
    (h : stepFunction (AnalysisState.new state) store = ⟨some (.error m), st, s⟩) :
    createNode nodeName stepKey stepFunction state store =
      ⟨.ok (failState state st.errors nodeName m), s, some (.error m)⟩ := by
  simp only [createNode, h, failState, AnalysisState.addError]

/-- A node built on a stage of the common shape: either the attempt succeeded and its
update was accepted, or the node returns the failure state. -/
theorem createNode_runStage_cases (nodeName stepKey step : String)
    (failUpdate : String → AnalysisRecord → AnalysisRecord)
    (attempt : AnalysisState → Except String (AnalysisState × (AnalysisRecord → AnalysisRecord)))
    (stepFunction : AnalysisState → Store → StageResult)
    (hf : ∀ s st, stepFunction s st = runStage step failUpdate (attempt s) s st)
    (state : AnalysisState) (store : Store) :
    (∃ st update, attempt (AnalysisState.new state) = .ok (st, update) ∧
      store.nextRejection = none ∧
      createNode nodeName stepKey stepFunction state store =
        ⟨.ok (mergeState state st stepKey), store.accept update, none⟩) ∨
    (∃ st0 m0 m s0 s',
      ((attempt (AnalysisState.new state) = .error m0 ∧ s0 = store) ∨
        (∃ update, attempt (AnalysisState.new state) = .ok (st0, update) ∧
          store.nextRejection = some m0 ∧ s0 = store.reject)) ∧
      ((s0.nextRejection = none ∧ m = m0 ∧ s' = s0.accept (failUpdate m0)) ∨
        (s0.nextRejection = some m ∧ s' = s0.reject)) ∧
      createNode nodeName stepKey stepFunction state store =
        ⟨.ok (failState state (st0.addError step m0).errors nodeName m), s',
          some (.error m)⟩) := by
  rcases runStage_cases step failUpdate (attempt (AnalysisState.new state))
      (AnalysisState.new state) store with
    ⟨st, update, hatt, hrej, hrun⟩ | ⟨st0, m0, s0, hs, hrun⟩
  · left
    exact ⟨st, update, hatt, hrej,
      createNode_of_returned _ _ _ _ _ _ _ (by rw [hf, hrun])⟩
  · right
    have hs' : (attempt (AnalysisState.new state) = .error m0 ∧ s0 = store) ∨
        (∃ update, attempt (AnalysisState.new state) = .ok (st0, update) ∧
          store.nextRejection = some m0 ∧ s0 = store.reject) := by
      rcases hs with ⟨h1, _, h3⟩ | h
      · exact Or.inl ⟨h1, h3⟩
      · exact Or.inr h
    rcases hrun with ⟨hrej, hrun⟩ | ⟨m2, hrej, hrun⟩
    · exact ⟨st0, m0, m0, s0, _, hs', Or.inl ⟨hrej, rfl, rfl⟩,
        createNode_of_thrown _ _ _ _ _ _ _ _ (by rw [hf, hrun])⟩
    · exact ⟨st0, m0, m2, s0, _, hs', Or.inr ⟨hrej, rfl⟩,
        createNode_of_thrown _ _ _ _ _ _ _ _ (by rw [hf, hrun])⟩

/-- The node `initializeAnalysis`: either the inputs are present and the update was
accepted, or the node returns the failure state without any write to the record. -/
theorem initializeNode_cases (state : AnalysisState) (store : Store) :
    (truthyStr state.analysisId = true ∧ truthyStr state.imageUrl = true ∧
      store.nextRejection = none ∧
      createNode "initializeAnalysis" "initialization" initializeAnalysis state store =
        ⟨.ok (mergeState state
            ((AnalysisState.new state).updateStep "initialization"
              (.obj [("success", .bool true)])) "initialization"),
          store.accept (fun r => pushStep ⟨"initialization", "completed",
            .obj [("message", .str "Analysis pipeline started")], .undefined⟩
            { r with status := "processing" }), none⟩) ∨
    (∃ m s', (s' = store ∨ s' = store.reject) ∧
      createNode "initializeAnalysis" "initialization" initializeAnalysis state store =
        ⟨.ok (failState state ((AnalysisState.new state).addError "initialization" m).errors
            "initializeAnalysis" m), s', some (.error m)⟩) := by
  rcases initializeAnalysis_cases (AnalysisState.new state) store with
    ⟨hid, hurl, hrej, hrun⟩ | ⟨m, s', hs, hrun⟩
  · left
    exact ⟨hid, hurl, hrej, createNode_of_returned _ _ _ _ _ _ _ hrun⟩
  · right
    exact ⟨m, s', hs, createNode_of_thrown _ _ _ _ _ _ _ _ hrun⟩

/-- The node `handleError`: the write is accepted and the node returns, or the write is
rejected and the node throws. -/
theorem handleErrorNode_cases (state : AnalysisState) (store : Store) :
    (store.nextRejection = none ∧
      handleErrorNode state store =
        ⟨.ok { state with currentStep := "error_handled" },
          store.accept (fun r =>
            pushStep ⟨"error_handling", "completed",
              .obj [("errorStep", match (AnalysisState.new state).errors.getLast? with
                | some e => .str e.step
                | none => .undefined)],
              match (AnalysisState.new state).errors.getLast? with
                | some e => .str e.error
                | none => .undefined⟩
              { r with status := "failed",
                       error := .str (handleErrorMessage (AnalysisState.new state)) }),
          none⟩) ∨
    (∃ m, store.nextRejection = some m ∧
      handleErrorNode state store = ⟨.error (.error m), store.reject, some (.error m)⟩) := by
  rcases handleError_cases (AnalysisState.new state) store with ⟨hrej, hrun⟩ | ⟨m, hrej, hrun⟩
  · left
    refine ⟨hrej, ?_⟩
    simp only [handleErrorNode, hrun, handleError_error_str]
  · right
    exact ⟨m, hrej, by simp only [handleErrorNode, hrun]⟩


/-! ## One step of the run -/

theorem stepFunction_eqs (env : Env) :
    (∀ s st, performImageAnalysis env s st =
      runStage "imageAnalysis" (failedStep "imageAnalysis") (imageAttempt env s) s st) ∧
    (∀ s st, processDiseaseDetection s st =
      runStage "diseaseDetection" (failedStep "diseaseDetection") (detectionAttempt s) s
        (detectionStore s st)) ∧
    (∀ s st, generateRecommendations env s st =
      runStage "recommendations" (failedStep "recommendations")
        (recommendationsAttempt env s) s st) ∧
    (∀ s st, finalizeResults s st =
      runStage "finalization" failedFinalization (finalizationAttempt s) s st) :=
  ⟨performImageAnalysis_eq env, processDiseaseDetection_eq, generateRecommendations_eq env,
    finalizeResults_eq⟩

/-- The node of the detection stage behaves like a node on a stage of the common shape,
run on the store as the write of the detection meets it. -/
theorem runNode_detection (env : Env) (gs : AnalysisState) (store : Store) :
    runNode env .processDiseaseDetection gs store =
      createNode "processDiseaseDetection" "diseaseDetection"
        (fun s st => runStage "diseaseDetection" (failedStep "diseaseDetection")
          (detectionAttempt s) s st)
        gs (detectionStore (AnalysisState.new gs) store) := by
  show createNode "processDiseaseDetection" "diseaseDetection" processDiseaseDetection gs
    store = _
  simp only [createNode, processDiseaseDetection_eq]

/-- A stage node either succeeds, keeping the errors of the state, moving to its step and
appending its completed step, or returns the failure state. -/
theorem stageNode_cases (env : Env) (n : Node) (hn : n ≠ .handleError) (gs : AnalysisState)
    (store : Store) :
    (∃ gs' s' entry, runNode env n gs store = ⟨.ok gs', s', none⟩ ∧ gs'.errors = gs.errors ∧
      gs'.currentStep = n.stepKey ∧
      s'.record.processingSteps = store.record.processingSteps ++ [entry] ∧
      entry.step = n.stepKey ∧ entry.status = "completed" ∧
      (n = .finalizeResults → gs'.finalResult.truthy = true)) ∨
    (∃ errs m s', runNode env n gs store =
      ⟨.ok (failState gs errs n.name m), s', some (.error m)⟩) := by
  obtain ⟨e2, e3, e4, e5⟩ := stepFunction_eqs env
  cases n with
  | handleError => exact absurd rfl hn
  | initializeAnalysis =>
    rcases initializeNode_cases gs store with ⟨_, _, _, hrun⟩ | ⟨m, s', _, hrun⟩
    · left
      exact ⟨_, _, _, hrun, rfl, rfl, rfl, rfl, rfl, by intro h; cases h⟩
    · right
      exact ⟨_, m, s', hrun⟩
  | performImageAnalysis =>
    rcases createNode_runStage_cases "performImageAnalysis" "imageAnalysis" _ _ _ _ e2 gs store
      with ⟨st, update, hatt, _, hrun⟩ | ⟨st0, m0, m, s0, s', _, _, hrun⟩
    · left
      obtain ⟨result, _, _, _, hst, hu⟩ := imageAttempt_ok hatt
      subst hst hu
      exact ⟨_, _, _, hrun, rfl, rfl, rfl, rfl, rfl, by intro h; cases h⟩
    · right
      exact ⟨_, m, s', hrun⟩
  | processDiseaseDetection =>
    rw [runNode_detection]
    rcases createNode_runStage_cases "processDiseaseDetection" "diseaseDetection" _ _
      detectionAttempt _ (fun _ _ => rfl) gs (detectionStore (AnalysisState.new gs) store)
      with ⟨st, update, hatt, _, hrun⟩ | ⟨st0, m0, m, s0, s', _, _, hrun⟩
    · left
      obtain ⟨d, _, hst, hu⟩ := detectionAttempt_ok hatt
      subst hst hu
      refine ⟨_, _, ⟨"diseaseDetection", "completed",
        .obj [("disease", d.disease), ("confidence", .num d.confidence),
          ("severity", d.severity)], .undefined⟩, hrun, rfl, rfl, ?_, rfl, rfl,
        by intro h; cases h⟩
      rw [accept_record, detectionStore_record]
      rfl
    · right
      exact ⟨_, m, s', hrun⟩
  | generateRecommendations =>
    rcases createNode_runStage_cases "generateRecommendations" "recommendations" _ _ _ _ e4
      gs store with ⟨st, update, hatt, _, hrun⟩ | ⟨st0, m0, m, s0, s', _, _, hrun⟩
    · left
      obtain ⟨rec, _, hst, hu⟩ := recommendationsAttempt_ok hatt
      subst hst hu
      exact ⟨_, _, _, hrun, rfl, rfl, rfl, rfl, rfl, by intro h; cases h⟩
    · right
      exact ⟨_, m, s', hrun⟩
  | finalizeResults =>
    rcases createNode_runStage_cases "finalizeResults" "finalization" _ _ _ _ e5
      gs store with ⟨st, update, hatt, _, hrun⟩ | ⟨st0, m0, m, s0, s', _, _, hrun⟩
    · left
      obtain ⟨d, _, _, hst, hu⟩ := finalizationAttempt_ok hatt
      subst hst hu
      exact ⟨_, _, _, hrun, rfl, rfl, rfl, rfl, rfl, by intro _; rfl⟩
    · right
      exact ⟨_, m, s', hrun⟩

theorem nextNode_of_success (n : Node) (hn : n ≠ .handleError) (gs : AnalysisState)
    (herr : gs.errors = []) (hstep : gs.currentStep = n.stepKey) :
    nextNode n gs = .ok n.nextStage := by
  cases n <;>
    first
    | exact absurd rfl hn
    | simp [nextNode, routeAnalysis, herr, hstep, Node.stepKey, conditionalEdges, List.lookup,
        Node.nextStage, END]

theorem nextNode_of_failure (n : Node) (hn : n ≠ .handleError) (gs : AnalysisState)
    (errs : List ErrorEntry) (m : String) :
    nextNode n (failState gs errs n.name m) = .ok (some .handleError) := by
  cases n <;>
    first
    | exact absurd rfl hn
    | simp [nextNode, routeAnalysis, failState, conditionalEdges, List.lookup, END]


/-- One step of the run at a stage: after a success the run goes on with the next stage
(or ends after the last one), after a failure it goes on with `handleError`. -/
theorem invokeFrom_stage (env : Env) (fuel : Nat) (n : Node) (hn : n ≠ .handleError)
    (gs : AnalysisState) (store : Store) (pre : List (String × Option Thrown))
    (herr : gs.errors = []) :
    (∃ gs' s' entry, gs'.errors = [] ∧ gs'.currentStep = n.stepKey ∧
      (n = .finalizeResults → gs'.finalResult.truthy = true) ∧
      s'.record.processingSteps = store.record.processingSteps ++ [entry] ∧
      entry.step = n.stepKey ∧ entry.status = "completed" ∧
      invokeFrom env (fuel + 1) n gs store pre =
        match n.nextStage with
        | some next => invokeFrom env fuel next gs' s' (pre ++ [(n.name, none)])
        | none => ⟨.ok gs', s', pre ++ [(n.name, none)]⟩) ∨
    (∃ errs m s', invokeFrom env (fuel + 1) n gs store pre =
      invokeFrom env fuel .handleError (failState gs errs n.name m) s'
        (pre ++ [(n.name, some (.error m))])) := by
  rcases stageNode_cases env n hn gs store with
    ⟨gs', s', entry, hrun, he, hstep, hsteps, h1, h2, hfin⟩ | ⟨errs, m, s', hrun⟩
  · left
    refine ⟨gs', s', entry, he.trans herr, hstep, hfin, hsteps, h1, h2, ?_⟩
    have hnext := nextNode_of_success n hn gs' (he.trans herr) hstep
    cases hnx : n.nextStage with
    | none =>
      rw [hnx] at hnext
      simp only [invokeFrom, hrun, hnext]
    | some next =>
      rw [hnx] at hnext
      simp only [invokeFrom, hrun, hnext]
  · right
    refine ⟨errs, m, s', ?_⟩
    simp only [invokeFrom, hrun, nextNode_of_failure n hn gs errs m]

/-- One step of the run at `handleError`: the run ends there. -/
theorem invokeFrom_handleError (env : Env) (fuel : Nat) (gs : AnalysisState) (store : Store)
    (pre : List (String × Option Thrown)) :
    (store.nextRejection = none ∧ ∃ s', invokeFrom env (fuel + 1) .handleError gs store pre =
      ⟨.ok { gs with currentStep := "error_handled" }, s', pre ++ [("handleError", none)]⟩) ∨
    (∃ m, store.nextRejection = some m ∧
      invokeFrom env (fuel + 1) .handleError gs store pre =
        ⟨.error (.error m), store.reject, pre ++ [("handleError", some (.error m))]⟩) := by
  rcases handleErrorNode_cases gs store with ⟨hrej, hrun⟩ | ⟨m, hrej, hrun⟩
  · left
    refine ⟨hrej, (handleErrorNode gs store).store, ?_⟩
    simp only [invokeFrom, runNode, hrun, nextNode, Node.name]
  · right
    refine ⟨m, hrej, ?_⟩
    simp only [invokeFrom, runNode, hrun, Node.name]

/-! ## The shape of a run -/

theorem stepNames_append (r r2 : AnalysisRecord) (entry : StepEntry)
    (h : r2.processingSteps = r.processingSteps ++ [entry]) :
    stepNames r2 = stepNames r ++ [(entry.step, entry.status)] := by
  simp [stepNames, h]

theorem runShape_cons {store s' : Store} {pre : List (String × Option Thrown)} {n : Node}
    {chain : List Node} {run : GraphRun} {entry : StepEntry}
    (hs : s'.record.processingSteps = store.record.processingSteps ++ [entry])
    (he : entry.step = n.stepKey) (hst : entry.status = "completed")
    (h : RunShape s' (pre ++ [(n.name, none)]) chain run) : RunShape store pre (n :: chain) run := by
  rcases h with ⟨gs, hout, herr, hstep, hfin, htrace, hsteps⟩ |
    ⟨done, failed, rest, m, h, hchain, htrace, hend⟩
  · left
    refine ⟨gs, hout, herr, hstep, hfin, ?_, ?_⟩
    · rw [htrace]; simp
    · rw [hsteps, stepNames_append _ _ _ hs, he, hst]; simp
  · right
    refine ⟨n :: done, failed, rest, m, h, by rw [hchain]; rfl, ?_, hend⟩
    rw [htrace]; simp

theorem runShape_failed (env : Env) (fuel : Nat) (n : Node) (rest : List Node)
    (gs : AnalysisState) (errs : List ErrorEntry) (m : String) (store s' : Store)
    (pre : List (String × Option Thrown)) :
    RunShape store pre (n :: rest)
      (invokeFrom env (fuel + 1) .handleError (failState gs errs n.name m) s'
        (pre ++ [(n.name, some (.error m))])) := by
  right
  rcases invokeFrom_handleError env fuel (failState gs errs n.name m) s'
      (pre ++ [(n.name, some (.error m))]) with ⟨_, s2, hrun⟩ | ⟨m2, _, hrun⟩
  · refine ⟨[], n, rest, m, none, rfl, by rw [hrun]; simp, Or.inl ⟨rfl, _, by rw [hrun], ?_, ?_⟩⟩
    · simp [failState]
    · simp [failState]
  · exact ⟨[], n, rest, m, some (.error m2), rfl, by rw [hrun]; simp,
      Or.inr ⟨m2, rfl, by rw [hrun]⟩⟩

theorem runShape_last (env : Env) (fuel : Nat) (gs : AnalysisState) (store : Store)
    (pre : List (String × Option Thrown)) (hfuel : Node.finalizeResults.chain.length < fuel)
    (herr : gs.errors = []) :
    RunShape store pre Node.finalizeResults.chain
      (invokeFrom env fuel .finalizeResults gs store pre) := by
  obtain ⟨f, rfl⟩ : ∃ f, fuel = f + 1 + 1 :=
    ⟨fuel - 2, by simp [Node.chain, stageNodes] at hfuel; omega⟩
  rcases invokeFrom_stage env (f + 1) .finalizeResults (by decide) gs store pre herr with
    ⟨gs', s', entry, he, hstep, hfin, hsteps, h1, h2, hrun⟩ | ⟨errs, m, s', hrun⟩
  · left
    rw [hrun]
    refine ⟨gs', rfl, he, hstep, hfin rfl, rfl, ?_⟩
    show stepNames s'.record = _
    rw [stepNames_append _ _ _ hsteps, h1, h2]
    rfl
  · rw [hrun]
    exact runShape_failed env f .finalizeResults [] gs errs m store s' pre

theorem runShape_step (env : Env) (n next : Node) (hn : n ≠ .handleError)
    (hnext : n.nextStage = some next) (hchain : n.chain = n :: next.chain)
    (ih : ∀ fuel gs store pre, next.chain.length < fuel → gs.errors = [] →
      RunShape store pre next.chain (invokeFrom env fuel next gs store pre))
    (fuel : Nat) (gs : AnalysisState) (store : Store) (pre : List (String × Option Thrown))
    (hfuel : n.chain.length < fuel) (herr : gs.errors = []) :
    RunShape store pre n.chain (invokeFrom env fuel n gs store pre) := by
  rw [hchain] at hfuel ⊢
  obtain ⟨f, rfl⟩ : ∃ f, fuel = f + 1 + 1 :=
    ⟨fuel - 2, by simp at hfuel; omega⟩
  rcases invokeFrom_stage env (f + 1) n hn gs store pre herr with
    ⟨gs', s', entry, he, hstep, hfin, hsteps, h1, h2, hrun⟩ | ⟨errs, m, s', hrun⟩
  · rw [hrun, hnext]
    exact runShape_cons hsteps h1 h2
      (ih (f + 1) gs' s' _ (by simp at hfuel; omega) he)
  · rw [hrun]
    exact runShape_failed env f n next.chain gs errs m store s' pre

/-- Every run of the graph from its entry point on an error-free state has one of the two
shapes. -/
theorem runShape_invoke (env : Env) (gs : AnalysisState) (store : Store)
    (herr : gs.errors = []) : RunShape store [] stageNodes (invoke env gs store) := by
  have h5 := runShape_last env
  have h4 := runShape_step env .generateRecommendations .finalizeResults (by decide) rfl rfl
    (fun fuel gs store pre hf he => h5 fuel gs store pre hf he)
  have h3 := runShape_step env .processDiseaseDetection .generateRecommendations (by decide)
    rfl rfl h4
  have h2 := runShape_step env .performImageAnalysis .processDiseaseDetection (by decide)
    rfl rfl h3
  have h1 := runShape_step env .initializeAnalysis .performImageAnalysis (by decide)
    rfl rfl h2
  exact h1 recursionLimit gs store [] (by decide) herr


/-! ## The result of the pipeline -/

theorem executeAnalysisPipeline_of_ok {env : Env} {analysisData : AnalysisData} {store : Store}
    {gs : AnalysisState} (h : (invoke env (initialState analysisData) store).outcome = .ok gs) :
    executeAnalysisPipeline env analysisData store =
      ⟨.ok (resultOfState gs), (invoke env (initialState analysisData) store).store,
        (invoke env (initialState analysisData) store).trace⟩ := by
  simp only [executeAnalysisPipeline, h]

theorem executeAnalysisPipeline_of_error {env : Env} {analysisData : AnalysisData}
    {store : Store} {m : String}
    (h : (invoke env (initialState analysisData) store).outcome = .error (.error m)) :
    (executeAnalysisPipeline env analysisData store).outcome =
        .ok ⟨false, some "Pipeline execution failed", some "PIPELINE_ERROR", some m, .undefined⟩ ∧
      (executeAnalysisPipeline env analysisData store).trace =
        (invoke env (initialState analysisData) store).trace := by
  simp only [executeAnalysisPipeline, h, and_self]

theorem resultOfState_success {gs : AnalysisState} (herr : gs.errors = [])
    (hstep : gs.currentStep = "finalization") (hfin : gs.finalResult.truthy = true) :
    resultOfState gs = ⟨true, none, none, none, gs.finalResult⟩ := by
  simp [resultOfState, herr, hstep, hfin]

theorem resultOfState_failure {gs : AnalysisState} {m : String} (herr : gs.errors ≠ [])
    (hlast : gs.errors.getLast?.map (fun e => e.error) = some m) :
    resultOfState gs = ⟨false, some "Analysis failed", some "ANALYSIS_FAILED",
      some (if m != "" then m else "Analysis pipeline failed"), .undefined⟩ := by
  have hlen : gs.errors.length > 0 := List.length_pos.mpr herr
  cases hl : gs.errors.getLast? with
  | none => rw [hl] at hlast; cases hlast
  | some e =>
    rw [hl] at hlast
    simp only [Option.map_some', Option.some.injEq] at hlast
    simp [resultOfState, hlen, hl, hlast]

theorem failing_trace_ne (pre : List (String × Option Thrown)) (name : String) (m : String)
    (h : Option Thrown) :
    pre ++ [(name, some (.error m)), ("handleError", h)] ≠ successTrace := by
  intro heq
  have hmem : (name, some (Thrown.error m)) ∈ successTrace := by
    rw [← heq]; simp
  simp [successTrace, stageNodes] at hmem

/-- The ways a call of `executeAnalysisPipeline` can go: the five stages succeed and the
result carries the final result; or a stage throws, the handler runs, and the result
carries the message thrown; or the write of the handler is rejected and the result carries
the message of the rejection. -/
theorem executeAnalysisPipeline_cases (env : Env) (analysisData : AnalysisData) (store : Store) :
    (∃ gs, (invoke env (initialState analysisData) store).outcome = .ok gs ∧
      gs.finalResult.truthy = true ∧
      (executeAnalysisPipeline env analysisData store).outcome =
        .ok ⟨true, none, none, none, gs.finalResult⟩ ∧
      (executeAnalysisPipeline env analysisData store).trace = successTrace ∧
      stepNames (executeAnalysisPipeline env analysisData store).store.record =
        stepNames store.record ++ stageNodes.map (fun n => (n.stepKey, "completed"))) ∨
    (∃ done failed rest m h, stageNodes = done ++ failed :: rest ∧
      (executeAnalysisPipeline env analysisData store).trace =
        done.map (fun n => (n.name, none)) ++
          [(failed.name, some (.error m)), ("handleError", h)] ∧
      ((h = none ∧ (executeAnalysisPipeline env analysisData store).outcome =
          .ok ⟨false, some "Analysis failed", some "ANALYSIS_FAILED",
            some (if m != "" then m else "Analysis pipeline failed"), .undefined⟩) ∨
        (∃ m2, h = some (.error m2) ∧ (executeAnalysisPipeline env analysisData store).outcome =
          .ok ⟨false, some "Pipeline execution failed", some "PIPELINE_ERROR", some m2,
            .undefined⟩))) := by
  rcases runShape_invoke env (initialState analysisData) store rfl with
    ⟨gs, hout, herr, hstep, hfin, htrace, hsteps⟩ |
    ⟨done, failed, rest, m, h, hchain, htrace, hend⟩
  · left
    refine ⟨gs, hout, hfin, ?_, ?_, ?_⟩
    · rw [executeAnalysisPipeline_of_ok hout, resultOfState_success herr hstep hfin]
    · rw [executeAnalysisPipeline_of_ok hout]
      show (invoke env (initialState analysisData) store).trace = _
      rw [htrace]; rfl
    · rw [executeAnalysisPipeline_of_ok hout]
      exact hsteps
  · right
    refine ⟨done, failed, rest, m, h, hchain, ?_, ?_⟩
    · rcases hend with ⟨_, gs, hout, _, _⟩ | ⟨m2, _, hout⟩
      · rw [executeAnalysisPipeline_of_ok hout]
        show (invoke env (initialState analysisData) store).trace = _
        rw [htrace]; simp
      · rw [(executeAnalysisPipeline_of_error hout).2, htrace]; simp
    · rcases hend with ⟨hh, gs, hout, herr, hlast⟩ | ⟨m2, hh, hout⟩
      · left
        refine ⟨hh, ?_⟩
        rw [executeAnalysisPipeline_of_ok hout, resultOfState_failure herr hlast]
      · right
        exact ⟨m2, hh, (executeAnalysisPipeline_of_error hout).1⟩

/-- A call of `executeAnalysisPipeline` returns a result. -/
theorem pipeline_result_exists (env : Env) (analysisData : AnalysisData) (store : Store) :
    ∃ res, (executeAnalysisPipeline env analysisData store).outcome = .ok res ∧
      (res.success = true ∨ res.success = false) := by
  rcases executeAnalysisPipeline_cases env analysisData store with
    ⟨_, _, _, hres, _, _⟩ | ⟨_, _, _, _, _, _, _, hend⟩
  · exact ⟨_, hres, Or.inl rfl⟩
  · rcases hend with ⟨_, hres⟩ | ⟨_, _, hres⟩
    · exact ⟨_, hres, Or.inr rfl⟩
    · exact ⟨_, hres, Or.inr rfl⟩

/-! ## Claim C11 -/

/-- A stage node either returns without a throw of its stage, and the run goes on with
the next stage (or ends after the last), or its stage throws a message, and the run goes
on with `handleError` on the failure state. -/
theorem stage_step (env : Env) (n : Node) (hn : n ≠ .handleError) (gs : AnalysisState)
    (store : Store) (herr : gs.errors = []) :
    (∃ gs' s', runNode env n gs store = ⟨.ok gs', s', none⟩ ∧ gs'.errors = [] ∧
      gs'.currentStep = n.stepKey ∧ (n = .finalizeResults → gs'.finalResult.truthy = true) ∧
      ∀ fuel pre, invokeFrom env (fuel + 1) n gs store pre =
        match n.nextStage with
        | some next => invokeFrom env fuel next gs' s' (pre ++ [(n.name, none)])
        | none => ⟨.ok gs', s', pre ++ [(n.name, none)]⟩) ∨
    (∃ errs m s', runNode env n gs store =
        ⟨.ok (failState gs errs n.name m), s', some (.error m)⟩ ∧
      ∀ fuel pre, invokeFrom env (fuel + 1) n gs store pre =
        invokeFrom env fuel .handleError (failState gs errs n.name m) s'
          (pre ++ [(n.name, some (.error m))])) := by
  rcases stageNode_cases env n hn gs store with
    ⟨gs', s', entry, hrun, he, hstep, _, _, _, hfin⟩ | ⟨errs, m, s', hrun⟩
  · left
    refine ⟨gs', s', hrun, he.trans herr, hstep, hfin, fun fuel pre => ?_⟩
    have hnext := nextNode_of_success n hn gs' (he.trans herr) hstep
    cases hnx : n.nextStage with
    | none =>
      rw [hnx] at hnext
      simp only [invokeFrom, hrun, hnext]
    | some next =>
      rw [hnx] at hnext
      simp only [invokeFrom, hrun, hnext]
  · right
    refine ⟨errs, m, s', hrun, fun fuel pre => ?_⟩
    simp only [invokeFrom, hrun, nextNode_of_failure n hn gs errs m]

/-- The latest error of a failure state carries the message thrown. -/
theorem failState_last (gs : AnalysisState) (errs : List ErrorEntry) (name m : String) :
    (failState gs errs name m).errors ≠ [] ∧
      (failState gs errs name m).errors.getLast?.map (fun e => e.error) = some m := by
  constructor <;> simp [failState]

/-- The run after a stage has thrown: `handleError` ends it. -/
theorem invokeFrom_after_failure (env : Env) (fuel : Nat) (gs : AnalysisState)
    (errs : List ErrorEntry) (name m : String) (s : Store)
    (pre : List (String × Option Thrown)) :
    (s.nextRejection = none ∧ ∃ gs2,
      (invokeFrom env (fuel + 1) .handleError (failState gs errs name m) s pre).outcome =
        .ok gs2 ∧ gs2.errors ≠ [] ∧ gs2.errors.getLast?.map (fun e => e.error) = some m) ∨
    (∃ m2, s.nextRejection = some m2 ∧
      (invokeFrom env (fuel + 1) .handleError (failState gs errs name m) s pre).outcome =
        .error (.error m2)) := by
  rcases invokeFrom_handleError env fuel (failState gs errs name m) s pre with
    ⟨hrej, s2, hrun⟩ | ⟨m2, hrej, hrun⟩
  · left
    refine ⟨hrej, _, by rw [hrun], ?_, ?_⟩
    · exact (failState_last gs errs name m).1
    · exact (failState_last gs errs name m).2
  · right
    exact ⟨m2, hrej, by rw [hrun]⟩

/-- The run of the graph from the last stage follows that stage: it returns the state the
stage left when the stage returned, and otherwise ends in `handleError`, returning a
state whose latest error is the message thrown, or throwing the message of the rejected
write of the handler. -/
theorem runStages_last (env : Env) (fuel : Nat) (gs : AnalysisState) (store : Store)
    (pre : List (String × Option Thrown)) (hfuel : 1 < fuel) (herr : gs.errors = []) :
    (∃ gs' s', runStages env [.finalizeResults] gs store = (none, gs', s') ∧
      gs'.errors = [] ∧ gs'.currentStep = "finalization" ∧ gs'.finalResult.truthy = true ∧
      (invokeFrom env fuel .finalizeResults gs store pre).outcome = .ok gs' ∧
      (invokeFrom env fuel .finalizeResults gs store pre).store = s') ∨
    (∃ failed m gs' s',
      runStages env [.finalizeResults] gs store = (some (failed, .error m), gs', s') ∧
      ((s'.nextRejection = none ∧ ∃ gs2,
          (invokeFrom env fuel .finalizeResults gs store pre).outcome = .ok gs2 ∧
          gs2.errors ≠ [] ∧ gs2.errors.getLast?.map (fun e => e.error) = some m) ∨
        (∃ m2, s'.nextRejection = some m2 ∧
          (invokeFrom env fuel .finalizeResults gs store pre).outcome =
            .error (.error m2)))) := by
  obtain ⟨f, rfl⟩ : ∃ f, fuel = f + 1 + 1 := ⟨fuel - 2, by omega⟩
  rcases stage_step env .finalizeResults (by decide) gs store herr with
    ⟨gs', s', hrun, he, hstep, hfin, hinv⟩ | ⟨errs, m, s', hrun, hinv⟩
  · left
    refine ⟨gs', s', by simp [runStages, hrun], he, hstep, hfin rfl, ?_, ?_⟩
    · rw [hinv]; rfl
    · rw [hinv]; rfl
  · right
    refine ⟨.finalizeResults, m, failState gs errs Node.finalizeResults.name m, s',
      by simp [runStages, hrun], ?_⟩
    rw [hinv]
    exact invokeFrom_after_failure env f gs errs _ m s' _

/-- The same for a stage followed by further stages. -/
theorem runStages_step (env : Env) (n next : Node) (hn : n ≠ .handleError)
    (hnext : n.nextStage = some next) (chain : List Node)
    (ih : ∀ fuel gs store pre, chain.length < fuel → gs.errors = [] →
      (∃ gs' s', runStages env chain gs store = (none, gs', s') ∧
        gs'.errors = [] ∧ gs'.currentStep = "finalization" ∧ gs'.finalResult.truthy = true ∧
        (invokeFrom env fuel next gs store pre).outcome = .ok gs' ∧
        (invokeFrom env fuel next gs store pre).store = s') ∨
      (∃ failed m gs' s',
        runStages env chain gs store = (some (failed, .error m), gs', s') ∧
        ((s'.nextRejection = none ∧ ∃ gs2,
            (invokeFrom env fuel next gs store pre).outcome = .ok gs2 ∧
            gs2.errors ≠ [] ∧ gs2.errors.getLast?.map (fun e => e.error) = some m) ∨
          (∃ m2, s'.nextRejection = some m2 ∧
            (invokeFrom env fuel next gs store pre).outcome = .error (.error m2)))))
    (fuel : Nat) (gs : AnalysisState) (store : Store) (pre : List (String × Option Thrown))
    (hfuel : (n :: chain).length < fuel) (herr : gs.errors = []) :
    (∃ gs' s', runStages env (n :: chain) gs store = (none, gs', s') ∧
      gs'.errors = [] ∧ gs'.currentStep = "finalization" ∧ gs'.finalResult.truthy = true ∧
      (invokeFrom env fuel n gs store pre).outcome = .ok gs' ∧
      (invokeFrom env fuel n gs store pre).store = s') ∨
    (∃ failed m gs' s',
      runStages env (n :: chain) gs store = (some (failed, .error m), gs', s') ∧
      ((s'.nextRejection = none ∧ ∃ gs2,
          (invokeFrom env fuel n gs store pre).outcome = .ok gs2 ∧
          gs2.errors ≠ [] ∧ gs2.errors.getLast?.map (fun e => e.error) = some m) ∨
        (∃ m2, s'.nextRejection = some m2 ∧
          (invokeFrom env fuel n gs store pre).outcome = .error (.error m2)))) := by
  obtain ⟨f, rfl⟩ : ∃ f, fuel = f + 1 + 1 :=
    ⟨fuel - 2, by simp at hfuel; omega⟩
  rcases stage_step env n hn gs store herr with
    ⟨gs', s', hrun, he, _, _, hinv⟩ | ⟨errs, m, s', hrun, hinv⟩
  · have hrs : runStages env (n :: chain) gs store = runStages env chain gs' s' := by
      simp [runStages, hrun]
    rw [hrs, hinv, hnext]
    exact ih (f + 1) gs' s' _ (by simp at hfuel; omega) he
  · right
    refine ⟨n, m, failState gs errs n.name m, s', by simp [runStages, hrun], ?_⟩
    rw [hinv]
    exact invokeFrom_after_failure env f gs errs _ m s' _

/-- The run of the graph from its entry point follows the five stages run in sequence. -/
theorem invoke_runStages (env : Env) (gs : AnalysisState) (store : Store)
    (herr : gs.errors = []) :
    (∃ gs' s', runStages env stageNodes gs store = (none, gs', s') ∧
      gs'.errors = [] ∧ gs'.currentStep = "finalization" ∧ gs'.finalResult.truthy = true ∧
      (invoke env gs store).outcome = .ok gs' ∧ (invoke env gs store).store = s') ∨
    (∃ failed m gs' s',
      runStages env stageNodes gs store = (some (failed, .error m), gs', s') ∧
      ((s'.nextRejection = none ∧ ∃ gs2,
          (invoke env gs store).outcome = .ok gs2 ∧
          gs2.errors ≠ [] ∧ gs2.errors.getLast?.map (fun e => e.error) = some m) ∨
        (∃ m2, s'.nextRejection = some m2 ∧
          (invoke env gs store).outcome = .error (.error m2)))) := by
  have h5 := runStages_last env
  have h4 := runStages_step env .generateRecommendations .finalizeResults (by decide) rfl
    [.finalizeResults] (fun fuel gs store pre hf he => h5 fuel gs store pre (by simpa using hf) he)
  have h3 := runStages_step env .processDiseaseDetection .generateRecommendations (by decide)
    rfl _ h4
  have h2 := runStages_step env .performImageAnalysis .processDiseaseDetection (by decide)
    rfl _ h3
  have h1 := runStages_step env .initializeAnalysis .performImageAnalysis (by decide)
    rfl _ h2
  exact h1 recursionLimit gs store [] (by decide) herr

/-- C11, counterexample: called with `undefined` (or `null`), `executeAnalysisPipeline`
throws a `TypeError` while it builds the initial state, before its `try`: no structured
result is returned, nothing is run and nothing is written. -/
theorem nullish_argument_raises :
    executeAnalysisPipelineCall bareWorld .undefined sampleStore =
      ⟨.error (.error "Cannot read properties of undefined (reading \x27analysisId\x27)"),
        sampleStore, []⟩ ∧
    executeAnalysisPipelineCall bareWorld .null sampleStore =
      ⟨.error (.error "Cannot read properties of null (reading \x27analysisId\x27)"),
        sampleStore, []⟩ :=
  ⟨rfl, rfl⟩

/-- C11, amended: called with an object, `executeAnalysisPipeline` never throws, whatever
the data, the backends and the script of rejected store writes: it returns a structured
result. Run one after the other, the five stages either all return, and then the result
is `success: true` with the final result of the last state, which is truthy, as `data`,
and the store is the one the stages left; or one of them throws a message, and then the
result is `success: false` without data, with code `ANALYSIS_FAILED` and the thrown
message in `details` (the default text for an empty message) when the write of the error
handler is accepted, and with code `PIPELINE_ERROR` and the message of the rejection in
`details` when it is rejected. -/
theorem pipeline_returns_structured_result (env : Env) (analysisData : AnalysisData)
    (store : Store) :
    ∃ res, (executeAnalysisPipelineCall env (.object analysisData) store).outcome = .ok res ∧
      ((∃ gs s, runStages env stageNodes (initialState analysisData) store = (none, gs, s) ∧
          res.success = true ∧ res.data = gs.finalResult ∧ res.data.truthy = true ∧
          res.error = none ∧
          (executeAnalysisPipelineCall env (.object analysisData) store).store = s) ∨
        (∃ failed m gs s,
          runStages env stageNodes (initialState analysisData) store =
            (some (failed, .error m), gs, s) ∧
          res.success = false ∧ res.data = .undefined ∧
          ((s.nextRejection = none ∧ res.error = some "ANALYSIS_FAILED" ∧
              res.details = some (if m != "" then m else "Analysis pipeline failed")) ∨
            (∃ m2, s.nextRejection = some m2 ∧ res.error = some "PIPELINE_ERROR" ∧
              res.details = some m2)))) := by
  show ∃ res, (executeAnalysisPipeline env analysisData store).outcome = .ok res ∧
      ((∃ gs s, runStages env stageNodes (initialState analysisData) store = (none, gs, s) ∧
          res.success = true ∧ res.data = gs.finalResult ∧ res.data.truthy = true ∧
          res.error = none ∧ (executeAnalysisPipeline env analysisData store).store = s) ∨ _)
  rcases invoke_runStages env (initialState analysisData) store rfl with
    ⟨gs, s, hrs, herr, hstep, hfin, hout, hstore⟩ | ⟨failed, m, gs, s, hrs, hend⟩
  · refine ⟨_, by rw [executeAnalysisPipeline_of_ok hout,
      resultOfState_success herr hstep hfin], Or.inl ⟨gs, s, hrs, rfl, rfl, hfin, rfl, ?_⟩⟩
    rw [executeAnalysisPipeline_of_ok hout]
    exact hstore
  · rcases hend with ⟨hrej, gs2, hout, herr, hlast⟩ | ⟨m2, hrej, hout⟩
    · exact ⟨_, by rw [executeAnalysisPipeline_of_ok hout, resultOfState_failure herr hlast],
        Or.inr ⟨failed, m, gs, s, hrs, rfl, rfl, Or.inl ⟨hrej, rfl, rfl⟩⟩⟩
    · exact ⟨_, (executeAnalysisPipeline_of_error hout).1,
        Or.inr ⟨failed, m, gs, s, hrs, rfl, rfl, Or.inr ⟨m2, hrej, rfl, rfl⟩⟩⟩

/-- C11, at two concrete inputs: against the bare world the five stages of the sample
analysis return and the result is a success; without an image address the first stage
throws and the result is a failure carrying its message. -/
theorem pipeline_returns_structured_result_witness :
    (runStages bareWorld stageNodes (initialState sampleData) sampleStore).1 = none ∧
    (∃ res, (executeAnalysisPipelineCall bareWorld (.object sampleData) sampleStore).outcome =
      .ok res ∧ res.success = true) ∧
    (runStages bareWorld stageNodes (initialState missingImageData) sampleStore).1 =
      some (.initializeAnalysis, .error "Image URL is required") ∧
    (∃ res, (executeAnalysisPipelineCall bareWorld (.object missingImageData)
      sampleStore).outcome = .ok res ∧ res.success = false ∧
      res.error = some "ANALYSIS_FAILED" ∧ res.details = some "Image URL is required") := by
  have h1 : (runStages bareWorld stageNodes (initialState sampleData) sampleStore).1 = none := by
    with_unfolding_all rfl
  have h2 : runStages bareWorld stageNodes (initialState missingImageData) sampleStore =
      (some (.initializeAnalysis, .error "Image URL is required"),
        (runStages bareWorld stageNodes (initialState missingImageData) sampleStore).2.1,
        sampleStore) := by
    with_unfolding_all rfl
  refine ⟨h1, ?_, by rw [h2], ?_⟩
  · obtain ⟨res, hres, hcase⟩ :=
      pipeline_returns_structured_result bareWorld sampleData sampleStore
    rcases hcase with ⟨_, _, _, hs, _⟩ | ⟨_, _, _, _, hrs, _⟩
    · exact ⟨res, hres, hs⟩
    · rw [hrs] at h1
      cases h1
  · obtain ⟨res, hres, hcase⟩ :=
      pipeline_returns_structured_result bareWorld missingImageData sampleStore
    rcases hcase with ⟨_, _, hrs, _⟩ | ⟨_, m, _, s, hrs, hf, _, hend⟩
    · rw [h2] at hrs
      cases hrs
    · rw [h2] at hrs
      simp only [Prod.mk.injEq, Option.some.injEq, Thrown.error.injEq] at hrs
      obtain ⟨⟨_, hm⟩, _, hs⟩ := hrs
      subst hm hs
      rcases hend with ⟨_, he, hd⟩ | ⟨m2, hrej, _⟩
      · exact ⟨res, hres, hf, he, hd⟩
      · cases hrej

/-! ## The state and the record stay coupled -/

theorem or_truthy (a b : JVal) : (a.or b).truthy = (a.truthy || b.truthy) := by
  unfold JVal.or
  cases h : a.truthy <;> simp [h]

theorem new_recommendations_truthy (gs : AnalysisState) :
    (AnalysisState.new gs).recommendations.truthy = gs.recommendations.truthy := by
  show (gs.recommendations.or .null).truthy = _
  rw [or_truthy]
  simp [JVal.truthy]

theorem coupled_failState {gs : AnalysisState} {r r2 : AnalysisRecord} (h : Coupled gs r)
    (hd : r2.detection = r.detection) (hr : r2.recommendations = r.recommendations)
    (hs : r2.status = r.status ∨ r2.status = "failed") (errs : List ErrorEntry)
    (name m : String) : Coupled (failState gs errs name m) r2 := by
  obtain ⟨h1, h2, h3⟩ := h
  refine ⟨?_, ?_, ?_⟩
  · intro hc
    rw [hd, hr]
    rcases hs with hs | hs
    · exact h1 (hs ▸ hc)
    · rw [hs] at hc; exact absurd hc (by decide)
  · intro hdd; rw [hd]; exact h2 hdd
  · intro hrr; rw [hr]; exact h3 hrr

/-- A merge that brings no detection and no recommendations of its own, with a write that
touches neither and does not complete the record, keeps the coupling. -/
theorem coupled_merge_plain {gs st : AnalysisState} {r r2 : AnalysisRecord} (h : Coupled gs r)
    (hdd : st.diseaseDetection = gs.diseaseDetection)
    (hrec : st.recommendations.truthy = gs.recommendations.truthy)
    (hd : r2.detection = r.detection) (hr : r2.recommendations = r.recommendations)
    (hs : r2.status = r.status ∨ r2.status = "processing") (stepKey : String) :
    Coupled (mergeState gs st stepKey) r2 := by
  obtain ⟨h1, h2, h3⟩ := h
  refine ⟨?_, ?_, ?_⟩
  · intro hc
    rw [hd, hr]
    rcases hs with hs | hs
    · exact h1 (hs ▸ hc)
    · rw [hs] at hc; exact absurd hc (by decide)
  · intro hx
    rw [hd]
    apply h2
    simp only [mergeState, hdd] at hx
    cases hg : gs.diseaseDetection with
    | none => rw [hg] at hx; exact absurd hx (by simp)
    | some d => rfl
  · intro hx
    rw [hr]
    apply h3
    simp only [mergeState, or_truthy, hrec, Bool.or_self] at hx
    exact hx

theorem image_coupled (env : Env) (gs st : AnalysisState)
    (update : AnalysisRecord → AnalysisRecord) (r : AnalysisRecord)
    (hatt : imageAttempt env (AnalysisState.new gs) = .ok (st, update)) (h : Coupled gs r) :
    Coupled (mergeState gs st "imageAnalysis") (update r) := by
  obtain ⟨result, _, _, _, hst, hu⟩ := imageAttempt_ok hatt
  subst hst hu
  refine coupled_merge_plain h ?_ ?_ ?_ ?_ (Or.inl ?_) _
  · rfl
  · exact new_recommendations_truthy gs
  · rfl
  · rfl
  · rfl

theorem detection_coupled (gs st : AnalysisState)
    (update : AnalysisRecord → AnalysisRecord) (r : AnalysisRecord)
    (hatt : detectionAttempt (AnalysisState.new gs) = .ok (st, update)) (h : Coupled gs r) :
    Coupled (mergeState gs st "diseaseDetection") (update r) := by
  obtain ⟨d, _, hst, hu⟩ := detectionAttempt_ok hatt
  subst hst hu
  obtain ⟨h1, h2, h3⟩ := h
  refine ⟨?_, ?_, ?_⟩
  · intro hc
    exact ⟨rfl, (h1 hc).2⟩
  · intro _; rfl
  · intro hx
    apply h3
    have hx2 : ((AnalysisState.new gs).recommendations.or gs.recommendations).truthy = true := hx
    rw [or_truthy, new_recommendations_truthy, Bool.or_self] at hx2
    exact hx2

theorem recommendations_coupled (env : Env) (gs st : AnalysisState)
    (update : AnalysisRecord → AnalysisRecord) (r : AnalysisRecord)
    (hatt : recommendationsAttempt env (AnalysisState.new gs) = .ok (st, update))
    (h : Coupled gs r) :
    Coupled (mergeState gs st "recommendations") (update r) := by
  obtain ⟨rec, _, hst, hu⟩ := recommendationsAttempt_ok hatt
  subst hst hu
  obtain ⟨h1, h2, h3⟩ := h
  refine ⟨?_, ?_, ?_⟩
  · intro hc
    exact ⟨(h1 hc).1, rfl⟩
  · intro hx
    apply h2
    have hx2 : (match gs.diseaseDetection with
      | some d => some d
      | none => gs.diseaseDetection).isSome = true := hx
    cases hg : gs.diseaseDetection with
    | none => rw [hg] at hx2; exact absurd hx2 (by simp)
    | some d => rfl
  · intro _; rfl

theorem finalization_coupled (gs st : AnalysisState)
    (update : AnalysisRecord → AnalysisRecord) (r : AnalysisRecord)
    (hatt : finalizationAttempt (AnalysisState.new gs) = .ok (st, update)) (h : Coupled gs r) :
    Coupled (mergeState gs st "finalization") (update r) := by
  obtain ⟨d, hd, hrec, hst, hu⟩ := finalizationAttempt_ok hatt
  subst hst hu
  obtain ⟨h1, h2, h3⟩ := h
  have hgd : gs.diseaseDetection = some d := hd
  have hgr : gs.recommendations.truthy = true := by
    rw [← new_recommendations_truthy]; exact hrec
  have hrd : r.detection.isSome = true := h2 (by rw [hgd]; rfl)
  have hrr : r.recommendations.truthy = true := h3 hgr
  refine ⟨fun _ => ⟨hrd, hrr⟩, fun _ => hrd, fun _ => hrr⟩


theorem createNode_coupled (nodeName stepKey step : String)
    (failUpdate : String → AnalysisRecord → AnalysisRecord)
    (attempt : AnalysisState → Except String (AnalysisState × (AnalysisRecord → AnalysisRecord)))
    (stepFunction : AnalysisState → Store → StageResult)
    (hf : ∀ s st, stepFunction s st = runStage step failUpdate (attempt s) s st)
    (hfail : ∀ m r, (failUpdate m r).detection = r.detection ∧
      (failUpdate m r).recommendations = r.recommendations ∧
      ((failUpdate m r).status = r.status ∨ (failUpdate m r).status = "failed"))
    (hok : ∀ gs st update r, attempt (AnalysisState.new gs) = .ok (st, update) →
      Coupled gs r → Coupled (mergeState gs st stepKey) (update r))
    (gs : AnalysisState) (store : Store) (h : Coupled gs store.record) :
    ∃ gs', (createNode nodeName stepKey stepFunction gs store).outcome = .ok gs' ∧
      Coupled gs' (createNode nodeName stepKey stepFunction gs store).store.record := by
  rcases createNode_runStage_cases nodeName stepKey step failUpdate attempt stepFunction hf
      gs store with
    ⟨st, update, hatt, _, hrun⟩ | ⟨st0, m0, m, s0, s', hs0, hs', hrun⟩
  · rw [hrun]
    exact ⟨_, rfl, hok gs st update _ hatt h⟩
  · rw [hrun]
    refine ⟨_, rfl, ?_⟩
    have h0 : s0.record = store.record := by
      rcases hs0 with ⟨_, hs0⟩ | ⟨_, _, _, hs0⟩ <;> rw [hs0]
      rfl
    obtain ⟨hd, hr, hst⟩ := hfail m0 store.record
    rcases hs' with ⟨_, _, hs'⟩ | ⟨_, hs'⟩
    · have hrec : s'.record = failUpdate m0 store.record := by rw [hs', accept_record, h0]
      show Coupled _ s'.record
      rw [hrec]
      exact coupled_failState h hd hr hst _ _ _
    · have hrec : s'.record = store.record := by rw [hs', reject_record, h0]
      show Coupled _ s'.record
      rw [hrec]
      exact coupled_failState h rfl rfl (Or.inl rfl) _ _ _

theorem initializeNode_coupled (gs : AnalysisState) (store : Store)
    (h : Coupled gs store.record) :
    ∃ gs', (createNode "initializeAnalysis" "initialization" initializeAnalysis gs
        store).outcome = .ok gs' ∧
      Coupled gs' (createNode "initializeAnalysis" "initialization" initializeAnalysis gs
        store).store.record := by
  rcases initializeNode_cases gs store with ⟨_, _, _, hrun⟩ | ⟨m, s', hs, hrun⟩
  · rw [hrun]
    refine ⟨_, rfl, ?_⟩
    refine coupled_merge_plain h ?_ ?_ ?_ ?_ (Or.inr ?_) _
    · rfl
    · exact new_recommendations_truthy gs
    · rfl
    · rfl
    · rfl
  · rw [hrun]
    refine ⟨_, rfl, ?_⟩
    have hrec : s'.record = store.record := by
      rcases hs with hs | hs <;> rw [hs]
      rfl
    show Coupled _ s'.record
    rw [hrec]
    exact coupled_failState h rfl rfl (Or.inl rfl) _ _ _

theorem handleErrorNode_coupled (gs : AnalysisState) (store : Store)
    (h : Coupled gs store.record) :
    CompletedHasResults (handleErrorNode gs store).store.record ∧
      ∀ gs', (handleErrorNode gs store).outcome = .ok gs' →
        Coupled gs' (handleErrorNode gs store).store.record := by
  obtain ⟨h1, h2, h3⟩ := h
  rcases handleErrorNode_cases gs store with ⟨_, hrun⟩ | ⟨m, _, hrun⟩
  · rw [hrun]
    have hc : CompletedHasResults (store.accept (fun r =>
        pushStep ⟨"error_handling", "completed",
          .obj [("errorStep", match (AnalysisState.new gs).errors.getLast? with
            | some e => .str e.step
            | none => .undefined)],
          match (AnalysisState.new gs).errors.getLast? with
            | some e => .str e.error
            | none => .undefined⟩
          { r with status := "failed",
                   error := .str (handleErrorMessage (AnalysisState.new gs)) })).record := by
      intro hs
      exact absurd (show ("failed" : String) = "completed" from hs) (by decide)
    refine ⟨hc, ?_⟩
    intro gs' hgs
    cases hgs
    exact ⟨hc, h2, h3⟩
  · rw [hrun]
    exact ⟨h1, fun gs' hgs => by cases hgs⟩

theorem runNode_coupled (env : Env) (n : Node) (gs : AnalysisState) (store : Store)
    (h : Coupled gs store.record) :
    CompletedHasResults (runNode env n gs store).store.record ∧
      ∀ gs', (runNode env n gs store).outcome = .ok gs' →
        Coupled gs' (runNode env n gs store).store.record := by
  obtain ⟨e2, e3, e4, e5⟩ := stepFunction_eqs env
  have plain : ∀ step m (r : AnalysisRecord), (failedStep step m r).detection = r.detection ∧
      (failedStep step m r).recommendations = r.recommendations ∧
      ((failedStep step m r).status = r.status ∨ (failedStep step m r).status = "failed") :=
    fun _ _ _ => ⟨rfl, rfl, Or.inl rfl⟩
  have key : ∀ r : NodeResult, (∃ gs', r.outcome = .ok gs' ∧ Coupled gs' r.store.record) →
      CompletedHasResults r.store.record ∧
        ∀ gs', r.outcome = .ok gs' → Coupled gs' r.store.record := by
    rintro r ⟨gs0, hout, hc⟩
    refine ⟨hc.1, ?_⟩
    intro gs' hgs
    rw [hout] at hgs
    cases hgs
    exact hc
  cases n with
  | handleError => exact handleErrorNode_coupled gs store h
  | initializeAnalysis => exact key _ (initializeNode_coupled gs store h)
  | performImageAnalysis =>
    exact key _ (createNode_coupled _ _ _ _ _ _ e2 (plain _) (image_coupled env) gs store h)
  | processDiseaseDetection =>
    rw [runNode_detection]
    exact key _ (createNode_coupled _ _ _ _ detectionAttempt _ (fun _ _ => rfl) (plain _)
      detection_coupled gs (detectionStore (AnalysisState.new gs) store)
      (by rw [detectionStore_record]; exact h))
  | generateRecommendations =>
    exact key _ (createNode_coupled _ _ _ _ _ _ e4 (plain _) (recommendations_coupled env)
      gs store h)
  | finalizeResults =>
    exact key _ (createNode_coupled _ _ _ _ _ _ e5 (fun _ _ => ⟨rfl, rfl, Or.inr rfl⟩)
      finalization_coupled gs store h)

theorem invokeFrom_completed (env : Env) (fuel : Nat) (node : Node) (state : AnalysisState)
    (store : Store) (trace : List (String × Option Thrown)) (h : Coupled state store.record) :
    CompletedHasResults (invokeFrom env fuel node state store trace).store.record := by
  induction fuel generalizing node state store trace with
  | zero => exact h.1
  | succ fuel ih =>
    obtain ⟨hrec, hnode⟩ := runNode_coupled env node state store h
    simp only [invokeFrom]
    cases hout : (runNode env node state store).outcome with
    | error e => exact hrec
    | ok gs' =>
      simp only []
      cases hnext : nextNode node gs' with
      | error e => exact hrec
      | ok dest =>
        cases dest with
        | none => exact hrec
        | some next => exact ih _ _ _ _ (hnode gs' hout)

theorem coupled_initialState (analysisData : AnalysisData) (r : AnalysisRecord)
    (h : CompletedHasResults r) : Coupled (initialState analysisData) r :=
  ⟨h, fun hx => absurd hx (by simp [initialState]),
    fun hx => absurd hx (by simp [initialState, JVal.truthy])⟩

theorem executeAnalysisPipeline_completed (env : Env) (analysisData : AnalysisData)
    (store : Store) (h : CompletedHasResults store.record) :
    CompletedHasResults (executeAnalysisPipeline env analysisData store).store.record := by
  have hrun : CompletedHasResults (invoke env (initialState analysisData) store).store.record :=
    invokeFrom_completed env _ _ _ _ _ (coupled_initialState analysisData _ h)
  cases hout : (invoke env (initialState analysisData) store).outcome with
  | ok result => simp only [executeAnalysisPipeline, hout]; exact hrun
  | error e =>
    cases e with
    | undef => simp only [executeAnalysisPipeline, hout]; exact hrun
    | error m =>
      simp only [executeAnalysisPipeline, hout, findByIdAndUpdate_eq]
      cases (invoke env (initialState analysisData) store).store.nextRejection with
      | some m2 => exact hrun
      | none =>
        exact fun hs => absurd (show ("failed" : String) = "completed" from hs) (by decide)


/-! ## The writes of the detection service -/

theorem uploadStep_keeps {P : AnalysisRecord → Prop} (hS : KeptByService P) (svc : ServiceEnv)
    (input : AnalyzeInput) (store : Store) (h : P store.record) :
    P (uploadStep svc input store).2.record := by
  unfold uploadStep
  cases svc.cloudinaryConfigured with
  | false => exact h
  | true =>
    cases svc.upload with
    | error m => exact h
    | ok url =>
      simp only [if_true, findByIdAndUpdate_eq]
      cases store.nextRejection with
      | some m => exact h
      | none => exact hS.imageUrl url _ h

theorem analyzeImageFailure_keeps {P : AnalysisRecord → Prop} (hS : KeptByService P)
    (store : Store) (imageUrl message errorType : String) (h : P store.record) :
    P (analyzeImageFailure store imageUrl message errorType).2.record := by
  simp only [analyzeImageFailure, findByIdAndUpdate_eq]
  cases store.nextRejection with
  | some m => exact h
  | none => exact hS.failed _ _ _ _ h

theorem analyzeImage_keeps {env : Env} {P : AnalysisRecord → Prop}
    (hexec : ∀ data store, P store.record →
      P (executeAnalysisPipeline env data store).store.record)
    (hS : KeptByService P) (svc : ServiceEnv) (input : AnalyzeInput)
    (h0 : P (createdRecord svc input)) (s : Store)
    (hs : (analyzeImage env svc input).store = some s) : P s.record := by
  unfold analyzeImage at hs
  cases hc : svc.createError with
  | some m => simp [hc] at hs
  | none =>
    simp only [hc] at hs
    have hup := uploadStep_keeps hS svc input ⟨createdRecord svc input, svc.writeErrors, svc.castMessage⟩ h0
    have hrun := hexec
      { analysisId := some svc.newId,
        imageUrl := some (uploadStep svc input ⟨createdRecord svc input, svc.writeErrors, svc.castMessage⟩).1,
        cropType := input.crop,
        crop := none,
        location := some input.location,
        provider := match input.provider with
          | .undefined => .str "groq"
          | v => v } _ hup
    revert hs
    split
    · intro hs; cases hs; exact hrun
    · intro hs; cases hs; exact analyzeImageFailure_keeps hS _ _ _ _ hrun
    · split
      · intro hs; cases hs; exact hrun
      · intro hs; cases hs; exact analyzeImageFailure_keeps hS _ _ _ _ hrun
      · intro hs; cases hs; exact analyzeImageFailure_keeps hS _ _ _ _ hrun

theorem retryFailedAnalysis_not_failed (env : Env) (refresh : ReadOutcome) (store : Store)
    (hst : store.record.status ≠ "failed") :
    retryFailedAnalysis env .found refresh store =
      ⟨.error (.error "Only failed analyses can be retried"), some store, none⟩ := by
  simp [retryFailedAnalysis, hst]

theorem retryFailedAnalysis_rejected (env : Env) (refresh : ReadOutcome) (store : Store)
    (m : String) (hst : store.record.status = "failed")
    (hrej : store.nextRejection = some m) :
    retryFailedAnalysis env .found refresh store =
      ⟨.error (.error m), some store.reject, none⟩ := by
  simp [retryFailedAnalysis, hst, findByIdAndUpdate_eq, hrej]

theorem retryFailedAnalysis_accepted (env : Env) (refresh : ReadOutcome) (store : Store)
    (hst : store.record.status = "failed") (hrej : store.nextRejection = none) :
    retryFailedAnalysis env .found refresh store =
      ⟨retryOutcome refresh
          (executeAnalysisPipeline env (retryData store.record) (store.accept retryUpdate)),
        some (executeAnalysisPipeline env (retryData store.record)
          (store.accept retryUpdate)).store,
        some (executeAnalysisPipeline env (retryData store.record)
          (store.accept retryUpdate))⟩ := by
  simp only [retryFailedAnalysis, hst, findByIdAndUpdate_eq, hrej, retryOutcome, bne_self_eq_false,
    Bool.false_eq_true, if_false]
  show (match (executeAnalysisPipeline env (retryData store.record)
      (store.accept retryUpdate)).outcome with
    | .error e => (⟨.error e, _, _⟩ : ServiceRun)
    | .ok _ => _) = _
  cases (executeAnalysisPipeline env (retryData store.record)
      (store.accept retryUpdate)).outcome with
  | error e => rfl
  | ok res => cases refresh <;> rfl

theorem retryFailedAnalysis_keeps {env : Env} {P : AnalysisRecord → Prop}
    (hexec : ∀ data store, P store.record →
      P (executeAnalysisPipeline env data store).store.record)
    (hS : KeptByService P) (lookup refresh : ReadOutcome) (store : Store)
    (h : P store.record) (s : Store)
    (hs : (retryFailedAnalysis env lookup refresh store).store = some s) : P s.record := by
  cases lookup with
  | failed m t => cases hs; exact h
  | missing => cases hs; exact h
  | found =>
    by_cases hst : store.record.status = "failed"
    · cases hrej : store.nextRejection with
      | some m =>
        rw [retryFailedAnalysis_rejected env refresh store m hst hrej] at hs
        cases hs; exact h
      | none =>
        rw [retryFailedAnalysis_accepted env refresh store hst hrej] at hs
        cases hs
        exact hexec _ _ (hS.retry _ h)
    · rw [retryFailedAnalysis_not_failed env refresh store hst] at hs
      cases hs; exact h

theorem prefix_keptByService (base : List StepEntry) :
    KeptByService (fun r => base <+: r.processingSteps) :=
  ⟨fun _ _ h => h,
    fun _ _ _ _ h => h.trans (List.prefix_append _ _),
    fun _ h => h.trans (List.prefix_append _ _)⟩

theorem failedHasError_keptByService : KeptByService FailedHasError :=
  ⟨fun _ _ h => h,
    fun _ m _ _ _ _ => ⟨m, rfl⟩,
    fun _ _ hs => absurd (show ("pending" : String) = "failed" from hs) (by decide)⟩

theorem completedHasResults_keptByService : KeptByService CompletedHasResults :=
  ⟨fun _ _ h => h,
    fun _ _ _ _ _ hs => absurd (show ("failed" : String) = "completed" from hs) (by decide),
    fun _ _ hs => absurd (show ("pending" : String) = "completed" from hs) (by decide)⟩


/-! ## Claim C12 -/

/-- A failing `initializeAnalysis` writes nothing: the record is the one it found. -/
theorem initialization_failure_writes_nothing (state : AnalysisState) (store : Store)
    (h : (initializeAnalysis state store).thrown ≠ none) :
    (initializeAnalysis state store).store.record = store.record := by
  rcases initializeAnalysis_cases state store with ⟨_, _, _, hrun⟩ | ⟨m, s, hs, hrun⟩
  · rw [hrun] at h; exact absurd rfl h
  · rw [hrun]
    rcases hs with hs | hs <;> rw [hs]
    rfl

/-- Each of the four later stages, on a store that accepts its writes, appends exactly one
entry named after the stage, completed when the stage returns and failed when it throws. -/
theorem later_stage_appends_one_step (env : Env) (n : Node) (hn : n ≠ .handleError)
    (hi : n ≠ .initializeAnalysis) (state : AnalysisState) (store : Store)
    (h1 : store.nextRejection = none) :
    ∃ entry, entry.step = n.stepKey ∧
      (match n with
        | .performImageAnalysis => performImageAnalysis env state store
        | .processDiseaseDetection => processDiseaseDetection state store
        | .generateRecommendations => generateRecommendations env state store
        | _ => finalizeResults state store).store.record.processingSteps =
        store.record.processingSteps ++ [entry] := by
  obtain ⟨e2, e3, e4, e5⟩ := stepFunction_eqs env
  have key : ∀ (step : String) (failUpdate : String → AnalysisRecord → AnalysisRecord)
      (attempt : Except String (AnalysisState × (AnalysisRecord → AnalysisRecord))),
      (∀ m r, ∃ entry, entry.step = step ∧
        (failUpdate m r).processingSteps = r.processingSteps ++ [entry]) →
      (∀ st update, attempt = .ok (st, update) → ∀ r, ∃ entry, entry.step = step ∧
        (update r).processingSteps = r.processingSteps ++ [entry]) →
      ∃ entry, entry.step = step ∧
        (runStage step failUpdate attempt state store).store.record.processingSteps =
          store.record.processingSteps ++ [entry] := by
    intro step failUpdate attempt hfail hok
    rcases runStage_cases step failUpdate attempt state store with
      ⟨st, update, hatt, _, hrun⟩ | ⟨st0, m, s, hs, hrun⟩
    · rw [hrun]; exact hok st update hatt _
    · have hs0 : s = store := by
        rcases hs with ⟨_, _, hs⟩ | ⟨_, _, hrej, _⟩
        · exact hs
        · rw [h1] at hrej; cases hrej
      subst hs0
      rcases hrun with ⟨_, hrun⟩ | ⟨m2, hrej, _⟩
      · rw [hrun]; exact hfail m _
      · rw [h1] at hrej; cases hrej
  cases n with
  | handleError => exact absurd rfl hn
  | initializeAnalysis => exact absurd rfl hi
  | performImageAnalysis =>
    simp only [e2]
    refine key _ _ _ (fun m r => ⟨_, rfl, rfl⟩) ?_
    intro st update hatt r
    obtain ⟨_, _, _, _, _, hu⟩ := imageAttempt_ok hatt
    subst hu; exact ⟨_, rfl, rfl⟩
  | processDiseaseDetection =>
    rcases detectionStore_cases state store with hds | ⟨d, path, value, _, _, hrun⟩
    · simp only [e3, hds]
      refine key _ _ _ (fun m r => ⟨_, rfl, rfl⟩) ?_
      intro st update hatt r
      obtain ⟨_, _, _, hu⟩ := detectionAttempt_ok hatt
      subst hu; exact ⟨_, rfl, rfl⟩
    · simp only [hrun]
      rw [((detectionFailure_facts _ store _).2.2.2 (nextWriteOk_of_nextRejection h1)).2]
      exact ⟨_, rfl, rfl⟩
  | generateRecommendations =>
    simp only [e4]
    refine key _ _ _ (fun m r => ⟨_, rfl, rfl⟩) ?_
    intro st update hatt r
    obtain ⟨_, _, _, hu⟩ := recommendationsAttempt_ok hatt
    subst hu; exact ⟨_, rfl, rfl⟩
  | finalizeResults =>
    simp only [e5]
    refine key _ _ _ (fun m r => ⟨_, rfl, rfl⟩) ?_
    intro st update hatt r
    obtain ⟨_, _, _, _, hu⟩ := finalizationAttempt_ok hatt
    subst hu; exact ⟨_, rfl, rfl⟩

/-- C12, code defect shown at a concrete input: the pipeline is started for an analysis
without an image address, on a store that accepts every write. The stage
`initializeAnalysis` throws "Image URL is required" and leaves `processingSteps` as it
was, so no entry named `initialization` records the failed stage; the only entry of the
finished run is the one of the error handler. -/
theorem failed_initialization_appends_no_step :
    (initializeAnalysis (AnalysisState.new (initialState missingImageData)) sampleStore).thrown =
      some (.error "Image URL is required") ∧
    (initializeAnalysis (AnalysisState.new (initialState missingImageData))
      sampleStore).store.record.processingSteps = sampleStore.record.processingSteps ∧
    (executeAnalysisPipeline bareWorld missingImageData sampleStore).trace =
      [("initializeAnalysis", some (.error "Image URL is required")), ("handleError", none)] ∧
    stepNames (executeAnalysisPipeline bareWorld missingImageData sampleStore).store.record =
      stepNames sampleStore.record ++ [("error_handling", "completed")] :=
  ⟨rfl, rfl, rfl, rfl⟩

/-! ## Claim C13 -/

theorem uploadStep_steps (svc : ServiceEnv) (input : AnalyzeInput) (store : Store) :
    (uploadStep svc input store).2.record.processingSteps = store.record.processingSteps := by
  unfold uploadStep
  cases svc.cloudinaryConfigured with
  | false => rfl
  | true =>
    cases svc.upload with
    | error m => rfl
    | ok url =>
      simp only [if_true, findByIdAndUpdate_eq]
      cases store.nextRejection <;> rfl

theorem analyzeImageFailure_throws (store : Store) (imageUrl message errorType : String) :
    ∃ m, (analyzeImageFailure store imageUrl message errorType).1 = .error (.error m) := by
  simp only [analyzeImageFailure, findByIdAndUpdate_eq]
  cases store.nextRejection with
  | some m => exact ⟨m, rfl⟩
  | none => exact ⟨message, rfl⟩

/-- When `analyzeImage` returns a document, the pipeline has run and returned a result,
and the document is the record as that run left it. -/
theorem analyzeImage_returned {env : Env} {svc : ServiceEnv} {input : AnalyzeInput}
    {doc : AnalysisRecord} (h : (analyzeImage env svc input).outcome = .ok (some doc)) :
    (analyzeImage env svc input).pipeline = some (submittedRun env svc input) ∧
      (analyzeImage env svc input).store = some (submittedRun env svc input).store ∧
      doc = (submittedRun env svc input).store.record := by
  unfold analyzeImage at h ⊢
  cases hc : svc.createError with
  | some m => simp [hc] at h
  | none =>
    simp only [hc] at h ⊢
    have hfail : ∀ url m t, (analyzeImageFailure (submittedRun env svc input).store url m t).1 ≠
        .ok (some doc) := by
      intro url m t hx
      obtain ⟨m2, hm⟩ := analyzeImageFailure_throws (submittedRun env svc input).store url m t
      rw [hm] at hx
      cases hx
    cases hout : (submittedRun env svc input).outcome with
    | error e =>
      cases e with
      | undef =>
        simp only [submittedRun, createdStore, submittedData] at hout
        simp only [hout] at h
        cases h
      | error m =>
        simp only [submittedRun, createdStore, submittedData] at hout hfail
        simp only [hout] at h
        exact absurd h (hfail _ _ _)
    | ok res =>
      simp only [submittedRun, createdStore, submittedData] at hout hfail ⊢
      simp only [hout] at h ⊢
      cases hr : svc.refresh with
      | found =>
        simp only [hr] at h ⊢
        simp only [Except.ok.injEq, Option.some.injEq] at h
        exact ⟨trivial, trivial, h.symm⟩
      | missing =>
        simp only [hr] at h
        exact absurd h (hfail _ _ _)
      | failed m t =>
        simp only [hr] at h
        exact absurd h (hfail _ _ _)

/-- C13, counterexample: a new analysis is submitted with Groq preferred, the Groq backend
names a disease, and the store accepts every write. The five stages succeed and the
pipeline reports success, yet the returned document has six entries in `processingSteps`:
the entry `creation` written by `analyzeImage`, then one entry per stage. -/
theorem new_analysis_has_six_steps :
    ∃ doc, (analyzeImage bareWorld sampleService (sampleInput "groq")).outcome = .ok (some doc) ∧
      (submittedRun bareWorld sampleService (sampleInput "groq")).trace = successTrace ∧
      (submittedRun bareWorld sampleService (sampleInput "groq")).outcome.toOption.map
        (fun res => res.success) = some true ∧
      stepNames doc = [("creation", "completed"), ("initialization", "completed"),
        ("imageAnalysis", "completed"), ("diseaseDetection", "completed"),
        ("recommendations", "completed"), ("finalization", "completed")] ∧
      doc.processingSteps.length = 6 := by
  with_unfolding_all exact ⟨_, rfl, rfl, rfl, rfl, rfl⟩

/-- C13, amended: whenever `analyzeImage` returns the document of a new analysis and the
pipeline it ran reported success, `processingSteps` has exactly six entries, all
completed: the entry `creation` followed by `initialization`, `imageAnalysis`,
`diseaseDetection`, `recommendations` and `finalization`, in this order. -/
theorem new_analysis_steps_after_success (env : Env) (svc : ServiceEnv) (input : AnalyzeInput)
    (doc : AnalysisRecord) (res : PipelineResult)
    (hdoc : (analyzeImage env svc input).outcome = .ok (some doc))
    (hres : (submittedRun env svc input).outcome = .ok res) (hsucc : res.success = true) :
    (analyzeImage env svc input).pipeline = some (submittedRun env svc input) ∧
      stepNames doc = stepsOfSuccess ∧ doc.processingSteps.length = 6 := by
  obtain ⟨hp, _, hd⟩ := analyzeImage_returned hdoc
  have hnames : stepNames doc = stepsOfSuccess := by
    rcases executeAnalysisPipeline_cases env
        (submittedData svc input (uploadStep svc input (createdStore svc input)).1)
        (uploadStep svc input (createdStore svc input)).2 with
      ⟨gs, _, _, _, _, hsteps⟩ | ⟨done, failed, rest, m, h, _, _, hend⟩
    · rw [hd]
      show stepNames (executeAnalysisPipeline env _ _).store.record = _
      rw [hsteps]
      simp only [stepNames, uploadStep_steps]
      rfl
    · have hout : (submittedRun env svc input).outcome = .ok res := hres
      unfold submittedRun at hout
      rcases hend with ⟨_, hx⟩ | ⟨m2, _, hx⟩
      · rw [hx] at hout
        cases hout
        cases hsucc
      · rw [hx] at hout
        cases hout
        cases hsucc
  refine ⟨hp, hnames, ?_⟩
  have hlen := congrArg List.length hnames
  simpa [stepNames, stepsOfSuccess, stageNodes] using hlen

/-- C13, witness: the submission of the counterexample. -/
theorem new_analysis_steps_after_success_witness :
    ∃ doc, (analyzeImage bareWorld sampleService (sampleInput "groq")).outcome =
        .ok (some doc) ∧ stepNames doc = stepsOfSuccess ∧ doc.processingSteps.length = 6 := by
  with_unfolding_all exact ⟨_, rfl,
    (new_analysis_steps_after_success bareWorld sampleService (sampleInput "groq") _
      ⟨true, none, none, none, _⟩ rfl rfl rfl).2⟩

/-! ## Claim C14 -/

/-- How `finalizeResults` ends: it returns, after a write that completes the record, only
for a state holding a detection and recommendations; otherwise it throws, and the record
is marked as failed with the first message caught, or is unchanged when the store
rejected that write too. -/
theorem finalizeResults_ends (state : AnalysisState) (store : Store) :
    ((finalizeResults state store).thrown = none ∧ state.diseaseDetection.isSome = true ∧
      state.recommendations.truthy = true ∧
      (finalizeResults state store).store.record.status = "completed") ∨
    (∃ m, (finalizeResults state store).thrown = some (.error m) ∧
      ((finalizeResults state store).store.record = store.record ∨
        ((finalizeResults state store).store.record.status = "failed" ∧
          ∃ m0, (finalizeResults state store).store.record.error = .str m0))) := by
  rw [finalizeResults_eq]
  rcases runStage_cases "finalization" failedFinalization (finalizationAttempt state) state
      store with ⟨st, update, hatt, _, hrun⟩ | ⟨st0, m, s, hs, hrun⟩
  · left
    obtain ⟨d, hd, hr, _, hu⟩ := finalizationAttempt_ok hatt
    subst hu
    rw [hrun]
    exact ⟨rfl, by rw [hd]; rfl, hr, rfl⟩
  · right
    have hs0 : s.record = store.record := by
      rcases hs with ⟨_, _, hs⟩ | ⟨_, _, _, hs⟩ <;> rw [hs]
      rfl
    rcases hrun with ⟨_, hrun⟩ | ⟨m2, _, hrun⟩
    · rw [hrun]
      exact ⟨m, rfl, Or.inr ⟨rfl, m, rfl⟩⟩
    · rw [hrun]
      exact ⟨m2, rfl, Or.inl hs0⟩

/-- On a state that lacks the detection or the recommendations, `finalizeResults` throws;
when the store accepts the write of its `catch` block, the error is the one about the
missing results and the record is marked as failed with that message. -/
theorem finalizeResults_missing (state : AnalysisState) (store : Store)
    (h : state.diseaseDetection = none ∨ state.recommendations.truthy = false) :
    (store.nextRejection = none ∧
      (finalizeResults state store).thrown =
        some (.error "Cannot finalize - missing detection or recommendations") ∧
      (finalizeResults state store).store.record.status = "failed" ∧
      (finalizeResults state store).store.record.error =
        .str "Cannot finalize - missing detection or recommendations") ∨
    (∃ m, store.nextRejection = some m ∧
      (finalizeResults state store).thrown = some (.error m) ∧
      (finalizeResults state store).store.record = store.record) := by
  have hatt : finalizationAttempt state =
      .error "Cannot finalize - missing detection or recommendations" := by
    unfold finalizationAttempt
    rcases h with h | h
    · simp [h]
    · cases hd : state.diseaseDetection with
      | none => rfl
      | some d => simp [h]
  rw [finalizeResults_eq, hatt]
  simp only [runStage, findByIdAndUpdate_eq]
  cases hrej : store.nextRejection with
  | none => left; exact ⟨rfl, rfl, rfl, rfl⟩
  | some m => right; exact ⟨m, rfl, rfl, rfl⟩

/-- C14: a completed record has its detection and its recommendations. Starting from a
record with this property, it holds of the record after every number of steps of the
graph, after `executeAnalysisPipeline`, and after `retryFailedAnalysis`; it holds of the
record after `analyzeImage`, which starts from the document it creates. The stage
`finalizeResults` returns, having written `completed`, only for a state holding both the
detection and the recommendations; in every other case it throws and the record is marked
as failed or, when the store rejects that write, left as it was; on a state lacking one
of them it throws, and with a store that accepts the write the record becomes `failed`. -/
theorem completed_record_has_results (env : Env) (store : Store)
    (h : CompletedHasResults store.record) :
    (∀ data fuel, CompletedHasResults
      (invokeFrom env fuel .initializeAnalysis (initialState data) store []).store.record) ∧
    (∀ data, CompletedHasResults (executeAnalysisPipeline env data store).store.record) ∧
    (∀ lookup refresh s, (retryFailedAnalysis env lookup refresh store).store = some s →
      CompletedHasResults s.record) ∧
    (∀ svc input s, (analyzeImage env svc input).store = some s →
      CompletedHasResults s.record) ∧
    (∀ state,
      ((finalizeResults state store).thrown = none ∧ state.diseaseDetection.isSome = true ∧
        state.recommendations.truthy = true ∧
        (finalizeResults state store).store.record.status = "completed") ∨
      (∃ m, (finalizeResults state store).thrown = some (.error m) ∧
        ((finalizeResults state store).store.record = store.record ∨
          ((finalizeResults state store).store.record.status = "failed" ∧
            ∃ m0, (finalizeResults state store).store.record.error = .str m0)))) ∧
    (∀ state, (state.diseaseDetection = none ∨ state.recommendations.truthy = false) →
      store.nextRejection = none →
      (finalizeResults state store).thrown =
          some (.error "Cannot finalize - missing detection or recommendations") ∧
        (finalizeResults state store).store.record.status = "failed") := by
  have hexec : ∀ data st, CompletedHasResults st.record →
      CompletedHasResults (executeAnalysisPipeline env data st).store.record :=
    fun data st hst => executeAnalysisPipeline_completed env data st hst
  refine ⟨?_, fun data => hexec data store h, ?_, ?_, fun state => finalizeResults_ends state store, ?_⟩
  · intro data fuel
    exact invokeFrom_completed env fuel _ _ _ _ (coupled_initialState data _ h)
  · intro lookup refresh s hs
    exact retryFailedAnalysis_keeps hexec completedHasResults_keptByService lookup refresh
      store h s hs
  · intro svc input s hs
    exact analyzeImage_keeps hexec completedHasResults_keptByService svc input
      (fun hc => absurd (show ("pending" : String) = "completed" from hc) (by decide)) s hs
  · intro state hmiss hrej
    rcases finalizeResults_missing state store hmiss with ⟨_, ht, hst, _⟩ | ⟨m, hr, _, _⟩
    · exact ⟨ht, hst⟩
    · rw [hrej] at hr; cases hr

/-- C14, witness: the run of the sample analysis against the bare world, from a record in
state `processing`, ends with a completed record, which has both results. -/
theorem completed_record_has_results_witness :
    (executeAnalysisPipeline bareWorld sampleData sampleStore).store.record.status =
        "completed" ∧
      (executeAnalysisPipeline bareWorld sampleData sampleStore).store.record.detection.isSome =
        true ∧
      (executeAnalysisPipeline bareWorld sampleData
        sampleStore).store.record.recommendations.truthy = true := by
  with_unfolding_all exact ⟨rfl, (completed_record_has_results bareWorld sampleStore
    (fun hc => absurd (show ("processing" : String) = "completed" from hc)
      (by decide))).2.1 sampleData rfl⟩

/-! ## Claim C15 -/

theorem handleError_writes (state : AnalysisState) (store : Store) :
    (∃ m, store.nextRejection = some m ∧
      (handleError state store).store.record = store.record) ∨
    (store.nextRejection = none ∧ (handleError state store).store.record.status = "failed" ∧
      (handleError state store).store.record.error = .str (handleErrorMessage state)) := by
  rcases handleError_cases state store with ⟨hrej, hrun⟩ | ⟨m, hrej, hrun⟩
  · right
    rw [hrun]
    exact ⟨hrej, rfl, handleError_error_str state⟩
  · left
    rw [hrun]
    exact ⟨m, hrej, rfl⟩

theorem analyzeImageFailure_writes (store : Store) (imageUrl message errorType : String) :
    (analyzeImageFailure store imageUrl message errorType).2.record = store.record ∨
    ((analyzeImageFailure store imageUrl message errorType).2.record.status = "failed" ∧
      (analyzeImageFailure store imageUrl message errorType).2.record.error =
        .str (if message != "" then message else errorType)) := by
  simp only [analyzeImageFailure, findByIdAndUpdate_eq]
  cases store.nextRejection with
  | some m => left; rfl
  | none => right; exact ⟨rfl, rfl⟩

/-- C15: a failed record carries an error message. Starting from a record with this
property, it holds of the record after every number of steps of the graph, after each
stage and the error handler, after `executeAnalysisPipeline` (whose `catch` block writes
`failed` together with the message caught), after the write of the `catch` block of
`analyzeImage`, and after `retryFailedAnalysis`; it holds of the record after
`analyzeImage`. The write of `handleError`, when the store accepts it, sets the status
`failed` and the error to the message of the latest captured error, or to "Unknown error
occurred" when there is none (or when that message is empty); a rejected write leaves the
record as it was. -/
theorem failed_record_has_error (env : Env) (store : Store)
    (h : FailedHasError store.record) :
    (∀ data fuel, FailedHasError
      (invokeFrom env fuel .initializeAnalysis (initialState data) store []).store.record) ∧
    (∀ state, FailedHasError (finalizeResults state store).store.record ∧
      FailedHasError (handleError state store).store.record) ∧
    (∀ data, FailedHasError (executeAnalysisPipeline env data store).store.record) ∧
    (∀ imageUrl message errorType,
      FailedHasError (analyzeImageFailure store imageUrl message errorType).2.record) ∧
    (∀ lookup refresh s, (retryFailedAnalysis env lookup refresh store).store = some s →
      FailedHasError s.record) ∧
    (∀ svc input s, (analyzeImage env svc input).store = some s → FailedHasError s.record) ∧
    (∀ state,
      (∃ m, store.nextRejection = some m ∧
        (handleError state store).store.record = store.record) ∨
      (store.nextRejection = none ∧ (handleError state store).store.record.status = "failed" ∧
        (handleError state store).store.record.error = .str (handleErrorMessage state))) ∧
    (∀ state : AnalysisState, state.errors = [] →
      handleErrorMessage state = "Unknown error occurred") ∧
    (∀ (state : AnalysisState) errors e, state.errors = errors ++ [e] → e.error ≠ "" →
      handleErrorMessage state = e.error) := by
  have hexec : ∀ data st, FailedHasError st.record →
      FailedHasError (executeAnalysisPipeline env data st).store.record :=
    fun data st hst => executeAnalysisPipeline_keeps (failedHasError_kept env) data st hst
  refine ⟨?_, ?_, fun data => hexec data store h, ?_, ?_, ?_, fun state => handleError_writes state store,
    ?_, ?_⟩
  · intro data fuel
    exact invokeFrom_keeps (failedHasError_kept env) fuel _ _ _ _ h
  · intro state
    obtain ⟨_, _, _, _, h5, h6⟩ := stages_keep (failedHasError_kept env) state store h
    exact ⟨h5, h6⟩
  · intro imageUrl message errorType
    exact analyzeImageFailure_keeps failedHasError_keptByService store _ _ _ h
  · intro lookup refresh s hs
    exact retryFailedAnalysis_keeps hexec failedHasError_keptByService lookup refresh store h
      s hs
  · intro svc input s hs
    exact analyzeImage_keeps hexec failedHasError_keptByService svc input
      (fun hc => absurd (show ("pending" : String) = "failed" from hc) (by decide)) s hs
  · intro state he
    simp [handleErrorMessage, he]
  · intro state errors e he hne
    simp [handleErrorMessage, he, hne]

/-- C15, witness: the run without an image address, from the sample record, ends with a
failed record whose error is the message of the failed stage. -/
theorem failed_record_has_error_witness :
    (executeAnalysisPipeline bareWorld missingImageData sampleStore).store.record.status =
        "failed" ∧
      ∃ m, (executeAnalysisPipeline bareWorld missingImageData sampleStore).store.record.error =
        .str m :=
  ⟨rfl, (failed_record_has_error bareWorld sampleStore
    (fun hc => absurd (show ("processing" : String) = "failed" from hc)
      (by decide))).2.2.1 missingImageData rfl⟩

/-! ## Claim C16 -/

/-- C16: `processingSteps` only grows. The list a record holds before an operation is a
prefix of the list it holds afterwards, for each of the five stages and the error handler
(whatever their outcome), for every number of steps of the graph, for
`executeAnalysisPipeline` with the write of its `catch` block, for the write of the
`catch` block of `analyzeImage`, and for `retryFailedAnalysis` with the run it starts;
after `analyzeImage` the list starts with the list of the created document. Hence the
length never decreases. -/
theorem processing_steps_only_grow (env : Env) (store : Store) :
    (∀ state,
      store.record.processingSteps <+:
        (initializeAnalysis state store).store.record.processingSteps ∧
      store.record.processingSteps <+:
        (performImageAnalysis env state store).store.record.processingSteps ∧
      store.record.processingSteps <+:
        (processDiseaseDetection state store).store.record.processingSteps ∧
      store.record.processingSteps <+:
        (generateRecommendations env state store).store.record.processingSteps ∧
      store.record.processingSteps <+:
        (finalizeResults state store).store.record.processingSteps ∧
      store.record.processingSteps <+:
        (handleError state store).store.record.processingSteps) ∧
    (∀ data fuel, store.record.processingSteps <+:
      (invokeFrom env fuel .initializeAnalysis (initialState data)
        store []).store.record.processingSteps) ∧
    (∀ data, store.record.processingSteps <+:
      (executeAnalysisPipeline env data store).store.record.processingSteps ∧
      store.record.processingSteps.length ≤
        (executeAnalysisPipeline env data store).store.record.processingSteps.length) ∧
    (∀ imageUrl message errorType, store.record.processingSteps <+:
      (analyzeImageFailure store imageUrl message errorType).2.record.processingSteps) ∧
    (∀ lookup refresh s, (retryFailedAnalysis env lookup refresh store).store = some s →
      store.record.processingSteps <+: s.record.processingSteps ∧
        store.record.processingSteps.length ≤ s.record.processingSteps.length) ∧
    (∀ svc input s, (analyzeImage env svc input).store = some s →
      (createdRecord svc input).processingSteps <+: s.record.processingSteps) := by
  have hexec : ∀ base data st, base <+: st.record.processingSteps →
      base <+: (executeAnalysisPipeline env data st).store.record.processingSteps :=
    fun base data st hst => executeAnalysisPipeline_keeps (prefix_kept env base) data st hst
  have h0 : store.record.processingSteps <+: store.record.processingSteps :=
    List.prefix_refl _
  refine ⟨?_, ?_, ?_, ?_, ?_, ?_⟩
  · intro state
    exact stages_keep (prefix_kept env store.record.processingSteps) state store h0
  · intro data fuel
    exact invokeFrom_keeps (prefix_kept env store.record.processingSteps) fuel _ _ _ _ h0
  · intro data
    exact ⟨hexec _ data store h0, (hexec _ data store h0).length_le⟩
  · intro imageUrl message errorType
    exact analyzeImageFailure_keeps (prefix_keptByService store.record.processingSteps)
      store _ _ _ h0
  · intro lookup refresh s hs
    have hp := retryFailedAnalysis_keeps (hexec store.record.processingSteps)
      (prefix_keptByService store.record.processingSteps) lookup refresh store h0 s hs
    exact ⟨hp, hp.length_le⟩
  · intro svc input s hs
    exact analyzeImage_keeps (hexec (createdRecord svc input).processingSteps)
      (prefix_keptByService (createdRecord svc input).processingSteps) svc input
      (List.prefix_refl _) s hs

/-- C16, witness: the retry of the failed sample record against the bare world. The four
entries of the failed run are still the first four after the retry, which has appended
the entry of the retry and one entry per stage. -/
theorem processing_steps_only_grow_witness :
    ∃ s, (retryFailedAnalysis bareWorld .found .found failedStore).store = some s ∧
      failedStore.record.processingSteps <+: s.record.processingSteps ∧
      stepNames s.record = stepNames failedStore.record ++
        (("retry_initiated", "completed") ::
          stageNodes.map (fun n => (n.stepKey, "completed"))) := by
  with_unfolding_all exact ⟨_, rfl, ((processing_steps_only_grow bareWorld failedStore).2.2.2.2.1
    .found .found _ rfl).1, rfl⟩

/-! ## Claim C17 -/

/-- Every run of the pipeline starts with the node `initializeAnalysis`. -/
theorem executeAnalysisPipeline_starts (env : Env) (analysisData : AnalysisData)
    (store : Store) :
    ∃ c rest, (executeAnalysisPipeline env analysisData store).trace =
      ("initializeAnalysis", c) :: rest := by
  rcases executeAnalysisPipeline_cases env analysisData store with
    ⟨_, _, _, _, htrace, _⟩ | ⟨done, failed, rest, m, h, hchain, htrace, _⟩
  · exact ⟨none, _, htrace.trans rfl⟩
  · rw [htrace]
    cases done with
    | nil =>
      simp only [stageNodes, List.nil_append, List.cons.injEq] at hchain
      rw [← hchain.1]
      exact ⟨_, _, rfl⟩
    | cons first more =>
      simp only [stageNodes, List.cons_append, List.cons.injEq] at hchain
      rw [← hchain.1]
      exact ⟨_, _, rfl⟩

theorem retryOutcome_error {refresh : ReadOutcome} {env : Env} {analysisData : AnalysisData}
    {store : Store} {e : Thrown}
    (h : retryOutcome refresh (executeAnalysisPipeline env analysisData store) = .error e) :
    ∃ m t, refresh = .failed m t ∧ e = .error m := by
  obtain ⟨res, hres, _⟩ := pipeline_result_exists env analysisData store
  unfold retryOutcome at h
  rw [hres] at h
  cases refresh with
  | found => cases h
  | missing => cases h
  | failed m t =>
    simp only [Except.error.injEq] at h
    exact ⟨m, t, rfl, h.symm⟩

/-- C17: for a document that exists, `retryFailedAnalysis` throws "Only failed analyses
can be retried" when the status is not `failed`, leaving the record as it was and running
nothing. For a failed record it does not throw that error of its own: when the store
rejects the first write, the rejection is what it throws; otherwise that write sets the
status `pending` and the error `null`, and the pipeline runs on pipeline data rebuilt
from the record, from the node `initializeAnalysis`, with an initial state in which
`imageAnalysis`, `diseaseDetection`, `recommendations` and `finalResult` are empty and
no error is recorded; after the run only a rejected read of the document makes the
function throw. -/
theorem retry_requires_failed_status (env : Env) (refresh : ReadOutcome) (store : Store) :
    (store.record.status ≠ "failed" →
      retryFailedAnalysis env .found refresh store =
        ⟨.error (.error "Only failed analyses can be retried"), some store, none⟩) ∧
    (store.record.status = "failed" →
      (∃ m, store.nextRejection = some m ∧
        retryFailedAnalysis env .found refresh store =
          ⟨.error (.error m), some store.reject, none⟩) ∨
      (store.nextRejection = none ∧
        (store.accept retryUpdate).record.status = "pending" ∧
        (store.accept retryUpdate).record.error = .null ∧
        (retryFailedAnalysis env .found refresh store).pipeline =
          some (executeAnalysisPipeline env (retryData store.record)
            (store.accept retryUpdate)) ∧
        (retryFailedAnalysis env .found refresh store).store =
          some (executeAnalysisPipeline env (retryData store.record)
            (store.accept retryUpdate)).store ∧
        (retryFailedAnalysis env .found refresh store).outcome =
          retryOutcome refresh (executeAnalysisPipeline env (retryData store.record)
            (store.accept retryUpdate)) ∧
        (∃ c rest, (executeAnalysisPipeline env (retryData store.record)
          (store.accept retryUpdate)).trace = ("initializeAnalysis", c) :: rest) ∧
        (initialState (retryData store.record)).imageAnalysis = .null ∧
        (initialState (retryData store.record)).diseaseDetection = none ∧
        (initialState (retryData store.record)).recommendations = .null ∧
        (initialState (retryData store.record)).finalResult = .null ∧
        (initialState (retryData store.record)).errors = [] ∧
        (initialState (retryData store.record)).stepResults = [] ∧
        (∀ e, (retryFailedAnalysis env .found refresh store).outcome = .error e →
          ∃ m t, refresh = .failed m t ∧ e = .error m))) := by
  refine ⟨retryFailedAnalysis_not_failed env refresh store, ?_⟩
  intro hst
  cases hrej : store.nextRejection with
  | some m =>
    left
    exact ⟨m, rfl, retryFailedAnalysis_rejected env refresh store m hst hrej⟩
  | none =>
    right
    have heq := retryFailedAnalysis_accepted env refresh store hst hrej
    refine ⟨rfl, rfl, rfl, ?_, ?_, ?_, executeAnalysisPipeline_starts env _ _, rfl, rfl, rfl,
      rfl, rfl, rfl, ?_⟩
    · rw [heq]
    · rw [heq]
    · rw [heq]
    · intro e he
      rw [heq] at he
      exact retryOutcome_error he

/-- C17, witness: a completed record is refused and stays as it was; the failed sample
record is retried against the bare world, and the run that starts again from the
initialization completes it. -/
theorem retry_requires_failed_status_witness :
    retryFailedAnalysis bareWorld .found .found
        ⟨{ failedStore.record with status := "completed" }, [], sampleCastMessage⟩ =
      ⟨.error (.error "Only failed analyses can be retried"),
        some ⟨{ failedStore.record with status := "completed" }, [], sampleCastMessage⟩, none⟩ ∧
    ((∃ m, failedStore.nextRejection = some m ∧
        retryFailedAnalysis bareWorld .found .found failedStore =
          ⟨.error (.error m), some failedStore.reject, none⟩) ∨
      (failedStore.nextRejection = none ∧
        (failedStore.accept retryUpdate).record.status = "pending" ∧
        (failedStore.accept retryUpdate).record.error = .null ∧
        (retryFailedAnalysis bareWorld .found .found failedStore).pipeline =
          some (executeAnalysisPipeline bareWorld (retryData failedStore.record)
            (failedStore.accept retryUpdate)) ∧
        (retryFailedAnalysis bareWorld .found .found failedStore).store =
          some (executeAnalysisPipeline bareWorld (retryData failedStore.record)
            (failedStore.accept retryUpdate)).store ∧
        (retryFailedAnalysis bareWorld .found .found failedStore).outcome =
          retryOutcome .found (executeAnalysisPipeline bareWorld (retryData failedStore.record)
            (failedStore.accept retryUpdate)) ∧
        (∃ c rest, (executeAnalysisPipeline bareWorld (retryData failedStore.record)
          (failedStore.accept retryUpdate)).trace = ("initializeAnalysis", c) :: rest) ∧
        (initialState (retryData failedStore.record)).imageAnalysis = .null ∧
        (initialState (retryData failedStore.record)).diseaseDetection = none ∧
        (initialState (retryData failedStore.record)).recommendations = .null ∧
        (initialState (retryData failedStore.record)).finalResult = .null ∧
        (initialState (retryData failedStore.record)).errors = [] ∧
        (initialState (retryData failedStore.record)).stepResults = [] ∧
        (∀ e, (retryFailedAnalysis bareWorld .found .found failedStore).outcome = .error e →
          ∃ m t, ReadOutcome.found = .failed m t ∧ e = .error m))) :=
  ⟨(retry_requires_failed_status bareWorld .found
      ⟨{ failedStore.record with status := "completed" }, [], sampleCastMessage⟩).1 (by decide),
    (retry_requires_failed_status bareWorld .found failedStore).2 rfl⟩

/-! ## Claim C18 -/

theorem truthy_leafRust_confidence : (JVal.num (.fin (23 / 25))).truthy = true := by
  simp [JVal.truthy, JNum.truthy]

/-- The block "Validate required fields" keeps the disease and the confidence of the Leaf
Rust reply and fills in the other properties. -/
theorem validateFields_leafRust :
    GroqProvider.validateFields
        [("disease", .str "Leaf Rust"), ("confidence", .num (.fin (23 / 25)))] =
      [("disease", .str "Leaf Rust"), ("confidence", .num (.fin (23 / 25))),
        ("severity", .str "medium"),
        ("symptoms", .arr [.str "Unable to determine symptoms"]), ("treatment", .arr []),
        ("fertilizers", .arr []), ("homeRemedies", .arr []), ("prevention", .arr [])] := by
  have h1 : GroqProvider.defaultIfFalsy "disease" (.str "Analysis incomplete")
      [("disease", .str "Leaf Rust"), ("confidence", .num (.fin (23 / 25)))] =
      [("disease", .str "Leaf Rust"), ("confidence", .num (.fin (23 / 25)))] := rfl
  have h2 : GroqProvider.defaultIfFalsy "confidence" (.num (.fin lit0_5))
      [("disease", .str "Leaf Rust"), ("confidence", .num (.fin (23 / 25)))] =
      [("disease", .str "Leaf Rust"), ("confidence", .num (.fin (23 / 25)))] := by
    have hl : JVal.lookup "confidence"
        [("disease", JVal.str "Leaf Rust"), ("confidence", .num (.fin (23 / 25)))] =
        .num (.fin (23 / 25)) := rfl
    simp only [GroqProvider.defaultIfFalsy, hl, truthy_leafRust_confidence, Bool.not_true,
      Bool.false_eq_true, if_false]
  simp only [GroqProvider.validateFields, h1, h2]
  rfl

/-- C18, code defect shown at a concrete input: an analysis is submitted with Gemini
preferred; the Gemini backend answers 503 on all three attempts, so the call of the
preferred provider throws (the value `undefined`); Groq, next in the attempt order,
answers with a well-formed result, disease "Leaf Rust" at confidence 0.92, above the
threshold 0.8. The selection aborts on reading the message of `undefined`, Groq is never
asked, and the returned document is `failed` with that `TypeError` as its error, without
a detection, its `aiProvider` still the preferred `gemini`. -/
theorem gemini_overload_fails_submission :
    attemptOrder (.str "gemini") = ["gemini", "groq", "huggingface"] ∧
    (providerCall busyGeminiWorld (some "wheat") "gemini").outcome = .error .undef ∧
    (∃ v, (providerCall busyGeminiWorld (some "wheat") "groq").outcome = .ok v ∧
      v.get "disease" = .str "Leaf Rust" ∧ v.get "confidence" = .num (.fin (23 / 25)) ∧
      lit0_8 ≤ 23 / 25) ∧
    (∃ doc, (analyzeImage busyGeminiWorld sampleService (sampleInput "gemini")).outcome =
        .ok (some doc) ∧
      doc.status = "failed" ∧ doc.detection = none ∧
      doc.error = .str "Cannot read properties of undefined (reading \x27message\x27)" ∧
      doc.aiProvider = .str "gemini" ∧
      stepNames doc = [("creation", "completed"), ("initialization", "completed"),
        ("imageAnalysis", "failed"), ("error_handling", "completed")]) := by
  refine ⟨rfl, rfl, ⟨.obj (GroqProvider.validateFields
    [("disease", .str "Leaf Rust"), ("confidence", .num (.fin (23 / 25)))]), rfl, ?_, ?_, ?_⟩,
    ⟨_, rfl, rfl, rfl, rfl, rfl, rfl⟩⟩
  · rw [validateFields_leafRust]; rfl
  · rw [validateFields_leafRust]; rfl
  · norm_num [lit0_8]

/-! ## Claim C19 -/

/-- C19, code defect shown at a concrete input: an analysis is submitted with Groq
preferred while the Groq and the Gemini backend answer with prose that holds no JSON (the
HuggingFace adapter has no key to call its backend with). The Groq adapter returns its
fallback payload, whose disease is not the sentinel, so the selection returns it as the
analysis; all five stages complete, and the returned document is `completed` with `null`
as its error and no failed entry in `processingSteps`. -/
theorem unparseable_replies_complete_the_run :
    (providerCall allProseWorld (some "wheat") "groq").outcome =
      .ok (GroqProvider.getFallbackResponse "Unexpected token I in JSON at position 0") ∧
    (providerCall allProseWorld (some "wheat") "gemini").outcome =
      .ok (GeminiProvider.getFallbackResponse "Unexpected token I in JSON at position 0") ∧
    (providerCall allProseWorld (some "wheat") "huggingface").outcome =
      .error (.error "HUGGINGFACE_API_KEY not configured") ∧
    (∃ doc, (analyzeImage allProseWorld sampleService (sampleInput "groq")).outcome =
        .ok (some doc) ∧
      doc.status = "completed" ∧ doc.error = .null ∧
      stepNames doc = [("creation", "completed"), ("initialization", "completed"),
        ("imageAnalysis", "completed"), ("diseaseDetection", "completed"),
        ("recommendations", "completed"), ("finalization", "completed")]) := by
  with_unfolding_all exact ⟨rfl, rfl, rfl, _, rfl, rfl, rfl, rfl⟩

/-! ## Claim C20 -/

theorem lookup_setField (k : String) (x : JVal) (fs : List (String × JVal)) :
    JVal.lookup k (JVal.setField k x fs) = x := by
  induction fs with
  | nil => simp [JVal.setField, JVal.lookup]
  | cons p rest ih =>
    obtain ⟨k1, v⟩ := p
    by_cases hk : (k1 == k) = true
    · simp [JVal.setField, JVal.lookup, hk]
    · simp [JVal.setField, JVal.lookup, hk, ih]

/-- A result returned by the selector carries, as `provider`, the name of a provider of
the attempt list. -/
theorem selectLoop_ok_provider (env : Env) (cropType : Option String) (names : List String)
    (lastError : Option String) (invoked : List (String × Nat)) (result : JVal)
    (h : (selectLoop env cropType names lastError invoked).outcome = .ok result) :
    ∃ name ∈ names, result.get "provider" = .str name := by
  induction names generalizing lastError invoked with
  | nil => simp [selectLoop] at h
  | cons name rest ih =>
    have step : ∀ le inv, (selectLoop env cropType rest le inv).outcome = .ok result →
        ∃ n ∈ name :: rest, result.get "provider" = .str n := by
      intro le inv hx
      obtain ⟨n, hn, hr⟩ := ih le inv hx
      exact ⟨n, List.mem_cons_of_mem _ hn, hr⟩
    simp only [selectLoop] at h
    split at h
    · exact step _ _ h
    · simp at h
    · split at h
      · exact step _ _ h
      · simp at h
      · split at h
        · exact step _ _ h
        · split at h
          · simp only [Except.ok.injEq] at h
            refine ⟨name, List.mem_cons_self _ _, ?_⟩
            rw [← h]
            exact lookup_setField _ _ _
          · exact step _ _ h

/-- C20, counterexample: every provider fails (the Groq and the Gemini backend reject the
key, HuggingFace has none), so `performImageAnalysis` throws. The only write is the
failed step: `aiProvider` keeps the value the record had and `rawResponses.imageAnalysis`
stays unset. -/
theorem failed_image_analysis_writes_no_provider :
    (performImageAnalysis rejectedKeyWorld (AnalysisState.new (initialState sampleData))
      sampleStore).thrown =
      some (.error "All providers failed. Last error: HUGGINGFACE_API_KEY not configured") ∧
    (performImageAnalysis rejectedKeyWorld (AnalysisState.new (initialState sampleData))
      sampleStore).store.record.aiProvider = sampleStore.record.aiProvider ∧
    (performImageAnalysis rejectedKeyWorld (AnalysisState.new (initialState sampleData))
      sampleStore).store.record.rawImageAnalysis = .undefined ∧
    stepNames (performImageAnalysis rejectedKeyWorld
      (AnalysisState.new (initialState sampleData)) sampleStore).store.record =
      [("imageAnalysis", "failed")] :=
  ⟨rfl, rfl, rfl, rfl⟩

/-- C20, amended: when `performImageAnalysis` returns, the selector has returned a result
and the stage has written, in one write with its completed step, the name of the provider
that gave the result to `aiProvider` and the result to `rawResponses.imageAnalysis`. When
it throws, both fields are as they were before the stage, and the only write it has sent
besides the refused one is the append of the failed `imageAnalysis` step with the message
of the error: either that write was accepted, the record is the old one with this step
appended and the stage throws that error, or it was rejected, the record is unchanged and
the stage throws the rejection. With a store that accepts the next write, a stage that
throws does so with the error of the selection and the failed step is appended. -/
theorem image_analysis_records_provider_on_success (env : Env) (state : AnalysisState)
    (store : Store) :
    ((performImageAnalysis env state store).thrown = none →
      ∃ result name,
        (analyzeWithFallback env state.cropType state.provider).outcome = .ok result ∧
        name ∈ attemptOrder state.provider ∧ result.get "provider" = .str name ∧
        (performImageAnalysis env state store).store.record.aiProvider = .str name ∧
        (performImageAnalysis env state store).store.record.rawImageAnalysis = result ∧
        ∃ entry, entry.step = "imageAnalysis" ∧ entry.status = "completed" ∧
          (performImageAnalysis env state store).store.record.processingSteps =
            store.record.processingSteps ++ [entry]) ∧
    ((performImageAnalysis env state store).thrown ≠ none →
      (performImageAnalysis env state store).store.record.aiProvider =
          store.record.aiProvider ∧
        (performImageAnalysis env state store).store.record.rawImageAnalysis =
          store.record.rawImageAnalysis ∧
        ((∃ m, (performImageAnalysis env state store).thrown = some (.error m) ∧
            (performImageAnalysis env state store).store.record =
              pushStep ⟨"imageAnalysis", "failed", .undefined, .str m⟩ store.record) ∨
          (∃ m2, (performImageAnalysis env state store).thrown = some (.error m2) ∧
            (performImageAnalysis env state store).store.record = store.record)) ∧
        (store.nextRejection = none →
          ∃ m, imageAttempt env state = .error m ∧
            (performImageAnalysis env state store).thrown = some (.error m) ∧
            (performImageAnalysis env state store).store.record =
              pushStep ⟨"imageAnalysis", "failed", .undefined, .str m⟩ store.record)) := by
  rw [performImageAnalysis_eq]
  rcases runStage_cases "imageAnalysis" (failedStep "imageAnalysis") (imageAttempt env state)
      state store with ⟨st, update, hatt, _, hrun⟩ | ⟨st0, m, s, hs, hrun⟩
  · rw [hrun]
    obtain ⟨result, hsel, _, _, _, hu⟩ := imageAttempt_ok hatt
    subst hu
    obtain ⟨name, hmem, hname⟩ := selectLoop_ok_provider env state.cropType _ none [] result hsel
    refine ⟨fun _ => ⟨result, name, hsel, hmem, hname, hname, rfl, _, rfl, rfl, rfl⟩, ?_⟩
    intro hne
    exact absurd rfl hne
  · have hs0 : s.record = store.record := by
      rcases hs with ⟨_, _, hs⟩ | ⟨_, _, _, hs⟩ <;> rw [hs]
      rfl
    rcases hrun with ⟨hacc, hrun⟩ | ⟨m2, hrej2, hrun⟩
    · rw [hrun]
      have hrec : (s.accept (failedStep "imageAnalysis" m)).record =
          pushStep ⟨"imageAnalysis", "failed", .undefined, .str m⟩ store.record := by
        rw [accept_record, hs0]
        rfl
      refine ⟨fun hx => (by cases hx), fun _ => ⟨?_, ?_, Or.inl ⟨m, rfl, hrec⟩, fun hnr => ?_⟩⟩
      · show (s.accept (failedStep "imageAnalysis" m)).record.aiProvider = _
        rw [hrec]
        rfl
      · show (s.accept (failedStep "imageAnalysis" m)).record.rawImageAnalysis = _
        rw [hrec]
        rfl
      · rcases hs with ⟨hatt, _, _⟩ | ⟨_, _, hrej, _⟩
        · exact ⟨m, hatt, rfl, hrec⟩
        · rw [hnr] at hrej
          cases hrej
    · rw [hrun]
      have hrec : s.reject.record = store.record := by rw [reject_record, hs0]
      refine ⟨fun hx => (by cases hx), fun _ => ⟨?_, ?_, Or.inr ⟨m2, rfl, hrec⟩, fun hnr => ?_⟩⟩
      · show s.reject.record.aiProvider = _
        rw [hrec]
      · show s.reject.record.rawImageAnalysis = _
        rw [hrec]
      · rcases hs with ⟨_, _, hs⟩ | ⟨_, _, hrej, _⟩
        · rw [hs, hnr] at hrej2
          cases hrej2
        · rw [hnr] at hrej
          cases hrej

/-- C20, witness: against the bare world the stage returns and records Groq, the provider
that answered; against the world of rejected keys it throws, leaves both fields and
appends the failed step with the message of the selection. -/
theorem image_analysis_records_provider_on_success_witness :
    (∃ result name,
      (analyzeWithFallback bareWorld (some "wheat") (.str "groq")).outcome = .ok result ∧
      name ∈ attemptOrder (.str "groq") ∧ result.get "provider" = .str name ∧
      (performImageAnalysis bareWorld (AnalysisState.new (initialState sampleData))
        sampleStore).store.record.aiProvider = .str name ∧
      (performImageAnalysis bareWorld (AnalysisState.new (initialState sampleData))
        sampleStore).store.record.rawImageAnalysis = result ∧
      ∃ entry, entry.step = "imageAnalysis" ∧ entry.status = "completed" ∧
        (performImageAnalysis bareWorld (AnalysisState.new (initialState sampleData))
          sampleStore).store.record.processingSteps =
          sampleStore.record.processingSteps ++ [entry]) ∧
    ((performImageAnalysis rejectedKeyWorld (AnalysisState.new (initialState sampleData))
        sampleStore).store.record.aiProvider = sampleStore.record.aiProvider ∧
      (performImageAnalysis rejectedKeyWorld (AnalysisState.new (initialState sampleData))
        sampleStore).store.record.rawImageAnalysis = sampleStore.record.rawImageAnalysis ∧
      ∃ m, (performImageAnalysis rejectedKeyWorld (AnalysisState.new (initialState sampleData))
          sampleStore).thrown = some (.error m) ∧
        (performImageAnalysis rejectedKeyWorld (AnalysisState.new (initialState sampleData))
          sampleStore).store.record =
          pushStep ⟨"imageAnalysis", "failed", .undefined, .str m⟩ sampleStore.record) :=
  have hthrown : (performImageAnalysis rejectedKeyWorld
      (AnalysisState.new (initialState sampleData)) sampleStore).thrown ≠ none := by
    intro hx
    exact absurd (show (some (Thrown.error
      "All providers failed. Last error: HUGGINGFACE_API_KEY not configured") :
      Option Thrown) = none from hx) (by simp)
  ⟨(image_analysis_records_provider_on_success bareWorld
      (AnalysisState.new (initialState sampleData)) sampleStore).1 rfl,
    ((image_analysis_records_provider_on_success rejectedKeyWorld
      (AnalysisState.new (initialState sampleData)) sampleStore).2 hthrown).1,
    ((image_analysis_records_provider_on_success rejectedKeyWorld
      (AnalysisState.new (initialState sampleData)) sampleStore).2 hthrown).2.1,
    (((image_analysis_records_provider_on_success rejectedKeyWorld
      (AnalysisState.new (initialState sampleData)) sampleStore).2 hthrown).2.2.2 rfl).elim
      (fun m h => ⟨m, h.2.1, h.2.2⟩)⟩

/-! ## Claim C21 -/

theorem applyThresholds_severity (x : Detection) :
    (applyThresholds x).severity = .str "unknown" ∨ (applyThresholds x).severity = .str "high" ∨
      (applyThresholds x).severity = x.severity := by
  unfold applyThresholds
  by_cases h1 : x.confidence.lt (.fin lit0_3) = true
  · simp [h1]
  · by_cases h2 : x.confidence.ge (.fin lit0_8) = true
    · simp [h1, h2]
    · simp [h1, h2]

/-- The severity of a detection is `unknown`, `high`, or the severity of the provider
(`medium` when the provider gave none). -/
theorem detection_severity_cases (state : AnalysisState) (d : Detection)
    (h : buildDetection state = .ok d) :
    d.severity = .str "unknown" ∨ d.severity = .str "high" ∨
      d.severity = (state.imageAnalysis.get "severity").or (.str "medium") := by
  simp only [buildDetection] at h
  by_cases hc : (!state.imageAnalysis.truthy || !(state.imageAnalysis.get "disease").truthy)
      = true
  · simp only [hc, if_true] at h
    cases h
  · simp only [hc] at h
    simp only [Bool.false_eq_true, if_false, Except.ok.injEq] at h
    rw [← h]
    exact applyThresholds_severity _

/-- Between the two thresholds the stage keeps the severity of the provider. -/
theorem mid_confidence_keeps_severity (state : AnalysisState) (store : Store) (c : ℚ)
    (hanalysis : state.imageAnalysis.truthy = true)
    (hdisease : (state.imageAnalysis.get "disease").truthy = true)
    (hconf : clampConfidence state.imageAnalysis = .fin c) (h1 : lit0_3 ≤ c)
    (h2 : c < lit0_8) :
    ∃ d, (processDiseaseDetection state store).state.diseaseDetection = some d ∧
      d.severity = (state.imageAnalysis.get "severity").or (.str "medium") ∧
      (store.nextWriteOk = true → ∀ name word,
        castString (state.imageAnalysis.get "disease") = some name →
        castString ((state.imageAnalysis.get "severity").or (.str "medium")) = some word →
        (processDiseaseDetection state store).thrown = none ∧
        (processDiseaseDetection state store).store.record.detection =
          some ⟨name, .fin c, word⟩) := by
  obtain ⟨d, hd, hstate, hstore, _⟩ :=
    processDiseaseDetection_of_disease state store hanalysis hdisease
  have hd2 : d = { disease := state.imageAnalysis.get "disease",
                   confidence := .fin c,
                   severity := (state.imageAnalysis.get "severity").or (.str "medium"),
                   symptoms := if (state.imageAnalysis.get "symptoms").isArray then
                     (state.imageAnalysis.get "symptoms").elems else [],
                   analysisProvider := (state.imageAnalysis.get "provider").or state.provider,
                   needsExpertReview := false, reliable := false } := by
    simp only [buildDetection, hanalysis, hdisease, hconf, applyThresholds, JNum.lt, JNum.ge,
      decide_eq_false (not_lt.mpr h1), decide_eq_false (not_le.mpr h2)] at hd
    simpa using hd.symm
  subst hd2
  refine ⟨_, hstate, rfl, fun hok name word hn hw => ?_⟩
  have := hstore (by simp only [Detection.castFailure, hn, hw]; simp) hok
  simpa only [Detection.stored, hn, hw, Option.getD_some] using this

/-- The string `0.29999999999999998` is not below the threshold: its number is the double
of the literal `0.3`, and the stage keeps the disease of the provider. -/
theorem near_threshold_string_keeps_disease :
    clampConfidence nearThresholdStringAnalysis = .fin lit0_3 ∧
    ∃ d, buildDetection (stateWith nearThresholdStringAnalysis) = .ok d ∧
      d.disease = .str "Leaf Rust" ∧ d.needsExpertReview = false ∧
      d.confidence = .fin lit0_3 := by
  refine ⟨clampConfidence_nearThresholdString, ?_⟩
  have hlt : ¬ lit0_3 < lit0_3 := lt_irrefl _
  have hge : ¬ lit0_8 ≤ lit0_3 := by norm_num [lit0_3, lit0_8]
  have ht : (stateWith nearThresholdStringAnalysis).imageAnalysis.truthy = true := rfl
  have hd : ((stateWith nearThresholdStringAnalysis).imageAnalysis.get "disease").truthy =
      true := rfl
  have hc : clampConfidence (stateWith nearThresholdStringAnalysis).imageAnalysis =
      .fin lit0_3 := clampConfidence_nearThresholdString
  refine ⟨_, by
    simp only [buildDetection, ht, hd, hc, applyThresholds, JNum.lt, JNum.ge,
      decide_eq_false hlt, decide_eq_false hge]
    rfl, rfl, rfl, rfl⟩

theorem clampConfidence_severeAnalysis : clampConfidence severeAnalysis = .fin (1 / 2) := by
  have h : (severeAnalysis.get "confidence") = .num (.fin (1 / 2)) := rfl
  simp only [clampConfidence, h, JVal.or, JVal.truthy, JNum.truthy]
  norm_num [JVal.toNumber, JNum.min, JNum.max]

/-- C21, code defect shown at a concrete input: the image analysis names the disease
"Leaf Rust" at confidence one half with the severity "severe". The confidence lies
between the two thresholds, so the stage keeps the provider's severity: the detection in
the state and the detection written to the record both have severity "severe", which is
none of `low`, `medium`, `high`, `unknown`. -/
theorem unknown_severity_word_is_stored :
    (∃ d, (processDiseaseDetection (stateWith severeAnalysis) sampleStore).state.diseaseDetection
        = some d ∧ d.severity = .str "severe") ∧
    (processDiseaseDetection (stateWith severeAnalysis) sampleStore).thrown = none ∧
    (processDiseaseDetection (stateWith severeAnalysis) sampleStore).store.record.detection =
      some ⟨.str "Leaf Rust", .fin (1 / 2), .str "severe"⟩ ∧
    "severe" ∉ severityNames := by
  obtain ⟨d, hd, hsev, hstore⟩ := mid_confidence_keeps_severity (stateWith severeAnalysis)
    sampleStore (1 / 2) rfl rfl clampConfidence_severeAnalysis (by norm_num [lit0_3])
    (by norm_num [lit0_8])
  obtain ⟨ht, hrec⟩ := hstore rfl (.str "Leaf Rust") (.str "severe") rfl rfl
  exact ⟨⟨d, hd, hsev⟩, ht, hrec, by decide⟩

/-! ## Claim C22 -/

theorem lengthIsZero_empty : (JVal.arr []).lengthIsZero = true := by
  simp [JVal.lengthIsZero, JVal.lengthOf]

theorem buildRecommendations_of_empty (env : Env) (state : AnalysisState)
    (htruthy : state.imageAnalysis.truthy = true)
    (h1 : state.imageAnalysis.get "treatment" = .arr [])
    (h2 : state.imageAnalysis.get "fertilizers" = .arr [])
    (h3 : state.imageAnalysis.get "homeRemedies" = .arr [])
    (h4 : state.imageAnalysis.get "prevention" = .arr []) :
    buildRecommendations env state = .ok (fallbackRecommendations state.cropType) := by
  have hor : (JVal.arr []).or (.arr []) = .arr [] := rfl
  simp only [buildRecommendations, htruthy, h1, h2, h3, h4, hor, enhanceTreatments,
    filterFertilizers, JVal.isArray, JVal.elems, mapThrowing, addFallbacks,
    lengthIsZero_empty, Bool.not_true, Bool.false_eq_true, if_false, if_true,
    List.isEmpty_nil, List.nil_append, fallbackRecommendations]

theorem buildRecommendations_congr (env : Env) (s1 s2 : AnalysisState)
    (h1 : s1.imageAnalysis = s2.imageAnalysis) (h2 : s1.location = s2.location)
    (h3 : s1.cropType = s2.cropType) :
    buildRecommendations env s1 = buildRecommendations env s2 := by
  simp only [buildRecommendations, h1, h2, h3]

/-- The stage `generateRecommendations` leaves the image analysis, the location and the
crop of the state as they were, whatever its outcome. -/
theorem generateRecommendations_inputs_kept (env : Env) (state : AnalysisState)
    (store : Store) :
    (generateRecommendations env state store).state.imageAnalysis = state.imageAnalysis ∧
    (generateRecommendations env state store).state.location = state.location ∧
    (generateRecommendations env state store).state.cropType = state.cropType := by
  rw [generateRecommendations_eq]
  rcases runStage_cases "recommendations" (failedStep "recommendations")
      (recommendationsAttempt env state) state store with
    ⟨st, update, hatt, _, hrun⟩ | ⟨st0, m, s, hs, hrun⟩
  · rw [hrun]
    obtain ⟨rec, _, hst, _⟩ := recommendationsAttempt_ok hatt
    subst hst
    exact ⟨rfl, rfl, rfl⟩
  · have hst0 : st0.imageAnalysis = state.imageAnalysis ∧ st0.location = state.location ∧
        st0.cropType = state.cropType := by
      rcases hs with ⟨_, hst, _⟩ | ⟨update, hatt, _, _⟩
      · rw [hst]; exact ⟨rfl, rfl, rfl⟩
      · obtain ⟨rec, _, hst, _⟩ := recommendationsAttempt_ok hatt
        subst hst
        exact ⟨rfl, rfl, rfl⟩
    rcases hrun with ⟨_, hrun⟩ | ⟨m2, _, hrun⟩
    · rw [hrun]; exact hst0
    · rw [hrun]; exact hst0

theorem generateRecommendations_of_built (env : Env) (state : AnalysisState) (store : Store)
    (rec : Recommendations) (hb : buildRecommendations env state = .ok rec)
    (hrej : store.nextRejection = none) :
    (generateRecommendations env state store).thrown = none ∧
    (generateRecommendations env state store).state.recommendations = rec.toJVal ∧
    (generateRecommendations env state store).store.record.recommendations = rec.toJVal ∧
    (generateRecommendations env state store).store.writeErrors = store.writeErrors.tail := by
  have hrun : generateRecommendations env state store = ⟨none,
      ({ state with recommendations := rec.toJVal }).updateStep "recommendations" (.obj [
        ("success", .bool true),
        ("treatmentCount", .num (.fin rec.treatment.length)),
        ("fertilizerCount", .num (.fin rec.fertilizers.length))]),
      store.accept (fun r => pushStep ⟨"recommendations", "completed",
          .obj [("treatmentOptions", .num (.fin rec.treatment.length)),
                ("fertilizerOptions", .num (.fin rec.fertilizers.length)),
                ("homeRemediesCount", rec.homeRemedies.lengthOf)], .undefined⟩
          { r with recommendations := rec.toJVal })⟩ := by
    simp only [generateRecommendations, hb, findByIdAndUpdate_eq, hrej]
  rw [hrun]
  exact ⟨rfl, rfl, rfl, rfl⟩

/-- C22: for a state whose image analysis is present and has empty arrays as treatment,
fertilizers, homeRemedies and prevention, the stage computes the four fallback lists, of
one, two, two and three entries. Whatever the outcome of the stage, it leaves
`state.imageAnalysis` unchanged, and a second run on the state it leaves computes exactly
the same lists. When the store accepts the writes, both runs return, and after each of
them the state and the record hold these recommendations. -/
theorem fallback_recommendations_are_stable (env : Env) (state : AnalysisState)
    (store : Store) (htruthy : state.imageAnalysis.truthy = true)
    (h1 : state.imageAnalysis.get "treatment" = .arr [])
    (h2 : state.imageAnalysis.get "fertilizers" = .arr [])
    (h3 : state.imageAnalysis.get "homeRemedies" = .arr [])
    (h4 : state.imageAnalysis.get "prevention" = .arr []) :
    buildRecommendations env state = .ok (fallbackRecommendations state.cropType) ∧
    (fallbackRecommendations state.cropType).treatment.length = 1 ∧
    (fallbackRecommendations state.cropType).fertilizers.length = 2 ∧
    (fallbackRecommendations state.cropType).homeRemedies.elems.length = 2 ∧
    (fallbackRecommendations state.cropType).preventiveMeasures.elems.length = 3 ∧
    (generateRecommendations env state store).state.imageAnalysis = state.imageAnalysis ∧
    buildRecommendations env (generateRecommendations env state store).state =
      .ok (fallbackRecommendations state.cropType) ∧
    (generateRecommendations env (generateRecommendations env state store).state
      (generateRecommendations env state store).store).state.imageAnalysis =
      state.imageAnalysis ∧
    (store.nextRejection = none → store.reject.nextRejection = none →
      (generateRecommendations env state store).thrown = none ∧
      (generateRecommendations env state store).state.recommendations =
        (fallbackRecommendations state.cropType).toJVal ∧
      (generateRecommendations env state store).store.record.recommendations =
        (fallbackRecommendations state.cropType).toJVal ∧
      (generateRecommendations env (generateRecommendations env state store).state
        (generateRecommendations env state store).store).thrown = none ∧
      (generateRecommendations env (generateRecommendations env state store).state
        (generateRecommendations env state store).store).state.recommendations =
        (fallbackRecommendations state.cropType).toJVal ∧
      (generateRecommendations env (generateRecommendations env state store).state
        (generateRecommendations env state store).store).store.record.recommendations =
        (fallbackRecommendations state.cropType).toJVal) := by
  have hb := buildRecommendations_of_empty env state htruthy h1 h2 h3 h4
  obtain ⟨k1, k2, k3⟩ := generateRecommendations_inputs_kept env state store
  have hb2 : buildRecommendations env (generateRecommendations env state store).state =
      .ok (fallbackRecommendations state.cropType) := by
    rw [buildRecommendations_congr env _ state k1 k2 k3]; exact hb
  refine ⟨hb, rfl, rfl, rfl, rfl, k1, hb2, ?_, ?_⟩
  · rw [(generateRecommendations_inputs_kept env _ _).1, k1]
  · intro hr1 hr2
    obtain ⟨a1, a2, a3, a4⟩ := generateRecommendations_of_built env state store _ hb hr1
    have hr : (generateRecommendations env state store).store.nextRejection = none := by
      have : (generateRecommendations env state store).store.nextRejection =
          store.reject.nextRejection := by
        simp only [Store.nextRejection, a4, Store.reject]
      rw [this]; exact hr2
    obtain ⟨b1, b2, b3, _⟩ := generateRecommendations_of_built env _ _ _ hb2 hr
    exact ⟨a1, a2, a3, b1, b2, b3⟩

/-- C22, witness: the state holding the analysis with four empty lists, for the crop
wheat, on the sample store. -/
theorem fallback_recommendations_are_stable_witness :
    (generateRecommendations bareWorld (stateWith emptyListsAnalysis) sampleStore).thrown =
        none ∧
      (generateRecommendations bareWorld (stateWith emptyListsAnalysis)
        sampleStore).state.recommendations = (fallbackRecommendations (some "wheat")).toJVal ∧
      (generateRecommendations bareWorld
        (generateRecommendations bareWorld (stateWith emptyListsAnalysis) sampleStore).state
        (generateRecommendations bareWorld (stateWith emptyListsAnalysis)
          sampleStore).store).state.recommendations =
        (fallbackRecommendations (some "wheat")).toJVal :=
  have h := (fallback_recommendations_are_stable bareWorld (stateWith emptyListsAnalysis)
    sampleStore rfl rfl rfl rfl rfl).2.2.2.2.2.2.2.2 rfl rfl
  ⟨h.1, h.2.1, h.2.2.2.2.1⟩

/-! ## Claim C23 -/

theorem mapThrowing_ok (f : JVal → Except String JVal) (xs : List JVal)
    (h : ∀ x ∈ xs, ∃ y, f x = .ok y) : ∃ ys, mapThrowing f xs = .ok ys := by
  induction xs with
  | nil => exact ⟨[], rfl⟩
  | cons x rest ih =>
    obtain ⟨y, hy⟩ := h x (List.mem_cons_self _ _)
    obtain ⟨ys, hys⟩ := ih (fun z hz => h z (List.mem_cons_of_mem _ hz))
    exact ⟨y :: ys, by simp only [mapThrowing, hy, hys]⟩

theorem enhanceTreatment_ok (location : Option Location) (cropType : Option String)
    (x : JVal) (h : x.nullish = false) : ∃ y, enhanceTreatment location cropType x = .ok y := by
  cases x <;> first
    | (simp [JVal.nullish] at h; done)
    | exact ⟨_, by simp [enhanceTreatment, JVal.nullish]; rfl⟩

theorem filterFertilizer_ok (env : Env) (location : Option Location) (x : JVal)
    (h : x.nullish = false) : ∃ y, filterFertilizer env location x = .ok y := by
  cases x <;> first
    | (simp [JVal.nullish] at h; done)
    | exact ⟨_, by simp [filterFertilizer, JVal.nullish]; rfl⟩

/-- When the image analysis is present and neither its treatment list nor its fertilizer
list holds a `null` or `undefined` entry, the recommendations are computed. -/
theorem recommendations_built_without_null_entries (env : Env) (state : AnalysisState)
    (htruthy : state.imageAnalysis.truthy = true)
    (h1 : ∀ x ∈ (state.imageAnalysis.get "treatment").elems, x.nullish = false)
    (h2 : ∀ x ∈ (state.imageAnalysis.get "fertilizers").elems, x.nullish = false) :
    ∃ rec, buildRecommendations env state = .ok rec := by
  have ht : ∃ ys, enhanceTreatments ((state.imageAnalysis.get "treatment").or (.arr []))
      state.location state.cropType = .ok ys := by
    unfold enhanceTreatments
    by_cases ha : ((state.imageAnalysis.get "treatment").or (.arr [])).isArray = true
    · simp only [ha, Bool.not_true, Bool.false_eq_true, if_false]
      apply mapThrowing_ok
      intro x hx
      apply enhanceTreatment_ok
      apply h1
      unfold JVal.or at hx
      by_cases hg : (state.imageAnalysis.get "treatment").truthy = true
      · simpa [hg] using hx
      · simp [hg, JVal.elems] at hx
    · exact ⟨[], by simp [ha]⟩
  have hf : ∃ ys, filterFertilizers env ((state.imageAnalysis.get "fertilizers").or (.arr []))
      state.location = .ok ys := by
    unfold filterFertilizers
    by_cases ha : ((state.imageAnalysis.get "fertilizers").or (.arr [])).isArray = true
    · simp only [ha, Bool.not_true, Bool.false_eq_true, if_false]
      apply mapThrowing_ok
      intro x hx
      apply filterFertilizer_ok
      apply h2
      unfold JVal.or at hx
      by_cases hg : (state.imageAnalysis.get "fertilizers").truthy = true
      · simpa [hg] using hx
      · simp [hg, JVal.elems] at hx
    · exact ⟨[], by simp [ha]⟩
  obtain ⟨ts, hts⟩ := ht
  obtain ⟨fs, hfs⟩ := hf
  refine ⟨addFallbacks state.cropType {
    treatment := ts,
    fertilizers := fs,
    homeRemedies := (state.imageAnalysis.get "homeRemedies").or (.arr []),
    preventiveMeasures := (state.imageAnalysis.get "prevention").or (.arr []) }, ?_⟩
  simp only [buildRecommendations, htruthy, hts, hfs, Bool.not_true, Bool.false_eq_true,
    if_false]

/-- C23, code defect shown at a concrete input: the image analysis is present and its
treatment list holds a `null` entry. The helper `enhanceTreatments` reads `method` of that
entry, and the stage throws the `TypeError`, recording a failed step; the same happens
for a `null` entry of the fertilizer list, read for its `name`. -/
theorem null_entry_makes_recommendations_throw :
    (stateWith nullTreatmentAnalysis).imageAnalysis.truthy = true ∧
    (generateRecommendations bareWorld (stateWith nullTreatmentAnalysis) sampleStore).thrown =
      some (.error "Cannot read properties of null (reading \x27method\x27)") ∧
    stepNames (generateRecommendations bareWorld (stateWith nullTreatmentAnalysis)
      sampleStore).store.record = [("recommendations", "failed")] ∧
    (stateWith nullFertilizerAnalysis).imageAnalysis.truthy = true ∧
    (generateRecommendations bareWorld (stateWith nullFertilizerAnalysis) sampleStore).thrown =
      some (.error "Cannot read properties of null (reading \x27name\x27)") :=
  ⟨rfl, rfl, rfl, rfl, rfl⟩

/-! ## Claim C24 -/

/-- The destination of a stage node is the next stage, the end, or `handleError`. -/
theorem nextNode_stage (n : Node) (hn : n ≠ .handleError) (state : AnalysisState) :
    (state.errors = [] ∧ state.currentStep = n.stepKey ∧ nextNode n state = .ok n.nextStage) ∨
    ((state.errors ≠ [] ∨ state.currentStep ≠ n.stepKey) ∧
      (nextNode n state = .ok (some .handleError) ∨
        nextNode n state =
          .error (.error "Branch condition returned unknown or null destination"))) := by
  by_cases he : state.errors = []
  · by_cases hs : state.currentStep = n.stepKey
    · exact Or.inl ⟨he, hs, nextNode_of_success n hn state he hs⟩
    · right
      refine ⟨Or.inr hs, ?_⟩
      cases n <;>
        first
        | exact absurd rfl hn
        | (simp only [Node.stepKey] at hs
           simp only [nextNode, routeAnalysis, he, List.length_nil, gt_iff_lt, lt_self_iff_false,
             if_false, conditionalEdges, END]
           split_ifs <;> simp_all [List.lookup])
  · right
    refine ⟨Or.inl he, Or.inl ?_⟩
    have hlen : state.errors.length > 0 := List.length_pos.mpr he
    cases n <;>
      first
      | exact absurd rfl hn
      | simp [nextNode, routeAnalysis, hlen, conditionalEdges, List.lookup, END]

/-- C24: `routeAnalysis` is the transition table. For a state without a recorded error it
maps `initialization` to `performImageAnalysis`, `imageAnalysis` to
`processDiseaseDetection`, `diseaseDetection` to `generateRecommendations`,
`recommendations` to `finalizeResults` and `finalization` to the end; for a state with a
recorded error, and for any other `currentStep`, it returns `handleError`. The node
`handleError` leads to the end only; each stage node leads, for a state at its own step
without errors, to the stage after it (the end after the last), and otherwise to
`handleError` or to no destination at all. Hence the nodes run by a call of the pipeline
are the five stages, or the stages up to the first one that throws followed by
`handleError` and nothing else. -/
theorem routeAnalysis_transition_table :
    (∀ state : AnalysisState, state.errors = [] →
      (state.currentStep = "initialization" → routeAnalysis state = "performImageAnalysis") ∧
      (state.currentStep = "imageAnalysis" → routeAnalysis state = "processDiseaseDetection") ∧
      (state.currentStep = "diseaseDetection" →
        routeAnalysis state = "generateRecommendations") ∧
      (state.currentStep = "recommendations" → routeAnalysis state = "finalizeResults") ∧
      (state.currentStep = "finalization" → routeAnalysis state = END) ∧
      (state.currentStep ∉ stageSteps → routeAnalysis state = "handleError")) ∧
    (∀ state : AnalysisState, state.errors ≠ [] → routeAnalysis state = "handleError") ∧
    (∀ state, nextNode .handleError state = .ok none) ∧
    (∀ n state, n ≠ .handleError →
      (state.errors = [] ∧ state.currentStep = n.stepKey ∧
        nextNode n state = .ok n.nextStage) ∨
      ((state.errors ≠ [] ∨ state.currentStep ≠ n.stepKey) ∧
        (nextNode n state = .ok (some .handleError) ∨
          nextNode n state =
            .error (.error "Branch condition returned unknown or null destination")))) ∧
    (∀ env analysisData store,
      (executeAnalysisPipeline env analysisData store).trace = successTrace ∨
      ∃ done failed rest m h, stageNodes = done ++ failed :: rest ∧
        (executeAnalysisPipeline env analysisData store).trace =
          done.map (fun n => (n.name, none)) ++
            [(failed.name, some (.error m)), ("handleError", h)]) := by
  refine ⟨?_, ?_, fun _ => rfl, fun n state hn => nextNode_stage n hn state, ?_⟩
  · intro state he
    refine ⟨?_, ?_, ?_, ?_, ?_, ?_⟩
    · intro hs; simp [routeAnalysis, he, hs]
    · intro hs; simp [routeAnalysis, he, hs]
    · intro hs; simp [routeAnalysis, he, hs]
    · intro hs; simp [routeAnalysis, he, hs]
    · intro hs; simp [routeAnalysis, he, hs]
    · intro hs
      simp only [stageSteps, List.mem_cons, List.mem_singleton, List.not_mem_nil, or_false,
        not_or] at hs
      obtain ⟨h1, h2, h3, h4, h5⟩ := hs
      simp [routeAnalysis, he, h1, h2, h3, h4, h5]
  · intro state he
    have hlen : state.errors.length > 0 := List.length_pos.mpr he
    simp [routeAnalysis, hlen]
  · intro env analysisData store
    rcases executeAnalysisPipeline_cases env analysisData store with
      ⟨_, _, _, _, htrace, _⟩ | ⟨done, failed, rest, m, h, hchain, htrace, _⟩
    · exact Or.inl htrace
    · exact Or.inr ⟨done, failed, rest, m, h, hchain, htrace⟩

/-- C24, witness: a state at the step of the image analysis is routed to the detection
when it has no error, and to the error handler when it has one. -/
theorem routeAnalysis_transition_table_witness :
    routeAnalysis (stateWith lowAnalysis) = "processDiseaseDetection" ∧
      routeAnalysis ((stateWith lowAnalysis).addError "imageAnalysis" "failed") =
        "handleError" ∧
      nextNode .performImageAnalysis (stateWith lowAnalysis) =
        .ok (some .processDiseaseDetection) :=
  ⟨(routeAnalysis_transition_table.1 (stateWith lowAnalysis) rfl).2.1 rfl,
    routeAnalysis_transition_table.2.1 _ (by simp [AnalysisState.addError]),
    by
      rcases routeAnalysis_transition_table.2.2.2.1 .performImageAnalysis
          (stateWith lowAnalysis) (by decide) with ⟨_, _, h⟩ | ⟨h, _⟩
      · exact h
      · rcases h with h | h
        · exact absurd rfl h
        · exact absurd rfl h⟩

/-! ## The validation of a parsed reply -/

theorem lookup_setField_ne {k k2 : String} (h : k2 ≠ k) (x : JVal)
    (fs : List (String × JVal)) :
    JVal.lookup k (JVal.setField k2 x fs) = JVal.lookup k fs := by
  induction fs with
  | nil => simp [JVal.setField, JVal.lookup, h]
  | cons p rest ih =>
    obtain ⟨k1, v⟩ := p
    by_cases h1 : k1 = k2
    · subst h1
      simp [JVal.setField, JVal.lookup, h]
    · by_cases h2 : k1 = k
      · subst h2
        simp [JVal.setField, JVal.lookup, h1]
      · simp [JVal.setField, JVal.lookup, h1, h2, ih]

theorem lookup_defaultIfFalsy_self (k : String) (d : JVal) (fs : List (String × JVal)) :
    JVal.lookup k (GroqProvider.defaultIfFalsy k d fs) =
      if (JVal.lookup k fs).truthy then JVal.lookup k fs else d := by
  unfold GroqProvider.defaultIfFalsy
  by_cases h : (JVal.lookup k fs).truthy = true
  · simp [h]
  · simp [h, lookup_setField]

theorem lookup_defaultIfFalsy_ne {k k2 : String} (h : k2 ≠ k) (d : JVal)
    (fs : List (String × JVal)) :
    JVal.lookup k (GroqProvider.defaultIfFalsy k2 d fs) = JVal.lookup k fs := by
  unfold GroqProvider.defaultIfFalsy
  split
  · exact lookup_setField_ne h _ _
  · rfl

theorem lookup_defaultIfNotArray_self (k : String) (d : JVal) (fs : List (String × JVal)) :
    JVal.lookup k (GroqProvider.defaultIfNotArray k d fs) =
      if (JVal.lookup k fs).isArray then JVal.lookup k fs else d := by
  unfold GroqProvider.defaultIfNotArray
  by_cases h : (JVal.lookup k fs).isArray = true
  · simp [h]
  · simp [h, lookup_setField]

theorem lookup_defaultIfNotArray_ne {k k2 : String} (h : k2 ≠ k) (d : JVal)
    (fs : List (String × JVal)) :
    JVal.lookup k (GroqProvider.defaultIfNotArray k2 d fs) = JVal.lookup k fs := by
  unfold GroqProvider.defaultIfNotArray
  split
  · exact lookup_setField_ne h _ _
  · rfl

/-- What the block "Validate required fields" of the Groq adapter leaves under each of
the eight properties it validates. -/
theorem lookup_validateFields (fs : List (String × JVal)) :
    JVal.lookup "disease" (GroqProvider.validateFields fs) =
      (if (JVal.lookup "disease" fs).truthy then JVal.lookup "disease" fs
       else .str "Analysis incomplete") ∧
    JVal.lookup "confidence" (GroqProvider.validateFields fs) =
      (if (JVal.lookup "confidence" fs).truthy then JVal.lookup "confidence" fs
       else .num (.fin lit0_5)) ∧
    JVal.lookup "severity" (GroqProvider.validateFields fs) =
      (if (JVal.lookup "severity" fs).truthy then JVal.lookup "severity" fs
       else .str "medium") ∧
    JVal.lookup "symptoms" (GroqProvider.validateFields fs) =
      (if (JVal.lookup "symptoms" fs).isArray then JVal.lookup "symptoms" fs
       else .arr [.str "Unable to determine symptoms"]) ∧
    JVal.lookup "treatment" (GroqProvider.validateFields fs) =
      (if (JVal.lookup "treatment" fs).isArray then JVal.lookup "treatment" fs else .arr []) ∧
    JVal.lookup "fertilizers" (GroqProvider.validateFields fs) =
      (if (JVal.lookup "fertilizers" fs).isArray then JVal.lookup "fertilizers" fs
       else .arr []) ∧
    JVal.lookup "homeRemedies" (GroqProvider.validateFields fs) =
      (if (JVal.lookup "homeRemedies" fs).isArray then JVal.lookup "homeRemedies" fs
       else .arr []) ∧
    JVal.lookup "prevention" (GroqProvider.validateFields fs) =
      (if (JVal.lookup "prevention" fs).isArray then JVal.lookup "prevention" fs
       else .arr []) := by
  unfold GroqProvider.validateFields
  refine ⟨?_, ?_, ?_, ?_, ?_, ?_, ?_, ?_⟩
  all_goals
    simp only [lookup_defaultIfNotArray_self, lookup_defaultIfFalsy_self,
      lookup_defaultIfNotArray_ne (show ("symptoms" : String) ≠ "disease" by decide),
      lookup_defaultIfNotArray_ne (show ("treatment" : String) ≠ "disease" by decide),
      lookup_defaultIfNotArray_ne (show ("fertilizers" : String) ≠ "disease" by decide),
      lookup_defaultIfNotArray_ne (show ("homeRemedies" : String) ≠ "disease" by decide),
      lookup_defaultIfNotArray_ne (show ("prevention" : String) ≠ "disease" by decide),
      lookup_defaultIfFalsy_ne (show ("confidence" : String) ≠ "disease" by decide),
      lookup_defaultIfFalsy_ne (show ("severity" : String) ≠ "disease" by decide),
      lookup_defaultIfNotArray_ne (show ("symptoms" : String) ≠ "confidence" by decide),
      lookup_defaultIfNotArray_ne (show ("treatment" : String) ≠ "confidence" by decide),
      lookup_defaultIfNotArray_ne (show ("fertilizers" : String) ≠ "confidence" by decide),
      lookup_defaultIfNotArray_ne (show ("homeRemedies" : String) ≠ "confidence" by decide),
      lookup_defaultIfNotArray_ne (show ("prevention" : String) ≠ "confidence" by decide),
      lookup_defaultIfFalsy_ne (show ("disease" : String) ≠ "confidence" by decide),
      lookup_defaultIfFalsy_ne (show ("severity" : String) ≠ "confidence" by decide),
      lookup_defaultIfNotArray_ne (show ("symptoms" : String) ≠ "severity" by decide),
      lookup_defaultIfNotArray_ne (show ("treatment" : String) ≠ "severity" by decide),
      lookup_defaultIfNotArray_ne (show ("fertilizers" : String) ≠ "severity" by decide),
      lookup_defaultIfNotArray_ne (show ("homeRemedies" : String) ≠ "severity" by decide),
      lookup_defaultIfNotArray_ne (show ("prevention" : String) ≠ "severity" by decide),
      lookup_defaultIfFalsy_ne (show ("disease" : String) ≠ "severity" by decide),
      lookup_defaultIfFalsy_ne (show ("confidence" : String) ≠ "severity" by decide),
      lookup_defaultIfNotArray_ne (show ("treatment" : String) ≠ "symptoms" by decide),
      lookup_defaultIfNotArray_ne (show ("fertilizers" : String) ≠ "symptoms" by decide),
      lookup_defaultIfNotArray_ne (show ("homeRemedies" : String) ≠ "symptoms" by decide),
      lookup_defaultIfNotArray_ne (show ("prevention" : String) ≠ "symptoms" by decide),
      lookup_defaultIfFalsy_ne (show ("disease" : String) ≠ "symptoms" by decide),
      lookup_defaultIfFalsy_ne (show ("confidence" : String) ≠ "symptoms" by decide),
      lookup_defaultIfFalsy_ne (show ("severity" : String) ≠ "symptoms" by decide),
      lookup_defaultIfNotArray_ne (show ("symptoms" : String) ≠ "treatment" by decide),
      lookup_defaultIfNotArray_ne (show ("fertilizers" : String) ≠ "treatment" by decide),
      lookup_defaultIfNotArray_ne (show ("homeRemedies" : String) ≠ "treatment" by decide),
      lookup_defaultIfNotArray_ne (show ("prevention" : String) ≠ "treatment" by decide),
      lookup_defaultIfFalsy_ne (show ("disease" : String) ≠ "treatment" by decide),
      lookup_defaultIfFalsy_ne (show ("confidence" : String) ≠ "treatment" by decide),
      lookup_defaultIfFalsy_ne (show ("severity" : String) ≠ "treatment" by decide),
      lookup_defaultIfNotArray_ne (show ("symptoms" : String) ≠ "fertilizers" by decide),
      lookup_defaultIfNotArray_ne (show ("treatment" : String) ≠ "fertilizers" by decide),
      lookup_defaultIfNotArray_ne (show ("homeRemedies" : String) ≠ "fertilizers" by decide),
      lookup_defaultIfNotArray_ne (show ("prevention" : String) ≠ "fertilizers" by decide),
      lookup_defaultIfFalsy_ne (show ("disease" : String) ≠ "fertilizers" by decide),
      lookup_defaultIfFalsy_ne (show ("confidence" : String) ≠ "fertilizers" by decide),
      lookup_defaultIfFalsy_ne (show ("severity" : String) ≠ "fertilizers" by decide),
      lookup_defaultIfNotArray_ne (show ("symptoms" : String) ≠ "homeRemedies" by decide),
      lookup_defaultIfNotArray_ne (show ("treatment" : String) ≠ "homeRemedies" by decide),
      lookup_defaultIfNotArray_ne (show ("fertilizers" : String) ≠ "homeRemedies" by decide),
      lookup_defaultIfNotArray_ne (show ("prevention" : String) ≠ "homeRemedies" by decide),
      lookup_defaultIfFalsy_ne (show ("disease" : String) ≠ "homeRemedies" by decide),
      lookup_defaultIfFalsy_ne (show ("confidence" : String) ≠ "homeRemedies" by decide),
      lookup_defaultIfFalsy_ne (show ("severity" : String) ≠ "homeRemedies" by decide),
      lookup_defaultIfNotArray_ne (show ("symptoms" : String) ≠ "prevention" by decide),
      lookup_defaultIfNotArray_ne (show ("treatment" : String) ≠ "prevention" by decide),
      lookup_defaultIfNotArray_ne (show ("fertilizers" : String) ≠ "prevention" by decide),
      lookup_defaultIfNotArray_ne (show ("homeRemedies" : String) ≠ "prevention" by decide),
      lookup_defaultIfFalsy_ne (show ("disease" : String) ≠ "prevention" by decide),
      lookup_defaultIfFalsy_ne (show ("confidence" : String) ≠ "prevention" by decide),
      lookup_defaultIfFalsy_ne (show ("severity" : String) ≠ "prevention" by decide)]

theorem validateResponse_obj (fs : List (String × JVal)) :
    GeminiProvider.validateResponse (.obj fs) = .ok (.obj [
      ("disease", (JVal.lookup "disease" fs).or (.str "Unable to determine")),
      ("confidence", (JVal.lookup "confidence" fs).or (.num (.fin lit0_5))),
      ("severity", (JVal.lookup "severity" fs).or (.str "medium")),
      ("symptoms", GeminiProvider.arrayOr (JVal.lookup "symptoms" fs)
        (.arr [.str "Symptoms unclear"])),
      ("treatment", GeminiProvider.arrayOr (JVal.lookup "treatment" fs) (.arr [])),
      ("fertilizers", GeminiProvider.arrayOr (JVal.lookup "fertilizers" fs) (.arr [])),
      ("homeRemedies", GeminiProvider.arrayOr (JVal.lookup "homeRemedies" fs) (.arr [])),
      ("prevention", GeminiProvider.arrayOr (JVal.lookup "prevention" fs) (.arr []))]) := rfl

theorem zero_not_truthy : (JVal.num (.fin 0)).truthy = false := by
  simp [JVal.truthy, JNum.truthy]

theorem half_truthy : (JVal.num (.fin lit0_5)).truthy = true := by
  simp [JVal.truthy, JNum.truthy, lit0_5]

theorem or_of_truthy {a : JVal} (b : JVal) (h : a.truthy = true) : a.or b = a := by
  simp [JVal.or, h]

theorem or_of_falsy {a : JVal} (b : JVal) (h : a.truthy = false) : a.or b = b := by
  simp [JVal.or, h]

/-! ## Claim C26 -/

/-- C26, counterexample: a parsed reply whose confidence is present and equal to 0, and
whose severity is present and empty. Both validations replace them: the result has
confidence 0.5 and severity `medium`. -/
theorem present_zero_confidence_is_replaced :
    JVal.lookup "confidence" zeroConfidenceReply = .num (.fin 0) ∧
    JVal.lookup "severity" zeroConfidenceReply = .str "" ∧
    JVal.lookup "confidence" (GroqProvider.validateFields zeroConfidenceReply) =
      .num (.fin lit0_5) ∧
    JVal.lookup "severity" (GroqProvider.validateFields zeroConfidenceReply) = .str "medium" ∧
    (∃ v, GeminiProvider.validateResponse (.obj zeroConfidenceReply) = .ok v ∧
      v.get "confidence" = .num (.fin lit0_5) ∧ v.get "severity" = .str "medium") := by
  obtain ⟨_, hc, hs, _⟩ := lookup_validateFields zeroConfidenceReply
  have h0 : JVal.lookup "confidence" zeroConfidenceReply = .num (.fin 0) := rfl
  have h1 : JVal.lookup "severity" zeroConfidenceReply = .str "" := rfl
  refine ⟨h0, h1, ?_, ?_, _, validateResponse_obj _, ?_, ?_⟩
  · rw [hc, h0, zero_not_truthy]; rfl
  · rw [hs, h1]; rfl
  · exact (show (JVal.lookup "confidence" zeroConfidenceReply).or (.num (.fin lit0_5)) = _
      from by rw [h0, or_of_falsy _ zero_not_truthy])
  · rfl

/-- C26, amended: for every parsed reply object, the validation of the Groq adapter and
the validation of the Gemini adapter give the reply's own confidence when it is truthy
and 0.5 otherwise, and the reply's own severity when it is truthy and `medium` otherwise.
So a reply without confidence gets 0.5 and a reply without severity gets `medium`, a
truthy confidence or severity is kept, and a confidence or severity that is present but
falsy (0, NaN, the empty string, `null`, `false`) is replaced like an absent one. -/
theorem validation_defaults_replace_falsy (fs : List (String × JVal)) :
    (JVal.lookup "confidence" (GroqProvider.validateFields fs) =
        (JVal.lookup "confidence" fs).or (.num (.fin lit0_5)) ∧
      JVal.lookup "severity" (GroqProvider.validateFields fs) =
        (JVal.lookup "severity" fs).or (.str "medium")) ∧
    (∃ v, GeminiProvider.validateResponse (.obj fs) = .ok v ∧
      v.get "confidence" = (JVal.lookup "confidence" fs).or (.num (.fin lit0_5)) ∧
      v.get "severity" = (JVal.lookup "severity" fs).or (.str "medium")) ∧
    (∀ k d, (JVal.lookup k fs = .undefined → (JVal.lookup k fs).or d = d) ∧
      ((JVal.lookup k fs).truthy = true → (JVal.lookup k fs).or d = JVal.lookup k fs) ∧
      ((JVal.lookup k fs).truthy = false → (JVal.lookup k fs).or d = d)) := by
  obtain ⟨_, hc, hs, _⟩ := lookup_validateFields fs
  refine ⟨⟨hc, hs⟩, ⟨_, validateResponse_obj fs, rfl, rfl⟩, ?_⟩
  intro k d
  refine ⟨fun h => ?_, fun h => or_of_truthy d h, fun h => or_of_falsy d h⟩
  rw [h]; rfl

/-- C26, witness: the reply that only names a disease gets both defaults, and the full
reply keeps its own confidence and severity, from both validations. -/
theorem validation_defaults_replace_falsy_witness :
    (JVal.lookup "confidence" (GroqProvider.validateFields diseaseOnlyReply) =
        .num (.fin lit0_5) ∧
      JVal.lookup "severity" (GroqProvider.validateFields diseaseOnlyReply) = .str "medium") ∧
    (JVal.lookup "confidence" (GroqProvider.validateFields fullReply) =
        .num (.fin (23 / 25)) ∧
      JVal.lookup "severity" (GroqProvider.validateFields fullReply) = .str "low") := by
  have h1 := validation_defaults_replace_falsy diseaseOnlyReply
  have h2 := validation_defaults_replace_falsy fullReply
  refine ⟨⟨?_, ?_⟩, ⟨?_, ?_⟩⟩
  · rw [h1.1.1]; exact (h1.2.2 "confidence" _).1 rfl
  · rw [h1.1.2]; exact (h1.2.2 "severity" _).1 rfl
  · rw [h2.1.1]
    exact (h2.2.2 "confidence" _).2.1 truthy_leafRust_confidence
  · rw [h2.1.2]; exact (h2.2.2 "severity" _).2.1 rfl

/-! ## Claim C27 -/

/-- C27, counterexample: a parsed reply that only names a disease. For `symptoms`, the
validation of the Groq adapter yields a list holding a placeholder text, and so does the
validation of the Gemini adapter, with another text: not the empty array. -/
theorem missing_symptoms_get_placeholder :
    (JVal.lookup "symptoms" diseaseOnlyReply).isArray = false ∧
    JVal.lookup "symptoms" (GroqProvider.validateFields diseaseOnlyReply) =
      .arr [.str "Unable to determine symptoms"] ∧
    (∃ v, GeminiProvider.validateResponse (.obj diseaseOnlyReply) = .ok v ∧
      v.get "symptoms" = .arr [.str "Symptoms unclear"]) :=
  ⟨rfl, rfl, _, rfl, rfl⟩

/-- C27, amended: for every parsed reply object, both validations keep the reply's own
value of `symptoms`, `treatment`, `fertilizers`, `homeRemedies` and `prevention` when it
is an array. When it is not an array, `treatment`, `fertilizers`, `homeRemedies` and
`prevention` become the empty array, and `symptoms` becomes a list of one placeholder
text: "Unable to determine symptoms" in the Groq adapter, "Symptoms unclear" in the Gemini
adapter. -/
theorem validation_defaults_for_lists (fs : List (String × JVal)) :
    (∀ k ∈ plainListFields,
      JVal.lookup k (GroqProvider.validateFields fs) =
        (if (JVal.lookup k fs).isArray then JVal.lookup k fs else .arr []) ∧
      ∃ v, GeminiProvider.validateResponse (.obj fs) = .ok v ∧
        v.get k = (if (JVal.lookup k fs).isArray then JVal.lookup k fs else .arr [])) ∧
    JVal.lookup "symptoms" (GroqProvider.validateFields fs) =
      (if (JVal.lookup "symptoms" fs).isArray then JVal.lookup "symptoms" fs
       else .arr [.str "Unable to determine symptoms"]) ∧
    (∃ v, GeminiProvider.validateResponse (.obj fs) = .ok v ∧
      v.get "symptoms" = (if (JVal.lookup "symptoms" fs).isArray then JVal.lookup "symptoms" fs
        else .arr [.str "Symptoms unclear"])) := by
  obtain ⟨_, _, _, h4, h5, h6, h7, h8⟩ := lookup_validateFields fs
  refine ⟨?_, h4, _, validateResponse_obj fs, rfl⟩
  intro k hk
  simp only [plainListFields, List.mem_cons, List.mem_singleton, List.not_mem_nil,
    or_false] at hk
  rcases hk with hk | hk | hk | hk <;> subst hk
  · exact ⟨h5, _, validateResponse_obj fs, rfl⟩
  · exact ⟨h6, _, validateResponse_obj fs, rfl⟩
  · exact ⟨h7, _, validateResponse_obj fs, rfl⟩
  · exact ⟨h8, _, validateResponse_obj fs, rfl⟩

/-- C27, witness: the reply that only names a disease gets the empty array as treatment,
and the full reply keeps its own treatment, from the validation of the Groq adapter. -/
theorem validation_defaults_for_lists_witness :
    JVal.lookup "treatment" (GroqProvider.validateFields diseaseOnlyReply) = .arr [] ∧
    JVal.lookup "treatment" (GroqProvider.validateFields fullReply) =
      .arr [.str "Fungicide"] :=
  ⟨((validation_defaults_for_lists diseaseOnlyReply).1 "treatment" (by decide)).1,
    ((validation_defaults_for_lists fullReply).1 "treatment" (by decide)).1⟩

/-! ## Claim C29 -/

theorem groq_parsed_shape {env : Env} {content v : JVal}
    (h : GroqProvider.parseResponseTry env content = .ok v) :
    ∃ fs, v = .obj (GroqProvider.validateFields fs) := by
  cases content with
  | str s =>
    simp only [GroqProvider.parseResponseTry] at h
    by_cases hsafe : (GroqProvider.extractJson s == "safe".data ||
        includesChars "safe".data (GroqProvider.extractJson s)) = true
    · simp only [hsafe, if_true] at h
      cases h
    · simp only [hsafe] at h
      cases hp : env.jsonParse (String.mk (GroqProvider.extractJson s)) with
      | error m =>
        simp only [hp] at h
        cases h
      | ok parsed =>
        simp only [hp] at h
        cases parsed <;> simp only [Bool.false_eq_true, if_false, Except.ok.injEq] at h <;>
          first
          | exact ⟨_, h.symm⟩
          | cases h
  | undefined => cases h
  | null => cases h
  | bool b => cases h
  | num n => cases h
  | arr xs => cases h
  | obj fs => cases h

theorem gemini_parsed_shape {env : Env} {content v : JVal}
    (h : GeminiProvider.parseResponseTry env content = .ok v) :
    ∃ parsed, parsed.nullish = false ∧ GeminiProvider.validateResponse parsed = .ok v := by
  cases content with
  | str s =>
    simp only [GeminiProvider.parseResponseTry] at h
    cases hp : env.jsonParse (String.mk (GeminiProvider.extractJson s)) with
    | error m =>
      simp only [hp] at h
      cases h
    | ok parsed =>
      simp only [hp] at h
      refine ⟨parsed, ?_, h⟩
      by_cases hn : parsed.nullish = true
      · simp [GeminiProvider.validateResponse, hn] at h
      · simpa using hn
  | undefined => cases h
  | null => cases h
  | bool b => cases h
  | num n => cases h
  | arr xs => cases h
  | obj fs => cases h

theorem truthy_ne_zero {x : JVal} (h : x.truthy = true) : x ≠ .num (.fin 0) := by
  intro hx
  rw [hx, zero_not_truthy] at h
  cases h

/-- C29: a parsed reply whose confidence is exactly 0 gets confidence 0.5 from the
validation of the Groq adapter and from the validation of the Gemini adapter, the same
value as a reply without confidence. Hence the confidence of every result that either
adapter makes of a successfully parsed reply is a truthy value, and so never the number
0. -/
theorem zero_confidence_becomes_half :
    (∀ fs, JVal.lookup "confidence" fs = .num (.fin 0) ∨
        JVal.lookup "confidence" fs = .undefined →
      JVal.lookup "confidence" (GroqProvider.validateFields fs) = .num (.fin lit0_5) ∧
      ∃ v, GeminiProvider.validateResponse (.obj fs) = .ok v ∧
        v.get "confidence" = .num (.fin lit0_5)) ∧
    (∀ env content v, GroqProvider.parseResponseTry env content = .ok v →
      (v.get "confidence").truthy = true ∧ v.get "confidence" ≠ .num (.fin 0)) ∧
    (∀ env content v, GeminiProvider.parseResponseTry env content = .ok v →
      (v.get "confidence").truthy = true ∧ v.get "confidence" ≠ .num (.fin 0)) := by
  refine ⟨?_, ?_, ?_⟩
  · intro fs h
    obtain ⟨_, hc, _⟩ := lookup_validateFields fs
    have hf : (JVal.lookup "confidence" fs).truthy = false := by
      rcases h with h | h <;> rw [h]
      · exact zero_not_truthy
      · rfl
    refine ⟨?_, _, validateResponse_obj fs, ?_⟩
    · rw [hc, hf]; rfl
    · show (JVal.lookup "confidence" fs).or _ = _
      exact or_of_falsy _ hf
  · intro env content v h
    obtain ⟨fs, hv⟩ := groq_parsed_shape h
    subst hv
    obtain ⟨_, hc, _⟩ := lookup_validateFields fs
    have ht : (JVal.lookup "confidence" (GroqProvider.validateFields fs)).truthy = true := by
      rw [hc]
      by_cases hx : (JVal.lookup "confidence" fs).truthy = true
      · simp [hx]
      · simp [hx, half_truthy]
    exact ⟨ht, truthy_ne_zero ht⟩
  · intro env content v h
    obtain ⟨parsed, hn, hv⟩ := gemini_parsed_shape h
    simp only [GeminiProvider.validateResponse, hn, Bool.false_eq_true, if_false,
      Except.ok.injEq] at hv
    subst hv
    have ht : ((parsed.get "confidence").or (.num (.fin lit0_5))).truthy = true := by
      rw [or_truthy, half_truthy, Bool.or_true]
    exact ⟨ht, truthy_ne_zero ht⟩

/-- C29, witness: the parsed reply with confidence 0, and the bare reply of the Groq
backend, whose result has a truthy confidence. -/
theorem zero_confidence_becomes_half_witness :
    JVal.lookup "confidence" (GroqProvider.validateFields zeroConfidenceReply) =
        .num (.fin lit0_5) ∧
      ∃ v, GroqProvider.parseResponseTry bareWorld (.str bareReply) = .ok v ∧
        (v.get "confidence").truthy = true :=
  ⟨(zero_confidence_becomes_half.1 zeroConfidenceReply (Or.inl rfl)).1,
    _, rfl, (zero_confidence_becomes_half.2.1 bareWorld (.str bareReply) _ rfl).1⟩

/-! ## Claim C30 -/

theorem meaningful_obj {result : JVal} (h : meaningful result = true) :
    ∃ fs, result = .obj fs ∧ (JVal.lookup "disease" fs).truthy = true ∧
      (JVal.lookup "disease" fs).isStr sentinel = false := by
  have hk : JVal.indexOfKey "disease" = none := rfl
  cases result with
  | obj fs =>
    simp only [meaningful, JVal.get, Bool.and_eq_true, Bool.not_eq_true'] at h
    exact ⟨fs, rfl, h.1, h.2⟩
  | arr xs => simp [meaningful, JVal.get, hk, JVal.truthy] at h
  | str t => simp [meaningful, JVal.get, hk, JVal.truthy] at h
  | undefined => simp [meaningful, JVal.get, JVal.truthy] at h
  | null => simp [meaningful, JVal.get, JVal.truthy] at h
  | bool b => simp [meaningful, JVal.get, JVal.truthy] at h
  | num n => simp [meaningful, JVal.get, JVal.truthy] at h

/-- A result returned by the selector is the object a provider of the attempt list gave,
which passed the test on its disease, with the name of that provider as `provider`. -/
theorem selectLoop_ok_shape (env : Env) (cropType : Option String) (names : List String)
    (lastError : Option String) (invoked : List (String × Nat)) (result : JVal)
    (h : (selectLoop env cropType names lastError invoked).outcome = .ok result) :
    ∃ name fs, name ∈ names ∧ result = .obj (JVal.setField "provider" (.str name) fs) ∧
      (JVal.lookup "disease" fs).truthy = true ∧
      (JVal.lookup "disease" fs).isStr sentinel = false := by
  induction names generalizing lastError invoked with
  | nil => simp [selectLoop] at h
  | cons name rest ih =>
    have step : ∀ le inv, (selectLoop env cropType rest le inv).outcome = .ok result →
        ∃ n fs, n ∈ name :: rest ∧ result = .obj (JVal.setField "provider" (.str n) fs) ∧
          (JVal.lookup "disease" fs).truthy = true ∧
          (JVal.lookup "disease" fs).isStr sentinel = false := by
      intro le inv hx
      obtain ⟨n, fs, hn, hr⟩ := ih le inv hx
      exact ⟨n, fs, List.mem_cons_of_mem _ hn, hr⟩
    simp only [selectLoop] at h
    split at h
    · exact step _ _ h
    · simp at h
    · split at h
      · exact step _ _ h
      · simp at h
      · split at h
        · exact step _ _ h
        · split at h
          · rename_i r _ _ hm
            obtain ⟨fs, hfs, h1, h2⟩ := meaningful_obj hm
            subst hfs
            simp only [Except.ok.injEq] at h
            exact ⟨name, fs, List.mem_cons_self _ _, h.symm, h1, h2⟩
          · exact step _ _ h

theorem analyzeWithFallback_result (env : Env) (cropType : Option String)
    (preferredProvider : JVal) (result : JVal)
    (h : (analyzeWithFallback env cropType preferredProvider).outcome = .ok result) :
    result.nullish = false ∧ result.truthy = true ∧ (result.get "disease").truthy = true ∧
      (result.get "disease").isStr sentinel = false ∧
      ∃ name ∈ providerNames, result.get "provider" = .str name := by
  obtain ⟨name, fs, hmem, hr, h1, h2⟩ := selectLoop_ok_shape env cropType _ none [] result h
  subst hr
  have hd : JVal.lookup "disease" (JVal.setField "provider" (.str name) fs) =
      JVal.lookup "disease" fs := lookup_setField_ne (by decide) _ _
  refine ⟨rfl, rfl, ?_, ?_, name, attemptOrder_mem preferredProvider name hmem, ?_⟩
  · show (JVal.lookup "disease" _).truthy = true
    rw [hd]; exact h1
  · show (JVal.lookup "disease" _).isStr sentinel = false
    rw [hd]; exact h2
  · exact lookup_setField _ _ _

/-- The `try` block of `performImageAnalysis` fails only when the selector throws, with
the error of the selector. -/
theorem imageAttempt_cases (env : Env) (state : AnalysisState) :
    (∃ st update, imageAttempt env state = .ok (st, update)) ∨
    (∃ m, (analyzeWithFallback env state.cropType state.provider).outcome = .error (.error m) ∧
      imageAttempt env state = .error m) := by
  unfold imageAttempt
  cases hsel : (analyzeWithFallback env state.cropType state.provider).outcome with
  | error e =>
    cases e with
    | undef => exact absurd hsel (analyzeWithFallback_no_undef env _ _)
    | error m => exact Or.inr ⟨m, rfl, rfl⟩
  | ok result =>
    obtain ⟨hn, _, hd, _, _⟩ := analyzeWithFallback_result env _ _ result hsel
    left
    simp only [hn, hd, Bool.false_eq_true, if_false, Bool.not_true]
    exact ⟨_, _, rfl⟩

/-- The state that a successful image-analysis node hands on has a usable analysis. -/
theorem detection_after_image (env : Env) (gs gs2 : AnalysisState) (store : Store)
    (hout : (runNode env .performImageAnalysis gs store).outcome = .ok gs2)
    (herr : gs2.errors = []) :
    ∃ d, buildDetection (AnalysisState.new gs2) = .ok d := by
  rcases createNode_runStage_cases "performImageAnalysis" "imageAnalysis" "imageAnalysis"
      (failedStep "imageAnalysis") (imageAttempt env) (performImageAnalysis env)
      (performImageAnalysis_eq env) gs store with
    ⟨st, update, hatt, _, hrun⟩ | ⟨st0, m0, m, s0, s2, _, _, hrun⟩
  · have hout2 : (createNode "performImageAnalysis" "imageAnalysis" (performImageAnalysis env)
        gs store).outcome = .ok gs2 := hout
    rw [hrun] at hout2
    simp only [Except.ok.injEq] at hout2
    subst hout2
    obtain ⟨result, hsel, _, _, hst, _⟩ := imageAttempt_ok hatt
    obtain ⟨_, ht, hd, _, _⟩ := analyzeWithFallback_result env _ _ result hsel
    have hia : (AnalysisState.new (mergeState gs st "imageAnalysis")).imageAnalysis = result := by
      subst hst
      show ((result.or gs.imageAnalysis).or .null) = result
      rw [or_of_truthy _ ht, or_of_truthy _ ht]
    refine ⟨applyThresholds {
      disease := result.get "disease",
      confidence := clampConfidence result,
      severity := (result.get "severity").or (.str "medium"),
      symptoms := if (result.get "symptoms").isArray then (result.get "symptoms").elems else [],
      analysisProvider := (result.get "provider").or
        (AnalysisState.new (mergeState gs st "imageAnalysis")).provider,
      needsExpertReview := false,
      reliable := false }, ?_⟩
    simp only [buildDetection, hia, ht, hd, Bool.not_true, Bool.or_self, Bool.false_eq_true,
      if_false]
  · have hout2 : (createNode "performImageAnalysis" "imageAnalysis" (performImageAnalysis env)
        gs store).outcome = .ok gs2 := hout
    rw [hrun] at hout2
    simp only [Except.ok.injEq] at hout2
    subst hout2
    simp [failState] at herr

/-- C30: every result that `analyzeWithFallback` returns is an object whose disease is
truthy (a non-empty string, when it is a string) and is not the string "Analysis failed",
and whose `provider` is one of `groq`, `gemini`, `huggingface`. Hence the `try` block of
`performImageAnalysis` fails only when the selector throws, with the selector's error,
never for a missing disease; and whenever the graph moves on to `processDiseaseDetection`
it comes from `performImageAnalysis` with a state on which the detection is computed,
never taking the branch for missing detection results. -/
theorem selector_result_has_disease (env : Env) :
    (∀ cropType preferredProvider result,
      (analyzeWithFallback env cropType preferredProvider).outcome = .ok result →
      result.nullish = false ∧ (result.get "disease").truthy = true ∧
        result.get "disease" ≠ .str "" ∧ result.get "disease" ≠ .str "Analysis failed" ∧
        ∃ name ∈ providerNames, result.get "provider" = .str name) ∧
    (∀ state : AnalysisState,
      (∃ st update, imageAttempt env state = .ok (st, update)) ∨
      (∃ m, (analyzeWithFallback env state.cropType state.provider).outcome =
          .error (.error m) ∧ imageAttempt env state = .error m)) ∧
    (∀ n gs store gs2, (runNode env n gs store).outcome = .ok gs2 →
      nextNode n gs2 = .ok (some .processDiseaseDetection) →
      n = .performImageAnalysis ∧ ∃ d, buildDetection (AnalysisState.new gs2) = .ok d) := by
  refine ⟨?_, imageAttempt_cases env, ?_⟩
  · intro cropType preferredProvider result h
    obtain ⟨hn, _, hd, hs, hp⟩ := analyzeWithFallback_result env _ _ result h
    refine ⟨hn, hd, ?_, ?_, hp⟩
    · intro hx
      rw [hx] at hd
      simp [JVal.truthy] at hd
    · intro hx
      rw [hx] at hs
      simp [JVal.isStr, sentinel] at hs
  · intro n gs store gs2 hout hnext
    by_cases hn : n = .handleError
    · subst hn
      simp [nextNode] at hnext
    · rcases nextNode_stage n hn gs2 with ⟨he, _, hx⟩ | ⟨_, hx | hx⟩
      · rw [hx] at hnext
        have hn2 : n = .performImageAnalysis := by
          cases n <;> simp [Node.nextStage] at hnext ⊢
        subst hn2
        exact ⟨rfl, detection_after_image env gs gs2 store hout he⟩
      · rw [hx] at hnext
        simp at hnext
      · rw [hx] at hnext
        cases hnext

/-- C30, witness: the result the selector returns against the bare world, and the state
that the image-analysis node hands to the detection in the run of the sample analysis. -/
theorem selector_result_has_disease_witness :
    (∃ result, (analyzeWithFallback bareWorld (some "wheat") (.str "groq")).outcome =
        .ok result ∧ result.get "disease" ≠ .str "Analysis failed" ∧
        ∃ name ∈ providerNames, result.get "provider" = .str name) ∧
    (∃ gs2, (runNode bareWorld .performImageAnalysis (initialState sampleData)
        sampleStore).outcome = .ok gs2 ∧
      ∃ d, buildDetection (AnalysisState.new gs2) = .ok d) :=
  ⟨⟨_, rfl, ((selector_result_has_disease bareWorld).1 (some "wheat") (.str "groq") _ rfl).2.2.2⟩,
    ⟨_, rfl, ((selector_result_has_disease bareWorld).2.2 .performImageAnalysis
      (initialState sampleData) sampleStore _ rfl rfl).2⟩⟩

/-! ## Claim C28 -/

theorem firstKeyword_mem (l : List Char) (kws : List (String × String)) (d : String)
    (h : HuggingFaceProvider.firstKeyword l kws = some d) : d ∈ kws.map Prod.snd := by
  induction kws with
  | nil => cases h
  | cons p rest ih =>
    obtain ⟨keyword, disease⟩ := p
    simp only [HuggingFaceProvider.firstKeyword] at h
    split at h
    · simp only [Option.some.injEq] at h
      simp [h]
    · simp [ih h]

theorem long_string_ok (d : String) (h : 15 < d.length) : d ≠ "" ∧ d ≠ sentinel := by
  constructor
  · intro hd
    rw [hd] at h
    exact absurd h (by decide)
  · intro hd
    rw [hd] at h
    exact absurd h (by decide)

/-- The disease name that `interpretClassification` gives is never empty and never the
sentinel of the selector. -/
theorem interpretClassification_ok (label : JVal) (cropType : Option String) (d : String)
    (h : HuggingFaceProvider.interpretClassification label cropType = .ok d) :
    d ≠ "" ∧ d ≠ sentinel := by
  unfold HuggingFaceProvider.interpretClassification at h
  by_cases ht : label.truthy = true
  · simp only [ht, Bool.not_true, Bool.false_eq_true, if_false] at h
    cases label with
    | str l =>
      simp only at h
      cases hk : HuggingFaceProvider.firstKeyword (l.data.map Char.toLower)
          HuggingFaceProvider.diseaseKeywords with
      | some disease =>
        simp only [hk, Except.ok.injEq] at h
        subst h
        have hm := firstKeyword_mem _ _ _ hk
        simp only [HuggingFaceProvider.diseaseKeywords, List.map_cons, List.map_nil,
          List.mem_cons, List.mem_singleton, List.not_mem_nil, or_false] at hm
        rcases hm with hm | hm | hm | hm | hm | hm | hm <;> subst hm <;> decide
      | none =>
        simp only [hk, Except.ok.injEq] at h
        subst h
        apply long_string_ok
        simp only [String.length_append]
        have : ("Possible " : String).length = 9 := rfl
        have : (" condition" : String).length = 10 := rfl
        omega
    | undefined => simp [JVal.truthy] at ht
    | null => simp [JVal.truthy] at ht
    | bool b => cases h
    | num n => cases h
    | arr xs => cases h
    | obj fs => cases h
  · simp only [ht, Bool.not_false, if_true, Except.ok.injEq] at h
    subst h
    apply long_string_ok
    simp only [String.length_append]
    have : (" condition unknown" : String).length = 18 := rfl
    omega

theorem formatResponse_ok (classification : JVal) (cropType : Option String) (v : JVal)
    (h : HuggingFaceProvider.formatResponse classification cropType = .ok v) :
    v.nullish = false ∧ meaningful v = true := by
  unfold HuggingFaceProvider.formatResponse at h
  by_cases hn : classification.nullish = true
  · simp only [hn, if_true] at h
    cases h
  · simp only [hn, Bool.false_eq_true, if_false] at h
    cases hi : HuggingFaceProvider.interpretClassification
        (((classification.get "0").or (.obj [])).get "label") cropType with
    | error m =>
      simp only [hi] at h
      cases h
    | ok d =>
      simp only [hi] at h
      cases hs : HuggingFaceProvider.generateSymptoms
          (((classification.get "0").or (.obj [])).get "label") with
      | error m =>
        simp only [hs] at h
        cases h
      | ok symptoms =>
        simp only [hs, Except.ok.injEq] at h
        subst h
        obtain ⟨h1, h2⟩ := interpretClassification_ok _ _ d hi
        refine ⟨rfl, ?_⟩
        show ((JVal.str d).truthy && !(JVal.str d).isStr sentinel) = true
        simp [JVal.truthy, JVal.isStr, h1, h2]

/-- An instance of the HuggingFace adapter that has a key never throws, and its result
always passes the test of the selector. -/
theorem huggingface_with_key_never_raises (self : HuggingFaceProvider) (env : Env)
    (cropType : Option String) (hkey : truthyStr self.apiKey = true) :
    ∃ v, (self.analyzeImage env cropType).outcome = .ok v ∧ v.nullish = false ∧
      meaningful v = true := by
  unfold HuggingFaceProvider.analyzeImage
  simp only [hkey, Bool.not_true, Bool.false_eq_true, if_false]
  cases ht : HuggingFaceProvider.analyzeImageTry env cropType with
  | mk r n =>
    cases r with
    | error m => exact ⟨_, rfl, rfl, huggingface_fallback_meaningful m⟩
    | ok v =>
      refine ⟨v, rfl, ?_⟩
      unfold HuggingFaceProvider.analyzeImageTry at ht
      split at ht
      · cases ht
      · split at ht
        · cases ht
        · simp only [Prod.mk.injEq] at ht
          exact formatResponse_ok _ _ _ ht.1

/-- The adapter that the selector builds for `huggingface` has no key, whatever the
configuration holds, and its call throws before any request. -/
theorem huggingface_attempt_always_throws (env : Env) (cropType : Option String) :
    (HuggingFaceProvider.new env.config).apiKey = none ∧
    providerCall env cropType "huggingface" =
      ⟨.error (.error "HUGGINGFACE_API_KEY not configured"), 0⟩ :=
  ⟨rfl, rfl⟩

/-- C28, code defect shown at a concrete input: Groq has no key and Gemini answers with
text that is not JSON, so `analyzeWithFallback` reaches the attempt with `huggingface`.
The adapter it builds reads `config.huggingFaceApiKey`, a property the configuration does
not define, so it has no key and throws "HUGGINGFACE_API_KEY not configured" without any
request; the selector ends with "All providers failed". The same happens at once when
`huggingface` is the preferred provider and the other two fail. -/
theorem huggingface_attempt_fails_without_key :
    (HuggingFaceProvider.new lastErrorWorld.config).apiKey = none ∧
    analyzeWithFallback lastErrorWorld (some "wheat") (.str "groq") =
      ⟨.error (.error "All providers failed. Last error: HUGGINGFACE_API_KEY not configured"),
        [("groq", 0), ("gemini", 1), ("huggingface", 0)]⟩ ∧
    (analyzeWithFallback lastErrorWorld (some "wheat") (.str "huggingface")).invoked =
      [("huggingface", 0), ("groq", 0), ("gemini", 1)] ∧
    (∃ m, (analyzeWithFallback lastErrorWorld (some "wheat") (.str "huggingface")).outcome =
      .error (.error m)) :=
  ⟨rfl, rfl, rfl, _, rfl⟩

/-! ## Extraction of an embedded object -/

theorem fence_eq : fence = [tick, tick, tick] := rfl

theorem labelledFence_eq : fence ++ "json".data = [tick, tick, tick, 'j', 's', 'o', 'n'] := rfl

theorem dropWhile_append_all (p : Char → Bool) (a b : List Char) (h : ∀ c ∈ a, p c = true) :
    (a ++ b).dropWhile p = b.dropWhile p := by
  induction a with
  | nil => rfl
  | cons c a ih =>
    have hc := h c (List.mem_cons_self _ _)
    simp only [List.cons_append, List.dropWhile_cons, hc, if_true]
    exact ih (fun d hd => h d (List.mem_cons_of_mem _ hd))

theorem takeWhile_append_all (p : Char → Bool) (a : List Char) (c : Char) (b : List Char)
    (h : ∀ d ∈ a, p d = true) (hc : p c = false) : (a ++ c :: b).takeWhile p = a := by
  induction a with
  | nil => simp [List.takeWhile_cons, hc]
  | cons d a ih =>
    have hd := h d (List.mem_cons_self _ _)
    simp only [List.cons_append, List.takeWhile_cons, hd, if_true]
    rw [ih (fun e he => h e (List.mem_cons_of_mem _ he))]

theorem dropWhile_blank (ws : List Char) (c : Char) (rest : List Char) (h : Blank ws)
    (hc : isWhiteSpace c = false) :
    (ws ++ c :: rest).dropWhile isWhiteSpace = c :: rest := by
  rw [dropWhile_append_all _ _ _ h]
  simp [List.dropWhile_cons, hc]

theorem prose_noTick {cs : List Char} (h : Prose cs) : NoTick cs := fun c hc => (h c hc).2.2

theorem blank_noTick {cs : List Char} (h : Blank cs) : NoTick cs := by
  intro c hc hx
  have := h c hc
  rw [hx] at this
  exact absurd this (by decide)

theorem noTick_append {a b : List Char} (ha : NoTick a) (hb : NoTick b) : NoTick (a ++ b) := by
  intro c hc
  rcases List.mem_append.mp hc with h | h
  · exact ha c h
  · exact hb c h

/-- Dropping the leading white space of prose followed by a character that is not white
space leaves prose followed by that character. -/
theorem dropWhile_prose (pre : List Char) (a : Char) (rest : List Char) (hp : Prose pre)
    (ha : isWhiteSpace a = false) :
    ∃ pre2, Prose pre2 ∧ (pre ++ a :: rest).dropWhile isWhiteSpace = pre2 ++ a :: rest := by
  induction pre with
  | nil => exact ⟨[], hp, by simp [List.dropWhile_cons, ha]⟩
  | cons c pre ih =>
    by_cases hc : isWhiteSpace c = true
    · obtain ⟨pre2, h2, heq⟩ := ih (fun d hd => hp d (List.mem_cons_of_mem _ hd))
      exact ⟨pre2, h2, by simp only [List.cons_append, List.dropWhile_cons, hc, if_true]; exact heq⟩
    · exact ⟨c :: pre, hp, by simp [List.dropWhile_cons, hc]⟩

theorem prose_reverse {cs : List Char} (h : Prose cs) : Prose cs.reverse :=
  fun c hc => h c (List.mem_reverse.mp hc)

/-- Trimming prose around a text that starts and ends with characters that are not white
space leaves prose around that text. -/
theorem trimChars_embedded (pre m post : List Char) (a z : Char) (hpre : Prose pre)
    (hpost : Prose post) (ha : isWhiteSpace a = false) (hz : isWhiteSpace z = false) :
    ∃ pre2 post2, Prose pre2 ∧ Prose post2 ∧
      trimChars (pre ++ a :: (m ++ z :: post)) = pre2 ++ a :: (m ++ z :: post2) := by
  obtain ⟨pre2, hp2, h1⟩ := dropWhile_prose pre a (m ++ z :: post) hpre ha
  have hrev : (pre2 ++ a :: (m ++ z :: post)).reverse =
      post.reverse ++ z :: (pre2 ++ a :: m).reverse := by
    simp [List.reverse_append]
  obtain ⟨post2, hq2, h2⟩ := dropWhile_prose post.reverse z (pre2 ++ a :: m).reverse
    (prose_reverse hpost) hz
  refine ⟨pre2, post2.reverse, hp2, prose_reverse hq2, ?_⟩
  unfold trimChars
  rw [h1, hrev, h2]
  simp [List.reverse_append]

theorem trimChars_object (body : List Char) :
    trimChars ('\x7b' :: (body ++ ['\x7d'])) = '\x7b' :: (body ++ ['\x7d']) := by
  obtain ⟨pre2, post2, h1, h2, h⟩ := trimChars_embedded [] body [] '\x7b' '\x7d'
    (fun _ h => absurd h (List.not_mem_nil _)) (fun _ h => absurd h (List.not_mem_nil _))
    (by decide) (by decide)
  have hlen := congrArg List.length h
  unfold trimChars at h hlen
  simp only [List.nil_append] at h hlen
  have hle : (trimChars ('\x7b' :: (body ++ ['\x7d']))).length ≤
      ('\x7b' :: (body ++ ['\x7d'])).length := by
    unfold trimChars
    rw [List.length_reverse]
    exact le_trans (List.Sublist.length_le (List.dropWhile_sublist _))
      (by rw [List.length_reverse]; exact List.Sublist.length_le (List.dropWhile_sublist _))
  unfold trimChars at hle
  rw [h] at hle
  simp only [List.length_append, List.length_cons, List.length_nil] at hle
  have hp : pre2 = [] := List.length_eq_zero.mp (by omega)
  have hq : post2 = [] := List.length_eq_zero.mp (by omega)
  subst hp hq
  unfold trimChars
  rw [h]
  rfl

/-- The brace pattern finds the object text when no opening brace stands before it and no
closing brace after it. -/
theorem matchBraces_embedded (pre body post : List Char) (hpre : ∀ c ∈ pre, c ≠ '\x7b')
    (hpost : ∀ c ∈ post, c ≠ '\x7d') :
    matchBraces (pre ++ '\x7b' :: (body ++ '\x7d' :: post)) =
      some ('\x7b' :: (body ++ ['\x7d'])) := by
  have h1 : (pre ++ '\x7b' :: (body ++ '\x7d' :: post)).dropWhile (fun c => c != '\x7b') =
      '\x7b' :: (body ++ '\x7d' :: post) := by
    rw [dropWhile_append_all _ _ _ (fun c hc => by simpa using hpre c hc)]
    simp [List.dropWhile_cons]
  have h2 : (body ++ '\x7d' :: post).reverse = post.reverse ++ '\x7d' :: body.reverse := by
    simp [List.reverse_append]
  have h3 : (post.reverse ++ '\x7d' :: body.reverse).dropWhile (fun c => c != '\x7d') =
      '\x7d' :: body.reverse := by
    rw [dropWhile_append_all _ _ _
      (fun c hc => by simpa using hpost c (List.mem_reverse.mp hc))]
    simp [List.dropWhile_cons]
  simp only [matchBraces, h1, h2, h3]
  simp

theorem isPrefixOf_head_ne (p : Char) (ps : List Char) (c : Char) (cs : List Char)
    (h : c ≠ p) : (p :: ps).isPrefixOf (c :: cs) = false := by
  simp [List.isPrefixOf, Ne.symm h]

/-- The search for a pattern that starts with a backtick skips text without backticks. -/
theorem splitAtFirst_skip (ps pre rest : List Char) (hpre : NoTick pre) :
    splitAtFirst (tick :: ps) (pre ++ rest) =
      (splitAtFirst (tick :: ps) rest).map (fun r => (pre ++ r.1, r.2)) := by
  induction pre with
  | nil => cases h : splitAtFirst (tick :: ps) rest <;> simp [h]
  | cons c pre ih =>
    have hc : c ≠ tick := hpre c (List.mem_cons_self _ _)
    have hrest := ih (fun d hd => hpre d (List.mem_cons_of_mem _ hd))
    simp only [List.cons_append, splitAtFirst, isPrefixOf_head_ne tick ps c _ hc,
      Bool.false_eq_true, if_false, hrest]
    cases h : splitAtFirst (tick :: ps) rest <;> simp [h, hrest]

theorem splitAtFirst_noTick (ps cs : List Char) (h : NoTick cs) :
    splitAtFirst (tick :: ps) cs = none := by
  have := splitAtFirst_skip ps cs [] h
  simp only [List.append_nil] at this
  rw [this]
  simp [splitAtFirst]

theorem splitAtFirst_here (p rest : List Char) (hp : p ≠ []) :
    splitAtFirst p (p ++ rest) = some ([], rest) := by
  cases p with
  | nil => exact absurd rfl hp
  | cons c cs =>
    have hpre : (c :: cs).isPrefixOf (c :: cs ++ rest) = true := by
      rw [List.isPrefixOf_iff_prefix]
      exact List.prefix_append _ _
    have hpre2 : (c :: cs).isPrefixOf (c :: (cs ++ rest)) = true := hpre
    simp only [List.cons_append, splitAtFirst, hpre2, if_true]
    simp

theorem closesFence_false (l : List Char) (z : Char) (rest : List Char) (hl : NoTick l)
    (hz : isWhiteSpace z = false) (hzt : z ≠ tick) : closesFence (l ++ z :: rest) = false := by
  induction l with
  | nil =>
    simp only [closesFence, List.nil_append, List.dropWhile_cons, hz, Bool.false_eq_true,
      if_false, fence_eq]
    exact isPrefixOf_head_ne _ _ _ _ hzt
  | cons c l ih =>
    have hc : c ≠ tick := hl c (List.mem_cons_self _ _)
    have hrest := ih (fun d hd => hl d (List.mem_cons_of_mem _ hd))
    by_cases hw : isWhiteSpace c = true
    · simp only [closesFence, List.cons_append, List.dropWhile_cons, hw, if_true]
      exact hrest
    · simp only [closesFence, List.cons_append, List.dropWhile_cons, hw, Bool.false_eq_true,
        if_false, fence_eq]
      exact isPrefixOf_head_ne _ _ _ _ hc

theorem closesFence_noTick (cs : List Char) (h : NoTick cs) : closesFence cs = false := by
  unfold closesFence
  cases hd : cs.dropWhile isWhiteSpace with
  | nil => rfl
  | cons d ds =>
    have hmem : d ∈ cs := (List.dropWhile_sublist _).subset (by rw [hd]; exact List.mem_cons_self _ _)
    rw [fence_eq]
    exact isPrefixOf_head_ne _ _ _ _ (h d hmem)

theorem captureLazy_noTick (cs : List Char) (h : NoTick cs) : captureLazy cs = none := by
  induction cs with
  | nil => rfl
  | cons c cs ih =>
    simp only [captureLazy, closesFence_noTick _ h, Bool.false_eq_true, if_false,
      ih (fun d hd => h d (List.mem_cons_of_mem _ hd)), Option.map_none']

/-- At white space followed by the closing fence the lazy group is empty. -/
theorem captureLazy_close (ws rest : List Char) (h : Blank ws) :
    captureLazy (ws ++ fence ++ rest) = some ([], ws ++ fence) := by
  have hclose : closesFence (ws ++ fence ++ rest) = true := by
    unfold closesFence
    rw [List.append_assoc, fence_eq]
    rw [show [tick, tick, tick] ++ rest = tick :: (tick :: tick :: rest) from rfl]
    rw [dropWhile_blank ws tick _ h (by decide)]
    simp [List.isPrefixOf]
  have htake : (ws ++ fence ++ rest).takeWhile isWhiteSpace = ws := by
    rw [List.append_assoc, fence_eq]
    rw [show [tick, tick, tick] ++ rest = tick :: (tick :: tick :: rest) from rfl]
    exact takeWhile_append_all _ _ _ _ h (by decide)
  cases hcs : ws ++ fence ++ rest with
  | nil =>
    have : (ws ++ fence ++ rest).length = 0 := by rw [hcs]; rfl
    simp [fence_eq] at this
  | cons c cs =>
    rw [hcs] at hclose htake
    simp only [captureLazy, hclose, if_true, htake]

/-- The lazy group captures a text without backticks that ends with a character that is
not white space, up to the white space before the closing fence. -/
theorem captureLazy_object (l : List Char) (z : Char) (ws rest : List Char) (hl : NoTick l)
    (hz : isWhiteSpace z = false) (hzt : z ≠ tick) (h : Blank ws) :
    captureLazy (l ++ z :: (ws ++ fence ++ rest)) = some (l ++ [z], ws ++ fence) := by
  induction l with
  | nil =>
    have hc := closesFence_false [] z (ws ++ fence ++ rest) (fun _ hx => absurd hx (List.not_mem_nil _)) hz hzt
    simp only [List.nil_append] at hc ⊢
    simp only [captureLazy, hc, Bool.false_eq_true, if_false, captureLazy_close ws rest h,
      Option.map_some']
  | cons c l ih =>
    have hc := closesFence_false (c :: l) z (ws ++ fence ++ rest) hl hz hzt
    have hrest := ih (fun d hd => hl d (List.mem_cons_of_mem _ hd))
    simp only [List.cons_append] at hc ⊢
    simp only [captureLazy, hc, Bool.false_eq_true, if_false, hrest, Option.map_some']

theorem noTick_cons {c : Char} {cs : List Char} (hc : c ≠ tick) (h : NoTick cs) :
    NoTick (c :: cs) := by
  intro d hd
  rcases List.mem_cons.mp hd with h1 | h1
  · rw [h1]; exact hc
  · exact h d h1

theorem noTick_of_sublist {a b : List Char} (hs : a.Sublist b) (h : NoTick b) : NoTick a :=
  fun c hc => h c (hs.subset hc)

theorem isPrefixOf_tick_noTick (ps cs : List Char) (h : NoTick cs) :
    (tick :: ps).isPrefixOf cs = false := by
  cases cs with
  | nil => rfl
  | cons c cs => exact isPrefixOf_head_ne _ _ _ _ (h c (List.mem_cons_self _ _))

/-- The head of white space followed by an opening brace is not the letter that starts the
label, nor a backtick. -/
theorem label_not_at_blank (ws rest : List Char) (h : Blank ws) :
    "json".data.isPrefixOf (ws ++ '\x7b' :: rest) = false ∧
      ∀ ps, (tick :: ps).isPrefixOf (ws ++ '\x7b' :: rest) = false := by
  cases ws with
  | nil =>
    exact ⟨isPrefixOf_head_ne 'j' _ _ _ (by decide),
      fun ps => isPrefixOf_head_ne tick ps _ _ (by decide)⟩
  | cons w ws =>
    have hw : isWhiteSpace w = true := h w (List.mem_cons_self _ _)
    have h1 : w ≠ 'j' := by
      intro hx; rw [hx] at hw; exact absurd hw (by decide)
    have h2 : w ≠ tick := by
      intro hx; rw [hx] at hw; exact absurd hw (by decide)
    exact ⟨isPrefixOf_head_ne 'j' _ _ _ h1, fun ps => isPrefixOf_head_ne tick ps _ _ h2⟩

theorem objectText_noTick_body {body : List Char} (h : NoTick ('\x7b' :: (body ++ ['\x7d']))) :
    NoTick ('\x7b' :: body) := by
  intro c hc
  apply h c
  rcases List.mem_cons.mp hc with h1 | h1
  · rw [h1]; exact List.mem_cons_self _ _
  · exact List.mem_cons_of_mem _ (List.mem_append_left _ h1)

/-- The Groq pattern for a code fence finds the object text inside a fence that follows
text without backticks. -/
theorem matchMarkdown_fenced (pre label ws1 body ws2 post : List Char) (hpre : NoTick pre)
    (hlabel : label = [] ∨ label = "json".data) (h1 : Blank ws1) (h2 : Blank ws2)
    (hbody : NoTick ('\x7b' :: (body ++ ['\x7d']))) :
    matchMarkdown (pre ++ (fence ++ (label ++ (ws1 ++ '\x7b' :: (body ++ '\x7d' ::
      (ws2 ++ fence ++ post)))))) = some ('\x7b' :: (body ++ ['\x7d'])) := by
  have hsplit : splitAtFirst fence (pre ++ (fence ++ (label ++ (ws1 ++ '\x7b' :: (body ++
      '\x7d' :: (ws2 ++ fence ++ post)))))) =
      some (pre ++ [], label ++ (ws1 ++ '\x7b' :: (body ++ '\x7d' ::
        (ws2 ++ fence ++ post)))) := by
    have hs := splitAtFirst_skip [tick, tick] pre (fence ++ (label ++ (ws1 ++ '\x7b' ::
      (body ++ '\x7d' :: (ws2 ++ fence ++ post))))) hpre
    have hf : (tick :: [tick, tick]) = fence := rfl
    rw [hf] at hs
    rw [hs, splitAtFirst_here fence _ (by decide)]
    rfl
  have hr1 : (if "json".data.isPrefixOf (label ++ (ws1 ++ '\x7b' :: (body ++ '\x7d' ::
      (ws2 ++ fence ++ post)))) then
        (label ++ (ws1 ++ '\x7b' :: (body ++ '\x7d' :: (ws2 ++ fence ++ post)))).drop 4
      else label ++ (ws1 ++ '\x7b' :: (body ++ '\x7d' :: (ws2 ++ fence ++ post)))) =
      ws1 ++ '\x7b' :: (body ++ '\x7d' :: (ws2 ++ fence ++ post)) := by
    rcases hlabel with hl | hl
    · subst hl
      simp only [List.nil_append, (label_not_at_blank ws1 _ h1).1, Bool.false_eq_true, if_false]
    · subst hl
      have hp : "json".data.isPrefixOf ("json".data ++ (ws1 ++ '\x7b' :: (body ++ '\x7d' ::
          (ws2 ++ fence ++ post)))) = true := by
        rw [List.isPrefixOf_iff_prefix]
        exact List.prefix_append _ _
      simp only [hp, if_true]
      rfl
  have hcap := captureLazy_object ('\x7b' :: body) '\x7d' ws2 post
    (objectText_noTick_body hbody) (by decide) (by decide) h2
  simp only [List.cons_append] at hcap
  simp only [matchMarkdown, hsplit, hr1, dropWhile_blank ws1 '\x7b' _ h1 (by decide), hcap,
    Option.map_some']

/-- The text the Groq adapter hands to `JSON.parse` is the embedded object text. -/
theorem groq_extractJson_embedded (content : String) (json : List Char)
    (hobj : ObjectText json) (hemb : Embeds content.data json) :
    GroqProvider.extractJson content = json := by
  obtain ⟨⟨body, hjson⟩, hnt⟩ := hobj
  subst hjson
  obtain ⟨pre, post, hpre, hpost, hshape⟩ := hemb
  have hself := matchBraces_embedded [] body [] (fun _ h => absurd h (List.not_mem_nil _))
    (fun _ h => absurd h (List.not_mem_nil _))
  simp only [List.nil_append] at hself
  rcases hshape with hA | ⟨label, ws1, ws2, hlabel, hb1, hb2, hB⟩
  · have hc : content.data = pre ++ '\x7b' :: (body ++ '\x7d' :: post) := by
      rw [hA]; simp
    obtain ⟨pre2, post2, hp2, hq2, hT⟩ := trimChars_embedded pre body post '\x7b' '\x7d'
      hpre hpost (by decide) (by decide)
    have hnt2 : NoTick (pre2 ++ '\x7b' :: (body ++ '\x7d' :: post2)) := by
      apply noTick_append (prose_noTick hp2)
      have : '\x7b' :: (body ++ '\x7d' :: post2) = ('\x7b' :: (body ++ ['\x7d'])) ++ post2 := by
        simp
      rw [this]
      exact noTick_append hnt (prose_noTick hq2)
    have hmd : matchMarkdown (pre2 ++ '\x7b' :: (body ++ '\x7d' :: post2)) = none := by
      unfold matchMarkdown
      have hf : fence = tick :: [tick, tick] := rfl
      rw [hf, splitAtFirst_noTick _ _ hnt2]
    simp only [GroqProvider.extractJson, hc, hT, hmd,
      matchBraces_embedded pre2 body post2 (fun c hc => (hp2 c hc).1)
        (fun c hc => (hq2 c hc).2.1)]
  · have hc : content.data = pre ++ tick :: (([tick, tick] ++ (label ++ (ws1 ++ '\x7b' ::
        (body ++ '\x7d' :: (ws2 ++ [tick, tick]))))) ++ tick :: post) := by
      rw [hB, fence_eq]; simp
    obtain ⟨pre2, post2, hp2, hq2, hT⟩ := trimChars_embedded pre
      ([tick, tick] ++ (label ++ (ws1 ++ '\x7b' :: (body ++ '\x7d' :: (ws2 ++ [tick, tick])))))
      post tick tick hpre hpost (by decide) (by decide)
    have hT2 : trimChars content.data = pre2 ++ (fence ++ (label ++ (ws1 ++ '\x7b' :: (body ++
        '\x7d' :: (ws2 ++ fence ++ post2))))) := by
      rw [hc, hT, fence_eq]; simp
    have hmd := matchMarkdown_fenced pre2 label ws1 body ws2 post2 (prose_noTick hp2) hlabel
      hb1 hb2 hnt
    simp only [GroqProvider.extractJson, hT2, hmd, trimChars_object, hself]

theorem noLabelledFence_of_noTick (cs : List Char) (h : NoTick cs) : NoLabelledFence cs := by
  intro a r hs
  rw [labelledFence_eq, splitAtFirst_noTick _ _ h] at hs
  cases hs

theorem noLabelledFence_cons (c : Char) (cs : List Char)
    (hp : (fence ++ "json".data).isPrefixOf (c :: cs) = false) (h : NoLabelledFence cs) :
    NoLabelledFence (c :: cs) := by
  intro a r hs
  simp only [splitAtFirst, hp, Bool.false_eq_true, if_false] at hs
  cases hx : splitAtFirst (fence ++ "json".data) cs with
  | none => simp [hx] at hs
  | some p =>
    obtain ⟨a2, r2⟩ := p
    simp only [hx, Option.map_some', Option.some.injEq, Prod.mk.injEq] at hs
    rw [← hs.2]
    exact h a2 r2 hx

theorem noLabelledFence_skip (pre rest : List Char) (hpre : NoTick pre)
    (h : NoLabelledFence rest) : NoLabelledFence (pre ++ rest) := by
  intro a r hs
  rw [labelledFence_eq, splitAtFirst_skip _ _ _ hpre] at hs
  cases hx : splitAtFirst (tick :: [tick, tick, 'j', 's', 'o', 'n']) rest with
  | none => simp [hx] at hs
  | some p =>
    obtain ⟨a2, r2⟩ := p
    simp only [hx, Option.map_some', Option.some.injEq, Prod.mk.injEq] at hs
    rw [← hs.2]
    exact h a2 r2 (by rw [labelledFence_eq]; exact hx)

theorem noLabelledFence_closing (post : List Char) (h : NoTick post) :
    NoLabelledFence (tick :: tick :: tick :: post) := by
  by_cases hj : "json".data.isPrefixOf post = true
  · intro a r hs
    have hp : (fence ++ "json".data).isPrefixOf (tick :: tick :: tick :: post) = true := by
      rw [labelledFence_eq]
      simp only [List.isPrefixOf, beq_self_eq_true, Bool.true_and]
      exact hj
    simp only [splitAtFirst, hp, if_true, Option.some.injEq, Prod.mk.injEq] at hs
    rw [← hs.2]
    have hd : (tick :: tick :: tick :: post).drop (fence ++ "json".data).length =
        post.drop 4 := rfl
    rw [hd]
    exact noTick_of_sublist (List.drop_sublist _ _) h
  · have hj2 : "json".data.isPrefixOf post = false := by
      cases hx : "json".data.isPrefixOf post
      · rfl
      · exact absurd hx hj
    apply noLabelledFence_cons
    · rw [labelledFence_eq]
      simp only [List.isPrefixOf, beq_self_eq_true, Bool.true_and]
      exact hj2
    apply noLabelledFence_cons
    · rw [labelledFence_eq]
      simp only [List.isPrefixOf, beq_self_eq_true, Bool.true_and]
      exact isPrefixOf_tick_noTick _ _ h
    apply noLabelledFence_cons
    · rw [labelledFence_eq]
      simp only [List.isPrefixOf, beq_self_eq_true, Bool.true_and]
      exact isPrefixOf_tick_noTick _ _ h
    exact noLabelledFence_of_noTick _ h

/-- An unlabelled fence around the object text leaves no labelled fence that closes. -/
theorem noLabelledFence_unlabelled (pre ws1 body ws2 post : List Char) (hpre : NoTick pre)
    (h1 : Blank ws1) (h2 : Blank ws2) (hpost : NoTick post)
    (hbody : NoTick ('\x7b' :: (body ++ ['\x7d']))) :
    NoLabelledFence (pre ++ (tick :: tick :: tick :: (ws1 ++ '\x7b' :: (body ++ '\x7d' ::
      (ws2 ++ (tick :: tick :: tick :: post)))))) := by
  have hlab := label_not_at_blank ws1 (body ++ '\x7d' :: (ws2 ++ (tick :: tick :: tick :: post)))
    h1
  have hmid : NoTick (ws1 ++ ('\x7b' :: (body ++ ['\x7d'])) ++ ws2) :=
    noTick_append (noTick_append (blank_noTick h1) hbody) (blank_noTick h2)
  have hin : NoLabelledFence (ws1 ++ '\x7b' :: (body ++ '\x7d' ::
      (ws2 ++ (tick :: tick :: tick :: post)))) := by
    have := noLabelledFence_skip _ _ hmid (noLabelledFence_closing post hpost)
    simpa using this
  apply noLabelledFence_skip _ _ hpre
  apply noLabelledFence_cons
  · rw [labelledFence_eq]
    simp only [List.isPrefixOf, beq_self_eq_true, Bool.true_and]
    exact hlab.1
  apply noLabelledFence_cons
  · rw [labelledFence_eq]
    simp only [List.isPrefixOf, beq_self_eq_true, Bool.true_and]
    exact hlab.2 _
  apply noLabelledFence_cons
  · rw [labelledFence_eq]
    simp only [List.isPrefixOf, beq_self_eq_true, Bool.true_and]
    exact hlab.2 _
  exact hin

theorem matchJsonFence_none (cs : List Char) (h : NoLabelledFence cs) :
    matchJsonFence cs = none := by
  unfold matchJsonFence
  cases hs : splitAtFirst (fence ++ "json".data) cs with
  | none => rfl
  | some p =>
    obtain ⟨a, r⟩ := p
    have hr : NoTick (r.dropWhile isWhiteSpace) :=
      noTick_of_sublist (List.dropWhile_sublist _) (h a r hs)
    simp only [captureLazy_noTick _ hr, Option.map_none', Option.bind_none, Option.some_bind]

/-- The Gemini pattern for a labelled fence finds the object text inside such a fence that
follows text without backticks. -/
theorem matchJsonFence_fenced (pre ws1 body ws2 post : List Char) (hpre : NoTick pre)
    (h1 : Blank ws1) (h2 : Blank ws2) (hbody : NoTick ('\x7b' :: (body ++ ['\x7d']))) :
    (matchJsonFence (pre ++ (fence ++ "json".data ++ (ws1 ++ '\x7b' :: (body ++ '\x7d' ::
      (ws2 ++ fence ++ post)))))).map (fun m => m.2) = some ('\x7b' :: (body ++ ['\x7d'])) := by
  have hsplit : splitAtFirst (fence ++ "json".data) (pre ++ (fence ++ "json".data ++ (ws1 ++
      '\x7b' :: (body ++ '\x7d' :: (ws2 ++ fence ++ post))))) =
      some (pre ++ [], ws1 ++ '\x7b' :: (body ++ '\x7d' :: (ws2 ++ fence ++ post))) := by
    have hs := splitAtFirst_skip [tick, tick, 'j', 's', 'o', 'n'] pre (fence ++ "json".data ++
      (ws1 ++ '\x7b' :: (body ++ '\x7d' :: (ws2 ++ fence ++ post)))) hpre
    rw [← labelledFence_eq] at hs
    rw [hs, splitAtFirst_here (fence ++ "json".data) _ (by decide)]
    rfl
  have hcap := captureLazy_object ('\x7b' :: body) '\x7d' ws2 post
    (objectText_noTick_body hbody) (by decide) (by decide) h2
  simp only [List.cons_append] at hcap
  simp only [matchJsonFence, hsplit, dropWhile_blank ws1 '\x7b' _ h1 (by decide), hcap,
    Option.map_some']

/-- The text the Gemini adapter hands to `JSON.parse` is the embedded object text. -/
theorem gemini_extractJson_embedded (content : String) (json : List Char)
    (hobj : ObjectText json) (hemb : Embeds content.data json) :
    GeminiProvider.extractJson content = json := by
  obtain ⟨⟨body, hjson⟩, hnt⟩ := hobj
  subst hjson
  obtain ⟨pre, post, hpre, hpost, hshape⟩ := hemb
  rcases hshape with hA | ⟨label, ws1, ws2, hlabel, hb1, hb2, hB⟩
  · have hc : content.data = pre ++ '\x7b' :: (body ++ '\x7d' :: post) := by
      rw [hA]; simp
    have hnt2 : NoTick (pre ++ '\x7b' :: (body ++ '\x7d' :: post)) := by
      apply noTick_append (prose_noTick hpre)
      have : '\x7b' :: (body ++ '\x7d' :: post) = ('\x7b' :: (body ++ ['\x7d'])) ++ post := by
        simp
      rw [this]
      exact noTick_append hnt (prose_noTick hpost)
    simp only [GeminiProvider.extractJson, hc,
      matchJsonFence_none _ (noLabelledFence_of_noTick _ hnt2),
      matchBraces_embedded pre body post (fun c hc => (hpre c hc).1)
        (fun c hc => (hpost c hc).2.1)]
  · rcases hlabel with hl | hl
    · subst hl
      have hc : content.data = pre ++ (tick :: tick :: tick :: (ws1 ++ '\x7b' :: (body ++
          '\x7d' :: (ws2 ++ (tick :: tick :: tick :: post))))) := by
        rw [hB, fence_eq]; simp
      have hc2 : content.data = (pre ++ (fence ++ ws1)) ++ '\x7b' :: (body ++ '\x7d' ::
          (ws2 ++ (fence ++ post))) := by
        rw [hB]; simp
      have hnone := matchJsonFence_none _ (noLabelledFence_unlabelled pre ws1 body ws2 post
        (prose_noTick hpre) hb1 hb2 (prose_noTick hpost) hnt)
      rw [← hc] at hnone
      have hbr := matchBraces_embedded (pre ++ (fence ++ ws1)) body (ws2 ++ (fence ++ post))
        (by
          intro c hc
          rcases List.mem_append.mp hc with h | h
          · exact (hpre c h).1
          · rcases List.mem_append.mp h with h | h
            · intro hx; rw [hx] at h; exact absurd h (by decide)
            · intro hx; have := hb1 c h; rw [hx] at this; exact absurd this (by decide))
        (by
          intro c hc
          rcases List.mem_append.mp hc with h | h
          · intro hx; have := hb2 c h; rw [hx] at this; exact absurd this (by decide)
          · rcases List.mem_append.mp h with h | h
            · intro hx; rw [hx] at h; exact absurd h (by decide)
            · exact (hpost c h).2.1)
      rw [← hc2] at hbr
      simp only [GeminiProvider.extractJson, hnone, hbr]
    · subst hl
      have hc : content.data = pre ++ (fence ++ "json".data ++ (ws1 ++ '\x7b' :: (body ++
          '\x7d' :: (ws2 ++ fence ++ post)))) := by
        rw [hB]; simp
      have hm := matchJsonFence_fenced pre ws1 body ws2 post (prose_noTick hpre) hb1 hb2 hnt
      rw [← hc] at hm
      cases hx : matchJsonFence content.data with
      | none => rw [hx] at hm; cases hm
      | some m =>
        rw [hx] at hm
        simp only [Option.map_some', Option.some.injEq] at hm
        simp only [GeminiProvider.extractJson, hx, hm, List.isEmpty_cons, Bool.not_false,
          if_true]

theorem groq_parse_embedded (env : Env) (content : String) (json : List Char)
    (fs : List (String × JVal)) (hobj : ObjectText json) (hemb : Embeds content.data json)
    (hsafe : includesChars "safe".data json = false)
    (hparse : env.jsonParse (String.mk json) = .ok (.obj fs)) :
    GroqProvider.parseResponse env (.str content) = .obj (GroqProvider.validateFields fs) := by
  have hne : (json == "safe".data) = false := by
    cases hx : json == "safe".data
    · rfl
    · have := eq_of_beq hx
      subst this
      exact absurd hsafe (by decide)
  simp only [GroqProvider.parseResponse, GroqProvider.parseResponseTry,
    groq_extractJson_embedded content json hobj hemb, hne, hsafe, Bool.or_self,
    Bool.false_eq_true, if_false, hparse]

theorem gemini_parse_embedded (env : Env) (content : String) (json : List Char)
    (fs : List (String × JVal)) (hobj : ObjectText json) (hemb : Embeds content.data json)
    (hparse : env.jsonParse (String.mk json) = .ok (.obj fs)) :
    ∃ out, GeminiProvider.parseResponse env (.str content) = .obj out ∧
      JVal.lookup "disease" out = (JVal.lookup "disease" fs).or (.str "Unable to determine") ∧
      JVal.lookup "confidence" out = (JVal.lookup "confidence" fs).or (.num (.fin lit0_5)) ∧
      JVal.lookup "severity" out = (JVal.lookup "severity" fs).or (.str "medium") := by
  refine ⟨[
    ("disease", (JVal.lookup "disease" fs).or (.str "Unable to determine")),
    ("confidence", (JVal.lookup "confidence" fs).or (.num (.fin lit0_5))),
    ("severity", (JVal.lookup "severity" fs).or (.str "medium")),
    ("symptoms", GeminiProvider.arrayOr (JVal.lookup "symptoms" fs)
      (.arr [.str "Symptoms unclear"])),
    ("treatment", GeminiProvider.arrayOr (JVal.lookup "treatment" fs) (.arr [])),
    ("fertilizers", GeminiProvider.arrayOr (JVal.lookup "fertilizers" fs) (.arr [])),
    ("homeRemedies", GeminiProvider.arrayOr (JVal.lookup "homeRemedies" fs) (.arr [])),
    ("prevention", GeminiProvider.arrayOr (JVal.lookup "prevention" fs) (.arr []))],
    ?_, rfl, rfl, rfl⟩
  simp only [GeminiProvider.parseResponse, GeminiProvider.parseResponseTry,
    gemini_extractJson_embedded content json hobj hemb, hparse, validateResponse_obj]

theorem or_half_ne_zero (x : JVal) : x.or (.num (.fin lit0_5)) ≠ .num (.fin 0) :=
  truthy_ne_zero (by rw [or_truthy, half_truthy, Bool.or_true])

/-! ## Claim C25 -/

/-- C25, counterexample: a reply that is one well-formed JSON object with the disease
`Leaf Rust`, in which the word `safe` occurs inside a prevention advice. `JSON.parse`
decodes it, and the Gemini adapter returns its disease; the Groq adapter takes it for a
reply of the safety model and returns the fallback payload with the safety message.
Also, a well-formed object preceded by prose that holds braces of its own: both adapters
hand the text from the first opening brace on to `JSON.parse`, which rejects it, and
return their fallback payloads. -/
theorem valid_object_reply_gives_fallback :
    Embeds safeWordReply.data safeWordReply.data ∧
    safeWordWorld.jsonParse safeWordReply = .ok (.obj safeWordObject) ∧
    JVal.lookup "disease" safeWordObject = .str "Leaf Rust" ∧
    (GeminiProvider.parseResponse safeWordWorld (.str safeWordReply)).get "disease" =
      .str "Leaf Rust" ∧
    GroqProvider.parseResponse safeWordWorld (.str safeWordReply) =
      GroqProvider.getFallbackResponse GroqProvider.safetyMessage ∧
    (GroqProvider.parseResponse safeWordWorld (.str safeWordReply)).get "disease" =
      .str "Analysis failed - unable to process image" ∧
    bracedProseReply = "Result \x7bdraft\x7d: " ++ bareReply ∧
    bareWorld.jsonParse bareReply = .ok (.obj [("disease", .str "Leaf Rust")]) ∧
    GroqProvider.extractJson bracedProseReply =
      "\x7bdraft\x7d: \x7b\"disease\": \"Leaf Rust\"\x7d".data ∧
    GeminiProvider.extractJson bracedProseReply =
      "\x7bdraft\x7d: \x7b\"disease\": \"Leaf Rust\"\x7d".data ∧
    (GroqProvider.parseResponse bareWorld (.str bracedProseReply)).get "disease" =
      .str "Analysis failed - unable to process image" ∧
    (GeminiProvider.parseResponse bareWorld (.str bracedProseReply)).get "disease" =
      .str "Analysis failed" :=
  ⟨⟨[], [], fun _ h => absurd h (List.not_mem_nil _), fun _ h => absurd h (List.not_mem_nil _),
      Or.inl rfl⟩, rfl, rfl, rfl, rfl, rfl, by decide, rfl, rfl, rfl, rfl, rfl⟩

/-- C25, amended: let a reply hold the text of one JSON object, free of backticks, either
with prose around it or inside a code fence (with or without the label `json`) with prose
around the fence, where the prose has no brace and no backtick; let `JSON.parse` decode
that text to an object with a truthy disease. Then the Gemini adapter returns an object
with the disease of the embedded object, its confidence unless that is falsy (then 0.5)
and its severity unless that is falsy (then `medium`), which is not the fallback payload.
The Groq adapter does the same, provided the object text does not contain `safe`. -/
theorem embedded_object_is_parsed (env : Env) (content : String) (json : List Char)
    (fs : List (String × JVal)) (hobj : ObjectText json) (hemb : Embeds content.data json)
    (hparse : env.jsonParse (String.mk json) = .ok (.obj fs))
    (hdisease : (JVal.lookup "disease" fs).truthy = true) :
    (includesChars "safe".data json = false →
      ∃ out, GroqProvider.parseResponse env (.str content) = .obj out ∧ DetectionOf fs out ∧
        ∀ m, JVal.obj out ≠ GroqProvider.getFallbackResponse m) ∧
    (∃ out, GeminiProvider.parseResponse env (.str content) = .obj out ∧ DetectionOf fs out ∧
        ∀ m, JVal.obj out ≠ GeminiProvider.getFallbackResponse m) := by
  constructor
  · intro hsafe
    obtain ⟨hd, hc, hs, _⟩ := lookup_validateFields fs
    have hc2 : JVal.lookup "confidence" (GroqProvider.validateFields fs) =
        (JVal.lookup "confidence" fs).or (.num (.fin lit0_5)) := by
      rw [hc]; rfl
    refine ⟨_, groq_parse_embedded env content json fs hobj hemb hsafe hparse,
      ⟨?_, hc2, ?_⟩, ?_⟩
    · rw [hd, hdisease]; rfl
    · rw [hs]; rfl
    · intro m hm
      have hx : JVal.lookup "confidence" (GroqProvider.validateFields fs) = .num (.fin 0) :=
        congrArg (fun v => JVal.get v "confidence") hm
      rw [hc2] at hx
      exact or_half_ne_zero _ hx
  · obtain ⟨out, hout, hd, hc, hs⟩ := gemini_parse_embedded env content json fs hobj hemb hparse
    refine ⟨out, hout, ⟨?_, hc, hs⟩, ?_⟩
    · rw [hd, or_of_truthy _ hdisease]
    · intro m hm
      have hx : JVal.lookup "confidence" out = .num (.fin 0) :=
        congrArg (fun v => JVal.get v "confidence") hm
      rw [hc] at hx
      exact or_half_ne_zero _ hx

/-- C25, witness: the well-formed reply for Leaf Rust at confidence 0.92 inside a fence
labelled `json`, with a sentence before and after. -/
theorem embedded_object_is_parsed_witness :
    (ObjectText leafRustReply.data ∧ Embeds fencedLeafRustReply.data leafRustReply.data ∧
      proseWorld.jsonParse (String.mk leafRustReply.data) =
        .ok (.obj [("disease", .str "Leaf Rust"), ("confidence", .num (.fin (23 / 25)))]) ∧
      includesChars "safe".data leafRustReply.data = false) ∧
    (∃ out, GroqProvider.parseResponse proseWorld (.str fencedLeafRustReply) = .obj out ∧
      JVal.lookup "disease" out = .str "Leaf Rust") ∧
    (∃ out, GeminiProvider.parseResponse proseWorld (.str fencedLeafRustReply) = .obj out ∧
      JVal.lookup "disease" out = .str "Leaf Rust") :=
  have hobj : ObjectText leafRustReply.data :=
    ⟨⟨(leafRustReply.data.drop 1).dropLast, rfl⟩, by unfold NoTick; decide⟩
  have hemb : Embeds fencedLeafRustReply.data leafRustReply.data :=
    ⟨"Here is the analysis:\n".data, "\nAsk me for details.".data,
      by unfold Prose; decide, by unfold Prose; decide,
      Or.inr ⟨"json".data, ['\n'], ['\n'], Or.inr rfl, by unfold Blank; decide,
        by unfold Blank; decide, rfl⟩⟩
  have hthm := embedded_object_is_parsed proseWorld fencedLeafRustReply leafRustReply.data
    [("disease", .str "Leaf Rust"), ("confidence", .num (.fin (23 / 25)))] hobj hemb rfl rfl
  ⟨⟨hobj, hemb, rfl, rfl⟩,
    (hthm.1 rfl).elim (fun out h => ⟨out, h.1, h.2.1.1⟩),
    hthm.2.elim (fun out h => ⟨out, h.1, h.2.1.1⟩)⟩

end AgriAi
